import Mathlib

/-!
# MQTT client core of iotkit-embedded (src/mqtt/mqtt_client.c)

A shallow embedding of the topic validator, the topic matcher, the packet-id
counter, the subscription table, the two in-flight tables, the requests
(publish, subscribe, unsubscribe), the reading and handling of inbound packets,
the sweep routines and the reconnect engine, followed by theorems about them.

Conventions of the embedding.

* A C string is the list of its bytes before the terminating NUL; a byte is a
  natural number.  A possibly-NULL string is an `Option`.
* A function pointer or a context pointer is a natural number, `0` being NULL.
* A slot keeps the filter pointer the caller passed; the bytes behind it are taken
  not to change, so the slot is modelled as holding those bytes.
* The values of a list node are never NULL (the push routines never store one).
* `uint32_t` arithmetic is arithmetic modulo `2 ^ 32`, written out where the
  source can overflow.
* The millisecond clock is a natural number `now` handed to each step; the
  timer helpers of `utils_timer.h` are modelled on it.
* Results of `LITE_malloc` and `list_node_new` are taken to be non-NULL.
* The transport is a script of answers: one entry per turn of the send loop
  (timer expired, value of `write`), one entry per call of `read` (value
  returned, bytes stored).
* Locks are not modelled: every function is run to completion by one thread.
-/

namespace MqttClient

/-! ## Constants of the source -/

/-- Macro `IOTX_MC_MQTT_VERSION`. -/
def IOTX_MC_MQTT_VERSION : Nat := 4

/-- Macro `IOTX_MC_TOPIC_NAME_MAX_LEN`: maximum length of topic name in byte. -/
def IOTX_MC_TOPIC_NAME_MAX_LEN : Nat := 64

/-- Macro `IOTX_MC_PACKET_ID_MAX`: maximum MQTT packet-id. -/
def IOTX_MC_PACKET_ID_MAX : Nat := 65535

/-- Macro `IOTX_MC_SUB_REQUEST_NUM_MAX`: maximum number of simultaneous
subscribe requests. -/
def IOTX_MC_SUB_REQUEST_NUM_MAX : Nat := 10

/-- Macro `IOTX_MC_RECONNECT_INTERVAL_MIN_MS`: minimum interval of MQTT reconnect
in millisecond. -/
def IOTX_MC_RECONNECT_INTERVAL_MIN_MS : Nat := 1000

/-- Macro `IOTX_MC_RECONNECT_INTERVAL_MAX_MS`: maximum interval of MQTT reconnect
in millisecond. -/
def IOTX_MC_RECONNECT_INTERVAL_MAX_MS : Nat := 60000

/-- Macro `IOTX_MC_REQUEST_TIMEOUT_MIN_MS`. -/
def IOTX_MC_REQUEST_TIMEOUT_MIN_MS : Nat := 500

/-- Macro `IOTX_MC_REQUEST_TIMEOUT_MAX_MS`. -/
def IOTX_MC_REQUEST_TIMEOUT_MAX_MS : Nat := 5000

/-- Macro `IOTX_MC_REQUEST_TIMEOUT_DEFAULT_MS`. -/
def IOTX_MC_REQUEST_TIMEOUT_DEFAULT_MS : Nat := 2000

/-- Modulus of `uint32_t` arithmetic. -/
def UINT32_MOD : Nat := 2 ^ 32

/-! ### Return codes

Modelled from the spec: the enumeration `iotx_err_t` lives in `utils_error.h`,
which is not among the sources.  The spec fixes that success is `0` and that
every error code is negative; the numbers below are those of the header. -/

/-- Modelled from the spec: `SUCCESS_RETURN` of `utils_error.h`, the value zero
(the source comments say "0, success; NOT 0, fail"). -/
def SUCCESS_RETURN : Int := 0
/-- Modelled from the spec: `FAIL_RETURN` of `utils_error.h`, a negative code. -/
def FAIL_RETURN : Int := -1
/-- Modelled from the spec: `NULL_VALUE_ERROR` of `utils_error.h`. -/
def NULL_VALUE_ERROR : Int := -2
/-- Modelled from the spec: `MQTT_PUBLISH_ACK_TYPE_ERROR` of `utils_error.h`. -/
def MQTT_PUBLISH_ACK_TYPE_ERROR : Int := -13
/-- Modelled from the spec: `MQTT_NETWORK_ERROR` of `utils_error.h`. -/
def MQTT_NETWORK_ERROR : Int := -14
/-- Modelled from the spec: `MQTT_UNSUBSCRIBE_ACK_PACKET_ERROR` of `utils_error.h`. -/
def MQTT_UNSUBSCRIBE_ACK_PACKET_ERROR : Int := -15
/-- Modelled from the spec: `MQTT_PUBLISH_ACK_PACKET_ERROR` of `utils_error.h`. -/
def MQTT_PUBLISH_ACK_PACKET_ERROR : Int := -19
/-- Modelled from the spec: `MQTT_PUBLISH_QOS_ERROR` of `utils_error.h`. -/
def MQTT_PUBLISH_QOS_ERROR : Int := -20
/-- Modelled from the spec: `MQTT_PUBLISH_PACKET_ERROR` of `utils_error.h`. -/
def MQTT_PUBLISH_PACKET_ERROR : Int := -21
/-- Modelled from the spec: `MQTT_UNSUBSCRIBE_PACKET_ERROR` of `utils_error.h`. -/
def MQTT_UNSUBSCRIBE_PACKET_ERROR : Int := -22
/-- Modelled from the spec: `MQTT_SUBSCRIBE_ACK_FAILURE` of `utils_error.h`. -/
def MQTT_SUBSCRIBE_ACK_FAILURE : Int := -24
/-- Modelled from the spec: `MQTT_SUBSCRIBE_ACK_PACKET_ERROR` of `utils_error.h`. -/
def MQTT_SUBSCRIBE_ACK_PACKET_ERROR : Int := -25
/-- Modelled from the spec: `MQTT_SUBSCRIBE_PACKET_ERROR` of `utils_error.h`. -/
def MQTT_SUBSCRIBE_PACKET_ERROR : Int := -26
/-- Modelled from the spec: `MQTT_STATE_ERROR` of `utils_error.h`. -/
def MQTT_STATE_ERROR : Int := -27
/-- Modelled from the spec: `MQTT_CONNECT_PACKET_ERROR` of `utils_error.h`. -/
def MQTT_CONNECT_PACKET_ERROR : Int := -30
/-- Modelled from the spec: `MQTT_PING_PACKET_ERROR` of `utils_error.h`. -/
def MQTT_PING_PACKET_ERROR : Int := -31
/-- Modelled from the spec: `MQTT_NETWORK_CONNECT_ERROR` of `utils_error.h`. -/
def MQTT_NETWORK_CONNECT_ERROR : Int := -28
/-- Modelled from the spec: `MQTT_CONNECT_ERROR` of `utils_error.h`. -/
def MQTT_CONNECT_ERROR : Int := -33
/-- Modelled from the spec: `MQTT_TOPIC_FORMAT_ERROR` of `utils_error.h`. -/
def MQTT_TOPIC_FORMAT_ERROR : Int := -41
/-- Modelled from the spec: `MQTT_PUSH_TO_LIST_ERROR` of `utils_error.h`. -/
def MQTT_PUSH_TO_LIST_ERROR : Int := -42
/-- Modelled from the spec: `MQTT_SUB_INFO_NOT_FOUND_ERROR` of `utils_error.h`. -/
def MQTT_SUB_INFO_NOT_FOUND_ERROR : Int := -43
/-- Modelled from the spec: `ERROR_CERTIFICATE_EXPIRED`, the distinguished
CertExpired result of the transport connect. -/
def ERROR_CERTIFICATE_EXPIRED : Int := -8
/-- Modelled from the spec: `ERROR_CERT_VERIFY_FAIL` of `utils_error.h`. -/
def ERROR_CERT_VERIFY_FAIL : Int := -7

/-! ## Topic validation -/

/-- Enumeration `iotx_mc_topic_type_t`. -/
inductive iotx_mc_topic_type_t where
  | TOPIC_NAME_TYPE
  | TOPIC_FILTER_TYPE
  deriving DecidableEq, Repr

open iotx_mc_topic_type_t

/-- The `for` loop of `iotx_mc_check_rule` over the bytes of `iterm` that are
still to be visited; `len` is `strlen(iterm)` of the whole item.  The byte test
`iterm[i] < 32 || iterm[i] >= 127` rejects exactly the bytes outside 32..126,
whether `char` is signed or not. -/
def iotx_mc_check_rule_loop (len : Nat) (type : iotx_mc_topic_type_t) : List Nat → Int
  | [] => SUCCESS_RETURN
  | ch :: rest =>
    if type = TOPIC_FILTER_TYPE then
      if (ch = 43 ∨ ch = 35) ∧ len ≠ 1 then FAIL_RETURN
      else if ch < 32 ∨ ch ≥ 127 then FAIL_RETURN
      else iotx_mc_check_rule_loop len type rest
    else
      if ch = 43 ∨ ch = 35 then FAIL_RETURN
      else if ch < 32 ∨ ch ≥ 127 then FAIL_RETURN
      else iotx_mc_check_rule_loop len type rest

/-- Function `iotx_mc_check_rule`: `none` is the NULL item. -/
def iotx_mc_check_rule (iterm : Option (List Nat)) (type : iotx_mc_topic_type_t) : Int :=
  match iterm with
  | none => FAIL_RETURN
  | some s => iotx_mc_check_rule_loop s.length type s

/-- Library function `strtok` with the delimiter set "/" (byte 47), on the string the
saved pointer points to.  Leading delimiters are skipped; when nothing is left the
result is NULL (`none`); otherwise the token runs to the next delimiter, which is
overwritten by NUL, and the saved pointer moves behind it. -/
def strtok (s : List Nat) : Option (List Nat × List Nat) :=
  match s.dropWhile (fun b => b == 47) with
  | [] => none
  | c :: cs =>
    some ((c :: cs).takeWhile (fun b => b != 47), ((c :: cs).dropWhile (fun b => b != 47)).drop 1)

/-- The `for (;;)` loop of `iotx_mc_check_topic`; `rest` is the string behind the
saved pointer of `strtok`, `mask` the flag of the source.  Each turn consumes one
token, so `fuel` above the length of `rest` is never used up. -/
def iotx_mc_check_topic_loop (type : iotx_mc_topic_type_t) : Nat → List Nat → Nat → Int
  | 0, _, _ => FAIL_RETURN
  | fuel + 1, rest, mask =>
    match strtok rest with
    | none => SUCCESS_RETURN
    | some (iterm, rest1) =>
      if mask = 1 then FAIL_RETURN
      else if iotx_mc_check_rule (some iterm) type ≠ SUCCESS_RETURN then FAIL_RETURN
      else iotx_mc_check_topic_loop type fuel rest1 (if iterm.head? = some 35 then 1 else mask)

/-- The C string held by the array `topicString` after `memset` and
`strncpy(topicString, topicName, 64)`, for `strlen(topicName) <= 64`.  A name of
fewer than 64 bytes is copied with its terminator.  A name of exactly 64 bytes
fills the array and leaves no terminator, so `strtok` runs on into the memory
behind the array: `stack` stands for the bytes found there. -/
def topicString (stack topicName : List Nat) : List Nat :=
  if topicName.length < IOTX_MC_TOPIC_NAME_MAX_LEN then topicName
  else topicName.take IOTX_MC_TOPIC_NAME_MAX_LEN ++ stack.takeWhile (fun b => b != 0)

/-- Function `iotx_mc_check_topic`.  `stack` is explained at `topicString`. -/
def iotx_mc_check_topic (stack : List Nat) (topicName : Option (List Nat))
    (type : iotx_mc_topic_type_t) : Int :=
  match topicName with
  | none => FAIL_RETURN
  | some name =>
    if name.head? ≠ some 47 then FAIL_RETURN
    else if name.length > IOTX_MC_TOPIC_NAME_MAX_LEN then FAIL_RETURN
    else
      match strtok (topicString stack name) with
      | none => iotx_mc_check_rule none type
      | some (iterm, rest) =>
        if iotx_mc_check_rule (some iterm) type ≠ SUCCESS_RETURN then FAIL_RETURN
        else iotx_mc_check_topic_loop type (rest.length + 1) rest 0

/-! ## Topic matching -/

/-- The inner `while` loop of the `+` branch of `iotx_mc_is_topic_matched`, on the
bytes from `curn` to `curn_end`: `curn` advances as long as the byte behind it exists
and is not the separator.  The result is the text from the final `curn`. -/
def plus_skip : List Nat → List Nat
  | c :: d :: rest => if d ≠ 47 then plus_skip (d :: rest) else c :: d :: rest
  | l => l

/-- Function `iotx_mc_is_topic_matched`.  The first argument is the text from `curf`
(a NUL-terminated filter: the empty list is `*curf == 0`), the second the bytes from
`curn` to `curn_end`.  A `break` leaves `curn < curn_end`, so the result is false. -/
def iotx_mc_is_topic_matched : List Nat → List Nat → Bool
  | [], curn => curn.isEmpty
  | _ :: _, [] => false
  | f :: fs, n :: ns =>
    if n = 47 ∧ f ≠ 47 then false
    else if f ≠ 43 ∧ f ≠ 35 ∧ f ≠ n then false
    else if f = 43 then iotx_mc_is_topic_matched fs (plus_skip (n :: ns)).tail
    else if f = 35 then iotx_mc_is_topic_matched fs []
    else iotx_mc_is_topic_matched fs ns

/-- Modelled from the spec: `MQTTPacket_equals` belongs to the packet codec, which
is not among the sources.  It compares a length-delimited topic with a C string;
the spec words for it are that the filter "equals" the topic, byte for byte. -/
def MQTTPacket_equals (topicName : List Nat) (bptr : List Nat) : Bool :=
  decide (topicName = bptr)

/-- The slot test of `iotx_mc_deliver_message` for a slot whose filter is not NULL:
`MQTTPacket_equals(topicName, filter) || iotx_mc_is_topic_matched(filter, topicName)`. -/
def slot_topic_test (topic_filter topicName : List Nat) : Bool :=
  MQTTPacket_equals topicName topic_filter || iotx_mc_is_topic_matched topic_filter topicName

/-! ## Levels of a topic, and the readings of the spec -/

/-- The levels of a topic or filter: the pieces between the separators `/`,
empty pieces included. -/
def levels : List Nat → List (List Nat)
  | [] => [[]]
  | c :: cs =>
    if c = 47 then [] :: levels cs
    else
      match levels cs with
      | [] => [[c]]
      | l :: ls => (c :: l) :: ls

/-- The non-empty levels, in order. -/
def nonEmptyLevels (s : List Nat) : List (List Nat) :=
  (levels s).filter (fun l => !l.isEmpty)

/-- A byte that is printable ASCII and not a wildcard. -/
def plainByte (b : Nat) : Bool :=
  decide (32 ≤ b) && decide (b ≤ 126) && decide (b ≠ 43) && decide (b ≠ 35)

/-- Wording of the spec for one level of a filter: a single `+`, a single `#`
(only as last level), or printable ASCII without wildcard. -/
def specLevelOK (isLast : Bool) (l : List Nat) : Bool :=
  decide (l = [43]) || (decide (l = [35]) && isLast) || l.all plainByte

/-- Wording of the spec for the levels of a filter, in order. -/
def specLevelsOK : List (List Nat) → Bool
  | [] => true
  | l :: ls => specLevelOK ls.isEmpty l && specLevelsOK ls

/-- Wording of the spec for a valid topic filter: `/`-prefixed, at most 64 bytes,
every level a single `+`, a single `#` as last level, or printable non-wildcard. -/
def specTopicFilterValid (F : List Nat) : Bool :=
  decide (F.head? = some 47) && decide (F.length ≤ 64) && specLevelsOK (levels F)

/-- Wording of the spec for MQTT 3.1.1 matching of filter levels against topic
levels: a literal level equals the topic level, `+` matches any single level, a
trailing `#` matches the parent level and any number of further levels. -/
def mqttLevelsMatch : List (List Nat) → List (List Nat) → Bool
  | [], [] => true
  | [], _ :: _ => false
  | f :: fs, ts =>
    if f = [35] ∧ fs = [] then true
    else
      match ts with
      | [] => false
      | t :: ts1 => (decide (f = [43]) || decide (f = t)) && mqttLevelsMatch fs ts1

/-- The matching of filter levels against topic levels that the scanner of
`iotx_mc_is_topic_matched` computes on filters with whole-level wildcards: a
literal level equals the topic level, `+` takes one non-empty level, and `#`, as
last level of the filter, takes the rest of a topic whose next level is non-empty. -/
def scanLevelsMatch : List (List Nat) → List (List Nat) → Bool
  | [], [] => true
  | [], _ :: _ => false
  | _ :: _, [] => false
  | f :: fs, t :: ts =>
    if f = [35] then decide (fs = []) && !t.isEmpty
    else if f = [43] then !t.isEmpty && scanLevelsMatch fs ts
    else decide (f = t) && scanLevelsMatch fs ts

/-- A filter level with a whole-level wildcard or none: `+`, `#`, or free of both. -/
def wildLevelOK (l : List Nat) : Bool :=
  decide (l = [43]) || decide (l = [35]) || l.all (fun b => decide (b ≠ 43) && decide (b ≠ 35))

/-! ## Data model -/

/-- Enumeration `iotx_mc_state_t`: state of the MQTT client. -/
inductive iotx_mc_state_t where
  | IOTX_MC_STATE_INVALID
  | IOTX_MC_STATE_INITIALIZED
  | IOTX_MC_STATE_CONNECTED
  | IOTX_MC_STATE_DISCONNECTED
  | IOTX_MC_STATE_DISCONNECTED_RECONNECTING
  deriving DecidableEq, Repr

/-- Enumeration `iotx_mc_node_t`: liveness of an in-flight node. -/
inductive iotx_mc_node_t where
  | IOTX_MC_NODE_STATE_NORMANL
  | IOTX_MC_NODE_STATE_INVALID
  deriving DecidableEq, Repr

open iotx_mc_state_t iotx_mc_node_t

/-! ### Control packet types

Modelled from the spec: `enum msgTypes` is declared in `MQTTPacket.h`, which is
not among the sources; the values are the packet kinds of the MQTT 3.1.1 wire
protocol (the high nibble of the header byte). -/

/-- Modelled from the spec: `MQTT_CPT_RESERVED`, packet kind 0. -/
def MQTT_CPT_RESERVED : Nat := 0
/-- Modelled from the spec: packet kind `CONNACK` of `enum msgTypes`. -/
def CONNACK : Nat := 2
/-- Modelled from the spec: packet kind `PUBLISH` of `enum msgTypes`. -/
def PUBLISH : Nat := 3
/-- Modelled from the spec: packet kind `PUBACK` of `enum msgTypes`. -/
def PUBACK : Nat := 4
/-- Modelled from the spec: packet kind `PUBREC` of `enum msgTypes`. -/
def PUBREC : Nat := 5
/-- Modelled from the spec: packet kind `PUBREL` of `enum msgTypes`. -/
def PUBREL : Nat := 6
/-- Modelled from the spec: packet kind `SUBSCRIBE` of `enum msgTypes`. -/
def SUBSCRIBE : Nat := 8
/-- Modelled from the spec: packet kind `SUBACK` of `enum msgTypes`. -/
def SUBACK : Nat := 9
/-- Modelled from the spec: packet kind `UNSUBSCRIBE` of `enum msgTypes`. -/
def UNSUBSCRIBE : Nat := 10
/-- Modelled from the spec: packet kind `UNSUBACK` of `enum msgTypes`. -/
def UNSUBACK : Nat := 11
/-- Modelled from the spec: packet kind `PINGRESP` of `enum msgTypes`. -/
def PINGRESP : Nat := 13

/-- Modelled from the spec: `IOTX_MQTT_QOS0` of `mqtt_client.h`. -/
def IOTX_MQTT_QOS0 : Nat := 0
/-- Modelled from the spec: `IOTX_MQTT_QOS1` of `mqtt_client.h`. -/
def IOTX_MQTT_QOS1 : Nat := 1
/-- Modelled from the spec: `IOTX_MQTT_QOS2` of `mqtt_client.h`. -/
def IOTX_MQTT_QOS2 : Nat := 2

/-- Modelled from the spec: the event kinds of `iotx_mqtt_event_type_t`
(`mqtt_client.h`, not among the sources), under the names the source uses. -/
inductive iotx_mqtt_event_type_t where
  | IOTX_MQTT_EVENT_DISCONNECT
  | IOTX_MQTT_EVENT_RECONNECT
  | IOTX_MQTT_EVENT_SUBCRIBE_SUCCESS
  | IOTX_MQTT_EVENT_SUBCRIBE_TIMEOUT
  | IOTX_MQTT_EVENT_SUBCRIBE_NACK
  | IOTX_MQTT_EVENT_UNSUBCRIBE_SUCCESS
  | IOTX_MQTT_EVENT_UNSUBCRIBE_TIMEOUT
  | IOTX_MQTT_EVENT_PUBLISH_SUCCESS
  | IOTX_MQTT_EVENT_PUBLISH_RECVEIVED
  deriving DecidableEq, Repr

open iotx_mqtt_event_type_t

/-- Type `iotx_mqtt_event_handle_t`: a callback and its context; `h_fp = 0` is NULL. -/
structure iotx_mqtt_event_handle_t where
  h_fp : Nat
  pcontext : Nat
  deriving DecidableEq, Repr

/-- Type `iotx_mc_topic_handle_t`: handle structure of a subscribed topic, one slot
of the subscription table.  The cleared slot has a NULL filter. -/
structure iotx_mc_topic_handle_t where
  topic_filter : Option (List Nat)
  handle : iotx_mqtt_event_handle_t
  deriving DecidableEq, Repr

/-- The slot left by `memset(.., 0, sizeof(iotx_mc_topic_handle_t))`. -/
def empty_topic_handle : iotx_mc_topic_handle_t := ⟨none, ⟨0, 0⟩⟩

/-- Type `iotx_mqtt_topic_info_t` of `mqtt_client.h`: a message, with the topic the
deliverer attaches to it. -/
structure iotx_mqtt_topic_info_t where
  packet_id : Nat
  qos : Nat
  dup : Nat
  retain : Nat
  ptopic : Option (List Nat)
  payload : List Nat
  deriving DecidableEq, Repr

/-- The `void *msg` of an event: NULL, a packet id, or a received message. -/
inductive event_payload where
  | null
  | packet (id : Nat)
  | topic_msg (m : iotx_mqtt_topic_info_t)
  deriving DecidableEq, Repr

/-- Type `iotx_mqtt_event_msg_t`. -/
structure iotx_mqtt_event_msg_t where
  event_type : iotx_mqtt_event_type_t
  msg : event_payload
  deriving DecidableEq, Repr

/-- One invocation `h_fp(pcontext, c, &msg)` of a user callback. -/
structure Call where
  h_fp : Nat
  pcontext : Nat
  msg : iotx_mqtt_event_msg_t
  deriving DecidableEq, Repr

/-- Type `iotx_mc_subsribe_info_t`: a node value of the list of wait subscribe ACK. -/
structure iotx_mc_subsribe_info_t where
  type : Nat
  msg_id : Nat
  sub_start_time : Nat
  node_state : iotx_mc_node_t
  handler : iotx_mc_topic_handle_t
  len : Nat
  buf : List Nat
  deriving DecidableEq, Repr

/-- Type `iotx_mc_pub_info_t`: a node value of the list of wait publish ACK. -/
structure iotx_mc_pub_info_t where
  pub_start_time : Nat
  node_state : iotx_mc_node_t
  msg_id : Nat
  len : Nat
  buf : List Nat
  deriving DecidableEq, Repr

/-- Type `iotx_mc_reconnect_param_t`. -/
structure iotx_mc_reconnect_param_t where
  reconnect_next_time : Nat
  reconnect_time_interval_ms : Nat
  deriving DecidableEq, Repr

/-- Type `iotx_mc_client_t`.  The lists are kept head first (`list_rpush` appends at
the end); `keepAliveInterval` is `connect_data.keepAliveInterval`. -/
structure iotx_mc_client_t where
  packet_id : Nat
  request_timeout_ms : Nat
  buf_size_send : Nat
  buf_size_read : Nat
  buf_send : List Nat
  sub_handle : List iotx_mc_topic_handle_t
  next_ping_time : Nat
  ping_mark : Nat
  client_state : iotx_mc_state_t
  reconnect_param : iotx_mc_reconnect_param_t
  keepAliveInterval : Nat
  list_pub_wait_ack : List iotx_mc_pub_info_t
  list_sub_wait_ack : List iotx_mc_subsribe_info_t
  handle_event : iotx_mqtt_event_handle_t
  deriving DecidableEq, Repr

/-! ### Timers

Modelled from the spec: the timer helpers are declared in `utils_timer.h`, which is
not among the sources.  The spec asks of the platform "a monotonic millisecond clock
with countdown/elapsed/is-expired/left primitives"; a timer is the instant it
holds and `now` is the clock. -/

/-- Modelled from the spec: `iotx_time_init` clears a timer. -/
def iotx_time_init : Nat := 0
/-- Modelled from the spec: `iotx_time_start` stores the present instant. -/
def iotx_time_start (now : Nat) : Nat := now
/-- Modelled from the spec: `utils_time_cutdown` arms a countdown of `ms` milliseconds. -/
def utils_time_cutdown (now ms : Nat) : Nat := now + ms
/-- Modelled from the spec: `utils_time_is_expired`, the deadline has been reached. -/
def utils_time_is_expired (timer now : Nat) : Bool := decide (timer ≤ now)
/-- Modelled from the spec: `utils_time_spend`, milliseconds elapsed since `start`. -/
def utils_time_spend (start now : Nat) : Nat := now - start

/-! ## Packet id -/

/-- Function `iotx_mc_get_next_packetid`: the client with the counter advanced, and
the id returned.  The field is a `uint32_t`. -/
def iotx_mc_get_next_packetid (c : iotx_mc_client_t) : iotx_mc_client_t × Nat :=
  let id := if c.packet_id = IOTX_MC_PACKET_ID_MAX then 1 else (c.packet_id + 1) % UINT32_MOD
  ({ c with packet_id := id }, id)

/-! ## Subscription table -/

/-- Library function `strncmp` on two C strings, at most `n` bytes: zero when they
agree, otherwise the sign of the first difference (the end of a string reads as the
NUL byte). -/
def strncmp : List Nat → List Nat → Nat → Int
  | _, _, 0 => 0
  | [], [], _ + 1 => 0
  | [], _ :: _, _ + 1 => -1
  | _ :: _, [], _ + 1 => 1
  | a :: as, b :: bs, n + 1 =>
    if a ≠ b then (a : Int) - (b : Int)
    else strncmp as bs n

/-- Function `iotx_mc_check_handle_is_identical`: 0, identical; not 0, different.
Both filters are read by `strlen`, so a NULL filter on either side has no result
(`none`). -/
def iotx_mc_check_handle_is_identical (messageHandlers1 messageHandler2 : iotx_mc_topic_handle_t) :
    Option Int :=
  match messageHandlers1.topic_filter, messageHandler2.topic_filter with
  | some f1, some f2 =>
    let topicNameLen := f1.length
    if topicNameLen ≠ f2.length then some 1
    else if 0 ≠ strncmp f1 f2 topicNameLen then some 1
    else if messageHandlers1.handle.h_fp ≠ messageHandler2.handle.h_fp then some 1
    else if messageHandlers1.handle.pcontext ≠ messageHandler2.handle.pcontext then some 1
    else some 0
  | _, _ => none

/-- The test `(NULL != sub_handle[i].topic_filter) && (0 == identical(&sub_handle[i], &h))`
of the SUBACK and UNSUBACK handlers. -/
def slot_is_identical (slot h : iotx_mc_topic_handle_t) : Bool :=
  decide (slot.topic_filter ≠ none) && decide (iotx_mc_check_handle_is_identical slot h = some 0)

/-- The `for` loop of the install step of `iotx_mc_handle_recv_SUBACK` from index `i`
on: the result is `(i_free, flag_dup)`, with `none` for `i_free == -1`.  The `else`
branch records the first index whose slot is not an identical occupied one. -/
def suback_scan (messagehandler : iotx_mc_topic_handle_t) :
    List iotx_mc_topic_handle_t → Nat → Option Nat → Option Nat × Bool
  | [], _, i_free => (i_free, false)
  | slot :: rest, i, i_free =>
    if slot_is_identical slot messagehandler then (i_free, true)
    else suback_scan messagehandler rest (i + 1) (if i_free = none then some i else i_free)

/-- The install step of `iotx_mc_handle_recv_SUBACK` (from `HAL_MutexLock` to
`HAL_MutexUnlock`): the new table, and `false` when the step leaves the function
with `FAIL_RETURN` ("NOT more @sub_handle space!"). -/
def suback_install (sub_handle : List iotx_mc_topic_handle_t)
    (messagehandler : iotx_mc_topic_handle_t) : List iotx_mc_topic_handle_t × Bool :=
  match suback_scan messagehandler sub_handle 0 none with
  | (_, true) => (sub_handle, true)
  | (none, false) => (sub_handle, false)
  | (some i_free, false) => (sub_handle.set i_free messagehandler, true)

/-- The removal step of `iotx_mc_handle_recv_UNSUBACK`: every slot that passes the
identity test is cleared by `memset`.  There is no result (`none`) when an occupied
slot is compared with a handler whose filter is NULL. -/
def unsuback_remove (sub_handle : List iotx_mc_topic_handle_t)
    (messageHandler : iotx_mc_topic_handle_t) : Option (List iotx_mc_topic_handle_t) :=
  if messageHandler.topic_filter = none ∧ sub_handle.any (fun s => decide (s.topic_filter ≠ none)) then
    none
  else
    some (sub_handle.map (fun s => if slot_is_identical s messageHandler then empty_topic_handle else s))

/-- The `for` loop of `iotx_mc_deliver_message` over the slots: the callbacks invoked,
in order, and `flag_matched`. -/
def deliver_loop (topicName : List Nat) (topic_msg : iotx_mqtt_topic_info_t) :
    List iotx_mc_topic_handle_t → Nat → List Call × Nat
  | [], flag_matched => ([], flag_matched)
  | slot :: rest, flag_matched =>
    match slot.topic_filter with
    | none => deliver_loop topicName topic_msg rest flag_matched
    | some filter =>
      if slot_topic_test filter topicName then
        if slot.handle.h_fp ≠ 0 then
          let r := deliver_loop topicName topic_msg rest 1
          (⟨slot.handle.h_fp, slot.handle.pcontext,
              ⟨IOTX_MQTT_EVENT_PUBLISH_RECVEIVED, event_payload.topic_msg topic_msg⟩⟩ :: r.1, r.2)
        else deliver_loop topicName topic_msg rest flag_matched
      else deliver_loop topicName topic_msg rest flag_matched

/-- Function `iotx_mc_deliver_message`: the callbacks it invokes, in order. -/
def iotx_mc_deliver_message (c : iotx_mc_client_t) (topicName : List Nat)
    (topic_msg : iotx_mqtt_topic_info_t) : List Call :=
  let topic_msg1 := { topic_msg with ptopic := some topicName }
  let r := deliver_loop topicName topic_msg1 c.sub_handle 0
  if r.2 = 0 then
    if c.handle_event.h_fp ≠ 0 then
      r.1 ++ [⟨c.handle_event.h_fp, c.handle_event.pcontext,
                ⟨IOTX_MQTT_EVENT_PUBLISH_RECVEIVED, event_payload.topic_msg topic_msg1⟩⟩]
    else r.1
  else r.1

/-! ## Sending -/

/-- The `while` loop of `iotx_mc_send_packet`.  Each entry of `script` is what one
turn of the loop meets: whether the timer has expired at the loop test, and the
value `write` returns.  A script that runs out stands for a timer that has
expired.  The result is the final `sent`. -/
def iotx_mc_send_packet_loop (length : Int) : Int → List (Bool × Int) → Int
  | sent, [] => sent
  | sent, (expired, rc) :: rest =>
    if sent < length ∧ expired = false then
      if rc < 0 then sent
      else iotx_mc_send_packet_loop length (sent + rc) rest
    else sent

/-- Function `iotx_mc_send_packet`. -/
def iotx_mc_send_packet (length : Int) (script : List (Bool × Int)) : Int :=
  if iotx_mc_send_packet_loop length 0 script = length then SUCCESS_RETURN else MQTT_NETWORK_ERROR

/-! ## The codec and the outside world

Modelled from the spec: the packet codec (`MQTTPacket/`), the transport and the
authenticator are external collaborators and not among the sources.  A serializer
is a function that yields the length it returns together with the bytes it leaves
in the send buffer; what the transport, the clock, the parser and the
authenticator answer during one service cycle is collected in `yield_env`. -/

/-- Modelled from the spec: the serializers of the packet codec,
`serialize_<kind>(buf, cap, args) → bytes_written | error`.  The first argument is
the capacity of the send buffer. -/
structure Codec where
  MQTTSerialize_publish : Nat → Nat → Nat → Nat → Nat → List Nat → List Nat → Int × List Nat
  MQTTSerialize_subscribe : Nat → Nat → Nat → List Nat → Nat → Int × List Nat
  MQTTSerialize_unsubscribe : Nat → Nat → Nat → List Nat → Int × List Nat
  MQTTSerialize_ack : Nat → Nat → Nat → Nat → Int × List Nat
  MQTTSerialize_pingreq : Nat → Int × List Nat
  MQTTSerialize_connect : Nat → Nat → Int × List Nat

/-- What the transport connect, the sending of CONNECT and `iotx_mc_wait_CONNACK`
answer during one run of `iotx_mc_connect`. -/
structure connect_env where
  net_connect_rc : Int
  connect_script : List (Bool × Int)
  connack_rc : Int

/-- What the outside world answers during one turn of the loop of `iotx_mqtt_yield`:
the clock; the result of `iotx_mc_read_packet` and the packet type it stores; what
each deserializer of the codec makes of the read buffer (`none` when it does not
return 1); the uninitialised local `messageHandler` of the UNSUBACK handler; the
transport scripts of the acknowledgement, of the republications (one per
republication, in order) and of the ping; the result of `iotx_auth`; and the
answers met by `iotx_mc_connect`. -/
structure yield_env where
  now : Nat
  read_rc : Int
  packetType : Nat
  ack : Option Nat
  suback : Option (Nat × Int)
  unsuback : Option Nat
  publish : Option (iotx_mqtt_topic_info_t × List Nat)
  stack_handler : iotx_mc_topic_handle_t
  ack_script : List (Bool × Int)
  repub_scripts : List (List (Bool × Int))
  ping_script : List (Bool × Int)
  auth_rc : Int
  conn : connect_env

/-! ## In-flight tables -/

/-- Function `iotx_mc_push_pubInfo_to`; `REPUB_NUM_MAX` is the macro
`IOTX_MC_REPUB_NUM_MAX` of `mqtt_client.h`.  The new node is appended at the end. -/
def iotx_mc_push_pubInfo_to (REPUB_NUM_MAX now : Nat) (c : iotx_mc_client_t) (len : Int)
    (msgId : Nat) : iotx_mc_client_t × Int :=
  if len < 0 ∨ len > (c.buf_size_send : Int) then (c, FAIL_RETURN)
  else if c.list_pub_wait_ack.length ≥ REPUB_NUM_MAX then (c, FAIL_RETURN)
  else
    let repubInfo : iotx_mc_pub_info_t :=
      { node_state := IOTX_MC_NODE_STATE_NORMANL, msg_id := msgId, len := len.toNat,
        pub_start_time := iotx_time_start now, buf := c.buf_send.take len.toNat }
    ({ c with list_pub_wait_ack := c.list_pub_wait_ack ++ [repubInfo] }, SUCCESS_RETURN)

/-- Function `iotx_mc_push_subInfo_to`; the field `len` is a `uint16_t`. -/
def iotx_mc_push_subInfo_to (now : Nat) (c : iotx_mc_client_t) (len : Int) (msgId : Nat)
    (type : Nat) (handler : iotx_mc_topic_handle_t) : iotx_mc_client_t × Int :=
  if c.list_sub_wait_ack.length ≥ IOTX_MC_SUB_REQUEST_NUM_MAX then (c, FAIL_RETURN)
  else
    let subInfo : iotx_mc_subsribe_info_t :=
      { node_state := IOTX_MC_NODE_STATE_NORMANL, msg_id := msgId, len := len.toNat % 65536,
        sub_start_time := iotx_time_start now, type := type, handler := handler,
        buf := c.buf_send.take len.toNat }
    ({ c with list_sub_wait_ack := c.list_sub_wait_ack ++ [subInfo] }, SUCCESS_RETURN)

/-- The loop of `iotx_mc_mask_pubInfo_from` over the nodes in visiting order. -/
def mask_pub_loop (msgId : Nat) : List iotx_mc_pub_info_t → List iotx_mc_pub_info_t
  | [] => []
  | repubInfo :: rest =>
    if repubInfo.msg_id = msgId then
      { repubInfo with node_state := IOTX_MC_NODE_STATE_INVALID } :: mask_pub_loop msgId rest
    else repubInfo :: mask_pub_loop msgId rest

/-- Function `iotx_mc_mask_pubInfo_from`: the iterator runs from the tail of the list
to its head. -/
def iotx_mc_mask_pubInfo_from (c : iotx_mc_client_t) (msgId : Nat) : iotx_mc_client_t :=
  if c.list_pub_wait_ack.length = 0 then c
  else { c with list_pub_wait_ack := (mask_pub_loop msgId c.list_pub_wait_ack.reverse).reverse }

/-- The loop of `iotx_mc_mask_subInfo_from` over the nodes in visiting order, with the
handle returned so far. -/
def mask_sub_loop (msgId : Nat) :
    List iotx_mc_subsribe_info_t → iotx_mc_topic_handle_t →
      List iotx_mc_subsribe_info_t × iotx_mc_topic_handle_t
  | [], messageHandler => ([], messageHandler)
  | subInfo :: rest, messageHandler =>
    if subInfo.msg_id = msgId then
      let r := mask_sub_loop msgId rest subInfo.handler
      ({ subInfo with node_state := IOTX_MC_NODE_STATE_INVALID } :: r.1, r.2)
    else
      let r := mask_sub_loop msgId rest messageHandler
      (subInfo :: r.1, r.2)

/-- Function `iotx_mc_mask_subInfo_from`: the iterator runs from the tail of the list
to its head; `messageHandler` comes in with what the caller left in it. -/
def iotx_mc_mask_subInfo_from (c : iotx_mc_client_t) (msgId : Nat)
    (messageHandler : iotx_mc_topic_handle_t) : iotx_mc_client_t × iotx_mc_topic_handle_t :=
  if c.list_sub_wait_ack.length = 0 then (c, messageHandler)
  else
    let r := mask_sub_loop msgId c.list_sub_wait_ack.reverse messageHandler
    ({ c with list_sub_wait_ack := r.1.reverse }, r.2)

/-! ## Publish -/

/-- Function `MQTTPublish`. -/
def MQTTPublish (codec : Codec) (REPUB_NUM_MAX now : Nat) (script : List (Bool × Int))
    (c : iotx_mc_client_t) (topicName : List Nat) (topic_msg : iotx_mqtt_topic_info_t) :
    iotx_mc_client_t × Int :=
  let ser := codec.MQTTSerialize_publish c.buf_size_send 0 topic_msg.qos topic_msg.retain
    topic_msg.packet_id topicName topic_msg.payload
  let len := ser.1
  let c1 := { c with buf_send := ser.2 }
  if len ≤ 0 then (c1, MQTT_PUBLISH_PACKET_ERROR)
  else
    let pushed :=
      if topic_msg.qos > IOTX_MQTT_QOS0 then
        iotx_mc_push_pubInfo_to REPUB_NUM_MAX now c1 len topic_msg.packet_id
      else (c1, SUCCESS_RETURN)
    if pushed.2 ≠ SUCCESS_RETURN then (pushed.1, MQTT_PUSH_TO_LIST_ERROR)
    else if iotx_mc_send_packet len script ≠ SUCCESS_RETURN then
      if topic_msg.qos > IOTX_MQTT_QOS0 then
        ({ pushed.1 with list_pub_wait_ack := pushed.1.list_pub_wait_ack.dropLast },
          MQTT_NETWORK_ERROR)
      else (pushed.1, MQTT_NETWORK_ERROR)
    else (pushed.1, SUCCESS_RETURN)

/-- Function `iotx_mc_publish`.  The client pointer is taken to be non-NULL; a NULL
`topicName` or `topic_msg` is `none`.  `msg_id` is a `uint16_t`. -/
def iotx_mc_publish (codec : Codec) (REPUB_NUM_MAX now : Nat) (stack : List Nat)
    (script : List (Bool × Int)) (c : iotx_mc_client_t) (topicName : Option (List Nat))
    (topic_msg : Option iotx_mqtt_topic_info_t) : iotx_mc_client_t × Int :=
  match topicName, topic_msg with
  | some name, some msg =>
    if 0 ≠ iotx_mc_check_topic stack (some name) TOPIC_NAME_TYPE then (c, MQTT_TOPIC_FORMAT_ERROR)
    else if c.client_state ≠ IOTX_MC_STATE_CONNECTED then (c, MQTT_STATE_ERROR)
    else
      let issued :=
        if msg.qos = IOTX_MQTT_QOS1 ∨ msg.qos = IOTX_MQTT_QOS2 then
          let r := iotx_mc_get_next_packetid c
          (r.1, r.2 % 65536, { msg with packet_id := r.2 % 65536 })
        else (c, 0, msg)
      let r := MQTTPublish codec REPUB_NUM_MAX now script issued.1 name issued.2.2
      if r.2 ≠ SUCCESS_RETURN then
        if r.2 = MQTT_NETWORK_ERROR then
          ({ r.1 with client_state := IOTX_MC_STATE_DISCONNECTED }, r.2)
        else (r.1, r.2)
      else (r.1, (issued.2.1 : Int))
  | _, _ => (c, NULL_VALUE_ERROR)

/-! ## Subscribe and unsubscribe -/

/-- The conversion of an `unsigned int` to the `int` behind `iotx_err_t`, as in
`return msgId;`: values from `2 ^ 31` on come out negative. -/
def int_of_unsigned (n : Nat) : Int :=
  if n % UINT32_MOD < 2 ^ 31 then ((n % UINT32_MOD : Nat) : Int)
  else ((n % UINT32_MOD : Nat) : Int) - 2 ^ 32

/-- Function `MQTTSubscribe`; `msgId` reaches the serializer and the in-flight table as
an `unsigned short`. -/
def MQTTSubscribe (codec : Codec) (now : Nat) (script : List (Bool × Int))
    (c : iotx_mc_client_t) (topicFilter : List Nat) (qos msgId messageHandler pcontext : Nat) :
    iotx_mc_client_t × Int :=
  let ser := codec.MQTTSerialize_subscribe c.buf_size_send 0 (msgId % 65536) topicFilter qos
  let c1 := { c with buf_send := ser.2 }
  if ser.1 ≤ 0 then (c1, MQTT_SUBSCRIBE_PACKET_ERROR)
  else
    let handler : iotx_mc_topic_handle_t := ⟨some topicFilter, ⟨messageHandler, pcontext⟩⟩
    let pushed := iotx_mc_push_subInfo_to now c1 ser.1 (msgId % 65536) SUBSCRIBE handler
    if SUCCESS_RETURN ≠ pushed.2 then (pushed.1, MQTT_PUSH_TO_LIST_ERROR)
    else if iotx_mc_send_packet ser.1 script ≠ SUCCESS_RETURN then
      ({ pushed.1 with list_sub_wait_ack := pushed.1.list_sub_wait_ack.dropLast },
        MQTT_NETWORK_ERROR)
    else (pushed.1, SUCCESS_RETURN)

/-- Function `MQTTUnsubscribe`: the handle pushed has a NULL callback and context. -/
def MQTTUnsubscribe (codec : Codec) (now : Nat) (script : List (Bool × Int))
    (c : iotx_mc_client_t) (topicFilter : List Nat) (msgId : Nat) : iotx_mc_client_t × Int :=
  let ser := codec.MQTTSerialize_unsubscribe c.buf_size_send 0 (msgId % 65536) topicFilter
  let c1 := { c with buf_send := ser.2 }
  if ser.1 ≤ 0 then (c1, MQTT_UNSUBSCRIBE_PACKET_ERROR)
  else
    let handler : iotx_mc_topic_handle_t := ⟨some topicFilter, ⟨0, 0⟩⟩
    let pushed := iotx_mc_push_subInfo_to now c1 ser.1 (msgId % 65536) UNSUBSCRIBE handler
    if SUCCESS_RETURN ≠ pushed.2 then (pushed.1, MQTT_PUSH_TO_LIST_ERROR)
    else if iotx_mc_send_packet ser.1 script ≠ SUCCESS_RETURN then
      ({ pushed.1 with list_sub_wait_ack := pushed.1.list_sub_wait_ack.dropLast },
        MQTT_NETWORK_ERROR)
    else (pushed.1, SUCCESS_RETURN)

/-- Function `iotx_mc_subscribe`.  The client pointer is taken to be non-NULL; a NULL
`topicFilter` is `none`.  The state is tested before the topic.  The id is held in
an `unsigned int` and returned as `iotx_err_t`. -/
def iotx_mc_subscribe (codec : Codec) (now : Nat) (stack : List Nat)
    (script : List (Bool × Int)) (c : iotx_mc_client_t) (topicFilter : Option (List Nat))
    (qos topic_handle_func pcontext : Nat) : iotx_mc_client_t × Int :=
  match topicFilter with
  | none => (c, NULL_VALUE_ERROR)
  | some filter =>
    if c.client_state ≠ IOTX_MC_STATE_CONNECTED then (c, MQTT_STATE_ERROR)
    else if 0 ≠ iotx_mc_check_topic stack (some filter) TOPIC_FILTER_TYPE then
      (c, MQTT_TOPIC_FORMAT_ERROR)
    else
      let issued := iotx_mc_get_next_packetid c
      let r := MQTTSubscribe codec now script issued.1 filter qos issued.2 topic_handle_func
        pcontext
      if r.2 ≠ SUCCESS_RETURN then
        if r.2 = MQTT_NETWORK_ERROR then
          ({ r.1 with client_state := IOTX_MC_STATE_DISCONNECTED }, r.2)
        else (r.1, r.2)
      else (r.1, int_of_unsigned issued.2)

/-- Function `iotx_mc_unsubscribe`.  The topic is tested before the state. -/
def iotx_mc_unsubscribe (codec : Codec) (now : Nat) (stack : List Nat)
    (script : List (Bool × Int)) (c : iotx_mc_client_t) (topicFilter : Option (List Nat)) :
    iotx_mc_client_t × Int :=
  match topicFilter with
  | none => (c, NULL_VALUE_ERROR)
  | some filter =>
    if 0 ≠ iotx_mc_check_topic stack (some filter) TOPIC_FILTER_TYPE then
      (c, MQTT_TOPIC_FORMAT_ERROR)
    else if c.client_state ≠ IOTX_MC_STATE_CONNECTED then (c, MQTT_STATE_ERROR)
    else
      let issued := iotx_mc_get_next_packetid c
      let r := MQTTUnsubscribe codec now script issued.1 filter issued.2
      if r.2 ≠ SUCCESS_RETURN then
        if r.2 = MQTT_NETWORK_ERROR then
          ({ r.1 with client_state := IOTX_MC_STATE_DISCONNECTED }, r.2)
        else (r.1, r.2)
      else (r.1, int_of_unsigned issued.2)

/-! ## Handlers of inbound packets -/

/-- The invocation `c->handle_event.h_fp(c->handle_event.pcontext, c, &msg)`. -/
def event_call (c : iotx_mc_client_t) (event_type : iotx_mqtt_event_type_t)
    (msg : event_payload) : Call :=
  ⟨c.handle_event.h_fp, c.handle_event.pcontext, ⟨event_type, msg⟩⟩

/-- The guarded invocation `if (NULL != c->handle_event.h_fp) { ... }`. -/
def event_call_guarded (c : iotx_mc_client_t) (event_type : iotx_mqtt_event_type_t)
    (msg : event_payload) : List Call :=
  if c.handle_event.h_fp ≠ 0 then [event_call c event_type msg] else []

/-- Function `iotx_mc_handle_recv_PUBACK`. -/
def iotx_mc_handle_recv_PUBACK (env : yield_env) (c : iotx_mc_client_t) :
    iotx_mc_client_t × List Call × Int :=
  match env.ack with
  | none => (c, [], MQTT_PUBLISH_ACK_PACKET_ERROR)
  | some mypacketid =>
    let c1 := iotx_mc_mask_pubInfo_from c mypacketid
    (c1, event_call_guarded c1 IOTX_MQTT_EVENT_PUBLISH_SUCCESS (event_payload.packet mypacketid),
      SUCCESS_RETURN)

/-- Function `iotx_mc_handle_recv_SUBACK`.  The NACK event is raised without a test
of the callback pointer. -/
def iotx_mc_handle_recv_SUBACK (env : yield_env) (c : iotx_mc_client_t) :
    iotx_mc_client_t × List Call × Int :=
  match env.suback with
  | none => (c, [], MQTT_SUBSCRIBE_ACK_PACKET_ERROR)
  | some (mypacketid, grantedQoS) =>
    if grantedQoS = 128 then
      (c, [event_call c IOTX_MQTT_EVENT_SUBCRIBE_NACK (event_payload.packet mypacketid)],
        MQTT_SUBSCRIBE_ACK_FAILURE)
    else
      let r := iotx_mc_mask_subInfo_from c mypacketid empty_topic_handle
      let messagehandler := r.2
      if messagehandler.handle.h_fp = 0 ∨ messagehandler.topic_filter = none then
        (r.1, [], MQTT_SUB_INFO_NOT_FOUND_ERROR)
      else
        match suback_install r.1.sub_handle messagehandler with
        | (_, false) => (r.1, [], FAIL_RETURN)
        | (table, true) =>
          let c2 := { r.1 with sub_handle := table }
          (c2, event_call_guarded c2 IOTX_MQTT_EVENT_SUBCRIBE_SUCCESS
            (event_payload.packet mypacketid), SUCCESS_RETURN)

/-- Function `MQTTPuback`. -/
def MQTTPuback (codec : Codec) (script : List (Bool × Int)) (c : iotx_mc_client_t)
    (msgId type : Nat) : iotx_mc_client_t × Int :=
  if type = PUBACK ∨ type = PUBREC ∨ type = PUBREL then
    let ser := codec.MQTTSerialize_ack c.buf_size_send type 0 msgId
    let c1 := { c with buf_send := ser.2 }
    if ser.1 ≤ 0 then (c1, MQTT_PUBLISH_ACK_PACKET_ERROR)
    else if iotx_mc_send_packet ser.1 script ≠ SUCCESS_RETURN then (c1, MQTT_NETWORK_ERROR)
    else (c1, SUCCESS_RETURN)
  else (c, MQTT_PUBLISH_ACK_TYPE_ERROR)

/-- Function `iotx_mc_handle_recv_PUBLISH`. -/
def iotx_mc_handle_recv_PUBLISH (codec : Codec) (env : yield_env) (c : iotx_mc_client_t) :
    iotx_mc_client_t × List Call × Int :=
  match env.publish with
  | none => (c, [], MQTT_PUBLISH_PACKET_ERROR)
  | some (parsed, topicName) =>
    let topic_msg := { parsed with ptopic := none }
    let calls := iotx_mc_deliver_message c topicName topic_msg
    if topic_msg.qos = IOTX_MQTT_QOS0 then (c, calls, SUCCESS_RETURN)
    else if topic_msg.qos = IOTX_MQTT_QOS1 then
      let r := MQTTPuback codec env.ack_script c topic_msg.packet_id PUBACK
      (r.1, calls, r.2)
    else if topic_msg.qos = IOTX_MQTT_QOS2 then
      let r := MQTTPuback codec env.ack_script c topic_msg.packet_id PUBREC
      (r.1, calls, r.2)
    else (c, calls, MQTT_PUBLISH_QOS_ERROR)

/-- Function `iotx_mc_handle_recv_UNSUBACK`.  The local `messageHandler` is not
initialised: it holds `env.stack_handler` unless a node with the packet id is found. -/
def iotx_mc_handle_recv_UNSUBACK (env : yield_env) (c : iotx_mc_client_t) :
    Option (iotx_mc_client_t × List Call × Int) :=
  match env.unsuback with
  | none => some (c, [], MQTT_UNSUBSCRIBE_ACK_PACKET_ERROR)
  | some mypacketid =>
    let r := iotx_mc_mask_subInfo_from c mypacketid env.stack_handler
    match unsuback_remove r.1.sub_handle r.2 with
    | none => none
    | some table =>
      let c2 := { r.1 with sub_handle := table }
      some (c2, event_call_guarded c2 IOTX_MQTT_EVENT_UNSUBCRIBE_SUCCESS
        (event_payload.packet mypacketid), SUCCESS_RETURN)

/-- Function `iotx_mc_cycle`.  There is no result (`none`) only where the UNSUBACK
handler has none. -/
def iotx_mc_cycle (codec : Codec) (env : yield_env) (c : iotx_mc_client_t) :
    Option (iotx_mc_client_t × List Call × Int) :=
  if c.client_state ≠ IOTX_MC_STATE_CONNECTED then some (c, [], MQTT_STATE_ERROR)
  else if env.read_rc ≠ SUCCESS_RETURN then
    some ({ c with client_state := IOTX_MC_STATE_DISCONNECTED }, [], MQTT_NETWORK_ERROR)
  else if env.packetType = MQTT_CPT_RESERVED then some (c, [], SUCCESS_RETURN)
  else
    let c1 := { c with
      next_ping_time := utils_time_cutdown env.now (c.keepAliveInterval * 1000),
      ping_mark := 0 }
    if env.packetType = CONNACK then some (c1, [], SUCCESS_RETURN)
    else if env.packetType = PUBACK then some (iotx_mc_handle_recv_PUBACK env c1)
    else if env.packetType = SUBACK then some (iotx_mc_handle_recv_SUBACK env c1)
    else if env.packetType = PUBLISH then some (iotx_mc_handle_recv_PUBLISH codec env c1)
    else if env.packetType = UNSUBACK then iotx_mc_handle_recv_UNSUBACK env c1
    else if env.packetType = PINGRESP then some (c1, [], SUCCESS_RETURN)
    else some (c1, [], FAIL_RETURN)

/-! ## Sweeps of the in-flight tables -/

/-- The `for (;;)` loop of `MQTTSubInfoProc` over the nodes in visiting order: the
nodes that stay, and the callbacks invoked.  An invalid node is removed; a live
node stays while the client is not connected or while its age is at most twice
the request timeout; otherwise the timeout event is raised (when there is an
event callback) and the node is removed. -/
def MQTTSubInfoProc_loop (now : Nat) (pClient : iotx_mc_client_t) :
    List iotx_mc_subsribe_info_t → List iotx_mc_subsribe_info_t × List Call
  | [] => ([], [])
  | subInfo :: rest =>
    let r := MQTTSubInfoProc_loop now pClient rest
    if subInfo.node_state = IOTX_MC_NODE_STATE_INVALID then r
    else if pClient.client_state ≠ IOTX_MC_STATE_CONNECTED then (subInfo :: r.1, r.2)
    else if utils_time_spend subInfo.sub_start_time now
        ≤ (pClient.request_timeout_ms * 2) % UINT32_MOD then (subInfo :: r.1, r.2)
    else
      let calls :=
        if subInfo.type = SUBSCRIBE then
          event_call_guarded pClient IOTX_MQTT_EVENT_SUBCRIBE_TIMEOUT
            (event_payload.packet subInfo.msg_id)
        else
          event_call_guarded pClient IOTX_MQTT_EVENT_UNSUBCRIBE_TIMEOUT
            (event_payload.packet subInfo.msg_id)
      (r.1, calls ++ r.2)

/-- Function `MQTTSubInfoProc`: the iterator runs from the tail of the list to its
head. -/
def MQTTSubInfoProc (now : Nat) (pClient : iotx_mc_client_t) : iotx_mc_client_t × List Call :=
  if pClient.list_sub_wait_ack.length = 0 then (pClient, [])
  else
    let r := MQTTSubInfoProc_loop now pClient pClient.list_sub_wait_ack.reverse
    ({ pClient with list_sub_wait_ack := r.1.reverse }, r.2)

/-- Function `MQTTRePublish`. -/
def MQTTRePublish (script : List (Bool × Int)) (len : Nat) : Int :=
  if iotx_mc_send_packet (len : Int) script ≠ SUCCESS_RETURN then MQTT_NETWORK_ERROR
  else SUCCESS_RETURN

/-- The `for (;;)` loop of `MQTTPubInfoProc` over the nodes in visiting order, with the
client state read at each node and the transport scripts of the republications
still to come: the final client state and the nodes that stay.  After a
republication that ends in a network error the loop is left, and the nodes not yet
visited stay as they are. -/
def MQTTPubInfoProc_loop (now request_timeout_ms : Nat) :
    iotx_mc_state_t → List (List (Bool × Int)) → List iotx_mc_pub_info_t →
      iotx_mc_state_t × List iotx_mc_pub_info_t
  | state, _, [] => (state, [])
  | state, scripts, repubInfo :: rest =>
    if repubInfo.node_state = IOTX_MC_NODE_STATE_INVALID then
      MQTTPubInfoProc_loop now request_timeout_ms state scripts rest
    else if state ≠ IOTX_MC_STATE_CONNECTED then
      let r := MQTTPubInfoProc_loop now request_timeout_ms state scripts rest
      (r.1, repubInfo :: r.2)
    else if utils_time_spend repubInfo.pub_start_time now
        ≤ (request_timeout_ms * 2) % UINT32_MOD then
      let r := MQTTPubInfoProc_loop now request_timeout_ms state scripts rest
      (r.1, repubInfo :: r.2)
    else
      let rc := MQTTRePublish (scripts.headD []) repubInfo.len
      let restarted := { repubInfo with pub_start_time := iotx_time_start now }
      if rc = MQTT_NETWORK_ERROR then (IOTX_MC_STATE_DISCONNECTED, restarted :: rest)
      else
        let r := MQTTPubInfoProc_loop now request_timeout_ms state scripts.tail rest
        (r.1, restarted :: r.2)

/-- Function `MQTTPubInfoProc`: the iterator runs from the tail of the list to its
head. -/
def MQTTPubInfoProc (now : Nat) (scripts : List (List (Bool × Int)))
    (pClient : iotx_mc_client_t) : iotx_mc_client_t :=
  if pClient.list_pub_wait_ack.length = 0 then pClient
  else
    let r := MQTTPubInfoProc_loop now pClient.request_timeout_ms pClient.client_state scripts
      pClient.list_pub_wait_ack.reverse
    { pClient with client_state := r.1, list_pub_wait_ack := r.2.reverse }

/-! ## Connect, reconnect and keep-alive -/

/-- Function `MQTTConnect`. -/
def MQTTConnect (codec : Codec) (script : List (Bool × Int)) (pClient : iotx_mc_client_t) :
    iotx_mc_client_t × Int :=
  let ser := codec.MQTTSerialize_connect pClient.buf_size_send pClient.keepAliveInterval
  let c1 := { pClient with buf_send := ser.2 }
  if ser.1 ≤ 0 then (c1, MQTT_CONNECT_PACKET_ERROR)
  else if iotx_mc_send_packet ser.1 script ≠ SUCCESS_RETURN then (c1, MQTT_NETWORK_ERROR)
  else (c1, SUCCESS_RETURN)

/-- Function `iotx_mc_connect`; `cenv.connack_rc` is what `iotx_mc_wait_CONNACK`
returns. -/
def iotx_mc_connect (codec : Codec) (now : Nat) (cenv : connect_env)
    (pClient : iotx_mc_client_t) : iotx_mc_client_t × Int :=
  if SUCCESS_RETURN ≠ cenv.net_connect_rc then
    if ERROR_CERTIFICATE_EXPIRED = cenv.net_connect_rc then (pClient, ERROR_CERT_VERIFY_FAIL)
    else (pClient, MQTT_NETWORK_CONNECT_ERROR)
  else
    let r := MQTTConnect codec cenv.connect_script pClient
    if r.2 ≠ SUCCESS_RETURN then (r.1, r.2)
    else if SUCCESS_RETURN ≠ cenv.connack_rc then (r.1, MQTT_CONNECT_ERROR)
    else
      ({ r.1 with
          client_state := IOTX_MC_STATE_CONNECTED,
          next_ping_time := utils_time_cutdown now (r.1.keepAliveInterval * 1000) },
        SUCCESS_RETURN)

/-- Function `iotx_mc_attempt_reconnect`. -/
def iotx_mc_attempt_reconnect (codec : Codec) (now : Nat) (cenv : connect_env)
    (pClient : iotx_mc_client_t) : iotx_mc_client_t × Int :=
  iotx_mc_connect codec now cenv pClient

/-- Function `iotx_mc_handle_reconnect`; `auth_rc` is what `iotx_auth` returns.  The
interval is a `uint32_t`. -/
def iotx_mc_handle_reconnect (codec : Codec) (now : Nat) (auth_rc : Int) (cenv : connect_env)
    (pClient : iotx_mc_client_t) : iotx_mc_client_t × Int :=
  if utils_time_is_expired pClient.reconnect_param.reconnect_next_time now = false then
    (pClient, FAIL_RETURN)
  else if 0 ≠ auth_rc then (pClient, -1)
  else
    let r := iotx_mc_attempt_reconnect codec now cenv pClient
    if SUCCESS_RETURN = r.2 then
      ({ r.1 with client_state := IOTX_MC_STATE_CONNECTED }, SUCCESS_RETURN)
    else
      let interval :=
        if IOTX_MC_RECONNECT_INTERVAL_MAX_MS > r.1.reconnect_param.reconnect_time_interval_ms then
          (r.1.reconnect_param.reconnect_time_interval_ms * 2) % UINT32_MOD
        else IOTX_MC_RECONNECT_INTERVAL_MAX_MS
      ({ r.1 with reconnect_param :=
          { reconnect_time_interval_ms := interval,
            reconnect_next_time := utils_time_cutdown now interval } }, r.2)

/-- Function `MQTTKeepalive`. -/
def MQTTKeepalive (codec : Codec) (script : List (Bool × Int)) (pClient : iotx_mc_client_t) :
    iotx_mc_client_t × Int :=
  let ser := codec.MQTTSerialize_pingreq pClient.buf_size_send
  let c1 := { pClient with buf_send := ser.2 }
  if ser.1 ≤ 0 then (c1, MQTT_PING_PACKET_ERROR)
  else if SUCCESS_RETURN ≠ iotx_mc_send_packet ser.1 script then (c1, MQTT_NETWORK_ERROR)
  else (c1, SUCCESS_RETURN)

/-- Function `iotx_mc_keepalive_sub`. -/
def iotx_mc_keepalive_sub (codec : Codec) (env : yield_env) (pClient : iotx_mc_client_t) :
    iotx_mc_client_t × Int :=
  if pClient.client_state ≠ IOTX_MC_STATE_CONNECTED then (pClient, SUCCESS_RETURN)
  else if utils_time_is_expired pClient.next_ping_time env.now = false then
    (pClient, SUCCESS_RETURN)
  else
    let c1 := { pClient with
      next_ping_time := utils_time_cutdown env.now (pClient.keepAliveInterval * 1000) }
    let r := MQTTKeepalive codec env.ping_script c1
    if SUCCESS_RETURN ≠ r.2 then
      if r.2 = MQTT_NETWORK_ERROR then
        ({ r.1 with client_state := IOTX_MC_STATE_DISCONNECTED }, r.2)
      else (r.1, r.2)
    else ({ r.1 with ping_mark := 1 }, SUCCESS_RETURN)

/-- Function `iotx_mc_keepalive`: the client afterwards and the callbacks invoked
(`iotx_mc_reconnect_callback`, `iotx_mc_disconnect_callback`). -/
def iotx_mc_keepalive (codec : Codec) (env : yield_env) (pClient : iotx_mc_client_t) :
    iotx_mc_client_t × List Call :=
  let c1 := (iotx_mc_keepalive_sub codec env pClient).1
  let currentState := c1.client_state
  if IOTX_MC_STATE_DISCONNECTED_RECONNECTING = currentState then
    let c2 := { c1 with ping_mark := 0 }
    let r := iotx_mc_handle_reconnect codec env.now env.auth_rc env.conn c2
    if SUCCESS_RETURN ≠ r.2 then (r.1, [])
    else
      ({ r.1 with reconnect_param :=
          { r.1.reconnect_param with
            reconnect_time_interval_ms := IOTX_MC_RECONNECT_INTERVAL_MIN_MS } },
        event_call_guarded r.1 IOTX_MQTT_EVENT_RECONNECT event_payload.null)
  else if IOTX_MC_STATE_DISCONNECTED = currentState then
    ({ c1 with
        reconnect_param :=
          { reconnect_time_interval_ms := IOTX_MC_RECONNECT_INTERVAL_MIN_MS,
            reconnect_next_time := utils_time_cutdown env.now IOTX_MC_RECONNECT_INTERVAL_MIN_MS },
        client_state := IOTX_MC_STATE_DISCONNECTED_RECONNECTING },
      event_call_guarded c1 IOTX_MQTT_EVENT_DISCONNECT event_payload.null)
  else (c1, [])

/-! ## The service routine -/

/-- One turn of the `do ... while` loop of `iotx_mqtt_yield`: the client afterwards,
the callbacks invoked in order, and the `rc` of `iotx_mc_cycle`. -/
def yield_turn (codec : Codec) (env : yield_env) (pClient : iotx_mc_client_t) :
    Option (iotx_mc_client_t × List Call × Int) :=
  match iotx_mc_cycle codec env pClient with
  | none => none
  | some (c1, calls1, rc) =>
    let swept :=
      if SUCCESS_RETURN = rc then
        MQTTSubInfoProc env.now (MQTTPubInfoProc env.now env.repub_scripts c1)
      else (c1, [])
    let kept := iotx_mc_keepalive codec env swept.1
    some (kept.1, calls1 ++ swept.2 ++ kept.2, rc)

/-- Function `iotx_mqtt_yield`.  Each entry of `turns` is what one turn of the loop
meets, with the answer of the timer test after it; turns that are not run stand
for a timer that has expired. -/
def iotx_mqtt_yield (codec : Codec) :
    List (yield_env × Bool) → iotx_mc_client_t → Option (iotx_mc_client_t × List Call)
  | [], pClient => some (pClient, [])
  | (env, expired) :: rest, pClient =>
    match yield_turn codec env pClient with
    | none => none
    | some (c1, calls, rc) =>
      if expired = false ∧ SUCCESS_RETURN = rc then
        match iotx_mqtt_yield codec rest c1 with
        | none => none
        | some (c2, calls2) => some (c2, calls ++ calls2)
      else some (c1, calls)

/-! ## Initialisation -/

/-- Type `iotx_mqtt_param_t` of `mqtt_client.h`, the fields `iotx_mc_init` reads
that the model keeps. -/
structure iotx_mqtt_param_t where
  keepalive_interval_ms : Nat
  request_timeout_ms : Nat
  pwrite_buf : List Nat
  write_buf_size : Nat
  read_buf_size : Nat
  handle_event : iotx_mqtt_event_handle_t

/-- Function `iotx_mc_set_connect_params`, the clamp of the keep-alive interval;
`KEEP_MIN` and `KEEP_MAX` are the macros `KEEP_ALIVE_INTERVAL_DEFAULT_MIN` and
`KEEP_ALIVE_INTERVAL_DEFAULT_MAX` of `mqtt_client.h`. -/
def iotx_mc_set_connect_params (KEEP_MIN KEEP_MAX keepAliveInterval : Nat) : Nat :=
  if keepAliveInterval < KEEP_MIN then KEEP_MIN
  else if keepAliveInterval > KEEP_MAX then KEEP_MAX
  else keepAliveInterval

/-- Function `iotx_mc_init` on a non-NULL client and parameter block; `SUB_NUM_MAX`
is the macro `IOTX_MC_SUB_NUM_MAX` of `mqtt_client.h`, `net_init_rc` what
`iotx_net_init` returns.  The keep-alive field is an `unsigned short`. -/
def iotx_mc_init (SUB_NUM_MAX KEEP_MIN KEEP_MAX : Nat) (net_init_rc : Int)
    (pInitParams : iotx_mqtt_param_t) : iotx_mc_client_t × Int :=
  let pClient : iotx_mc_client_t :=
    { packet_id := 0,
      request_timeout_ms :=
        if pInitParams.request_timeout_ms < IOTX_MC_REQUEST_TIMEOUT_MIN_MS
            ∨ pInitParams.request_timeout_ms > IOTX_MC_REQUEST_TIMEOUT_MAX_MS then
          IOTX_MC_REQUEST_TIMEOUT_DEFAULT_MS
        else pInitParams.request_timeout_ms,
      buf_size_send := pInitParams.write_buf_size,
      buf_size_read := pInitParams.read_buf_size,
      buf_send := pInitParams.pwrite_buf,
      sub_handle := List.replicate SUB_NUM_MAX empty_topic_handle,
      next_ping_time := iotx_time_init,
      ping_mark := 0,
      client_state := IOTX_MC_STATE_INVALID,
      reconnect_param :=
        { reconnect_next_time := iotx_time_init,
          reconnect_time_interval_ms := IOTX_MC_RECONNECT_INTERVAL_MIN_MS },
      keepAliveInterval :=
        iotx_mc_set_connect_params KEEP_MIN KEEP_MAX
          ((pInitParams.keepalive_interval_ms / 1000) % 65536),
      list_pub_wait_ack := [],
      list_sub_wait_ack := [],
      handle_event := pInitParams.handle_event }
  if SUCCESS_RETURN ≠ net_init_rc then (pClient, net_init_rc)
  else ({ pClient with client_state := IOTX_MC_STATE_INITIALIZED }, SUCCESS_RETURN)

/-! ## CONNACK -/

/-- Modelled from the spec: `MQTT_CONNECT_ACK_PACKET_ERROR` of `utils_error.h`. -/
def MQTT_CONNECT_ACK_PACKET_ERROR : Int := -29
/-- Modelled from the spec: `MQTT_CONNACK_NOT_AUTHORIZED_ERROR` of `utils_error.h`. -/
def MQTT_CONNACK_NOT_AUTHORIZED_ERROR : Int := -34
/-- Modelled from the spec: `MQTT_CONNACK_BAD_USERDATA_ERROR` of `utils_error.h`. -/
def MQTT_CONNACK_BAD_USERDATA_ERROR : Int := -35
/-- Modelled from the spec: `MQTT_CONNACK_SERVER_UNAVAILABLE_ERROR` of `utils_error.h`. -/
def MQTT_CONNACK_SERVER_UNAVAILABLE_ERROR : Int := -36
/-- Modelled from the spec: `MQTT_CONNACK_IDENTIFIER_REJECTED_ERROR` of `utils_error.h`. -/
def MQTT_CONNACK_IDENTIFIER_REJECTED_ERROR : Int := -37
/-- Modelled from the spec: `MQTT_CONANCK_UNACCEPTABLE_PROTOCOL_VERSION_ERROR` of
`utils_error.h`, under the spelling of the source. -/
def MQTT_CONANCK_UNACCEPTABLE_PROTOCOL_VERSION_ERROR : Int := -38
/-- Modelled from the spec: `MQTT_CONNACK_UNKNOWN_ERROR` of `utils_error.h`. -/
def MQTT_CONNACK_UNKNOWN_ERROR : Int := -39

/-- Enumerator `IOTX_MC_CONNECTION_ACCEPTED` of `iotx_mc_connect_ack_code_t`. -/
def IOTX_MC_CONNECTION_ACCEPTED : Nat := 0
/-- Enumerator `IOTX_MC_CONNECTION_REFUSED_UNACCEPTABLE_PROTOCOL_VERSION`. -/
def IOTX_MC_CONNECTION_REFUSED_UNACCEPTABLE_PROTOCOL_VERSION : Nat := 1
/-- Enumerator `IOTX_MC_CONNECTION_REFUSED_IDENTIFIER_REJECTED`. -/
def IOTX_MC_CONNECTION_REFUSED_IDENTIFIER_REJECTED : Nat := 2
/-- Enumerator `IOTX_MC_CONNECTION_REFUSED_SERVER_UNAVAILABLE`. -/
def IOTX_MC_CONNECTION_REFUSED_SERVER_UNAVAILABLE : Nat := 3
/-- Enumerator `IOTX_MC_CONNECTION_REFUSED_BAD_USERDATA`. -/
def IOTX_MC_CONNECTION_REFUSED_BAD_USERDATA : Nat := 4
/-- Enumerator `IOTX_MC_CONNECTION_REFUSED_NOT_AUTHORIZED`. -/
def IOTX_MC_CONNECTION_REFUSED_NOT_AUTHORIZED : Nat := 5

/-- Function `iotx_mc_handle_recv_CONNACK`.  The argument is what
`MQTTDeserialize_connack` makes of the read buffer: `none` when it does not return 1,
otherwise the session-present flag and the return code it stores, an
`unsigned char`. -/
def iotx_mc_handle_recv_CONNACK (connack : Option (Nat × Nat)) : Int :=
  match connack with
  | none => MQTT_CONNECT_ACK_PACKET_ERROR
  | some (_, connack_rc) =>
    if connack_rc = IOTX_MC_CONNECTION_ACCEPTED then SUCCESS_RETURN
    else if connack_rc = IOTX_MC_CONNECTION_REFUSED_UNACCEPTABLE_PROTOCOL_VERSION then
      MQTT_CONANCK_UNACCEPTABLE_PROTOCOL_VERSION_ERROR
    else if connack_rc = IOTX_MC_CONNECTION_REFUSED_IDENTIFIER_REJECTED then
      MQTT_CONNACK_IDENTIFIER_REJECTED_ERROR
    else if connack_rc = IOTX_MC_CONNECTION_REFUSED_SERVER_UNAVAILABLE then
      MQTT_CONNACK_SERVER_UNAVAILABLE_ERROR
    else if connack_rc = IOTX_MC_CONNECTION_REFUSED_BAD_USERDATA then
      MQTT_CONNACK_BAD_USERDATA_ERROR
    else if connack_rc = IOTX_MC_CONNECTION_REFUSED_NOT_AUTHORIZED then
      MQTT_CONNACK_NOT_AUTHORIZED_ERROR
    else MQTT_CONNACK_UNKNOWN_ERROR

/-! ## Reading a packet

The transport `read` is a script as well: each entry answers one call with the
value returned and the bytes stored at the destination.  A script that has run
out stands for a read that times out and returns 0. -/

/-- Modelled from the spec: `MQTTPACKET_READ_ERROR` of `MQTTPacket.h`, the codec
error ReadError ("malformed or truncated"), a negative code. -/
def MQTTPACKET_READ_ERROR : Int := -1

/-- Modelled from the spec: `MQTTPacket_encode` of the codec writes a remaining length
as "the standard variable-byte integer (1–4 bytes, high bit continuation)" and
returns the number of bytes written. -/
def MQTTPacket_encode (length : Int) : Int :=
  if length < 128 then 1
  else if length < 16384 then 2
  else if length < 2097152 then 3
  else 4

/-- One call of `c->ipstack->read`: the value returned, the bytes stored, and the
script that is left. -/
def ipstack_read : List (Int × List Nat) → Int × List Nat × List (Int × List Nat)
  | [] => (0, [], [])
  | (rc, data) :: rest => (rc, data, rest)

/-- The `do ... while` loop of `iotx_mc_decode_packet`, entered with the present
`len`, `*value` and `multiplier`: the value returned, the final `*value`, and the
script that is left.  The byte read is `i`; `i & 127` is `i % 128` and
`(i & 128) != 0` is `(i / 128) % 2 ≠ 0`. -/
def iotx_mc_decode_packet_loop :
    List (Int × List Nat) → Nat → Int → Int → Int × Int × List (Int × List Nat)
  | [], len, value, _ =>
    if len + 1 > 4 then (MQTTPACKET_READ_ERROR, value, [])
    else (MQTT_NETWORK_ERROR, value, [])
  | (rc, data) :: rest, len, value, multiplier =>
    if len + 1 > 4 then (MQTTPACKET_READ_ERROR, value, (rc, data) :: rest)
    else if rc ≠ 1 then (MQTT_NETWORK_ERROR, value, rest)
    else
      let i := data.headD 0
      let value1 := value + ((i % 128 : Nat) : Int) * multiplier
      if (i / 128) % 2 ≠ 0 then
        iotx_mc_decode_packet_loop rest (len + 1) value1 (multiplier * 128)
      else (((len + 1 : Nat) : Int), value1, rest)

/-- Function `iotx_mc_decode_packet`: the value returned, `*value`, and the script
that is left. -/
def iotx_mc_decode_packet (reads : List (Int × List Nat)) :
    Int × Int × List (Int × List Nat) :=
  iotx_mc_decode_packet_loop reads 0 0 1

/-- Function `iotx_mc_read_packet`: the value returned, the packet type stored
(`none` when `*packet_type` is not written), and the script that is left.  The
packet type is the high nibble of the header byte. -/
def iotx_mc_read_packet (buf_size_read : Nat) (reads : List (Int × List Nat)) :
    Int × Option Nat × List (Int × List Nat) :=
  let r0 := ipstack_read reads
  if 0 = r0.1 then (SUCCESS_RETURN, some 0, r0.2.2)
  else if 1 ≠ r0.1 then (FAIL_RETURN, none, r0.2.2)
  else
    let d := iotx_mc_decode_packet r0.2.2
    if d.1 < 0 then (d.1, none, d.2.2)
    else
      let rem_len := d.2.1
      let len := 1 + MQTTPacket_encode rem_len
      if rem_len > 0 ∧ rem_len + len > (buf_size_read : Int) then
        let needReadLen := (buf_size_read : Int) - len
        let r1 := ipstack_read d.2.2
        if r1.1 ≠ needReadLen then (FAIL_RETURN, none, r1.2.2)
        else
          let remainDataLen := rem_len - needReadLen
          let r2 := ipstack_read r1.2.2
          if r2.1 ≠ remainDataLen then (FAIL_RETURN, none, r2.2.2)
          else (FAIL_RETURN, none, r2.2.2)
      else
        let r3 := if rem_len > 0 then ipstack_read d.2.2 else (rem_len, [], d.2.2)
        if rem_len > 0 ∧ r3.1 ≠ rem_len then (FAIL_RETURN, none, r3.2.2)
        else (SUCCESS_RETURN, some ((r0.2.1.headD 0 / 16) % 16), r3.2.2)

/-! ## What is written to the transport -/

/-- The calls of `write` made by the loop of `iotx_mc_send_packet`, in order: for
each call the offset `sent` of `buf + sent` and the length passed. -/
def iotx_mc_send_packet_writes (length : Int) : Int → List (Bool × Int) → List (Int × Int)
  | _, [] => []
  | sent, (expired, rc) :: rest =>
    if sent < length ∧ expired = false then
      (sent, length) ::
        (if rc < 0 then [] else iotx_mc_send_packet_writes length (sent + rc) rest)
    else []

/-- The calls of `write` made during `MQTTPublish`: none before the packet has been
serialized and, for QoS above 0, pushed. -/
def MQTTPublish_writes (codec : Codec) (REPUB_NUM_MAX now : Nat) (script : List (Bool × Int))
    (c : iotx_mc_client_t) (topicName : List Nat) (topic_msg : iotx_mqtt_topic_info_t) :
    List (Int × Int) :=
  let ser := codec.MQTTSerialize_publish c.buf_size_send 0 topic_msg.qos topic_msg.retain
    topic_msg.packet_id topicName topic_msg.payload
  let c1 := { c with buf_send := ser.2 }
  if ser.1 ≤ 0 then []
  else
    let pushed :=
      if topic_msg.qos > IOTX_MQTT_QOS0 then
        iotx_mc_push_pubInfo_to REPUB_NUM_MAX now c1 ser.1 topic_msg.packet_id
      else (c1, SUCCESS_RETURN)
    if pushed.2 ≠ SUCCESS_RETURN then []
    else iotx_mc_send_packet_writes ser.1 0 script

/-- The calls of `write` made during `iotx_mc_publish`. -/
def iotx_mc_publish_writes (codec : Codec) (REPUB_NUM_MAX now : Nat) (stack : List Nat)
    (script : List (Bool × Int)) (c : iotx_mc_client_t) (topicName : Option (List Nat))
    (topic_msg : Option iotx_mqtt_topic_info_t) : List (Int × Int) :=
  match topicName, topic_msg with
  | some name, some msg =>
    if 0 ≠ iotx_mc_check_topic stack (some name) TOPIC_NAME_TYPE then []
    else if c.client_state ≠ IOTX_MC_STATE_CONNECTED then []
    else
      let issued :=
        if msg.qos = IOTX_MQTT_QOS1 ∨ msg.qos = IOTX_MQTT_QOS2 then
          let r := iotx_mc_get_next_packetid c
          (r.1, r.2 % 65536, { msg with packet_id := r.2 % 65536 })
        else (c, 0, msg)
      MQTTPublish_writes codec REPUB_NUM_MAX now script issued.1 name issued.2.2
  | _, _ => []

/-- The calls of `write` made during `MQTTSubscribe`. -/
def MQTTSubscribe_writes (codec : Codec) (now : Nat) (script : List (Bool × Int))
    (c : iotx_mc_client_t) (topicFilter : List Nat) (qos msgId messageHandler pcontext : Nat) :
    List (Int × Int) :=
  let ser := codec.MQTTSerialize_subscribe c.buf_size_send 0 (msgId % 65536) topicFilter qos
  let c1 := { c with buf_send := ser.2 }
  if ser.1 ≤ 0 then []
  else
    let handler : iotx_mc_topic_handle_t := ⟨some topicFilter, ⟨messageHandler, pcontext⟩⟩
    let pushed := iotx_mc_push_subInfo_to now c1 ser.1 (msgId % 65536) SUBSCRIBE handler
    if SUCCESS_RETURN ≠ pushed.2 then []
    else iotx_mc_send_packet_writes ser.1 0 script

/-- The calls of `write` made during `iotx_mc_subscribe`. -/
def iotx_mc_subscribe_writes (codec : Codec) (now : Nat) (stack : List Nat)
    (script : List (Bool × Int)) (c : iotx_mc_client_t) (topicFilter : Option (List Nat))
    (qos topic_handle_func pcontext : Nat) : List (Int × Int) :=
  match topicFilter with
  | none => []
  | some filter =>
    if c.client_state ≠ IOTX_MC_STATE_CONNECTED then []
    else if 0 ≠ iotx_mc_check_topic stack (some filter) TOPIC_FILTER_TYPE then []
    else
      let issued := iotx_mc_get_next_packetid c
      MQTTSubscribe_writes codec now script issued.1 filter qos issued.2 topic_handle_func
        pcontext

/-- The calls of `write` made during `MQTTUnsubscribe`. -/
def MQTTUnsubscribe_writes (codec : Codec) (now : Nat) (script : List (Bool × Int))
    (c : iotx_mc_client_t) (topicFilter : List Nat) (msgId : Nat) : List (Int × Int) :=
  let ser := codec.MQTTSerialize_unsubscribe c.buf_size_send 0 (msgId % 65536) topicFilter
  let c1 := { c with buf_send := ser.2 }
  if ser.1 ≤ 0 then []
  else
    let handler : iotx_mc_topic_handle_t := ⟨some topicFilter, ⟨0, 0⟩⟩
    let pushed := iotx_mc_push_subInfo_to now c1 ser.1 (msgId % 65536) UNSUBSCRIBE handler
    if SUCCESS_RETURN ≠ pushed.2 then []
    else iotx_mc_send_packet_writes ser.1 0 script

/-- The calls of `write` made during `iotx_mc_unsubscribe`. -/
def iotx_mc_unsubscribe_writes (codec : Codec) (now : Nat) (stack : List Nat)
    (script : List (Bool × Int)) (c : iotx_mc_client_t) (topicFilter : Option (List Nat)) :
    List (Int × Int) :=
  match topicFilter with
  | none => []
  | some filter =>
    if 0 ≠ iotx_mc_check_topic stack (some filter) TOPIC_FILTER_TYPE then []
    else if c.client_state ≠ IOTX_MC_STATE_CONNECTED then []
    else
      let issued := iotx_mc_get_next_packetid c
      MQTTUnsubscribe_writes codec now script issued.1 filter issued.2

/-! ## Notions used by the statements -/

/-- The client after `n` calls of `iotx_mc_get_next_packetid`. -/
def packetid_calls : Nat → iotx_mc_client_t → iotx_mc_client_t
  | 0, c => c
  | n + 1, c => (iotx_mc_get_next_packetid (packetid_calls n c)).1

/-- One failed reconnect attempt: the deadline has expired (the clock stands at the
deadline), `iotx_auth` returns 0 and the transport connect fails. -/
def reconnect_failure (codec : Codec) (c : iotx_mc_client_t) : iotx_mc_client_t :=
  (iotx_mc_handle_reconnect codec c.reconnect_param.reconnect_next_time 0
    ⟨FAIL_RETURN, [], SUCCESS_RETURN⟩ c).1

/-- The client after `k` consecutive failed reconnect attempts. -/
def reconnect_failures (codec : Codec) : Nat → iotx_mc_client_t → iotx_mc_client_t
  | 0, c => c
  | k + 1, c => reconnect_failure codec (reconnect_failures codec k c)

/-- The subscription tables of `N` slots reachable from the cleared table of
`iotx_mc_init` by install steps of SUBACK handling (reached only with a non-NULL
filter and callback) and removal steps of UNSUBACK handling. -/
inductive table_reachable (N : Nat) : List iotx_mc_topic_handle_t → Prop where
  | init : table_reachable N (List.replicate N empty_topic_handle)
  | install (t : List iotx_mc_topic_handle_t) (h : iotx_mc_topic_handle_t) :
      table_reachable N t → h.handle.h_fp ≠ 0 → h.topic_filter ≠ none →
      table_reachable N (suback_install t h).1
  | remove (t t1 : List iotx_mc_topic_handle_t) (h : iotx_mc_topic_handle_t) :
      table_reachable N t → unsuback_remove t h = some t1 → table_reachable N t1

/-- The filter "/sensors/+/temp" of scenario S2. -/
def sensors_filter : List Nat := [47, 115, 101, 110, 115, 111, 114, 115, 47, 43, 47, 116, 101, 109, 112]

/-- The topic "/sensors/17/temp" of scenario S2. -/
def sensors_topic : List Nat := [47, 115, 101, 110, 115, 111, 114, 115, 47, 49, 55, 47, 116, 101, 109, 112]

/-- The topic "/sensors/17/temp/x" of scenario S2. -/
def sensors_topic_x : List Nat := sensors_topic ++ [47, 120]

/-- What `iotx_mc_check_rule` accepts as one item of a filter: a single `+`, a single
`#`, or printable bytes without wildcard. -/
def ruleOK (t : List Nat) : Bool :=
  decide (t = [43]) || decide (t = [35]) || t.all plainByte

/-- What the loop of `iotx_mc_check_topic` accepts as the items still to come, given
the flag `mask`. -/
def loopOK : Nat → List (List Nat) → Prop
  | _, [] => True
  | mask, t :: ts => mask ≠ 1 ∧ ruleOK t = true ∧ loopOK (if t.head? = some 35 then 1 else mask) ts

/-- The first item of the list is a lone `#` and further items follow it. -/
def hashLeadsFurther : List (List Nat) → Bool
  | [35] :: _ :: _ => true
  | _ => false

/-- A transport that accepts the write of a whole packet of `length` bytes at once,
before the timer of the send has expired. -/
def transport_accepts (length : Int) (script : List (Bool × Int)) : Bool :=
  decide (script.head? = some (false, length))

/-- What the codec makes of the PUBLISH that `iotx_mc_publish` sends under packet
id `id`: the length returned and the bytes left in the send buffer. -/
def publish_serialized (codec : Codec) (c : iotx_mc_client_t) (name : List Nat)
    (msg : iotx_mqtt_topic_info_t) (id : Nat) : Int × List Nat :=
  codec.MQTTSerialize_publish c.buf_size_send 0 msg.qos msg.retain id name msg.payload

/-- A sub-inflight entry is live and its age at `now` exceeds twice the request
timeout of the client. -/
def sub_timed_out (now : Nat) (c : iotx_mc_client_t) (e : iotx_mc_subsribe_info_t) : Bool :=
  decide (e.node_state = IOTX_MC_NODE_STATE_NORMANL) &&
    decide (now - e.sub_start_time > 2 * c.request_timeout_ms)

/-- A sub-inflight entry is live and its age at `now` is at most twice the request
timeout of the client. -/
def sub_in_time (now : Nat) (c : iotx_mc_client_t) (e : iotx_mc_subsribe_info_t) : Bool :=
  decide (e.node_state = IOTX_MC_NODE_STATE_NORMANL) &&
    decide (now - e.sub_start_time ≤ 2 * c.request_timeout_ms)

/-- The timeout event of a sub-inflight entry: SubscribeTimeout for a SUBSCRIBE entry,
UnsubscribeTimeout otherwise, carrying the msg id, delivered to the event handler. -/
def sub_timeout_call (c : iotx_mc_client_t) (e : iotx_mc_subsribe_info_t) : Call :=
  ⟨c.handle_event.h_fp, c.handle_event.pcontext,
    ⟨if e.type = SUBSCRIBE then IOTX_MQTT_EVENT_SUBCRIBE_TIMEOUT
      else IOTX_MQTT_EVENT_UNSUBCRIBE_TIMEOUT, event_payload.packet e.msg_id⟩⟩

/-- The live entries of a sub-inflight table. -/
def sub_live (l : List iotx_mc_subsribe_info_t) : List iotx_mc_subsribe_info_t :=
  l.filter (fun e => decide (e.node_state = IOTX_MC_NODE_STATE_NORMANL))

/-! ## Sample values -/

/-- A sample codec: a PUBLISH is a header byte, the packet id, the topic and the
payload; every serializer reports an error (`-2`) when the buffer is too small. -/
def sample_codec : Codec where
  MQTTSerialize_publish := fun cap _ qos _ id topic payload =>
    let bytes := [48 + 2 * qos, id / 256, id % 256] ++ topic ++ payload
    if bytes.length ≤ cap then ((bytes.length : Int), bytes) else (-2, [])
  MQTTSerialize_subscribe := fun cap _ id topic qos =>
    let bytes := [130, id / 256, id % 256] ++ topic ++ [qos]
    if bytes.length ≤ cap then ((bytes.length : Int), bytes) else (-2, [])
  MQTTSerialize_unsubscribe := fun cap _ id topic =>
    let bytes := [162, id / 256, id % 256] ++ topic
    if bytes.length ≤ cap then ((bytes.length : Int), bytes) else (-2, [])
  MQTTSerialize_ack := fun cap type _ id =>
    if 4 ≤ cap then (4, [16 * type, 2, id / 256, id % 256]) else (-2, [])
  MQTTSerialize_pingreq := fun cap => if 2 ≤ cap then (2, [192, 0]) else (-2, [])
  MQTTSerialize_connect := fun cap keep =>
    if 4 ≤ cap then (4, [16, 2, keep / 256, keep % 256]) else (-2, [])

/-- A sample binding: the filter "/sensors/+/temp", callback 7, context 1. -/
def sample_binding : iotx_mc_topic_handle_t := ⟨some sensors_filter, ⟨7, 1⟩⟩

/-- A sample client: connected, request timeout 2000 ms, a table of two slots with
`sample_binding` in slot 0, no publish in flight, a SUBSCRIBE sent at 0 ms and an
UNSUBSCRIBE sent at 5000 ms in flight, event callback 9 with context 2. -/
def sample_client : iotx_mc_client_t where
  packet_id := 2
  request_timeout_ms := 2000
  buf_size_send := 64
  buf_size_read := 64
  buf_send := []
  sub_handle := [sample_binding, empty_topic_handle]
  next_ping_time := 60000
  ping_mark := 0
  client_state := IOTX_MC_STATE_CONNECTED
  reconnect_param := ⟨0, 1000⟩
  keepAliveInterval := 60
  list_pub_wait_ack := []
  list_sub_wait_ack :=
    [⟨SUBSCRIBE, 1, 0, IOTX_MC_NODE_STATE_NORMANL, sample_binding, 0, []⟩,
     ⟨UNSUBSCRIBE, 2, 5000, IOTX_MC_NODE_STATE_NORMANL, ⟨some sensors_filter, ⟨0, 0⟩⟩, 0, []⟩]
  handle_event := ⟨9, 2⟩

/-- A sample message: QoS 1, payload "hi". -/
def sample_msg : iotx_mqtt_topic_info_t := ⟨0, 1, 0, 0, none, [104, 105]⟩

/-- A sample turn of the service loop at 100 ms that reads a PUBACK for packet 3
from a transport that accepts every write. -/
def sample_puback_env : yield_env where
  now := 100
  read_rc := SUCCESS_RETURN
  packetType := PUBACK
  ack := some 3
  suback := none
  unsuback := none
  publish := none
  stack_handler := empty_topic_handle
  ack_script := []
  repub_scripts := []
  ping_script := []
  auth_rc := 0
  conn := ⟨SUCCESS_RETURN, [], SUCCESS_RETURN⟩

/-! ## Notions used by the statements about requests -/

/-- The packet-id step of `iotx_mc_publish`: the client, the local `msg_id` (a
`uint16_t`, 0 unless the QoS is 1 or 2) and the message handed to `MQTTPublish`. -/
def publish_issued (c : iotx_mc_client_t) (msg : iotx_mqtt_topic_info_t) :
    iotx_mc_client_t × Nat × iotx_mqtt_topic_info_t :=
  if msg.qos = IOTX_MQTT_QOS1 ∨ msg.qos = IOTX_MQTT_QOS2 then
    ((iotx_mc_get_next_packetid c).1, (iotx_mc_get_next_packetid c).2 % 65536,
      { msg with packet_id := (iotx_mc_get_next_packetid c).2 % 65536 })
  else (c, 0, msg)

/-- The end that `iotx_mc_publish`, `iotx_mc_subscribe` and `iotx_mc_unsubscribe`
share: `r` is the client and the `rc` left by the inner call, `id` the value returned
on success.  A network error sets the state to DISCONNECTED. -/
def request_outcome (r : iotx_mc_client_t × Int) (id : Int) : iotx_mc_client_t × Int :=
  if r.2 ≠ SUCCESS_RETURN then
    if r.2 = MQTT_NETWORK_ERROR then
      ({ r.1 with client_state := IOTX_MC_STATE_DISCONNECTED }, r.2)
    else (r.1, r.2)
  else (r.1, id)

/-! ## Sample runs -/

/-- Sample parameters for `iotx_mc_init`: keep-alive 60 s, request timeout 2000 ms,
buffers of 64 bytes, event callback 9 with context 2. -/
def sample_params : iotx_mqtt_param_t := ⟨60000, 2000, [], 64, 64, ⟨9, 2⟩⟩

/-- A client fresh from `iotx_mc_init` (two slots, keep-alive limits 60 s and 180 s)
and connected at 0 ms by `iotx_mc_connect`. -/
def sample_connected : iotx_mc_client_t :=
  (iotx_mc_connect sample_codec 0 ⟨SUCCESS_RETURN, [(false, 4)], SUCCESS_RETURN⟩
    (iotx_mc_init 2 60 180 SUCCESS_RETURN sample_params).1).1

/-- What a keep-alive tick at `now` meets when the network is down: no write is
accepted, `iotx_auth` returns 0 and the transport connect fails. -/
def network_down (now : Nat) : yield_env where
  now := now
  read_rc := SUCCESS_RETURN
  packetType := MQTT_CPT_RESERVED
  ack := none
  suback := none
  unsuback := none
  publish := none
  stack_handler := empty_topic_handle
  ack_script := []
  repub_scripts := []
  ping_script := []
  auth_rc := 0
  conn := ⟨FAIL_RETURN, [], SUCCESS_RETURN⟩

/-- The client after the runs of `iotx_mc_keepalive` that meet the given answers,
one after the other. -/
def keepalive_ticks (codec : Codec) : List yield_env → iotx_mc_client_t → iotx_mc_client_t
  | [], c => c
  | env :: rest, c => keepalive_ticks codec rest (iotx_mc_keepalive codec env c).1

/-- A turn of the service loop at `now` that reads one acknowledgement of the given
kind, parsed as `suback` or `unsuback`, while nothing else happens. -/
def ack_turn (now kind : Nat) (suback : Option (Nat × Int)) (unsuback : Option Nat) :
    yield_env where
  now := now
  read_rc := SUCCESS_RETURN
  packetType := kind
  ack := none
  suback := suback
  unsuback := unsuback
  publish := none
  stack_handler := empty_topic_handle
  ack_script := []
  repub_scripts := []
  ping_script := []
  auth_rc := 0
  conn := ⟨SUCCESS_RETURN, [], SUCCESS_RETURN⟩

/-- The run on `sample_connected`, over a transport that takes every packet whole:
`iotx_mc_subscribe` of filter `F` with callback `H` and context `ctx` at 10 ms, the
SUBACK for its packet id (granted QoS 0) read at 20 ms, `iotx_mc_unsubscribe` of `F`
at 30 ms, and the UNSUBACK for its packet id read at 40 ms.  The result is the
client at the end. -/
def subscribed_then_unsubscribed (F : List Nat) (H ctx : Nat) : Option iotx_mc_client_t :=
  let s := iotx_mc_subscribe sample_codec 10 [] [(false, (F.length : Int) + 4)]
    sample_connected (some F) 0 H ctx
  match yield_turn sample_codec (ack_turn 20 SUBACK (some (s.2.toNat, 0)) none) s.1 with
  | none => none
  | some (c2, _, _) =>
    let u := iotx_mc_unsubscribe sample_codec 30 [] [(false, (F.length : Int) + 3)] c2 (some F)
    match yield_turn sample_codec (ack_turn 40 UNSUBACK none (some u.2.toNat)) u.1 with
    | none => none
    | some (c4, _, _) => some c4

/-! ## Notions and samples for the sweeps and for reading -/

/-- The answers met by one run of `iotx_mc_cycle` when `iotx_mc_read_packet` runs on
the transport script `reads`: its result and the packet type it stores (the local
`packetType` keeps what it held when nothing is stored). -/
def env_of_reads (env : yield_env) (buf_size_read : Nat) (reads : List (Int × List Nat)) :
    yield_env :=
  { env with
    read_rc := (iotx_mc_read_packet buf_size_read reads).1,
    packetType := ((iotx_mc_read_packet buf_size_read reads).2.1).getD env.packetType }

/-- One run of `iotx_mc_cycle` that reads from the transport script `reads`. -/
def cycle_on_reads (codec : Codec) (env : yield_env) (reads : List (Int × List Nat))
    (c : iotx_mc_client_t) : Option (iotx_mc_client_t × List Call × Int) :=
  iotx_mc_cycle codec (env_of_reads env c.buf_size_read reads) c

/-- A malformed packet on the wire: the header byte of a PUBLISH followed by a
remaining-length field whose four bytes all have the continuation bit set. -/
def malformed_reads : List (Int × List Nat) :=
  [(1, [48]), (1, [255]), (1, [255]), (1, [255]), (1, [255]), (1, [1])]

/-! ## Notions for the packet ids in flight -/

/-- The packet ids of the entries of the pub-inflight table, live or not. -/
def pub_ids (c : iotx_mc_client_t) : List Nat := c.list_pub_wait_ack.map (fun e => e.msg_id)

/-- The packet ids of the entries of the sub-inflight table, live or not. -/
def sub_ids (c : iotx_mc_client_t) : List Nat := c.list_sub_wait_ack.map (fun e => e.msg_id)

/-- A step from `c` to `c1` that issues no packet id and brings no new id into the
in-flight tables. -/
def ids_kept (c1 c : iotx_mc_client_t) : Prop :=
  c1.packet_id = c.packet_id ∧ pub_ids c1 ⊆ pub_ids c ∧ sub_ids c1 ⊆ sub_ids c

/-! ## Runs of the client -/

/-- The number of packet ids a step from `c` to `c1` has issued: one when the counter
has moved, none otherwise. -/
def issued_count (c c1 : iotx_mc_client_t) : Nat :=
  if c1.packet_id = c.packet_id then 0 else 1

/-- The clients reached from `c0` by a sequence of `iotx_mc_publish` (of a message
whose QoS is one of the three enumerators), `iotx_mc_subscribe`, `iotx_mc_unsubscribe`
and turns of the service loop (which handle the inbound acknowledgements, sweep both
in-flight tables and run the keep-alive); the index counts the packet ids issued on
the way. -/
inductive client_run (codec : Codec) (REPUB_NUM_MAX : Nat) (c0 : iotx_mc_client_t) :
    Nat → iotx_mc_client_t → Prop where
  | start : client_run codec REPUB_NUM_MAX c0 0 c0
  | publish (n : Nat) (c : iotx_mc_client_t) (now : Nat) (stack : List Nat)
      (script : List (Bool × Int)) (topic : Option (List Nat)) (msg : iotx_mqtt_topic_info_t) :
      client_run codec REPUB_NUM_MAX c0 n c → msg.qos ≤ IOTX_MQTT_QOS2 →
      client_run codec REPUB_NUM_MAX c0
        (n + issued_count c
          (iotx_mc_publish codec REPUB_NUM_MAX now stack script c topic (some msg)).1)
        (iotx_mc_publish codec REPUB_NUM_MAX now stack script c topic (some msg)).1
  | subscribe (n : Nat) (c : iotx_mc_client_t) (now : Nat) (stack : List Nat)
      (script : List (Bool × Int)) (topic : Option (List Nat)) (qos H ctx : Nat) :
      client_run codec REPUB_NUM_MAX c0 n c →
      client_run codec REPUB_NUM_MAX c0
        (n + issued_count c (iotx_mc_subscribe codec now stack script c topic qos H ctx).1)
        (iotx_mc_subscribe codec now stack script c topic qos H ctx).1
  | unsubscribe (n : Nat) (c : iotx_mc_client_t) (now : Nat) (stack : List Nat)
      (script : List (Bool × Int)) (topic : Option (List Nat)) :
      client_run codec REPUB_NUM_MAX c0 n c →
      client_run codec REPUB_NUM_MAX c0
        (n + issued_count c (iotx_mc_unsubscribe codec now stack script c topic).1)
        (iotx_mc_unsubscribe codec now stack script c topic).1
  | yield (n : Nat) (c : iotx_mc_client_t) (env : yield_env)
      (r : iotx_mc_client_t × List Call × Int) :
      client_run codec REPUB_NUM_MAX c0 n c → yield_turn codec env c = some r →
      client_run codec REPUB_NUM_MAX c0 n r.1

/-- A sample message that does not fit the send buffer of the sample client: QoS 1,
a payload of 100 bytes. -/
def oversize_msg : iotx_mqtt_topic_info_t := ⟨0, 1, 0, 0, none, List.replicate 100 0⟩

/-- The client after `k` calls of `iotx_mc_publish` with `oversize_msg` on
"/sensors/17/temp": each call issues a packet id and then fails in the serializer. -/
def oversize_publishes (codec : Codec) (REPUB_NUM_MAX : Nat) : Nat → iotx_mc_client_t → iotx_mc_client_t
  | 0, c => c
  | k + 1, c =>
    (iotx_mc_publish codec REPUB_NUM_MAX 0 [] [] (oversize_publishes codec REPUB_NUM_MAX k c)
      (some sensors_topic) (some oversize_msg)).1

/-- The sample run to a reissued id: on `sample_connected`, one publish of the QoS 1
sample message at 10 ms, which is sent under packet id 1 and never acknowledged. -/
def sample_unacked : iotx_mc_client_t :=
  (iotx_mc_publish sample_codec 4 10 [] [(false, 21)] sample_connected (some sensors_topic)
    (some sample_msg)).1

/-! ## Notions and samples for the reconnect, the table and the delivery -/

/-- The number of calls of the transport `connect` made during
`iotx_mc_handle_reconnect`: none while the deadline has not expired or when
`iotx_auth` fails, otherwise the one of `iotx_mc_connect`. -/
def iotx_mc_handle_reconnect_connects (now : Nat) (auth_rc : Int) (pClient : iotx_mc_client_t) :
    Nat :=
  if utils_time_is_expired pClient.reconnect_param.reconnect_next_time now = false then 0
  else if 0 ≠ auth_rc then 0
  else 1

/-- The sample client while it waits to reconnect: deadline 61000 ms, interval 1000 ms. -/
def sample_reconnecting : iotx_mc_client_t :=
  { sample_client with
    client_state := IOTX_MC_STATE_DISCONNECTED_RECONNECTING,
    reconnect_param := ⟨61000, 1000⟩ }

/-- A slot whose callback `iotx_mc_deliver_message` invokes for the topic: the filter
is not NULL, it equals or matches the topic, and the callback is not NULL. -/
def slot_invoked (topicName : List Nat) (slot : iotx_mc_topic_handle_t) : Bool :=
  match slot.topic_filter with
  | none => false
  | some filter => slot_topic_test filter topicName && decide (slot.handle.h_fp ≠ 0)

/-- The invocation of the callback of a slot with the context of the slot and a
PublishReceived event for the message. -/
def slot_call (topic_msg : iotx_mqtt_topic_info_t) (slot : iotx_mc_topic_handle_t) : Call :=
  ⟨slot.handle.h_fp, slot.handle.pcontext,
    ⟨IOTX_MQTT_EVENT_PUBLISH_RECVEIVED, event_payload.topic_msg topic_msg⟩⟩

/-- A second sample binding: the filter "/a", callback 8, context 3. -/
def other_binding : iotx_mc_topic_handle_t := ⟨some [47, 97], ⟨8, 3⟩⟩

/-- A third sample binding: the filter "/b", callback 6, context 4. -/
def third_binding : iotx_mc_topic_handle_t := ⟨some [47, 98], ⟨6, 4⟩⟩

/-- The sample client with `sample_binding` in slot 0, slot 1 cleared, and one
SUBSCRIBE of `other_binding` in flight under packet id 4. -/
def sample_second_subscribe : iotx_mc_client_t :=
  { sample_client with
    list_sub_wait_ack := [⟨SUBSCRIBE, 4, 0, IOTX_MC_NODE_STATE_NORMANL, other_binding, 0, []⟩] }

/-- The same with a full table: `sample_binding` in slot 0 and `third_binding` in
slot 1. -/
def sample_full_table : iotx_mc_client_t :=
  { sample_second_subscribe with sub_handle := [sample_binding, third_binding] }

/-- The sample client with two publishes in flight: packet id 5, acknowledged (marked
Invalid), at the head, and packet id 6, live, sent at 0 ms, at the tail. -/
def sample_acked_client : iotx_mc_client_t :=
  { sample_client with
    list_pub_wait_ack :=
      [⟨0, IOTX_MC_NODE_STATE_INVALID, 5, 21, []⟩, ⟨0, IOTX_MC_NODE_STATE_NORMANL, 6, 21, []⟩] }

/-! ## Locks and callbacks

What the invoking thread does to the four mutexes of a client, and where it invokes
a user callback, in the functions that invoke one. -/

/-- The four mutexes of `iotx_mc_client_t`. -/
inductive client_lock where
  | lock_generic
  | lock_list_pub
  | lock_list_sub
  | lock_write_buf
  deriving DecidableEq, Repr

open client_lock

/-- One step that matters for the locks: `HAL_MutexLock`, `HAL_MutexUnlock`, or the
invocation of a user callback. -/
inductive sync_event where
  | lock (l : client_lock)
  | unlock (l : client_lock)
  | callback (call : Call)
  deriving DecidableEq, Repr

/-- The locks held after a step. -/
def held_after (held : List client_lock) : sync_event → List client_lock
  | sync_event.lock l => l :: held
  | sync_event.unlock l => held.erase l
  | sync_event.callback _ => held

/-- The locks held at the end of a sequence of steps. -/
def held_at_end : List client_lock → List sync_event → List client_lock
  | held, [] => held
  | held, e :: rest => held_at_end (held_after held e) rest

/-- The callbacks invoked during a sequence of steps, each with the locks the
invoking thread holds at that moment. -/
def held_at_callbacks : List client_lock → List sync_event → List (Call × List client_lock)
  | _, [] => []
  | held, sync_event.callback call :: rest => (call, held) :: held_at_callbacks held rest
  | held, sync_event.lock l :: rest => held_at_callbacks (l :: held) rest
  | held, sync_event.unlock l :: rest => held_at_callbacks (held.erase l) rest

/-- The steps of `iotx_mc_get_client_state`. -/
def iotx_mc_get_client_state_sync : List sync_event :=
  [sync_event.lock lock_generic, sync_event.unlock lock_generic]

/-- The steps of `iotx_mc_mask_pubInfo_from`. -/
def iotx_mc_mask_pubInfo_from_sync : List sync_event :=
  [sync_event.lock lock_list_pub, sync_event.unlock lock_list_pub]

/-- The steps of `iotx_mc_mask_subInfo_from` (the iterator is allocated). -/
def iotx_mc_mask_subInfo_from_sync : List sync_event :=
  [sync_event.lock lock_list_sub, sync_event.unlock lock_list_sub]

/-- The steps of the `for` loop of `iotx_mc_deliver_message` over the slots: for a
slot that passes the test the lock is released, the callback is invoked when it is
not NULL, and the lock is taken again. -/
def deliver_loop_sync (topicName : List Nat) (topic_msg : iotx_mqtt_topic_info_t) :
    List iotx_mc_topic_handle_t → List sync_event
  | [] => []
  | slot :: rest =>
    match slot.topic_filter with
    | none => deliver_loop_sync topicName topic_msg rest
    | some filter =>
      if slot_topic_test filter topicName then
        [sync_event.unlock lock_generic] ++
          (if slot.handle.h_fp ≠ 0 then
            [sync_event.callback ⟨slot.handle.h_fp, slot.handle.pcontext,
              ⟨IOTX_MQTT_EVENT_PUBLISH_RECVEIVED, event_payload.topic_msg topic_msg⟩⟩]
          else []) ++
          [sync_event.lock lock_generic] ++ deliver_loop_sync topicName topic_msg rest
      else deliver_loop_sync topicName topic_msg rest

/-- The steps of `iotx_mc_deliver_message`. -/
def iotx_mc_deliver_message_sync (c : iotx_mc_client_t) (topicName : List Nat)
    (topic_msg : iotx_mqtt_topic_info_t) : List sync_event :=
  let topic_msg1 := { topic_msg with ptopic := some topicName }
  [sync_event.lock lock_generic] ++ deliver_loop_sync topicName topic_msg1 c.sub_handle ++
    [sync_event.unlock lock_generic] ++
    (if (deliver_loop topicName topic_msg1 c.sub_handle 0).2 = 0 then
      (event_call_guarded c IOTX_MQTT_EVENT_PUBLISH_RECVEIVED
        (event_payload.topic_msg topic_msg1)).map sync_event.callback
    else [])

/-- The steps of `iotx_mc_handle_recv_PUBACK`. -/
def iotx_mc_handle_recv_PUBACK_sync (env : yield_env) (c : iotx_mc_client_t) :
    List sync_event :=
  match env.ack with
  | none => []
  | some mypacketid =>
    iotx_mc_mask_pubInfo_from_sync ++
      (event_call_guarded (iotx_mc_mask_pubInfo_from c mypacketid)
        IOTX_MQTT_EVENT_PUBLISH_SUCCESS (event_payload.packet mypacketid)).map
          sync_event.callback

/-- The steps of `iotx_mc_handle_recv_SUBACK`.  The exit "NOT more @sub_handle
space!" returns without `HAL_MutexUnlock`. -/
def iotx_mc_handle_recv_SUBACK_sync (env : yield_env) (c : iotx_mc_client_t) :
    List sync_event :=
  match env.suback with
  | none => []
  | some (mypacketid, grantedQoS) =>
    if grantedQoS = 128 then
      [sync_event.callback
        (event_call c IOTX_MQTT_EVENT_SUBCRIBE_NACK (event_payload.packet mypacketid))]
    else
      let r := iotx_mc_mask_subInfo_from c mypacketid empty_topic_handle
      let messagehandler := r.2
      if messagehandler.handle.h_fp = 0 ∨ messagehandler.topic_filter = none then
        iotx_mc_mask_subInfo_from_sync
      else
        match suback_install r.1.sub_handle messagehandler with
        | (_, false) => iotx_mc_mask_subInfo_from_sync ++ [sync_event.lock lock_generic]
        | (table, true) =>
          iotx_mc_mask_subInfo_from_sync ++
            [sync_event.lock lock_generic, sync_event.unlock lock_generic] ++
            (event_call_guarded { r.1 with sub_handle := table }
              IOTX_MQTT_EVENT_SUBCRIBE_SUCCESS (event_payload.packet mypacketid)).map
                sync_event.callback

/-- The steps of `iotx_mc_handle_recv_UNSUBACK`: `lock_generic` is taken before the
removal loop and released after the event callback. -/
def iotx_mc_handle_recv_UNSUBACK_sync (env : yield_env) (c : iotx_mc_client_t) :
    Option (List sync_event) :=
  match env.unsuback with
  | none => some []
  | some mypacketid =>
    let r := iotx_mc_mask_subInfo_from c mypacketid env.stack_handler
    match unsuback_remove r.1.sub_handle r.2 with
    | none => none
    | some table =>
      some (iotx_mc_mask_subInfo_from_sync ++ [sync_event.lock lock_generic] ++
        (event_call_guarded { r.1 with sub_handle := table }
          IOTX_MQTT_EVENT_UNSUBCRIBE_SUCCESS (event_payload.packet mypacketid)).map
            sync_event.callback ++
        [sync_event.unlock lock_generic])

/-- The steps of the `for (;;)` loop of `MQTTSubInfoProc` over the nodes in visiting
order: for a node that has timed out the lock of the list is released, the event
callback is invoked when it is not NULL, and the lock is taken again. -/
def MQTTSubInfoProc_loop_sync (now : Nat) (pClient : iotx_mc_client_t) :
    List iotx_mc_subsribe_info_t → List sync_event
  | [] => []
  | subInfo :: rest =>
    let r := MQTTSubInfoProc_loop_sync now pClient rest
    if subInfo.node_state = IOTX_MC_NODE_STATE_INVALID then r
    else if pClient.client_state ≠ IOTX_MC_STATE_CONNECTED then
      iotx_mc_get_client_state_sync ++ r
    else if utils_time_spend subInfo.sub_start_time now
        ≤ (pClient.request_timeout_ms * 2) % UINT32_MOD then
      iotx_mc_get_client_state_sync ++ r
    else
      let calls :=
        if subInfo.type = SUBSCRIBE then
          event_call_guarded pClient IOTX_MQTT_EVENT_SUBCRIBE_TIMEOUT
            (event_payload.packet subInfo.msg_id)
        else
          event_call_guarded pClient IOTX_MQTT_EVENT_UNSUBCRIBE_TIMEOUT
            (event_payload.packet subInfo.msg_id)
      iotx_mc_get_client_state_sync ++ [sync_event.unlock lock_list_sub] ++
        calls.map sync_event.callback ++ [sync_event.lock lock_list_sub] ++ r

/-- The steps of `MQTTSubInfoProc` (the iterator is allocated). -/
def MQTTSubInfoProc_sync (now : Nat) (pClient : iotx_mc_client_t) : List sync_event :=
  if pClient.list_sub_wait_ack.length = 0 then
    [sync_event.lock lock_list_sub, sync_event.unlock lock_list_sub]
  else
    [sync_event.lock lock_list_sub] ++
      MQTTSubInfoProc_loop_sync now pClient pClient.list_sub_wait_ack.reverse ++
      [sync_event.unlock lock_list_sub]

/-! ## Concurrent calls of `MQTTPublish`

Several threads call `MQTTPublish` on one client.  A thread advances by atomic
steps: `HAL_MutexLock(c->lock_write_buf)`, which only a thread that finds the lock
free can take; the serialization into the send buffer, with the push for QoS above
0; each turn of the loop of `iotx_mc_send_packet`; the exit, which releases the lock.
A scheduler picks the thread that takes the next step. -/

/-- The arguments of one call of `MQTTPublish`, and what the calling thread meets in
the loop of `iotx_mc_send_packet`: for each turn whether its timer has expired, and
the value `write` returns. -/
structure publish_call where
  topicName : List Nat
  topic_msg : iotx_mqtt_topic_info_t
  script : List (Bool × Int)
  deriving DecidableEq, Repr

/-- Where a thread stands in `MQTTPublish`: before `HAL_MutexLock`; holding the lock,
before `MQTTSerialize_publish`; in the loop of `iotx_mc_send_packet` with the locals
`length` and `sent` and the turns still to come; after the return. -/
inductive publish_pc where
  | entry
  | locked
  | sending (length sent : Int) (script : List (Bool × Int))
  | returned (rc : Int)
  deriving DecidableEq, Repr

/-- The client shared by the threads, the thread that holds `lock_write_buf`, the
bytes the transport has taken so far, the threads in the order in which they took the
lock, and where each thread stands. -/
structure publish_state where
  c : iotx_mc_client_t
  write_buf_owner : Option Nat
  wire : List Nat
  acquired : List Nat
  pcs : Nat → publish_pc

/-- Modelled from the spec: the transport is not among the sources;
`write(buf, len, timeout)` returns the number of bytes written, and the bytes written
are the first ones at `buf`, here `&buf_send[sent]`. -/
def transport_taken (buf_send : List Nat) (sent rc : Int) : List Nat :=
  (buf_send.drop sent.toNat).take rc.toNat

/-- The end of `iotx_mc_send_packet` and of `MQTTPublish` after it: the result is
success when `sent == length`; otherwise the node pushed for QoS above 0 is removed;
the lock is released. -/
def MQTTPublish_finish (call : publish_call) (length sent : Int) (tid : Nat)
    (s : publish_state) : publish_state :=
  if sent = length then
    { s with
      write_buf_owner := none,
      pcs := Function.update s.pcs tid (publish_pc.returned SUCCESS_RETURN) }
  else
    { s with
      c := if call.topic_msg.qos > IOTX_MQTT_QOS0 then
          { s.c with list_pub_wait_ack := s.c.list_pub_wait_ack.dropLast }
        else s.c,
      write_buf_owner := none,
      pcs := Function.update s.pcs tid (publish_pc.returned MQTT_NETWORK_ERROR) }

/-- One step of the thread `tid` in its call of `MQTTPublish`.  A thread that finds
the lock taken stays where it is. -/
def MQTTPublish_step (codec : Codec) (REPUB_NUM_MAX now : Nat) (calls : List publish_call)
    (tid : Nat) (s : publish_state) : publish_state :=
  match calls[tid]? with
  | none => s
  | some call =>
    match s.pcs tid with
    | publish_pc.entry =>
      if s.write_buf_owner = none then
        { s with
          write_buf_owner := some tid,
          acquired := s.acquired ++ [tid],
          pcs := Function.update s.pcs tid publish_pc.locked }
      else s
    | publish_pc.locked =>
      let ser := codec.MQTTSerialize_publish s.c.buf_size_send 0 call.topic_msg.qos
        call.topic_msg.retain call.topic_msg.packet_id call.topicName call.topic_msg.payload
      let c1 := { s.c with buf_send := ser.2 }
      if ser.1 ≤ 0 then
        { s with
          c := c1,
          write_buf_owner := none,
          pcs := Function.update s.pcs tid (publish_pc.returned MQTT_PUBLISH_PACKET_ERROR) }
      else
        let pushed :=
          if call.topic_msg.qos > IOTX_MQTT_QOS0 then
            iotx_mc_push_pubInfo_to REPUB_NUM_MAX now c1 ser.1 call.topic_msg.packet_id
          else (c1, SUCCESS_RETURN)
        if pushed.2 ≠ SUCCESS_RETURN then
          { s with
            c := pushed.1,
            write_buf_owner := none,
            pcs := Function.update s.pcs tid (publish_pc.returned MQTT_PUSH_TO_LIST_ERROR) }
        else
          { s with
            c := pushed.1,
            pcs := Function.update s.pcs tid (publish_pc.sending ser.1 0 call.script) }
    | publish_pc.sending length sent script =>
      match script with
      | [] => MQTTPublish_finish call length sent tid s
      | (expired, rc) :: rest =>
        if sent < length ∧ expired = false then
          if rc < 0 then MQTTPublish_finish call length sent tid s
          else
            { s with
              wire := s.wire ++ transport_taken s.c.buf_send sent rc,
              pcs := Function.update s.pcs tid (publish_pc.sending length (sent + rc) rest) }
        else MQTTPublish_finish call length sent tid s
    | publish_pc.returned _ => s

/-- The steps taken under a schedule, the list of the threads picked in turn. -/
def MQTTPublish_run (codec : Codec) (REPUB_NUM_MAX now : Nat) (calls : List publish_call) :
    List Nat → publish_state → publish_state
  | [], s => s
  | tid :: rest, s =>
    MQTTPublish_run codec REPUB_NUM_MAX now calls rest
      (MQTTPublish_step codec REPUB_NUM_MAX now calls tid s)

/-- The state before any thread has taken a step: the lock is free and nothing has
been written. -/
def publish_start (c : iotx_mc_client_t) : publish_state :=
  ⟨c, none, [], [], fun _ => publish_pc.entry⟩

/-- What `MQTTSerialize_publish` makes of a call: the length and the send buffer. -/
def call_serialized (codec : Codec) (buf_size_send : Nat) (call : publish_call) :
    Int × List Nat :=
  codec.MQTTSerialize_publish buf_size_send 0 call.topic_msg.qos call.topic_msg.retain
    call.topic_msg.packet_id call.topicName call.topic_msg.payload

/-- The serialized PUBLISH packet of a call: the first `len` bytes of the send buffer
after `MQTTSerialize_publish`. -/
def call_packet (codec : Codec) (buf_size_send : Nat) (call : publish_call) : List Nat :=
  (call_serialized codec buf_size_send call).2.take
    (call_serialized codec buf_size_send call).1.toNat

/-- What holds of every state the threads can reach, for the bytes `chunk_of t` that
each thread has put on the wire: the wire is the chunks of the threads in the order
in which they took the lock; the chunk of a thread is a beginning of the send buffer as
its call serializes it, and the whole packet once the thread has returned success;
only the owner of the lock stands between `HAL_MutexLock` and the return, it is the
last that took the lock, and while it sends the send buffer holds its packet. -/
structure publish_inv (codec : Codec) (calls : List publish_call) (B : Nat)
    (s : publish_state) (chunk_of : Nat → List Nat) : Prop where
  wire_eq : s.wire = (s.acquired.map chunk_of).flatten
  nodup : s.acquired.Nodup
  mem_iff : ∀ t, t ∈ s.acquired ↔ s.pcs t ≠ publish_pc.entry
  bound : ∀ t, s.pcs t ≠ publish_pc.entry → t < calls.length
  size : s.c.buf_size_send = B
  done_ok : ∀ t call, calls[t]? = some call → s.pcs t = publish_pc.returned SUCCESS_RETURN →
    chunk_of t = call_packet codec B call
  owner_iff : ∀ t, s.write_buf_owner = some t ↔
    (s.pcs t = publish_pc.locked ∨ ∃ l n r, s.pcs t = publish_pc.sending l n r)
  owner_last : ∀ t, s.write_buf_owner = some t → ∃ pre, s.acquired = pre ++ [t]
  locked_ok : ∀ t, s.pcs t = publish_pc.locked → chunk_of t = []
  sending_ok : ∀ t call l n r, calls[t]? = some call → s.pcs t = publish_pc.sending l n r →
    l = (call_serialized codec B call).1 ∧
    s.c.buf_send = (call_serialized codec B call).2 ∧ 0 ≤ n ∧
    chunk_of t = (call_serialized codec B call).2.take n.toNat
  chunk_ok : ∀ t call, calls[t]? = some call →
    ∃ k, chunk_of t = (call_serialized codec B call).2.take k

/-- Three sample calls: "/a" with payload "hi" at QoS 0, "/b" with payload "yo" at
QoS 1 under packet id 7, and "/c" with an empty payload at QoS 0.  The transport
takes the first packet in two writes, of 2 and 5 bytes, and the others whole. -/
def sample_calls : List publish_call :=
  [⟨[47, 97], ⟨0, 0, 0, 0, none, [104, 105]⟩, [(false, 2), (false, 5)]⟩,
   ⟨[47, 98], ⟨7, 1, 0, 0, none, [121, 111]⟩, [(false, 7)]⟩,
   ⟨[47, 99], ⟨0, 0, 0, 0, none, []⟩, [(false, 5)]⟩]

/-- A sample schedule for three threads: thread 1 takes the lock first; threads 0 and
2 try while it is held; then thread 0 sends, with the others stepping in between. -/
def sample_schedule : List Nat :=
  [1, 0, 2, 1, 0, 1, 2, 1, 0, 2, 0, 2, 0, 1, 0, 2, 0, 2, 2, 2, 2]

/-! ## Notions for the remaining length -/

/-- The variable-byte encoding of a length in at most `fuel` bytes, by the words of the
claim: 7 data bits per byte, least-significant group first, high bit set on every
byte but the last. -/
def variable_byte_encoding_fuel : Nat → Nat → List Nat
  | 0, _ => []
  | fuel + 1, n =>
    if n / 128 > 0 then (n % 128 + 128) :: variable_byte_encoding_fuel fuel (n / 128)
    else [n % 128]

/-- The standard variable-byte encoding of a remaining length, 1 to 4 bytes. -/
def variable_byte_encoding (n : Nat) : List Nat := variable_byte_encoding_fuel 4 n

/-- A transport that supplies the given bytes, one at each read of one byte. -/
def supplied (bytes : List Nat) : List (Int × List Nat) := bytes.map (fun b => (1, [b]))

/-- The intermediate results of the loop of `iotx_mc_decode_packet`: for each turn
that reads a byte, the product `(i & 127) * multiplier`, the new `*value` and the new
`multiplier`. -/
def iotx_mc_decode_packet_sums :
    List (Int × List Nat) → Nat → Int → Int → List (Int × Int × Int)
  | [], _, _, _ => []
  | (rc, data) :: rest, len, value, multiplier =>
    if len + 1 > 4 then []
    else if rc ≠ 1 then []
    else
      let i := data.headD 0
      let value1 := value + ((i % 128 : Nat) : Int) * multiplier
      (((i % 128 : Nat) : Int) * multiplier, value1, multiplier * 128) ::
        (if (i / 128) % 2 ≠ 0 then
          iotx_mc_decode_packet_sums rest (len + 1) value1 (multiplier * 128)
        else [])

/-- A value lies in the range of a 32-bit signed `int`. -/
def in_int32 (x : Int) : Prop := -2147483648 ≤ x ∧ x ≤ 2147483647

/-! ## Notions for the lengths of the in-flight tables -/

/-- Neither in-flight table of `c1` is longer than that of `c`. -/
def lens_le (c1 c : iotx_mc_client_t) : Prop :=
  c1.list_pub_wait_ack.length ≤ c.list_pub_wait_ack.length ∧
  c1.list_sub_wait_ack.length ≤ c.list_sub_wait_ack.length

/-- Both in-flight tables are within their caps, `IOTX_MC_REPUB_NUM_MAX` and
`IOTX_MC_SUB_REQUEST_NUM_MAX`. -/
def within_caps (REPUB_NUM_MAX : Nat) (c : iotx_mc_client_t) : Prop :=
  c.list_pub_wait_ack.length ≤ REPUB_NUM_MAX ∧
  c.list_sub_wait_ack.length ≤ IOTX_MC_SUB_REQUEST_NUM_MAX

/-! ## Notions for the keep-alive tick and for the wait for CONNACK -/

/-- The number of calls of `ipstack->disconnect` made during `iotx_mc_connect`: one on
each of its failure exits, none on success. -/
def iotx_mc_connect_disconnects (codec : Codec) (cenv : connect_env)
    (pClient : iotx_mc_client_t) : Nat :=
  if SUCCESS_RETURN ≠ cenv.net_connect_rc then 1
  else if (MQTTConnect codec cenv.connect_script pClient).2 ≠ SUCCESS_RETURN then 1
  else if SUCCESS_RETURN ≠ cenv.connack_rc then 1
  else 0

/-- What `iotx_mc_keepalive` asks of the outside during one tick: the number of calls
of `iotx_auth`, of the transport `connect` and of the transport `disconnect`. -/
def iotx_mc_keepalive_outside (codec : Codec) (env : yield_env) (pClient : iotx_mc_client_t) :
    Nat × Nat × Nat :=
  let c1 := (iotx_mc_keepalive_sub codec env pClient).1
  let currentState := c1.client_state
  if IOTX_MC_STATE_DISCONNECTED_RECONNECTING = currentState then
    let c2 := { c1 with ping_mark := 0 }
    if utils_time_is_expired c2.reconnect_param.reconnect_next_time env.now = false then (0, 0, 0)
    else if 0 ≠ env.auth_rc then (1, 0, 0)
    else (1, 1, iotx_mc_connect_disconnects codec env.conn c2)
  else if IOTX_MC_STATE_DISCONNECTED = currentState then (0, 0, 1)
  else (0, 0, 0)

/-- The `do ... while` loop of `iotx_mc_wait_CONNACK` for at most `fuel` turns: the
value returned and the script that is left, or `none` when the loop is still running
after `fuel` turns.  The timer set before the loop only supplies the timeout of the
reads; the loop has no test of it.  `connack` is what `MQTTDeserialize_connack` makes
of the read buffer. -/
def iotx_mc_wait_CONNACK_loop (buf_size_read : Nat) (connack : Option (Nat × Nat)) :
    Nat → List (Int × List Nat) → Option (Int × List (Int × List Nat))
  | 0, _ => none
  | fuel + 1, reads =>
    let r := iotx_mc_read_packet buf_size_read reads
    if r.1 ≠ SUCCESS_RETURN then some (MQTT_NETWORK_ERROR, r.2.2)
    else if r.2.1 ≠ some CONNACK then
      iotx_mc_wait_CONNACK_loop buf_size_read connack fuel r.2.2
    else some (iotx_mc_handle_recv_CONNACK connack, r.2.2)

/-- The function `iotx_mc_wait_CONNACK` entered at the instant `now`, run for at most
`fuel` turns of its loop.  The timer is set to `keepAliveInterval * 1000` ms from
`now`; the code hands it to `iotx_mc_read_packet` and reads it nowhere else. -/
def iotx_mc_wait_CONNACK (fuel now : Nat) (c : iotx_mc_client_t)
    (connack : Option (Nat × Nat)) (reads : List (Int × List Nat)) :
    Option (Int × List (Int × List Nat)) :=
  let _timer := utils_time_cutdown now (c.keepAliveInterval * 1000)
  iotx_mc_wait_CONNACK_loop c.buf_size_read connack fuel reads

/-- A turn of the service loop at 61000 ms on which `iotx_auth` succeeds and the
connect succeeds: the transport connects, takes the CONNECT packet whole, and the
CONNACK is accepted. -/
def network_up : yield_env :=
  { network_down 61000 with
    auth_rc := 0,
    conn := ⟨SUCCESS_RETURN, [(false, 4)], SUCCESS_RETURN⟩ }

/-! ## Notions and samples for a refused subscription -/

/-- Some invocation of the list is made through a NULL function pointer. -/
def calls_null_pointer (calls : List Call) : Bool :=
  calls.any (fun k => decide (k.h_fp = 0))

/-- Initialisation parameters that register no event callback: `handle_event.h_fp`
is NULL. -/
def params_without_event_handle : iotx_mqtt_param_t := ⟨60000, 2000, [], 64, 64, ⟨0, 0⟩⟩

/-- A client set up by `iotx_mc_init` from `params_without_event_handle` (two slots),
connected at 0 ms, on which `iotx_mc_subscribe` of "/sensors/+/temp" with callback 7
is called at 10 ms: the client afterwards and the value returned. -/
def subscribed_without_event_handle : iotx_mc_client_t × Int :=
  iotx_mc_subscribe sample_codec 10 [] [(false, 19)]
    (iotx_mc_connect sample_codec 0 ⟨SUCCESS_RETURN, [(false, 4)], SUCCESS_RETURN⟩
      (iotx_mc_init 2 60 180 SUCCESS_RETURN params_without_event_handle).1).1
    (some sensors_filter) 0 7 1

/-! # Theorems -/

/-! ## Packet id (C3) -/

/-- The counter of a client fresh from `iotx_mc_init` is 0. -/
theorem init_packet_id (a b d : Nat) (rc : Int) (p : iotx_mqtt_param_t) :
    (iotx_mc_init a b d rc p).1.packet_id = 0 := by
  simp only [iotx_mc_init]
  split_ifs <;> rfl

/-- The counter after `n` calls, starting from 0. -/
theorem packetid_calls_closed (c : iotx_mc_client_t) (h : c.packet_id = 0) (n : Nat) :
    (packetid_calls n c).packet_id = if n = 0 then 0 else (n - 1) % 65535 + 1 := by
  induction n with
  | zero => simpa [packetid_calls] using h
  | succ k ih =>
    simp only [packetid_calls, iotx_mc_get_next_packetid, ih, IOTX_MC_PACKET_ID_MAX, UINT32_MOD]
    norm_num
    split_ifs <;> omega

/-- From a counter within 0..65535 the next id lies in 1..65535. -/
theorem next_packetid_range (c : iotx_mc_client_t) (h : c.packet_id ≤ IOTX_MC_PACKET_ID_MAX) :
    1 ≤ (iotx_mc_get_next_packetid c).2 ∧ (iotx_mc_get_next_packetid c).2 ≤ 65535 := by
  simp only [iotx_mc_get_next_packetid, IOTX_MC_PACKET_ID_MAX, UINT32_MOD] at h ⊢
  norm_num
  split_ifs <;> omega

/-- Claim C3: starting from the counter value 0 set by `iotx_mc_init`, the call number
`n` (counting from 0) of `iotx_mc_get_next_packetid` returns `n % 65535 + 1`, so every
id issued lies in 1..65535 and 0 is never issued; the counter holds the id just
returned; the id is the previous counter value plus 1, except that the call that
finds the counter at 65535 returns 1. -/
theorem packetid_sequence (a b d : Nat) (rc : Int) (p : iotx_mqtt_param_t) (n : Nat) :
    (iotx_mc_get_next_packetid (packetid_calls n (iotx_mc_init a b d rc p).1)).2
        = n % 65535 + 1 ∧
    1 ≤ (iotx_mc_get_next_packetid (packetid_calls n (iotx_mc_init a b d rc p).1)).2 ∧
    (iotx_mc_get_next_packetid (packetid_calls n (iotx_mc_init a b d rc p).1)).2 ≤ 65535 ∧
    (iotx_mc_get_next_packetid (packetid_calls n (iotx_mc_init a b d rc p).1)).1.packet_id
        = (iotx_mc_get_next_packetid (packetid_calls n (iotx_mc_init a b d rc p).1)).2 ∧
    ((packetid_calls n (iotx_mc_init a b d rc p).1).packet_id = 65535 →
      (iotx_mc_get_next_packetid (packetid_calls n (iotx_mc_init a b d rc p).1)).2 = 1) ∧
    ((packetid_calls n (iotx_mc_init a b d rc p).1).packet_id ≠ 65535 →
      (iotx_mc_get_next_packetid (packetid_calls n (iotx_mc_init a b d rc p).1)).2
        = (packetid_calls n (iotx_mc_init a b d rc p).1).packet_id + 1) := by
  have h := packetid_calls_closed _ (init_packet_id a b d rc p) n
  simp only [iotx_mc_get_next_packetid, h, IOTX_MC_PACKET_ID_MAX, UINT32_MOD]
  norm_num
  refine ⟨?_, ?_, ?_, ?_, ?_⟩
  · split_ifs <;> omega
  · split_ifs <;> omega
  · split_ifs <;> omega
  · intro h1
    split_ifs at h1 ⊢
    omega
  · intro h1
    split_ifs at h1 ⊢ <;> omega

/-! ## Reconnect backoff (C5) -/

/-- How one failed reconnect attempt changes the interval: it is doubled when it is
below the maximum and set to the maximum otherwise. -/
theorem reconnect_failure_interval (codec : Codec) (c : iotx_mc_client_t) :
    (reconnect_failure codec c).reconnect_param.reconnect_time_interval_ms =
      if 60000 > c.reconnect_param.reconnect_time_interval_ms then
        (c.reconnect_param.reconnect_time_interval_ms * 2) % 4294967296
      else 60000 := by
  simp [reconnect_failure, iotx_mc_handle_reconnect, utils_time_is_expired,
    iotx_mc_attempt_reconnect, iotx_mc_connect, SUCCESS_RETURN, FAIL_RETURN,
    ERROR_CERTIFICATE_EXPIRED, IOTX_MC_RECONNECT_INTERVAL_MAX_MS, UINT32_MOD,
    MQTT_NETWORK_CONNECT_ERROR]

/-- Claim C5 (the code at the failing input): from the interval 1000 ms armed by
`iotx_mc_keepalive` when it finds the client DISCONNECTED, the intervals after 0, 1, ..., 8
consecutive failed attempts of `iotx_mc_handle_reconnect` are 1000, 2000, 4000, 8000,
16000, 32000, 64000, 60000, 60000: after the sixth failure the interval is 64000 ms,
above `IOTX_MC_RECONNECT_INTERVAL_MAX_MS`, and not min(1000 * 2^6, 60000) = 60000. -/
theorem reconnect_backoff_sequence (codec : Codec) (env : yield_env) (c : iotx_mc_client_t) :
    (List.range 9).map (fun k =>
      (reconnect_failures codec k
        (iotx_mc_keepalive codec env
          { c with client_state := IOTX_MC_STATE_DISCONNECTED }).1).reconnect_param.reconnect_time_interval_ms)
      = [1000, 2000, 4000, 8000, 16000, 32000, 64000, 60000, 60000] := by
  have h0 : (iotx_mc_keepalive codec env
      { c with client_state := IOTX_MC_STATE_DISCONNECTED }).1.reconnect_param.reconnect_time_interval_ms
      = 1000 := by
    simp [iotx_mc_keepalive, iotx_mc_keepalive_sub, IOTX_MC_RECONNECT_INTERVAL_MIN_MS]
  simp [List.range, List.range.loop, reconnect_failures, reconnect_failure_interval, h0]

/-! ## Subscription table (C4, C10) -/

/-- A string compares equal to itself. -/
theorem strncmp_self (f : List Nat) : ∀ n, strncmp f f n = 0 := by
  induction f with
  | nil => intro n; cases n <;> simp [strncmp]
  | cons a as ih => intro n; cases n <;> simp [strncmp, ih]

/-- Strings of equal length that compare equal over that length are equal. -/
theorem strncmp_eq_zero (f1 : List Nat) : ∀ f2 : List Nat, f1.length = f2.length →
    strncmp f1 f2 f1.length = 0 → f1 = f2 := by
  induction f1 with
  | nil => intro f2 hl _; cases f2 with
    | nil => rfl
    | cons b bs => simp at hl
  | cons a as ih =>
    intro f2 hl h
    cases f2 with
    | nil => simp at hl
    | cons b bs =>
      simp only [List.length_cons, strncmp] at h hl
      by_cases hab : a = b
      · subst hab
        simp only [ne_eq, not_true_eq_false, if_false] at h
        rw [ih bs (by omega) h]
      · simp only [ne_eq, hab, not_false_eq_true, if_true] at h
        omega

/-- The identity test of the handlers holds exactly when the slot equals the handle,
filter bytes, callback and context, and the filter is not NULL. -/
theorem slot_is_identical_iff (s B : iotx_mc_topic_handle_t) :
    slot_is_identical s B = true ↔ (s = B ∧ B.topic_filter ≠ none) := by
  obtain ⟨sf, ⟨sh, sc⟩⟩ := s
  obtain ⟨bf, ⟨bh, bc⟩⟩ := B
  cases sf with
  | none =>
    simp only [slot_is_identical]
    constructor
    · intro h; simp at h
    · rintro ⟨h, h2⟩
      simp only [iotx_mc_topic_handle_t.mk.injEq] at h
      exact absurd h.1.symm h2
  | some f1 =>
    cases bf with
    | none => simp [slot_is_identical, iotx_mc_check_handle_is_identical]
    | some f2 =>
      simp only [slot_is_identical, iotx_mc_check_handle_is_identical]
      constructor
      · intro h
        simp only [ne_eq, reduceCtorEq, not_false_eq_true, decide_True, Bool.true_and,
          decide_eq_true_eq] at h
        split_ifs at h with h1 h2 h3 h4
        all_goals first | (simp at h; done) | skip
        have hf : f1 = f2 := strncmp_eq_zero f1 f2 (by simpa using h1) (by
          have := h2; simp only [ne_eq, not_not] at this; exact this.symm)
        simp only [ne_eq, not_not] at h3 h4
        simp [hf, h3, h4]
      · rintro ⟨h, -⟩
        simp only [iotx_mc_topic_handle_t.mk.injEq, Option.some.injEq,
          iotx_mqtt_event_handle_t.mk.injEq] at h
        obtain ⟨rfl, rfl, rfl⟩ := h
        simp [strncmp_self]

/-- Once `i_free` is set the scan keeps it. -/
theorem suback_scan_some (B : iotx_mc_topic_handle_t) (t : List iotx_mc_topic_handle_t) :
    ∀ (i k : Nat), (suback_scan B t i (some k)).1 = some k := by
  induction t with
  | nil => intro i k; rfl
  | cons s r ih =>
    intro i k
    by_cases h : slot_is_identical s B = true
    · simp [suback_scan, h]
    · simp [suback_scan, h, ih]

/-- The scan raises `flag_dup` exactly when some slot passes the identity test. -/
theorem suback_scan_dup (B : iotx_mc_topic_handle_t) (t : List iotx_mc_topic_handle_t) :
    ∀ (i : Nat) (f : Option Nat),
      (suback_scan B t i f).2 = t.any (fun s => slot_is_identical s B) := by
  induction t with
  | nil => intro i f; rfl
  | cons s r ih =>
    intro i f
    by_cases h : slot_is_identical s B = true
    · simp [suback_scan, h]
    · simp [suback_scan, h, ih]

/-- The install step in closed form: nothing changes when an identical occupied slot
exists; otherwise the handle is written to slot 0, whatever that slot holds. -/
theorem suback_install_eq (t : List iotx_mc_topic_handle_t) (B : iotx_mc_topic_handle_t) :
    suback_install t B =
      if t.any (fun s => slot_is_identical s B) then (t, true)
      else
        match t with
        | [] => ([], false)
        | _ :: r => (B :: r, true) := by
  cases t with
  | nil => simp [suback_install, suback_scan]
  | cons s r =>
    have hd := suback_scan_dup B (s :: r) 0 none
    by_cases h : slot_is_identical s B = true
    · simp [suback_install, suback_scan, h]
    · have h1 := suback_scan_some B r 1 0
      have hd2 := suback_scan_dup B r 1 (some 0)
      simp only [Bool.not_eq_true] at h
      simp only [suback_install, suback_scan, h, Bool.false_eq_true, if_false, zero_add,
        List.any_cons, Bool.false_or, if_true]
      generalize suback_scan B r 1 (some 0) = res at h1 hd2
      obtain ⟨a, b⟩ := res
      simp only at h1 hd2
      subst h1
      rw [← hd2]
      cases b <;> simp

/-- A cleared slot is identical to nothing. -/
theorem slot_is_identical_empty_left (B : iotx_mc_topic_handle_t) :
    slot_is_identical empty_topic_handle B = false := by
  simp [slot_is_identical, empty_topic_handle]

/-- Nothing is identical to the cleared handle. -/
theorem slot_is_identical_empty_right (s : iotx_mc_topic_handle_t) :
    slot_is_identical s empty_topic_handle = false := by
  have h := slot_is_identical_iff s empty_topic_handle
  cases hs : slot_is_identical s empty_topic_handle with
  | false => rfl
  | true => exact absurd (h.mp hs).2 (by simp [empty_topic_handle])

/-- Every reachable table has `N` slots and only slot 0 can be occupied. -/
theorem table_reachable_shape (N : Nat) (t : List iotx_mc_topic_handle_t)
    (hr : table_reachable N t) :
    t.length = N ∧ ∀ s ∈ t.tail, s = empty_topic_handle := by
  induction hr with
  | init =>
    refine ⟨by simp, ?_⟩
    intro s hs
    exact List.eq_of_mem_replicate (List.mem_of_mem_tail hs)
  | install t h _ _ _ ih =>
    rw [suback_install_eq]
    split_ifs
    · exact ih
    · cases t with
      | nil => exact ih
      | cons a r => exact ⟨by simpa using ih.1, by simpa using ih.2⟩
  | remove t t1 h _ hrem ih =>
    simp only [unsuback_remove] at hrem
    split_ifs at hrem
    simp only [Option.some.injEq] at hrem
    subst hrem
    refine ⟨by simpa using ih.1, ?_⟩
    intro s hs
    rw [← List.map_tail] at hs
    obtain ⟨a, ha, rfl⟩ := List.mem_map.mp hs
    have := ih.2 a ha
    subst this
    simp

/-- Cleared slots are pairwise not identical. -/
theorem pairwise_of_all_empty (l : List iotx_mc_topic_handle_t)
    (h : ∀ s ∈ l, s = empty_topic_handle) :
    l.Pairwise (fun a b => slot_is_identical a b = false) := by
  induction l with
  | nil => exact List.Pairwise.nil
  | cons a r ih =>
    refine List.Pairwise.cons ?_ (ih (fun s hs => h s (List.mem_cons_of_mem _ hs)))
    intro b hb
    rw [h b (List.mem_cons_of_mem _ hb)]
    exact slot_is_identical_empty_right a

/-- The delivery loop passes over cleared slots. -/
theorem deliver_loop_all_empty (topicName : List Nat) (m : iotx_mqtt_topic_info_t)
    (l : List iotx_mc_topic_handle_t) (h : ∀ s ∈ l, s = empty_topic_handle) (flag : Nat) :
    deliver_loop topicName m l flag = ([], flag) := by
  induction l with
  | nil => rfl
  | cons a r ih =>
    have ha : a = empty_topic_handle := h a (List.mem_cons_self _ _)
    subst ha
    simp only [deliver_loop, empty_topic_handle]
    exact ih (fun s hs => h s (List.mem_cons_of_mem _ hs))

/-- No cleared slot is identical to a binding. -/
theorem countP_all_empty (B : iotx_mc_topic_handle_t) (l : List iotx_mc_topic_handle_t)
    (h : ∀ s ∈ l, s = empty_topic_handle) :
    l.countP (fun s => slot_is_identical s B) = 0 := by
  rw [List.countP_eq_zero]
  intro s hs
  rw [h s hs, slot_is_identical_empty_left]
  simp

/-- Installing a binding with a non-NULL filter a second time changes nothing. -/
theorem suback_install_twice (S : List iotx_mc_topic_handle_t) (B : iotx_mc_topic_handle_t)
    (hf : B.topic_filter ≠ none) :
    (suback_install (suback_install S B).1 B).1 = (suback_install S B).1 := by
  have hBB : slot_is_identical B B = true := (slot_is_identical_iff B B).mpr ⟨rfl, hf⟩
  rw [suback_install_eq S B]
  by_cases h : S.any (fun s => slot_is_identical s B) = true
  · simp only [h, if_true]
    rw [suback_install_eq, h]
    simp
  · simp only [h, if_false]
    cases S with
    | nil => simp [suback_install_eq]
    | cons a r => simp [suback_install_eq, hBB]

/-- Claim C4: for every subscription table `S` and every binding `B` with a non-NULL
filter, running the install step of `iotx_mc_handle_recv_SUBACK` for `B` twice yields the
same table as running it once; and if the table has at least one slot and held no
slot identical to `B`, the resulting table has exactly one slot identical to `B`.
(The callback of `B` plays no part in the install step.) -/
theorem suback_install_idempotent (S : List iotx_mc_topic_handle_t) (B : iotx_mc_topic_handle_t)
    (hf : B.topic_filter ≠ none) :
    (suback_install (suback_install S B).1 B).1 = (suback_install S B).1 ∧
    (S ≠ [] → S.any (fun s => slot_is_identical s B) = false →
      (suback_install S B).1.countP (fun s => slot_is_identical s B) = 1) := by
  have hBB : slot_is_identical B B = true := (slot_is_identical_iff B B).mpr ⟨rfl, hf⟩
  refine ⟨suback_install_twice S B hf, ?_⟩
  intro hne hno
  rw [suback_install_eq, hno]
  cases S with
  | nil => exact absurd rfl hne
  | cons a r =>
    simp only [List.any_cons, Bool.or_eq_false_iff] at hno
    have hr : r.countP (fun s => slot_is_identical s B) = 0 := by
      rw [List.countP_eq_zero]
      intro s hs
      have := List.any_eq_false.mp hno.2 s hs
      simpa using this
    simp [List.countP_cons, hBB, hr]

/-- Witness of C4: a table of two slots holding another binding. -/
theorem suback_install_idempotent_witness :
    (suback_install (suback_install [⟨some [47, 98], ⟨7, 1⟩⟩, empty_topic_handle]
        ⟨some [47, 97], ⟨7, 1⟩⟩).1 ⟨some [47, 97], ⟨7, 1⟩⟩).1
      = (suback_install [⟨some [47, 98], ⟨7, 1⟩⟩, empty_topic_handle] ⟨some [47, 97], ⟨7, 1⟩⟩).1 ∧
    (suback_install [⟨some [47, 98], ⟨7, 1⟩⟩, empty_topic_handle]
        ⟨some [47, 97], ⟨7, 1⟩⟩).1.countP (fun s => slot_is_identical s ⟨some [47, 97], ⟨7, 1⟩⟩) = 1 :=
  ⟨(suback_install_idempotent [⟨some [47, 98], ⟨7, 1⟩⟩, empty_topic_handle]
      ⟨some [47, 97], ⟨7, 1⟩⟩ (by decide)).1,
   (suback_install_idempotent [⟨some [47, 98], ⟨7, 1⟩⟩, empty_topic_handle]
      ⟨some [47, 97], ⟨7, 1⟩⟩ (by decide)).2 (by decide) (by decide)⟩

/-- The table after two installs of the same binding on a reachable table. -/
theorem install_twice_shape (N : Nat) (t : List iotx_mc_topic_handle_t)
    (hr : table_reachable N t) (hN : 0 < N) (B : iotx_mc_topic_handle_t)
    (hf : B.topic_filter ≠ none) :
    ∃ r, (suback_install (suback_install t B).1 B).1 = B :: r ∧
      ∀ s ∈ r, s = empty_topic_handle := by
  obtain ⟨hlen, htail⟩ := table_reachable_shape N t hr
  rw [suback_install_twice t B hf, suback_install_eq]
  cases t with
  | nil => simp at hlen; omega
  | cons a r =>
    refine ⟨r, ?_, htail⟩
    by_cases h : (a :: r).any (fun s => slot_is_identical s B) = true
    · simp only [h, if_true]
      simp only [List.any_cons, Bool.or_eq_true, List.any_eq_true] at h
      rcases h with h | ⟨s, hs, h⟩
      · rw [((slot_is_identical_iff a B).mp h).1]
      · rw [htail s hs, slot_is_identical_empty_left] at h
        simp at h
    · simp [h]

/-- Claim C10: in every subscription table reachable from the cleared table by install
steps of SUBACK handling and removal steps of UNSUBACK handling, no two slots pass the
identity test (no two occupied slots hold identical bindings); and after the same
`(F, H, ctx)` has been installed twice on such a table of at least one slot, the table
has exactly one slot identical to it and a PUBLISH on a topic that passes the slot test
for `F` invokes `H` with `ctx` exactly once and invokes nothing else. -/
theorem no_duplicate_bindings (N : Nat) (t : List iotx_mc_topic_handle_t)
    (hr : table_reachable N t) :
    t.Pairwise (fun a b => slot_is_identical a b = false) ∧
    ∀ (F topicName : List Nat) (H ctx : Nat) (c : iotx_mc_client_t)
      (topic_msg : iotx_mqtt_topic_info_t),
      0 < N → H ≠ 0 →
      c.sub_handle = (suback_install (suback_install t ⟨some F, ⟨H, ctx⟩⟩).1 ⟨some F, ⟨H, ctx⟩⟩).1 →
      slot_topic_test F topicName = true →
      c.sub_handle.countP (fun s => slot_is_identical s ⟨some F, ⟨H, ctx⟩⟩) = 1 ∧
      iotx_mc_deliver_message c topicName topic_msg =
        [⟨H, ctx, ⟨IOTX_MQTT_EVENT_PUBLISH_RECVEIVED,
          event_payload.topic_msg { topic_msg with ptopic := some topicName }⟩⟩] := by
  constructor
  · obtain ⟨-, htail⟩ := table_reachable_shape N t hr
    cases t with
    | nil => exact List.Pairwise.nil
    | cons a r =>
      refine List.Pairwise.cons ?_ (pairwise_of_all_empty r htail)
      intro b hb
      rw [htail b hb]
      exact slot_is_identical_empty_right a
  · intro F topicName H ctx c topic_msg hN hH hc hmatch
    obtain ⟨r, hshape, hempty⟩ := install_twice_shape N t hr hN ⟨some F, ⟨H, ctx⟩⟩ (by simp)
    rw [hshape] at hc
    have hBB : slot_is_identical (⟨some F, ⟨H, ctx⟩⟩ : iotx_mc_topic_handle_t) ⟨some F, ⟨H, ctx⟩⟩ = true :=
      (slot_is_identical_iff _ _).mpr ⟨rfl, by simp⟩
    constructor
    · rw [hc, List.countP_cons, countP_all_empty _ r hempty, hBB]
      simp
    · simp only [iotx_mc_deliver_message, hc, deliver_loop, hmatch, if_true, ne_eq, hH,
        not_false_eq_true, deliver_loop_all_empty _ _ r hempty]
      simp

/-- Witness of C10: the cleared table of two slots, the binding of `sample_binding`. -/
theorem no_duplicate_bindings_witness :
    sample_client.sub_handle.countP (fun s => slot_is_identical s ⟨some sensors_filter, ⟨7, 1⟩⟩) = 1 ∧
    iotx_mc_deliver_message sample_client sensors_topic sample_msg =
      [⟨7, 1, ⟨IOTX_MQTT_EVENT_PUBLISH_RECVEIVED,
        event_payload.topic_msg { sample_msg with ptopic := some sensors_topic }⟩⟩] :=
  (no_duplicate_bindings 2 (List.replicate 2 empty_topic_handle) table_reachable.init).2
    sensors_filter sensors_topic 7 1 sample_client sample_msg
    (by decide) (by decide) (by decide) (by decide)

/-! ## Topic matching (C2, C6, C7) -/

/-- A topic has at least one level. -/
theorem levels_ne_nil (s : List Nat) : levels s ≠ [] := by
  cases s with
  | nil => simp [levels]
  | cons c cs =>
    simp only [levels]
    split_ifs
    · simp
    · split <;> simp

/-- The levels of a topic, as a first level and the rest. -/
theorem levels_exists (s : List Nat) : ∃ l ls, levels s = l :: ls := by
  cases h : levels s with
  | nil => exact absurd h (levels_ne_nil s)
  | cons l ls => exact ⟨l, ls, rfl⟩

/-- A leading separator opens an empty level. -/
theorem levels_cons_sep (cs : List Nat) : levels (47 :: cs) = [] :: levels cs := by
  simp [levels]

/-- A byte other than the separator extends the first level. -/
theorem levels_cons_of_ne (c : Nat) (cs l : List Nat) (ls : List (List Nat)) (hc : c ≠ 47)
    (h : levels cs = l :: ls) : levels (c :: cs) = (c :: l) :: ls := by
  simp [levels, hc, h]

/-- Only the empty topic has the single empty level. -/
theorem levels_eq_singleton_nil (s : List Nat) : levels s = [[]] ↔ s = [] := by
  constructor
  · intro h
    cases s with
    | nil => rfl
    | cons c cs =>
      by_cases hc : c = 47
      · subst hc
        rw [levels_cons_sep] at h
        simp only [List.cons.injEq, true_and] at h
        exact absurd h (levels_ne_nil cs)
      · obtain ⟨l, ls, hl⟩ := levels_exists cs
        rw [levels_cons_of_ne c cs l ls hc hl] at h
        simp at h
  · rintro rfl; rfl

/-- The `+` branch leaves `curn` on the last byte of the level it stands in. -/
theorem plus_skip_tail (L : List Nat) : ∀ (c : Nat) (T : List Nat), 47 ∉ L →
    (T = [] ∨ T.head? = some 47) → (plus_skip (c :: (L ++ T))).tail = T := by
  induction L with
  | nil =>
    intro c T _ hT
    rcases hT with rfl | hT
    · simp [plus_skip]
    · cases T with
      | nil => simp [plus_skip]
      | cons t ts =>
        simp only [List.head?_cons, Option.some.injEq] at hT
        subst hT
        simp [plus_skip]
  | cons d L ih =>
    intro c T hL hT
    have hd : d ≠ 47 := fun h => hL (by simp [h])
    simp only [List.cons_append, plus_skip, ne_eq, hd, not_false_eq_true, if_true]
    exact ih d T (fun h => hL (List.mem_cons_of_mem _ h)) hT

/-- A topic is its first level followed by nothing or by a separator and the rest. -/
theorem levels_split (s : List Nat) : ∃ (l T : List Nat) (ls : List (List Nat)),
    levels s = l :: ls ∧ s = l ++ T ∧ 47 ∉ l ∧
      ((T = [] ∧ ls = []) ∨ (∃ T1, T = 47 :: T1 ∧ ls = levels T1)) := by
  induction s with
  | nil => exact ⟨[], [], [], rfl, rfl, by simp, Or.inl ⟨rfl, rfl⟩⟩
  | cons c cs ih =>
    by_cases hc : c = 47
    · subst hc
      exact ⟨[], 47 :: cs, levels cs, levels_cons_sep cs, rfl, by simp, Or.inr ⟨cs, rfl, rfl⟩⟩
    · obtain ⟨l, T, ls, h1, h2, h3, h4⟩ := ih
      refine ⟨c :: l, T, ls, levels_cons_of_ne c cs l ls hc h1, by simp [h2], ?_, h4⟩
      simp only [List.mem_cons, not_or]
      exact ⟨fun h => hc h.symm, h3⟩

/-- No filter level matches when the topic has no level left. -/
theorem scan_nil_right (ls : List (List Nat)) : scanLevelsMatch ls [] = decide (ls = []) := by
  cases ls <;> simp [scanLevelsMatch]

/-- An empty filter level matches an empty topic level only. -/
theorem scan_nil_level (ls : List (List Nat)) (x : List Nat) (xs : List (List Nat)) :
    scanLevelsMatch ([] :: ls) (x :: xs) = (decide (x = []) && scanLevelsMatch ls xs) := by
  simp only [scanLevelsMatch]
  rw [if_neg (by simp), if_neg (by simp)]
  congr 1
  simp [eq_comm]

/-- What a valid filter level says about the level behind its first byte. -/
theorem wildLevelOK_tail (f : Nat) (l : List Nat) (h : wildLevelOK (f :: l) = true) :
    wildLevelOK l = true ∧ ((f = 43 ∨ f = 35) → l = []) ∧
      (f ≠ 43 → f ≠ 35 → l ≠ [43] ∧ l ≠ [35]) := by
  simp only [wildLevelOK, Bool.or_eq_true, decide_eq_true_eq, List.cons.injEq, List.all_cons,
    Bool.and_eq_true, List.all_eq_true, ne_eq] at h ⊢
  rcases h with (⟨rfl, rfl⟩ | ⟨rfl, rfl⟩) | ⟨⟨h1, h2⟩, h3⟩
  · simp
  · simp
  · refine ⟨Or.inr h3, ?_, ?_⟩
    · rintro (rfl | rfl)
      · exact absurd rfl h1
      · exact absurd rfl h2
    · intro _ _
      constructor
      · rintro rfl
        exact (h3 43 (by simp)).1 rfl
      · rintro rfl
        exact (h3 35 (by simp)).2 rfl

/-- On a filter whose wildcards fill whole levels, the scanner computes the level
matching `scanLevelsMatch`. -/
theorem matched_eq_scan (F : List Nat) : ∀ T : List Nat,
    (∀ l ∈ levels F, wildLevelOK l = true) →
      iotx_mc_is_topic_matched F T = scanLevelsMatch (levels F) (levels T) := by
  induction F with
  | nil =>
    intro T _
    cases T with
    | nil => simp [iotx_mc_is_topic_matched, levels, scanLevelsMatch]
    | cons n ns =>
      obtain ⟨t, ts, ht⟩ := levels_exists ns
      by_cases hn : n = 47
      · subst hn
        simp [iotx_mc_is_topic_matched, levels, scanLevelsMatch, ht]
      · rw [levels_cons_of_ne n ns t ts hn ht]
        simp [iotx_mc_is_topic_matched, levels, scanLevelsMatch]
  | cons f fs ih =>
    intro T hv
    obtain ⟨l, ls, hl⟩ := levels_exists fs
    by_cases hf : f = 47
    · subst hf
      rw [levels_cons_sep] at hv ⊢
      have hv1 : ∀ x ∈ levels fs, wildLevelOK x = true :=
        fun x hx => hv x (List.mem_cons_of_mem _ hx)
      cases T with
      | nil => simp [iotx_mc_is_topic_matched, levels, scanLevelsMatch, hl]
      | cons n ns =>
        obtain ⟨t, ts, ht⟩ := levels_exists ns
        by_cases hn : n = 47
        · subst hn
          rw [levels_cons_sep, scan_nil_level]
          simp [iotx_mc_is_topic_matched, ih ns hv1]
        · rw [levels_cons_of_ne n ns t ts hn ht, scan_nil_level]
          simp [iotx_mc_is_topic_matched, hn, Ne.symm hn]
    · rw [levels_cons_of_ne f fs l ls hf hl] at hv ⊢
      obtain ⟨hvl, hwild, hlit⟩ := wildLevelOK_tail f l (hv _ (List.mem_cons_self _ _))
      have hv1 : ∀ x ∈ levels fs, wildLevelOK x = true := by
        intro x hx
        rw [hl] at hx
        rcases List.mem_cons.mp hx with rfl | hx
        · exact hvl
        · exact hv x (List.mem_cons_of_mem _ hx)
      cases T with
      | nil =>
        simp only [iotx_mc_is_topic_matched, levels, scanLevelsMatch]
        split_ifs <;> simp
      | cons n ns =>
        obtain ⟨t, T1, ts, ht, hns, ht47, hrest⟩ := levels_split ns
        by_cases hn : n = 47
        · subst hn
          rw [levels_cons_sep]
          simp only [iotx_mc_is_topic_matched, ne_eq, hf, not_false_eq_true, and_self, if_true,
            scanLevelsMatch]
          split_ifs <;> simp
        · rw [levels_cons_of_ne n ns t ts hn ht]
          by_cases h43 : f = 43
          · subst h43
            have hl0 : l = [] := hwild (Or.inl rfl)
            subst hl0
            have hm : iotx_mc_is_topic_matched (43 :: fs) (n :: ns)
                = iotx_mc_is_topic_matched fs T1 := by
              simp only [iotx_mc_is_topic_matched, hn, false_and, if_false, ne_eq,
                not_true_eq_false, if_true]
              rw [hns, plus_skip_tail t n T1 ht47 (by
                rcases hrest with ⟨h, -⟩ | ⟨T2, h, -⟩
                · exact Or.inl h
                · exact Or.inr (by simp [h]))]
            rw [hm, ih T1 hv1, hl]
            have hsc : ∀ xs, scanLevelsMatch ([43] :: ls) ((n :: t) :: ts) = scanLevelsMatch ls ts
                → scanLevelsMatch ([] :: ls) xs = scanLevelsMatch ls ts
                → scanLevelsMatch ([] :: ls) xs = scanLevelsMatch ([43] :: ls) ((n :: t) :: ts) :=
              fun xs h1 h2 => by rw [h1, h2]
            refine hsc _ (by simp [scanLevelsMatch]) ?_
            rcases hrest with ⟨h1, h2⟩ | ⟨T2, h1, h2⟩
            · subst h1 h2
              rw [show levels [] = [[]] from rfl, scan_nil_level]
              simp
            · subst h1 h2
              rw [levels_cons_sep, scan_nil_level]
              simp
          · by_cases h35 : f = 35
            · subst h35
              have hl0 : l = [] := hwild (Or.inr rfl)
              subst hl0
              have hm : iotx_mc_is_topic_matched (35 :: fs) (n :: ns)
                  = iotx_mc_is_topic_matched fs [] := by
                simp [iotx_mc_is_topic_matched, hn]
              rw [hm, ih [] hv1, hl, show levels [] = [[]] from rfl, scan_nil_level,
                scan_nil_right]
              simp [scanLevelsMatch]
            · obtain ⟨hl43, hl35⟩ := hlit h43 h35
              by_cases hfn : f = n
              · subst hfn
                have hm : iotx_mc_is_topic_matched (f :: fs) (f :: ns)
                    = iotx_mc_is_topic_matched fs ns := by
                  simp [iotx_mc_is_topic_matched, hn, h43, h35]
                rw [hm, ih ns hv1, hl, ht]
                simp [scanLevelsMatch, hl43, hl35, h43, h35]
              · have hm : iotx_mc_is_topic_matched (f :: fs) (n :: ns) = false := by
                  simp [iotx_mc_is_topic_matched, hn, h43, h35, hfn]
                rw [hm]
                simp [scanLevelsMatch, h43, h35, hfn]

/-- A wildcard-free stretch of the filter is consumed by the same stretch of the topic. -/
theorem matched_literal (P : List Nat) (hP : ∀ b ∈ P, b ≠ 43 ∧ b ≠ 35) (F T : List Nat) :
    iotx_mc_is_topic_matched (P ++ F) (P ++ T) = iotx_mc_is_topic_matched F T := by
  induction P with
  | nil => rfl
  | cons p ps ih =>
    have hp := hP p (List.mem_cons_self _ _)
    simp only [List.cons_append, iotx_mc_is_topic_matched]
    rw [if_neg (by tauto), if_neg (by tauto), if_neg hp.1, if_neg hp.2]
    exact ih (fun b hb => hP b (List.mem_cons_of_mem _ hb))

/-- A topic that does not begin with the wildcard-free start of the filter is not
matched. -/
theorem matched_literal_mismatch (P : List Nat) (hP : ∀ b ∈ P, b ≠ 43 ∧ b ≠ 35)
    (F : List Nat) : ∀ T : List Nat, ¬ P <+: T →
      iotx_mc_is_topic_matched (P ++ F) T = false := by
  induction P with
  | nil => intro T h; exact absurd (List.nil_prefix) h
  | cons p ps ih =>
    intro T h
    have hp := hP p (List.mem_cons_self _ _)
    cases T with
    | nil => simp [iotx_mc_is_topic_matched]
    | cons n ns =>
      simp only [List.cons_append, iotx_mc_is_topic_matched]
      by_cases hpn : p = n
      · subst hpn
        rw [if_neg (by tauto), if_neg (by tauto), if_neg hp.1, if_neg hp.2]
        refine ih (fun b hb => hP b (List.mem_cons_of_mem _ hb)) ns ?_
        intro hpre
        exact h ((List.cons_prefix_cons).mpr ⟨rfl, hpre⟩)
      · by_cases h1 : n = 47 ∧ p ≠ 47
        · rw [if_pos h1]
        · rw [if_neg h1, if_pos ⟨hp.1, hp.2, hpn⟩]

/-- The filter `#` matches a non-empty rest of the topic that does not begin with `/`. -/
theorem matched_hash (n : Nat) (ns : List Nat) :
    iotx_mc_is_topic_matched [35] (n :: ns) = decide (n ≠ 47) := by
  by_cases hn : n = 47
  · simp [iotx_mc_is_topic_matched, hn]
  · simp [iotx_mc_is_topic_matched, hn]

/-- The filter byte `+` consumes one non-empty level of the topic. -/
theorem matched_plus (F L T : List Nat) (hL : L ≠ []) (hL47 : 47 ∉ L)
    (hT : T = [] ∨ T.head? = some 47) :
    iotx_mc_is_topic_matched (43 :: F) (L ++ T) = iotx_mc_is_topic_matched F T := by
  cases L with
  | nil => exact absurd rfl hL
  | cons c L1 =>
    have hc : c ≠ 47 := fun h => hL47 (by simp [h])
    simp only [List.cons_append, iotx_mc_is_topic_matched, hc, false_and, if_false, ne_eq,
      not_true_eq_false, if_true, List.append_eq]
    rw [plus_skip_tail L1 c T (fun h => hL47 (List.mem_cons_of_mem _ h)) hT]

/-- Whatever the scanner matches is matched under MQTT 3.1.1 as the spec words it;
the converse fails for the parent level of a trailing `#` and for empty levels. -/
theorem scan_implies_mqtt (fl : List (List Nat)) : ∀ tl : List (List Nat),
    scanLevelsMatch fl tl = true → mqttLevelsMatch fl tl = true := by
  induction fl with
  | nil =>
    intro tl h
    cases tl with
    | nil => rfl
    | cons t ts => simp [scanLevelsMatch] at h
  | cons f fs ih =>
    intro tl h
    cases tl with
    | nil => simp [scanLevelsMatch] at h
    | cons t ts =>
      simp only [scanLevelsMatch] at h
      simp only [mqttLevelsMatch]
      by_cases h35 : f = [35]
      · rw [if_pos h35] at h
        simp only [Bool.and_eq_true, decide_eq_true_eq] at h
        rw [if_pos ⟨h35, h.1⟩]
      · rw [if_neg h35] at h
        rw [if_neg (fun hh => h35 hh.1)]
        by_cases h43 : f = [43]
        · rw [if_pos h43] at h
          simp only [Bool.and_eq_true] at h
          simp [h43, ih ts h.2]
        · rw [if_neg h43] at h
          simp only [Bool.and_eq_true, decide_eq_true_eq] at h
          simp [h.1, ih ts h.2]

/-- Claim C2 (amended): for every filter `F` whose levels are each a single `+`, a single
`#`, or free of both (by `check_topic_filter_levels` every filter the validator accepts
is one) and every topic `T`,
`iotx_mc_is_topic_matched(F, T)` is true if and only if the levels of `T` satisfy the
levels of `F` pairwise, a literal level being equal to the topic level, `+` matching
any single non-empty level, and `#`, as last level of the filter, matching one or
more further levels of which the first is non-empty (not the parent level alone). -/
theorem matched_iff_levels (F T : List Nat) (hF : ∀ l ∈ levels F, wildLevelOK l = true) :
    iotx_mc_is_topic_matched F T = true ↔ scanLevelsMatch (levels F) (levels T) = true := by
  rw [matched_eq_scan F T hF]

/-- Witness of C2 (amended): the filter and topic of scenario S2. -/
theorem matched_iff_levels_witness :
    iotx_mc_is_topic_matched sensors_filter sensors_topic = true ↔
      scanLevelsMatch (levels sensors_filter) (levels sensors_topic) = true :=
  matched_iff_levels sensors_filter sensors_topic (by decide)

/-- Counterexample to C2 as stated: the filter "/a/#" and the topic "/a" are both
accepted by `iotx_mc_check_topic`, MQTT 3.1.1 matching (a trailing `#` matches the
parent level) holds of them, and `iotx_mc_is_topic_matched` returns false. -/
theorem hash_parent_not_matched :
    iotx_mc_check_topic [] (some [47, 97, 47, 35]) TOPIC_FILTER_TYPE = SUCCESS_RETURN ∧
    iotx_mc_check_topic [] (some [47, 97]) TOPIC_NAME_TYPE = SUCCESS_RETURN ∧
    ¬ (iotx_mc_is_topic_matched [47, 97, 47, 35] [47, 97] = true ↔
        mqttLevelsMatch (levels [47, 97, 47, 35]) (levels [47, 97]) = true) := by
  decide

/-- Claim C6 (amended): for every wildcard-free `P`, the slot test of
`iotx_mc_deliver_message` with the filter `P + "/#"` rejects the topic `P` itself,
accepts every topic `P + "/" + R` with `R` non-empty and not beginning with `/`,
rejects every topic `P + "//" + R`, and rejects every topic that does not begin with `P`. -/
theorem hash_filter_slot_test (P : List Nat) (hP : ∀ b ∈ P, b ≠ 43 ∧ b ≠ 35) :
    slot_topic_test (P ++ [47, 35]) P = false ∧
    (∀ R : List Nat, R ≠ [] → R.head? ≠ some 47 →
      slot_topic_test (P ++ [47, 35]) (P ++ 47 :: R) = true) ∧
    (∀ R : List Nat, slot_topic_test (P ++ [47, 35]) (P ++ 47 :: 47 :: R) = false) ∧
    (∀ T : List Nat, ¬ P <+: T → slot_topic_test (P ++ [47, 35]) T = false) := by
  refine ⟨?_, ?_, ?_, ?_⟩
  · have h := matched_literal P hP [47, 35] []
    simp only [List.append_nil] at h
    simp [slot_topic_test, MQTTPacket_equals, h, iotx_mc_is_topic_matched]
  · intro R hR hR47
    cases R with
    | nil => exact absurd rfl hR
    | cons r rs =>
      have hr : r ≠ 47 := by simpa using hR47
      simp [slot_topic_test, matched_literal P hP, iotx_mc_is_topic_matched, hr]
  · intro R
    simp [slot_topic_test, MQTTPacket_equals, matched_literal P hP, iotx_mc_is_topic_matched]
  · intro T hT
    have hne : T ≠ P ++ [47, 35] := by
      rintro rfl
      exact hT (List.prefix_append _ _)
    simp [slot_topic_test, MQTTPacket_equals, hne, matched_literal_mismatch P hP [47, 35] T hT]

/-- Witness of C6 (amended): `P = "/a"` with the topics "/a", "/a/b/c" and "/b/a". -/
theorem hash_filter_slot_test_witness :
    slot_topic_test [47, 97, 47, 35] [47, 97] = false ∧
    slot_topic_test [47, 97, 47, 35] [47, 97, 47, 98, 47, 99] = true ∧
    slot_topic_test [47, 97, 47, 35] [47, 98, 47, 97] = false :=
  ⟨(hash_filter_slot_test [47, 97] (by decide)).1,
   (hash_filter_slot_test [47, 97] (by decide)).2.1 [98, 47, 99] (by decide) (by decide),
   (hash_filter_slot_test [47, 97] (by decide)).2.2.2 [47, 98, 47, 97] (by decide)⟩

/-- Counterexample to C6 as stated: "/a" is a valid wildcard-free topic, and the slot
test with the filter "/a/#" rejects the topic "/a" (zero trailing levels). -/
theorem hash_filter_rejects_parent :
    iotx_mc_check_topic [] (some [47, 97]) TOPIC_NAME_TYPE = SUCCESS_RETURN ∧
    slot_topic_test ([47, 97] ++ [47, 35]) [47, 97] = false := by
  decide

/-- Claim C7: for all wildcard-free `P` and `S`, `S` empty or beginning with `/`, and every
non-empty `L` without `/`, `iotx_mc_is_topic_matched(P + "+" + S, P + L + S)` is true
and the same filter does not match `P + L + S + "/x"`; and with the filter
"/sensors/+/temp" installed for a non-NULL handler `H` and context `ctx` in a table
whose other slots are empty, `iotx_mc_deliver_message` on "/sensors/17/temp" invokes
`H` with `ctx` exactly once and nothing else, while on "/sensors/17/temp/x" it does not
invoke the slot: the message goes to the event handler of the client, if there is one.
(That `P` ends in `/` is not needed.) -/
theorem plus_single_level (P S L : List Nat) (hP : ∀ b ∈ P, b ≠ 43 ∧ b ≠ 35)
    (hS : ∀ b ∈ S, b ≠ 43 ∧ b ≠ 35) (hS0 : S = [] ∨ S.head? = some 47)
    (hL : L ≠ []) (hL47 : 47 ∉ L) :
    iotx_mc_is_topic_matched (P ++ 43 :: S) (P ++ (L ++ S)) = true ∧
    iotx_mc_is_topic_matched (P ++ 43 :: S) (P ++ (L ++ (S ++ [47, 120]))) = false ∧
    ∀ (c : iotx_mc_client_t) (H ctx : Nat) (m : iotx_mqtt_topic_info_t)
      (r : List iotx_mc_topic_handle_t),
      H ≠ 0 → c.sub_handle = ⟨some sensors_filter, ⟨H, ctx⟩⟩ :: r →
      (∀ s ∈ r, s = empty_topic_handle) →
      iotx_mc_deliver_message c sensors_topic m =
        [⟨H, ctx, ⟨IOTX_MQTT_EVENT_PUBLISH_RECVEIVED,
          event_payload.topic_msg { m with ptopic := some sensors_topic }⟩⟩] ∧
      iotx_mc_deliver_message c sensors_topic_x m =
        event_call_guarded c IOTX_MQTT_EVENT_PUBLISH_RECVEIVED
          (event_payload.topic_msg { m with ptopic := some sensors_topic_x }) := by
  refine ⟨?_, ?_, ?_⟩
  · rw [matched_literal P hP, matched_plus S L S hL hL47 hS0]
    have h := matched_literal S hS [] []
    simp only [List.append_nil] at h
    rw [h]
    rfl
  · rw [matched_literal P hP, matched_plus S L (S ++ [47, 120]) hL hL47 (by
      rcases hS0 with rfl | h
      · exact Or.inr rfl
      · cases S with
        | nil => exact Or.inr rfl
        | cons a as => exact Or.inr (by simpa using h))]
    have h := matched_literal S hS [] [47, 120]
    simp only [List.append_nil] at h
    rw [h]
    rfl
  · intro c H ctx m r hH hc hr
    have h1 : slot_topic_test sensors_filter sensors_topic = true := by decide
    have h2 : slot_topic_test sensors_filter sensors_topic_x = false := by decide
    constructor
    · simp only [iotx_mc_deliver_message, hc, deliver_loop, h1, if_true, ne_eq, hH,
        not_false_eq_true, deliver_loop_all_empty _ _ r hr]
      simp
    · simp only [iotx_mc_deliver_message, hc, deliver_loop, h2, deliver_loop_all_empty _ _ r hr,
        event_call_guarded, event_call]
      simp

/-- Witness of C7: `P = "/sensors/"`, `L = "17"`, `S = "/temp"`, and `sample_client`. -/
theorem plus_single_level_witness :
    iotx_mc_is_topic_matched sensors_filter sensors_topic = true ∧
    iotx_mc_is_topic_matched sensors_filter sensors_topic_x = false ∧
    iotx_mc_deliver_message sample_client sensors_topic sample_msg =
      [⟨7, 1, ⟨IOTX_MQTT_EVENT_PUBLISH_RECVEIVED,
        event_payload.topic_msg { sample_msg with ptopic := some sensors_topic }⟩⟩] ∧
    iotx_mc_deliver_message sample_client sensors_topic_x sample_msg =
      [⟨9, 2, ⟨IOTX_MQTT_EVENT_PUBLISH_RECVEIVED,
        event_payload.topic_msg { sample_msg with ptopic := some sensors_topic_x }⟩⟩] :=
  have h := plus_single_level [47, 115, 101, 110, 115, 111, 114, 115, 47] [47, 116, 101, 109, 112]
    [49, 55] (by decide) (by decide) (by decide) (by decide) (by decide)
  have h3 := h.2.2 sample_client 7 1 sample_msg [empty_topic_handle] (by decide) rfl (by decide)
  ⟨h.1, h.2.1, h3.1, h3.2⟩

/-! ## Topic validation (C1) -/

/-- A leading separator adds no non-empty level. -/
theorem nonEmptyLevels_sep (cs : List Nat) : nonEmptyLevels (47 :: cs) = nonEmptyLevels cs := by
  simp [nonEmptyLevels, levels_cons_sep]

/-- Splitting a text at the end of its first level. -/
theorem takeWhile_level (l T : List Nat) (hl : 47 ∉ l) (hT : T = [] ∨ ∃ T1, T = 47 :: T1) :
    (l ++ T).takeWhile (fun b => b != 47) = l ∧ (l ++ T).dropWhile (fun b => b != 47) = T := by
  induction l with
  | nil =>
    rcases hT with rfl | ⟨T1, rfl⟩ <;> simp
  | cons a as ih =>
    have ha : a ≠ 47 := fun h => hl (by simp [h])
    have := ih (fun h => hl (List.mem_cons_of_mem _ h))
    simp [List.takeWhile_cons, List.dropWhile_cons, ha, this]

/-- What `strtok` returns, in terms of the non-empty levels. -/
theorem strtok_spec (s : List Nat) :
    (strtok s = none ∧ nonEmptyLevels s = []) ∨
    (∃ t r, strtok s = some (t, r) ∧ nonEmptyLevels s = t :: nonEmptyLevels r ∧ t ≠ [] ∧
      r.length < s.length) := by
  induction s with
  | nil => left; simp [strtok, nonEmptyLevels, levels]
  | cons c cs ih =>
    by_cases hc : c = 47
    · subst hc
      have hs : strtok (47 :: cs) = strtok cs := by simp [strtok]
      rw [hs, nonEmptyLevels_sep]
      rcases ih with h | ⟨t, r, h1, h2, h3, h4⟩
      · exact Or.inl h
      · exact Or.inr ⟨t, r, h1, h2, h3, by simp; omega⟩
    · right
      obtain ⟨l, T, ls, h1, h2, h3, h4⟩ := levels_split (c :: cs)
      obtain ⟨l0, ls0, hl0⟩ := levels_exists cs
      have hl : l = c :: l0 := by
        rw [levels_cons_of_ne c cs l0 ls0 hc hl0] at h1
        simp only [List.cons.injEq] at h1
        exact h1.1.symm
      have htd := takeWhile_level l T h3 (by
        rcases h4 with ⟨h, -⟩ | ⟨T1, h, -⟩
        · exact Or.inl h
        · exact Or.inr ⟨T1, h⟩)
      have hst : strtok (c :: cs) = some (l, T.drop 1) := by
        have hd : (c :: cs).dropWhile (fun b => b == 47) = c :: cs := by
          simp [List.dropWhile_cons, hc]
        simp only [strtok, hd]
        rw [h2, htd.1, htd.2]
      refine ⟨l, T.drop 1, hst, ?_, by simp [hl], ?_⟩
      · simp only [nonEmptyLevels, h1]
        rcases h4 with ⟨rfl, rfl⟩ | ⟨T1, rfl, rfl⟩
        · simp [hl, levels]
        · simp [hl]
      · rw [h2]
        rcases h4 with ⟨rfl, rfl⟩ | ⟨T1, rfl, rfl⟩
        · simp [hl]
        · simp [hl]; omega

/-- What the loop of `iotx_mc_check_rule` accepts of a filter item. -/
theorem check_rule_loop_filter (len : Nat) (s : List Nat) :
    iotx_mc_check_rule_loop len TOPIC_FILTER_TYPE s = SUCCESS_RETURN ↔
      ∀ ch ∈ s, ((ch = 43 ∨ ch = 35) → len = 1) ∧ 32 ≤ ch ∧ ch < 127 := by
  induction s with
  | nil => simp [iotx_mc_check_rule_loop]
  | cons a as ih =>
    simp only [iotx_mc_check_rule_loop, if_true, List.mem_cons, forall_eq_or_imp]
    by_cases h1 : (a = 43 ∨ a = 35) ∧ len ≠ 1
    · rw [if_pos h1]
      simp only [FAIL_RETURN, SUCCESS_RETURN]
      constructor
      · intro h; omega
      · intro h; exact absurd (h.1.1 h1.1) h1.2
    · rw [if_neg h1]
      by_cases h2 : a < 32 ∨ a ≥ 127
      · rw [if_pos h2]
        simp only [FAIL_RETURN, SUCCESS_RETURN]
        constructor
        · intro h; omega
        · intro h; omega
      · rw [if_neg h2, ih]
        constructor
        · intro h
          refine ⟨⟨?_, by omega, by omega⟩, h⟩
          intro ha
          by_contra hl
          exact h1 ⟨ha, hl⟩
        · intro h; exact h.2

/-- `iotx_mc_check_rule` accepts a filter item exactly when it is a single `+`, a single
`#`, or printable without wildcard. -/
theorem check_rule_filter (t : List Nat) :
    iotx_mc_check_rule (some t) TOPIC_FILTER_TYPE = SUCCESS_RETURN ↔ ruleOK t = true := by
  simp only [iotx_mc_check_rule, check_rule_loop_filter, ruleOK, Bool.or_eq_true,
    decide_eq_true_eq, List.all_eq_true, plainByte, Bool.and_eq_true]
  constructor
  · intro h
    by_cases hw : ∃ ch ∈ t, ch = 43 ∨ ch = 35
    · obtain ⟨ch, hch, hw⟩ := hw
      have hlen := (h ch hch).1 hw
      match t, hlen, hch with
      | [a], _, hch =>
        simp only [List.mem_singleton] at hch
        subst hch
        rcases hw with rfl | rfl
        · exact Or.inl (Or.inl rfl)
        · exact Or.inl (Or.inr rfl)
    · right
      intro ch hch
      have := h ch hch
      refine ⟨⟨⟨this.2.1, by omega⟩, ?_⟩, ?_⟩
      · intro h43; exact hw ⟨ch, hch, Or.inl h43⟩
      · intro h35; exact hw ⟨ch, hch, Or.inr h35⟩
  · rintro ((rfl | rfl) | h)
    · simp
    · simp
    · intro ch hch
      have := h ch hch
      refine ⟨?_, this.1.1.1, by omega⟩
      rintro (rfl | rfl)
      · exact absurd rfl this.1.2
      · exact absurd rfl this.2

/-- With enough fuel the loop of `iotx_mc_check_topic` succeeds exactly on the item
lists that `loopOK` describes. -/
theorem check_topic_loop_filter : ∀ (fuel : Nat) (rest : List Nat) (mask : Nat),
    rest.length < fuel →
      (iotx_mc_check_topic_loop TOPIC_FILTER_TYPE fuel rest mask = SUCCESS_RETURN ↔
        loopOK mask (nonEmptyLevels rest)) := by
  intro fuel
  induction fuel with
  | zero => intro rest mask h; omega
  | succ k ih =>
    intro rest mask hlen
    rcases strtok_spec rest with ⟨h1, h2⟩ | ⟨t, r, h1, h2, -, h4⟩
    · simp [iotx_mc_check_topic_loop, h1, h2, loopOK]
    · simp only [iotx_mc_check_topic_loop, h1, h2, loopOK]
      by_cases hm : mask = 1
      · simp [hm, FAIL_RETURN, SUCCESS_RETURN]
      · rw [if_neg hm]
        by_cases hr : iotx_mc_check_rule (some t) TOPIC_FILTER_TYPE = SUCCESS_RETURN
        · rw [if_neg (by simpa using hr), ih r _ (by omega)]
          simp [hm, (check_rule_filter t).mp hr]
        · rw [if_pos hr]
          have : ¬ ruleOK t = true := fun h => hr ((check_rule_filter t).mpr h)
          simp [this, FAIL_RETURN, SUCCESS_RETURN]

/-- After a `#` item nothing may follow. -/
theorem loopOK_one (ts : List (List Nat)) : loopOK 1 ts ↔ ts = [] := by
  cases ts <;> simp [loopOK]

/-- An accepted item that begins with `#` is the single `#`. -/
theorem ruleOK_head_hash (t : List Nat) (h : ruleOK t = true) (hh : t.head? = some 35) :
    t = [35] := by
  simp only [ruleOK, Bool.or_eq_true, decide_eq_true_eq, List.all_eq_true] at h
  rcases h with (rfl | rfl) | h
  · simp at hh
  · rfl
  · cases t with
    | nil => simp at hh
    | cons a as =>
      simp only [List.head?_cons, Option.some.injEq] at hh
      subst hh
      have := h 35 (by simp)
      simp [plainByte] at this

/-- With the flag clear, the loop accepts exactly the level lists of the spec wording. -/
theorem loopOK_zero (ts : List (List Nat)) : loopOK 0 ts ↔ specLevelsOK ts = true := by
  induction ts with
  | nil => simp [loopOK, specLevelsOK]
  | cons t ts ih =>
    simp only [loopOK, specLevelsOK, Bool.and_eq_true, ne_eq, zero_ne_one, not_false_eq_true,
      true_and]
    by_cases hh : t.head? = some 35
    · rw [if_pos hh, loopOK_one]
      constructor
      · rintro ⟨h1, rfl⟩
        have := ruleOK_head_hash t h1 hh
        subst this
        simp [specLevelOK, specLevelsOK]
      · rintro ⟨h1, h2⟩
        have ht : ruleOK t = true := by
          simp only [specLevelOK, Bool.or_eq_true, decide_eq_true_eq, Bool.and_eq_true] at h1
          simp only [ruleOK, Bool.or_eq_true, decide_eq_true_eq]
          tauto
        have := ruleOK_head_hash t ht hh
        subst this
        refine ⟨ht, ?_⟩
        simp only [specLevelOK, Bool.or_eq_true, decide_eq_true_eq, Bool.and_eq_true] at h1
        rcases h1 with (h1 | ⟨-, h1⟩) | h1
        · simp at h1
        · simpa using h1
        · simp [plainByte] at h1
    · rw [if_neg hh, ih]
      have : ruleOK t = true ↔ specLevelOK ts.isEmpty t = true := by
        simp only [specLevelOK, ruleOK, Bool.or_eq_true, decide_eq_true_eq, Bool.and_eq_true]
        constructor
        · rintro ((h | h) | h)
          · exact Or.inl (Or.inl h)
          · subst h; simp at hh
          · exact Or.inr h
        · rintro ((h | ⟨h, -⟩) | h)
          · exact Or.inl (Or.inl h)
          · exact Or.inl (Or.inr h)
          · exact Or.inr h
      rw [this]

/-- Claim C1 (amended): for every byte string `F` (the bytes of a C string) of length
other than 64 whose first non-empty level is not a lone `#` followed by a further
non-empty level, `iotx_mc_check_topic(F, TOPIC_FILTER_TYPE)` returns `SUCCESS_RETURN` if
and only if `F` starts with `/`, has length at most 64, has at least one non-empty
level, and every non-empty `/`-delimited level of `F` is either exactly `+`, or exactly
`#` and the last non-empty level, or consists only of printable ASCII bytes (32..126)
other than `+` and `#`. -/
theorem check_topic_filter_iff (stack F : List Nat) (hlen : F.length ≠ 64)
    (hfirst : hashLeadsFurther (nonEmptyLevels F) = false) :
    iotx_mc_check_topic stack (some F) TOPIC_FILTER_TYPE = SUCCESS_RETURN ↔
      (F.head? = some 47 ∧ F.length ≤ 64 ∧ nonEmptyLevels F ≠ [] ∧
        specLevelsOK (nonEmptyLevels F) = true) := by
  simp only [iotx_mc_check_topic, IOTX_MC_TOPIC_NAME_MAX_LEN]
  by_cases h47 : F.head? = some 47
  swap
  · simp [h47, FAIL_RETURN, SUCCESS_RETURN]
  rw [if_neg (by simpa using h47)]
  by_cases h64 : F.length > 64
  · rw [if_pos h64]
    simp only [FAIL_RETURN, SUCCESS_RETURN]
    constructor
    · intro h; omega
    · intro h; omega
  rw [if_neg h64]
  have hts : topicString stack F = F := by
    simp only [topicString, IOTX_MC_TOPIC_NAME_MAX_LEN]
    rw [if_pos (by omega)]
  rw [hts]
  rcases strtok_spec F with ⟨h1, h2⟩ | ⟨t, r, h1, h2, -, -⟩
  · simp [h1, h2, iotx_mc_check_rule, FAIL_RETURN, SUCCESS_RETURN]
  · simp only [h1, h2]
    by_cases hr : iotx_mc_check_rule (some t) TOPIC_FILTER_TYPE = SUCCESS_RETURN
    · rw [if_neg (by simpa using hr), check_topic_loop_filter _ r 0 (by omega), loopOK_zero]
      have ht := (check_rule_filter t).mp hr
      have hspec : specLevelOK (nonEmptyLevels r).isEmpty t = true := by
        simp only [ruleOK, Bool.or_eq_true, decide_eq_true_eq] at ht
        simp only [specLevelOK, Bool.or_eq_true, decide_eq_true_eq, Bool.and_eq_true]
        rcases ht with (h | h) | h
        · exact Or.inl (Or.inl h)
        · subst h
          refine Or.inl (Or.inr ⟨rfl, ?_⟩)
          cases hne : nonEmptyLevels r with
          | nil => rfl
          | cons l ls =>
            rw [h2, hne] at hfirst
            simp [hashLeadsFurther] at hfirst
        · exact Or.inr h
      simp [h47, specLevelsOK, hspec]
      omega
    · rw [if_pos hr]
      have hnr : ¬ ruleOK t = true := fun h => hr ((check_rule_filter t).mpr h)
      have hns : ¬ specLevelOK (nonEmptyLevels r).isEmpty t = true := by
        intro h
        apply hnr
        simp only [specLevelOK, Bool.or_eq_true, decide_eq_true_eq, Bool.and_eq_true] at h
        simp only [ruleOK, Bool.or_eq_true, decide_eq_true_eq]
        tauto
      simp [specLevelsOK, hns, FAIL_RETURN, SUCCESS_RETURN]

/-- Witness of C1 (amended): the filter "/sensors/+/temp". -/
theorem check_topic_filter_iff_witness :
    iotx_mc_check_topic [] (some sensors_filter) TOPIC_FILTER_TYPE = SUCCESS_RETURN ↔
      (sensors_filter.head? = some 47 ∧ sensors_filter.length ≤ 64 ∧
        nonEmptyLevels sensors_filter ≠ [] ∧
        specLevelsOK (nonEmptyLevels sensors_filter) = true) :=
  check_topic_filter_iff [] sensors_filter (by decide) (by decide)

/-- Counterexample to C1 as stated: the filter "/" starts with `/`, has length 1 and
only empty levels, so the wording of the claim holds of it, and `iotx_mc_check_topic`
rejects it (`strtok` finds no item and `iotx_mc_check_rule` fails on NULL). -/
theorem check_topic_rejects_root :
    ¬ (iotx_mc_check_topic [] (some [47]) TOPIC_FILTER_TYPE = SUCCESS_RETURN ↔
        specTopicFilterValid [47] = true) := by
  decide

/-- Every item the loop accepts passes the rule. -/
theorem loopOK_all (ts : List (List Nat)) : ∀ m : Nat, loopOK m ts → ∀ t ∈ ts, ruleOK t = true := by
  induction ts with
  | nil => intro m _ t ht; simp at ht
  | cons a r ih =>
    intro m h t ht
    simp only [loopOK] at h
    rcases List.mem_cons.mp ht with rfl | htr
    · exact h.2.1
    · exact ih _ h.2.2 t htr

/-- An item that passes the rule is a whole-level wildcard or free of wildcards. -/
theorem ruleOK_wild (t : List Nat) (h : ruleOK t = true) : wildLevelOK t = true := by
  simp only [ruleOK, Bool.or_eq_true, decide_eq_true_eq, List.all_eq_true] at h
  simp only [wildLevelOK, Bool.or_eq_true, decide_eq_true_eq, List.all_eq_true, Bool.and_eq_true]
  rcases h with (h | h) | h
  · exact Or.inl (Or.inl h)
  · exact Or.inl (Or.inr h)
  · right
    intro b hb
    have := h b hb
    simp only [plainByte, Bool.and_eq_true, decide_eq_true_eq] at this
    exact ⟨this.1.2, this.2⟩

/-- Every level of a filter of length other than 64 that `iotx_mc_check_topic` accepts
is a single `+`, a single `#`, or free of both. -/
theorem check_topic_filter_levels (stack F : List Nat) (hlen : F.length ≠ 64)
    (h : iotx_mc_check_topic stack (some F) TOPIC_FILTER_TYPE = SUCCESS_RETURN) :
    ∀ l ∈ levels F, wildLevelOK l = true := by
  simp only [iotx_mc_check_topic, IOTX_MC_TOPIC_NAME_MAX_LEN] at h
  by_cases h47 : F.head? = some 47
  swap
  · simp [h47, FAIL_RETURN, SUCCESS_RETURN] at h
  rw [if_neg (by simpa using h47)] at h
  by_cases h64 : F.length > 64
  · rw [if_pos h64] at h
    simp [FAIL_RETURN, SUCCESS_RETURN] at h
  rw [if_neg h64] at h
  have hts : topicString stack F = F := by
    simp only [topicString, IOTX_MC_TOPIC_NAME_MAX_LEN]
    rw [if_pos (by omega)]
  rw [hts] at h
  rcases strtok_spec F with ⟨h1, h2⟩ | ⟨t, r, h1, h2, -, -⟩
  · simp [h1, iotx_mc_check_rule, FAIL_RETURN, SUCCESS_RETURN] at h
  · simp only [h1] at h
    by_cases hr : iotx_mc_check_rule (some t) TOPIC_FILTER_TYPE = SUCCESS_RETURN
    · rw [if_neg (by simpa using hr), check_topic_loop_filter _ r 0 (by omega)] at h
      intro l hl
      by_cases hle : l = []
      · subst hle; rfl
      · have hmem : l ∈ nonEmptyLevels F := by
          simp only [nonEmptyLevels, List.mem_filter, Bool.not_eq_true', List.isEmpty_eq_false]
          exact ⟨hl, hle⟩
        rw [h2] at hmem
        rcases List.mem_cons.mp hmem with rfl | hmr
        · exact ruleOK_wild _ ((check_rule_filter _).mp hr)
        · exact ruleOK_wild _ (loopOK_all _ 0 h l hmr)
    · rw [if_pos hr] at h
      simp [FAIL_RETURN, SUCCESS_RETURN] at h

/-! ## Publish and acknowledge (C8) -/

/-- The send loop stops once everything is sent. -/
theorem send_packet_loop_done (length : Int) (script : List (Bool × Int)) :
    iotx_mc_send_packet_loop length length script = length := by
  cases script with
  | nil => rfl
  | cons a rest =>
    obtain ⟨e, rc⟩ := a
    simp [iotx_mc_send_packet_loop]

/-- A transport that accepts the whole packet makes `iotx_mc_send_packet` succeed. -/
theorem send_packet_accepts (length : Int) (script : List (Bool × Int)) (hl : 0 < length)
    (h : transport_accepts length script = true) :
    iotx_mc_send_packet length script = SUCCESS_RETURN := by
  cases script with
  | nil => simp [transport_accepts] at h
  | cons a rest =>
    simp only [transport_accepts, List.head?_cons, Option.some.injEq, decide_eq_true_eq] at h
    subst h
    have h1 : iotx_mc_send_packet_loop length 0 ((false, length) :: rest) = length := by
      simp only [iotx_mc_send_packet_loop, hl, and_self, if_true, zero_add]
      rw [if_neg (by omega), send_packet_loop_done]
    simp [iotx_mc_send_packet, h1]

/-- The sweep of the sub-inflight table leaves the pub-inflight table alone. -/
theorem MQTTSubInfoProc_pub (now : Nat) (c : iotx_mc_client_t) :
    (MQTTSubInfoProc now c).1.list_pub_wait_ack = c.list_pub_wait_ack := by
  simp only [MQTTSubInfoProc]
  split_ifs <;> rfl

/-- Sending a ping leaves the pub-inflight table alone. -/
theorem MQTTKeepalive_pub (codec : Codec) (script : List (Bool × Int)) (c : iotx_mc_client_t) :
    (MQTTKeepalive codec script c).1.list_pub_wait_ack = c.list_pub_wait_ack := by
  simp only [MQTTKeepalive]
  split_ifs <;> rfl

/-- The ping scheduler leaves the pub-inflight table alone. -/
theorem keepalive_sub_pub (codec : Codec) (env : yield_env) (c : iotx_mc_client_t) :
    (iotx_mc_keepalive_sub codec env c).1.list_pub_wait_ack = c.list_pub_wait_ack := by
  simp only [iotx_mc_keepalive_sub]
  split_ifs <;> simp [MQTTKeepalive_pub]

/-- Connecting leaves the pub-inflight table alone. -/
theorem connect_pub (codec : Codec) (now : Nat) (cenv : connect_env) (c : iotx_mc_client_t) :
    (iotx_mc_connect codec now cenv c).1.list_pub_wait_ack = c.list_pub_wait_ack := by
  simp only [iotx_mc_connect, MQTTConnect]
  split_ifs <;> rfl

/-- A reconnect attempt leaves the pub-inflight table alone. -/
theorem handle_reconnect_pub (codec : Codec) (now : Nat) (a : Int) (cenv : connect_env)
    (c : iotx_mc_client_t) :
    (iotx_mc_handle_reconnect codec now a cenv c).1.list_pub_wait_ack = c.list_pub_wait_ack := by
  simp only [iotx_mc_handle_reconnect, iotx_mc_attempt_reconnect]
  split_ifs <;> simp [connect_pub]

/-- The keep-alive tick leaves the pub-inflight table alone. -/
theorem keepalive_pub (codec : Codec) (env : yield_env) (c : iotx_mc_client_t) :
    (iotx_mc_keepalive codec env c).1.list_pub_wait_ack = c.list_pub_wait_ack := by
  simp only [iotx_mc_keepalive]
  split_ifs <;> simp [handle_reconnect_pub, keepalive_sub_pub]

/-- A turn of the service loop that reads the PUBACK of the only entry in flight raises
PublishSuccess and empties the pub-inflight table. -/
theorem yield_turn_puback (codec : Codec) (env : yield_env) (P : iotx_mc_client_t)
    (e : iotx_mc_pub_info_t) (M : Nat)
    (hst : P.client_state = IOTX_MC_STATE_CONNECTED) (hl : P.list_pub_wait_ack = [e])
    (he : e.msg_id = M) (hh : P.handle_event.h_fp ≠ 0)
    (hrc : env.read_rc = SUCCESS_RETURN) (hty : env.packetType = PUBACK)
    (hack : env.ack = some M) :
    ∃ c2 rest, yield_turn codec env P
        = some (c2, ⟨P.handle_event.h_fp, P.handle_event.pcontext,
            ⟨IOTX_MQTT_EVENT_PUBLISH_SUCCESS, event_payload.packet M⟩⟩ :: rest, SUCCESS_RETURN) ∧
      c2.list_pub_wait_ack = [] := by
  have hcy : iotx_mc_cycle codec env P = some (iotx_mc_handle_recv_PUBACK env
      { P with next_ping_time := utils_time_cutdown env.now (P.keepAliveInterval * 1000),
               ping_mark := 0 }) := by
    simp [iotx_mc_cycle, hst, hrc, hty, PUBACK, MQTT_CPT_RESERVED, CONNACK]
  have hpa : iotx_mc_handle_recv_PUBACK env
      { P with next_ping_time := utils_time_cutdown env.now (P.keepAliveInterval * 1000),
               ping_mark := 0 }
      = (iotx_mc_mask_pubInfo_from
          { P with next_ping_time := utils_time_cutdown env.now (P.keepAliveInterval * 1000),
                   ping_mark := 0 } M,
         [⟨P.handle_event.h_fp, P.handle_event.pcontext,
            ⟨IOTX_MQTT_EVENT_PUBLISH_SUCCESS, event_payload.packet M⟩⟩], SUCCESS_RETURN) := by
    simp only [iotx_mc_handle_recv_PUBACK, hack, event_call_guarded, event_call]
    have : (iotx_mc_mask_pubInfo_from
          { P with next_ping_time := utils_time_cutdown env.now (P.keepAliveInterval * 1000),
                   ping_mark := 0 } M).handle_event = P.handle_event := by
      simp only [iotx_mc_mask_pubInfo_from]
      split_ifs <;> rfl
    rw [this]
    simp [hh]
  simp only [yield_turn, hcy, hpa, if_true, List.cons_append, List.nil_append, List.singleton_append]
  refine ⟨_, _, rfl, ?_⟩
  rw [keepalive_pub, MQTTSubInfoProc_pub]
  simp [MQTTPubInfoProc, iotx_mc_mask_pubInfo_from, hl, mask_pub_loop, he, MQTTPubInfoProc_loop]

/-- Claim C8: in state CONNECTED with an empty pub-inflight table, an id counter within
0..65535 and room for one entry, when the codec serializes the PUBLISH into the send
buffer, the transport accepts the write and an event handler is registered,
`iotx_mc_publish` of a valid topic with QoS 1 returns the freshly issued id `M`, which
is positive, and leaves exactly one pub-inflight entry, live, with id `M`, holding the
serialized PUBLISH; `iotx_mc_mask_pubInfo_from` (called by the PUBACK handler) marks that
entry Invalid, and one turn of the service loop that reads a PUBACK with packet id `M`
raises PublishSuccess(`M`) first of all and leaves the pub-inflight table empty. -/
theorem publish_qos1_round_trip (codec : Codec) (REPUB_NUM_MAX now : Nat) (stack : List Nat)
    (script : List (Bool × Int)) (c : iotx_mc_client_t) (name : List Nat)
    (msg : iotx_mqtt_topic_info_t)
    (hconn : c.client_state = IOTX_MC_STATE_CONNECTED)
    (hempty : c.list_pub_wait_ack = [])
    (htopic : iotx_mc_check_topic stack (some name) TOPIC_NAME_TYPE = SUCCESS_RETURN)
    (hqos : msg.qos = IOTX_MQTT_QOS1)
    (hpid : c.packet_id ≤ IOTX_MC_PACKET_ID_MAX)
    (hcap : 0 < REPUB_NUM_MAX)
    (hser : 0 < (publish_serialized codec c name msg (iotx_mc_get_next_packetid c).2).1 ∧
      (publish_serialized codec c name msg (iotx_mc_get_next_packetid c).2).1 ≤ c.buf_size_send)
    (hacc : transport_accepts
      (publish_serialized codec c name msg (iotx_mc_get_next_packetid c).2).1 script = true)
    (hh : c.handle_event.h_fp ≠ 0) :
    (iotx_mc_publish codec REPUB_NUM_MAX now stack script c (some name) (some msg)).2
        = ((iotx_mc_get_next_packetid c).2 : Int) ∧
    0 < (iotx_mc_publish codec REPUB_NUM_MAX now stack script c (some name) (some msg)).2 ∧
    (iotx_mc_publish codec REPUB_NUM_MAX now stack script c (some name) (some msg)).1.list_pub_wait_ack
        = [{ pub_start_time := now, node_state := IOTX_MC_NODE_STATE_NORMANL,
             msg_id := (iotx_mc_get_next_packetid c).2,
             len := (publish_serialized codec c name msg (iotx_mc_get_next_packetid c).2).1.toNat,
             buf := (publish_serialized codec c name msg (iotx_mc_get_next_packetid c).2).2.take
               (publish_serialized codec c name msg (iotx_mc_get_next_packetid c).2).1.toNat }] ∧
    ∀ env : yield_env, env.read_rc = SUCCESS_RETURN → env.packetType = PUBACK →
      env.ack = some (iotx_mc_get_next_packetid c).2 →
      ((iotx_mc_mask_pubInfo_from
          (iotx_mc_publish codec REPUB_NUM_MAX now stack script c (some name) (some msg)).1
          (iotx_mc_get_next_packetid c).2).list_pub_wait_ack.map (fun e => e.node_state)
        = [IOTX_MC_NODE_STATE_INVALID]) ∧
      ∃ c2 rest,
        yield_turn codec env
            (iotx_mc_publish codec REPUB_NUM_MAX now stack script c (some name) (some msg)).1
          = some (c2, ⟨c.handle_event.h_fp, c.handle_event.pcontext,
              ⟨IOTX_MQTT_EVENT_PUBLISH_SUCCESS,
                event_payload.packet (iotx_mc_get_next_packetid c).2⟩⟩ :: rest, SUCCESS_RETURN) ∧
        c2.list_pub_wait_ack = [] := by
  obtain ⟨hM1, hM2⟩ := next_packetid_range c hpid
  generalize hM : (iotx_mc_get_next_packetid c).2 = M at *
  have hmod : M % 65536 = M := Nat.mod_eq_of_lt (by omega)
  generalize hS : publish_serialized codec c name msg M = ser at *
  have hsend := send_packet_accepts ser.1 script hser.1 hacc
  have hser' : codec.MQTTSerialize_publish c.buf_size_send 0 1 msg.retain M name msg.payload = ser := by
    rw [← hS, publish_serialized, hqos]; rfl
  have hpub : iotx_mc_publish codec REPUB_NUM_MAX now stack script c (some name) (some msg)
      = ({ Prod.fst (iotx_mc_get_next_packetid c) with
            buf_send := ser.2,
            list_pub_wait_ack :=
              [{ pub_start_time := now, node_state := IOTX_MC_NODE_STATE_NORMANL,
                 msg_id := M, len := ser.1.toNat, buf := ser.2.take ser.1.toNat }] },
          (M : Int)) := by
    have hc1 : (iotx_mc_get_next_packetid c).1.buf_size_send = c.buf_size_send := rfl
    have hc2 : (iotx_mc_get_next_packetid c).1.list_pub_wait_ack = [] := hempty
    simp only [iotx_mc_publish, htopic, SUCCESS_RETURN, ne_eq, not_true_eq_false, if_false, hconn,
      hqos, IOTX_MQTT_QOS1, true_or, if_true, hM, hmod, MQTTPublish, hc1, hser', IOTX_MQTT_QOS0]
    have h1 : ¬ ser.1 ≤ 0 := by omega
    simp only [h1, if_false, gt_iff_lt, zero_lt_one, if_true, iotx_mc_push_pubInfo_to]
    have h2 : ¬ (ser.1 < 0 ∨ ser.1 > (c.buf_size_send : Int)) := by omega
    simp only [hc1, h2, if_false, hc2, List.length_nil, ge_iff_le, nonpos_iff_eq_zero,
      Nat.pos_iff_ne_zero.mp hcap, List.nil_append, iotx_time_start]
    simp only [SUCCESS_RETURN] at hsend
    simp [hsend, SUCCESS_RETURN]
  rw [hpub]
  refine ⟨rfl, by simp; omega, rfl, ?_⟩
  intro env hrc hty hack
  constructor
  · simp [iotx_mc_mask_pubInfo_from, mask_pub_loop]
  · exact yield_turn_puback codec env _ _ M hconn rfl rfl hh hrc hty hack

/-- Witness of C8: `sample_client` publishes "hi" on "/sensors/17/temp" and gets id 3. -/
theorem publish_qos1_round_trip_witness :
    (iotx_mc_publish sample_codec 20 50 [] [(false, 21)] sample_client (some sensors_topic)
      (some sample_msg)).2 = 3 ∧
    ∃ c2 rest,
      yield_turn sample_codec sample_puback_env
          (iotx_mc_publish sample_codec 20 50 [] [(false, 21)] sample_client (some sensors_topic)
            (some sample_msg)).1
        = some (c2, ⟨9, 2, ⟨IOTX_MQTT_EVENT_PUBLISH_SUCCESS, event_payload.packet 3⟩⟩ :: rest,
            SUCCESS_RETURN) ∧
      c2.list_pub_wait_ack = [] :=
  have h := publish_qos1_round_trip sample_codec 20 50 [] [(false, 21)] sample_client
    sensors_topic sample_msg (by decide) (by decide) (by decide) (by decide) (by decide)
    (by decide) (by decide) (by decide) (by decide)
  ⟨h.1, (h.2.2.2 sample_puback_env rfl rfl rfl).2⟩

/-! ## Sweep of the sub-inflight table (C9) -/

/-- The loop of `MQTTSubInfoProc` on a connected client with an event handler: the entries
in time stay, each timed-out entry raises its timeout event. -/
theorem sub_loop_connected (now : Nat) (c : iotx_mc_client_t)
    (hconn : c.client_state = IOTX_MC_STATE_CONNECTED) (hh : c.handle_event.h_fp ≠ 0)
    (ht : c.request_timeout_ms * 2 < UINT32_MOD) (l : List iotx_mc_subsribe_info_t) :
    MQTTSubInfoProc_loop now c l =
      (l.filter (sub_in_time now c), (l.filter (sub_timed_out now c)).map (sub_timeout_call c)) := by
  induction l with
  | nil => rfl
  | cons e r ih =>
    have hmod : (c.request_timeout_ms * 2) % UINT32_MOD = 2 * c.request_timeout_ms := by
      rw [Nat.mod_eq_of_lt ht]; ring
    simp only [MQTTSubInfoProc_loop, ih, hconn, ne_eq, not_true_eq_false, if_false,
      utils_time_spend, hmod, List.filter_cons, sub_in_time, sub_timed_out]
    by_cases hinv : e.node_state = IOTX_MC_NODE_STATE_INVALID
    · simp [hinv]
    · have hn : e.node_state = IOTX_MC_NODE_STATE_NORMANL := by
        cases hs : e.node_state with
        | IOTX_MC_NODE_STATE_NORMANL => rfl
        | IOTX_MC_NODE_STATE_INVALID => exact absurd hs hinv
      by_cases hage : now - e.sub_start_time ≤ 2 * c.request_timeout_ms
      · simp [hn, hage, not_lt.mpr hage]
      · simp only [hn, reduceCtorEq, if_false, hage, decide_True, decide_False, Bool.true_and,
          Bool.and_false, Bool.false_eq_true, gt_iff_lt, not_le.mp hage, if_true, List.map_cons,
          sub_timeout_call, event_call_guarded, event_call, ne_eq, hh, not_false_eq_true]
        by_cases hty : e.type = SUBSCRIBE <;> simp [hty]

/-- `MQTTSubInfoProc` on a connected client with an event handler, in closed form. -/
theorem sub_proc_connected (now : Nat) (c : iotx_mc_client_t)
    (hconn : c.client_state = IOTX_MC_STATE_CONNECTED) (hh : c.handle_event.h_fp ≠ 0)
    (ht : c.request_timeout_ms * 2 < UINT32_MOD) :
    MQTTSubInfoProc now c =
      ({ c with list_sub_wait_ack := c.list_sub_wait_ack.filter (sub_in_time now c) },
        (c.list_sub_wait_ack.reverse.filter (sub_timed_out now c)).map (sub_timeout_call c)) := by
  simp only [MQTTSubInfoProc, sub_loop_connected now c hconn hh ht]
  split_ifs with h
  · have : c.list_sub_wait_ack = [] := List.length_eq_zero.mp h
    obtain ⟨a1, a2, a3, a4, a5, a6, a7, a8, a9, a10, a11, a12, a13, a14⟩ := c
    simp only at this
    subst this
    simp
  · simp [List.filter_reverse]

/-- In a list with distinct keys exactly one member has the key of a given member. -/
theorem countP_eq_one_of_nodup_map {α : Type} (g : α → Nat) (L : List α) (e : α)
    (hn : (L.map g).Nodup) (he : e ∈ L) :
    L.countP (fun x => decide (g x = g e)) = 1 := by
  induction L with
  | nil => simp at he
  | cons a r ih =>
    simp only [List.map_cons, List.nodup_cons, List.mem_map, not_exists, not_and] at hn
    rcases List.mem_cons.mp he with rfl | her
    · have : r.countP (fun x => decide (g x = g e)) = 0 := by
        rw [List.countP_eq_zero]
        intro x hx
        simpa using hn.1 x hx
      simp [List.countP_cons, this]
    · have hne : g a ≠ g e := fun h => hn.1 e her h.symm
      simp [List.countP_cons, hne, ih hn.2 her]

/-- A timed-out entry is live. -/
theorem sub_timed_out_live (now : Nat) (c : iotx_mc_client_t) (e : iotx_mc_subsribe_info_t)
    (h : sub_timed_out now c e = true) : e.node_state = IOTX_MC_NODE_STATE_NORMANL := by
  simp only [sub_timed_out, Bool.and_eq_true, decide_eq_true_eq] at h
  exact h.1

/-- An entry in time is live. -/
theorem sub_in_time_live (now : Nat) (c : iotx_mc_client_t) (e : iotx_mc_subsribe_info_t)
    (h : sub_in_time now c e = true) : e.node_state = IOTX_MC_NODE_STATE_NORMANL := by
  simp only [sub_in_time, Bool.and_eq_true, decide_eq_true_eq] at h
  exact h.1

/-- No entry is both in time and timed out. -/
theorem sub_in_time_not_timed_out (now : Nat) (c : iotx_mc_client_t)
    (e : iotx_mc_subsribe_info_t) (h1 : sub_in_time now c e = true)
    (h2 : sub_timed_out now c e = true) : False := by
  simp only [sub_in_time, sub_timed_out, Bool.and_eq_true, decide_eq_true_eq] at h1 h2
  omega

/-- Two live entries of a table whose live entries carry distinct ids are equal when
their ids are equal. -/
theorem live_id_inj (l : List iotx_mc_subsribe_info_t)
    (hid : ((sub_live l).map (fun e => e.msg_id)).Nodup)
    (a b : iotx_mc_subsribe_info_t) (ha : a ∈ l) (hb : b ∈ l)
    (hal : a.node_state = IOTX_MC_NODE_STATE_NORMANL)
    (hbl : b.node_state = IOTX_MC_NODE_STATE_NORMANL) (hab : a.msg_id = b.msg_id) : a = b := by
  unfold sub_live at hid
  have ha1 : a ∈ l.filter (fun e => decide (e.node_state = IOTX_MC_NODE_STATE_NORMANL)) :=
    List.mem_filter.mpr ⟨ha, by simpa using hal⟩
  have hb1 : b ∈ l.filter (fun e => decide (e.node_state = IOTX_MC_NODE_STATE_NORMANL)) :=
    List.mem_filter.mpr ⟨hb, by simpa using hbl⟩
  exact List.inj_on_of_nodup_map hid ha1 hb1 hab

/-- Claim C9: while the client is CONNECTED, with an event handler registered, a
request timeout whose double fits `uint32_t` and distinct msg ids among the live
entries, `MQTTSubInfoProc` keeps exactly the live entries whose age is at most
`2 * request_timeout_ms`, in order, and raises exactly the timeout events of the live
entries whose age exceeds it (SubscribeTimeout for a SUBSCRIBE entry, UnsubscribeTimeout
otherwise, carrying the msg id), visiting the table from its tail.  So for every
timed-out live entry with id `M` exactly one event of the sweep carries `M`, the entry
is removed, and no later sweep raises an event that carries `M`; every live entry in
time stays in the table and no event of the sweep carries its id. -/
theorem sub_sweep_timeouts (now : Nat) (c : iotx_mc_client_t)
    (hconn : c.client_state = IOTX_MC_STATE_CONNECTED) (hh : c.handle_event.h_fp ≠ 0)
    (ht : c.request_timeout_ms * 2 < UINT32_MOD)
    (hid : ((sub_live c.list_sub_wait_ack).map (fun e => e.msg_id)).Nodup) :
    (MQTTSubInfoProc now c).1.list_sub_wait_ack
        = c.list_sub_wait_ack.filter (sub_in_time now c) ∧
    (MQTTSubInfoProc now c).2
        = (c.list_sub_wait_ack.reverse.filter (sub_timed_out now c)).map (sub_timeout_call c) ∧
    (∀ e ∈ c.list_sub_wait_ack, sub_timed_out now c e = true →
      (MQTTSubInfoProc now c).2.countP
          (fun k => decide (k.msg.msg = event_payload.packet e.msg_id)) = 1 ∧
      e ∉ (MQTTSubInfoProc now c).1.list_sub_wait_ack ∧
      ∀ now2 : Nat, ∀ k ∈ (MQTTSubInfoProc now2 (MQTTSubInfoProc now c).1).2,
        k.msg.msg ≠ event_payload.packet e.msg_id) ∧
    (∀ e ∈ c.list_sub_wait_ack, sub_in_time now c e = true →
      e ∈ (MQTTSubInfoProc now c).1.list_sub_wait_ack ∧
      ∀ k ∈ (MQTTSubInfoProc now c).2, k.msg.msg ≠ event_payload.packet e.msg_id) := by
  rw [sub_proc_connected now c hconn hh ht]
  refine ⟨rfl, rfl, ?_, ?_⟩
  · intro e he hto
    refine ⟨?_, ?_, ?_⟩
    · simp only [List.countP_map]
      have hsub : (c.list_sub_wait_ack.reverse.filter (sub_timed_out now c)).Sublist
          ((c.list_sub_wait_ack.filter
            (fun e => decide (e.node_state = IOTX_MC_NODE_STATE_NORMANL))).reverse) := by
        rw [← List.filter_reverse]
        apply List.monotone_filter_right
        intro x hx
        simpa using sub_timed_out_live now c x hx
      have hnd : ((c.list_sub_wait_ack.reverse.filter (sub_timed_out now c)).map
          (fun e => e.msg_id)).Nodup := by
        refine List.Nodup.sublist (hsub.map _) ?_
        rw [List.map_reverse]
        exact List.nodup_reverse.mpr (by simpa [sub_live] using hid)
      have hmem : e ∈ c.list_sub_wait_ack.reverse.filter (sub_timed_out now c) :=
        List.mem_filter.mpr ⟨List.mem_reverse.mpr he, hto⟩
      have := countP_eq_one_of_nodup_map (fun e => e.msg_id) _ e hnd hmem
      rw [← this]
      congr 1
      funext x
      simp [sub_timeout_call]
    · intro hmem
      exact sub_in_time_not_timed_out now c e (List.mem_filter.mp hmem).2 hto
    · intro now2 k hk
      dsimp only at hk
      rw [sub_proc_connected now2
        { c with list_sub_wait_ack := c.list_sub_wait_ack.filter (sub_in_time now c) }
        hconn hh ht] at hk
      obtain ⟨x, hx, rfl⟩ := List.mem_map.mp hk
      obtain ⟨hx1, hx2⟩ := List.mem_filter.mp hx
      obtain ⟨hx3, hx4⟩ := List.mem_filter.mp (List.mem_reverse.mp hx1)
      intro hkm
      have hidx : x.msg_id = e.msg_id := by simpa [sub_timeout_call] using hkm
      have := live_id_inj _ hid x e hx3 he (sub_in_time_live now c x hx4)
        (sub_timed_out_live now c e hto) hidx
      subst this
      exact sub_in_time_not_timed_out now c x hx4 hto
  · intro e he hin
    refine ⟨List.mem_filter.mpr ⟨he, hin⟩, ?_⟩
    intro k hk
    obtain ⟨x, hx, rfl⟩ := List.mem_map.mp hk
    obtain ⟨hx1, hx2⟩ := List.mem_filter.mp hx
    intro hkm
    have hidx : x.msg_id = e.msg_id := by simpa [sub_timeout_call] using hkm
    have := live_id_inj _ hid x e (List.mem_reverse.mp hx1) he (sub_timed_out_live now c x hx2)
      (sub_in_time_live now c e hin) hidx
    subst this
    exact sub_in_time_not_timed_out now c x hin hx2

/-- Witness of C9: `sample_client` swept at 6000 ms; the SUBSCRIBE sent at 0 ms times
out, the UNSUBSCRIBE sent at 5000 ms stays. -/
theorem sub_sweep_timeouts_witness :
    (MQTTSubInfoProc 6000 sample_client).1.list_sub_wait_ack
      = [⟨UNSUBSCRIBE, 2, 5000, IOTX_MC_NODE_STATE_NORMANL, ⟨some sensors_filter, ⟨0, 0⟩⟩, 0, []⟩] ∧
    (MQTTSubInfoProc 6000 sample_client).2
      = [⟨9, 2, ⟨IOTX_MQTT_EVENT_SUBCRIBE_TIMEOUT, event_payload.packet 1⟩⟩] :=
  have h := sub_sweep_timeouts 6000 sample_client (by decide) (by decide) (by decide) (by decide)
  ⟨h.1, h.2.1⟩

/-! ## CONNACK return codes (C20) -/

/-- Claim C20: `iotx_mc_handle_recv_CONNACK` returns `SUCCESS_RETURN` if and only if
the packet was parsed and its return code is 0; the return codes 1, 2, 3, 4 and 5 give
the unacceptable-protocol-version, identifier-rejected, server-unavailable,
bad-userdata and not-authorized errors; every other return code gives
`MQTT_CONNACK_UNKNOWN_ERROR`; a packet the codec fails to parse gives
`MQTT_CONNECT_ACK_PACKET_ERROR`. -/
theorem handle_recv_CONNACK_codes (connack : Option (Nat × Nat)) :
    (iotx_mc_handle_recv_CONNACK connack = SUCCESS_RETURN ↔
      ∃ sessionPresent, connack = some (sessionPresent, 0)) ∧
    (∀ sessionPresent, iotx_mc_handle_recv_CONNACK (some (sessionPresent, 1))
      = MQTT_CONANCK_UNACCEPTABLE_PROTOCOL_VERSION_ERROR) ∧
    (∀ sessionPresent, iotx_mc_handle_recv_CONNACK (some (sessionPresent, 2))
      = MQTT_CONNACK_IDENTIFIER_REJECTED_ERROR) ∧
    (∀ sessionPresent, iotx_mc_handle_recv_CONNACK (some (sessionPresent, 3))
      = MQTT_CONNACK_SERVER_UNAVAILABLE_ERROR) ∧
    (∀ sessionPresent, iotx_mc_handle_recv_CONNACK (some (sessionPresent, 4))
      = MQTT_CONNACK_BAD_USERDATA_ERROR) ∧
    (∀ sessionPresent, iotx_mc_handle_recv_CONNACK (some (sessionPresent, 5))
      = MQTT_CONNACK_NOT_AUTHORIZED_ERROR) ∧
    (∀ sessionPresent connack_rc, 5 < connack_rc →
      iotx_mc_handle_recv_CONNACK (some (sessionPresent, connack_rc))
        = MQTT_CONNACK_UNKNOWN_ERROR) ∧
    iotx_mc_handle_recv_CONNACK none = MQTT_CONNECT_ACK_PACKET_ERROR := by
  refine ⟨?_, ?_, ?_, ?_, ?_, ?_, ?_, rfl⟩
  · cases connack with
    | none => simp [iotx_mc_handle_recv_CONNACK, MQTT_CONNECT_ACK_PACKET_ERROR, SUCCESS_RETURN]
    | some p =>
      obtain ⟨sp, rc⟩ := p
      simp only [iotx_mc_handle_recv_CONNACK, IOTX_MC_CONNECTION_ACCEPTED,
        IOTX_MC_CONNECTION_REFUSED_UNACCEPTABLE_PROTOCOL_VERSION,
        IOTX_MC_CONNECTION_REFUSED_IDENTIFIER_REJECTED,
        IOTX_MC_CONNECTION_REFUSED_SERVER_UNAVAILABLE, IOTX_MC_CONNECTION_REFUSED_BAD_USERDATA,
        IOTX_MC_CONNECTION_REFUSED_NOT_AUTHORIZED, SUCCESS_RETURN,
        MQTT_CONANCK_UNACCEPTABLE_PROTOCOL_VERSION_ERROR, MQTT_CONNACK_IDENTIFIER_REJECTED_ERROR,
        MQTT_CONNACK_SERVER_UNAVAILABLE_ERROR, MQTT_CONNACK_BAD_USERDATA_ERROR,
        MQTT_CONNACK_NOT_AUTHORIZED_ERROR, MQTT_CONNACK_UNKNOWN_ERROR]
      constructor
      · intro h
        split_ifs at h with h0
        exact ⟨sp, by rw [h0]⟩
      · rintro ⟨sp1, h⟩
        simp only [Option.some.injEq, Prod.mk.injEq] at h
        simp [h.2]
  · intro sp; rfl
  · intro sp; rfl
  · intro sp; rfl
  · intro sp; rfl
  · intro sp; rfl
  · intro sp rc h
    have h0 : rc ≠ 0 := by omega
    have h1 : rc ≠ 1 := by omega
    have h2 : rc ≠ 2 := by omega
    have h3 : rc ≠ 3 := by omega
    have h4 : rc ≠ 4 := by omega
    have h5 : rc ≠ 5 := by omega
    simp [iotx_mc_handle_recv_CONNACK, IOTX_MC_CONNECTION_ACCEPTED,
        IOTX_MC_CONNECTION_REFUSED_UNACCEPTABLE_PROTOCOL_VERSION,
        IOTX_MC_CONNECTION_REFUSED_IDENTIFIER_REJECTED,
        IOTX_MC_CONNECTION_REFUSED_SERVER_UNAVAILABLE, IOTX_MC_CONNECTION_REFUSED_BAD_USERDATA,
        IOTX_MC_CONNECTION_REFUSED_NOT_AUTHORIZED, h0, h1, h2, h3, h4, h5]

/-! ## Reconnect interval over keep-alive ticks (C17) -/

/-- Claim C17 (the code at the failing input): a client fresh from `iotx_mc_init` and
connected at 0 ms meets a dead network from 60000 ms on; the keep-alive ticks run at
the instants the deadlines expire.  After 0, 1, ..., 8 ticks the reconnect interval is
1000, 1000, 2000, 4000, 8000, 16000, 32000, 64000, 60000: the state after the seventh
tick is reached from `iotx_mc_init` through `iotx_mc_keepalive` alone and holds
64000 ms, above `IOTX_MC_RECONNECT_INTERVAL_MAX_MS`. -/
theorem keepalive_ticks_interval_overshoots :
    (List.range 9).map (fun k =>
      (keepalive_ticks sample_codec
        (([60000, 61000, 63000, 67000, 75000, 91000, 123000, 187000].take k).map network_down)
        sample_connected).reconnect_param.reconnect_time_interval_ms)
      = [1000, 1000, 2000, 4000, 8000, 16000, 32000, 64000, 60000] ∧
    IOTX_MC_RECONNECT_INTERVAL_MAX_MS <
      (keepalive_ticks sample_codec
        ([60000, 61000, 63000, 67000, 75000, 91000, 123000].map network_down)
        sample_connected).reconnect_param.reconnect_time_interval_ms := by
  decide

/-! ## Unsubscribe (C11) -/

/-- Claim C11 (the code at the failing input): the removal step of the UNSUBACK handler,
run with the handle that `MQTTUnsubscribe` pushes for a filter `F` (NULL callback and
context), keeps every slot whose callback is not NULL, whatever its filter.  On the
run subscribe("/sensors/+/temp", 7, 1), SUBACK, unsubscribe("/sensors/+/temp"),
UNSUBACK the table still holds the binding in slot 0 at the end, and a PUBLISH on
"/sensors/17/temp" still invokes callback 7 with context 1. -/
theorem unsubscribe_keeps_binding :
    (∀ (t : List iotx_mc_topic_handle_t) (F : List Nat) (s : iotx_mc_topic_handle_t),
      s ∈ t → s.handle.h_fp ≠ 0 →
        ∃ t1, unsuback_remove t ⟨some F, ⟨0, 0⟩⟩ = some t1 ∧ s ∈ t1) ∧
    (subscribed_then_unsubscribed sensors_filter 7 1).map (fun c => c.sub_handle)
      = some [sample_binding, empty_topic_handle] ∧
    (subscribed_then_unsubscribed sensors_filter 7 1).map
        (fun c => (iotx_mc_deliver_message c sensors_topic sample_msg).map
          (fun k => (k.h_fp, k.pcontext)))
      = some [(7, 1)] := by
  refine ⟨?_, by decide, by decide⟩
  intro t F s hs hfp
  have hr : unsuback_remove t ⟨some F, ⟨0, 0⟩⟩ = some (t.map (fun s =>
      if slot_is_identical s ⟨some F, ⟨0, 0⟩⟩ then empty_topic_handle else s)) := by
    simp [unsuback_remove]
  refine ⟨_, hr, ?_⟩
  refine List.mem_map.mpr ⟨s, hs, ?_⟩
  have hne : slot_is_identical s ⟨some F, ⟨0, 0⟩⟩ ≠ true := by
    intro h
    have h1 := ((slot_is_identical_iff s ⟨some F, ⟨0, 0⟩⟩).mp h).1
    exact hfp (by rw [h1])
  simp [hne]

/-! ## Publish on a name with a wildcard (C15) -/

/-- The byte loop of `iotx_mc_check_rule` accepts no wildcard in a topic name. -/
theorem check_rule_loop_name (len : Nat) (s : List Nat)
    (h : iotx_mc_check_rule_loop len TOPIC_NAME_TYPE s = SUCCESS_RETURN) :
    ∀ ch ∈ s, ch ≠ 43 ∧ ch ≠ 35 := by
  induction s with
  | nil => intro ch hch; simp at hch
  | cons a as ih =>
    simp only [iotx_mc_check_rule_loop] at h
    rw [if_neg (by decide)] at h
    by_cases h1 : a = 43 ∨ a = 35
    · rw [if_pos h1] at h
      simp [FAIL_RETURN, SUCCESS_RETURN] at h
    · rw [if_neg h1] at h
      by_cases h2 : a < 32 ∨ a ≥ 127
      · rw [if_pos h2] at h
        simp [FAIL_RETURN, SUCCESS_RETURN] at h
      · rw [if_neg h2] at h
        intro ch hch
        rcases List.mem_cons.mp hch with rfl | hr
        · exact ⟨fun e => h1 (Or.inl e), fun e => h1 (Or.inr e)⟩
        · exact ih h ch hr

/-- When the loop of `iotx_mc_check_topic` succeeds, every item it met has passed
`iotx_mc_check_rule`. -/
theorem check_topic_loop_items (type : iotx_mc_topic_type_t) :
    ∀ (fuel : Nat) (rest : List Nat) (mask : Nat),
      iotx_mc_check_topic_loop type fuel rest mask = SUCCESS_RETURN →
        ∀ t ∈ nonEmptyLevels rest, iotx_mc_check_rule (some t) type = SUCCESS_RETURN := by
  intro fuel
  induction fuel with
  | zero => intro rest mask h; simp [iotx_mc_check_topic_loop, FAIL_RETURN, SUCCESS_RETURN] at h
  | succ k ih =>
    intro rest mask h
    rcases strtok_spec rest with ⟨-, h2⟩ | ⟨t, r, h1, h2, -, -⟩
    · intro t ht; rw [h2] at ht; simp at ht
    · simp only [iotx_mc_check_topic_loop, h1] at h
      by_cases hm : mask = 1
      · simp [hm, FAIL_RETURN, SUCCESS_RETURN] at h
      · rw [if_neg hm] at h
        by_cases hr : iotx_mc_check_rule (some t) type ≠ SUCCESS_RETURN
        · rw [if_pos hr] at h
          simp [FAIL_RETURN, SUCCESS_RETURN] at h
        · rw [if_neg hr] at h
          intro t1 ht1
          rw [h2] at ht1
          rcases List.mem_cons.mp ht1 with rfl | hin
          · exact not_not.mp hr
          · exact ih r _ h t1 hin

/-- A byte of a text that is not the separator lies in one of its non-empty levels. -/
theorem mem_nonEmptyLevels (b : Nat) (hb : b ≠ 47) :
    ∀ s : List Nat, b ∈ s → ∃ l ∈ nonEmptyLevels s, b ∈ l := by
  intro s
  induction s with
  | nil => intro h; simp at h
  | cons c cs ih =>
    intro h
    by_cases hc : c = 47
    · subst hc
      rw [nonEmptyLevels_sep]
      rcases List.mem_cons.mp h with rfl | hr
      · exact absurd rfl hb
      · exact ih hr
    · obtain ⟨l, ls, hl⟩ := levels_exists cs
      have hlev := levels_cons_of_ne c cs l ls hc hl
      have hne : nonEmptyLevels (c :: cs) = (c :: l) :: ls.filter (fun l => !l.isEmpty) := by
        simp [nonEmptyLevels, hlev]
      rw [hne]
      rcases List.mem_cons.mp h with rfl | hr
      · exact ⟨b :: l, by simp, by simp⟩
      · obtain ⟨l1, hl1, hbl1⟩ := ih hr
        simp only [nonEmptyLevels, hl, List.filter_cons] at hl1
        by_cases hle : (!l.isEmpty) = true
        · rw [if_pos hle] at hl1
          rcases List.mem_cons.mp hl1 with rfl | hin
          · exact ⟨c :: l1, by simp, by simp [hbl1]⟩
          · exact ⟨l1, List.mem_cons_of_mem _ hin, hbl1⟩
        · rw [if_neg hle] at hl1
          exact ⟨l1, List.mem_cons_of_mem _ hl1, hbl1⟩

/-- The validator rejects every topic name that holds a wildcard, whatever lies
behind the array `topicString`. -/
theorem check_topic_name_wildcard (stack name : List Nat) (hw : 43 ∈ name ∨ 35 ∈ name) :
    iotx_mc_check_topic stack (some name) TOPIC_NAME_TYPE ≠ SUCCESS_RETURN := by
  intro h
  simp only [iotx_mc_check_topic, IOTX_MC_TOPIC_NAME_MAX_LEN] at h
  by_cases h47 : name.head? = some 47
  swap
  · simp [h47, FAIL_RETURN, SUCCESS_RETURN] at h
  rw [if_neg (by simpa using h47)] at h
  by_cases h64 : name.length > 64
  · simp [h64, FAIL_RETURN, SUCCESS_RETURN] at h
  rw [if_neg h64] at h
  -- every byte of the name is a byte of the string that is tokenised
  have hsub : ∀ b ∈ name, b ∈ topicString stack name := by
    intro b hb
    simp only [topicString, IOTX_MC_TOPIC_NAME_MAX_LEN]
    split_ifs with hlt
    · exact hb
    · have : name.take 64 = name := List.take_of_length_le (by omega)
      rw [this]
      exact List.mem_append_left _ hb
  -- every item of that string has passed the rule
  have hall : ∀ t ∈ nonEmptyLevels (topicString stack name),
      iotx_mc_check_rule (some t) TOPIC_NAME_TYPE = SUCCESS_RETURN := by
    rcases strtok_spec (topicString stack name) with ⟨h1, -⟩ | ⟨t, r, h1, h2, -, -⟩
    · rw [h1] at h
      simp [iotx_mc_check_rule, FAIL_RETURN, SUCCESS_RETURN] at h
    · rw [h1] at h
      simp only at h
      by_cases hr : iotx_mc_check_rule (some t) TOPIC_NAME_TYPE ≠ SUCCESS_RETURN
      · rw [if_pos hr] at h
        simp [FAIL_RETURN, SUCCESS_RETURN] at h
      · rw [if_neg hr] at h
        intro t1 ht1
        rw [h2] at ht1
        rcases List.mem_cons.mp ht1 with rfl | hin
        · exact not_not.mp hr
        · exact check_topic_loop_items _ _ r _ h t1 hin
  have key : ∀ b, b ∈ name → b ≠ 47 → b ≠ 43 ∧ b ≠ 35 := by
    intro b hb hb47
    obtain ⟨l, hl, hbl⟩ := mem_nonEmptyLevels b hb47 _ (hsub b hb)
    exact check_rule_loop_name _ l (hall l hl) b hbl
  rcases hw with hw | hw
  · exact (key 43 hw (by decide)).1 rfl
  · exact (key 35 hw (by decide)).2 rfl

/-! ## Effects of the requests on the client -/

/-- What `MQTTPublish` does to the client: only the send buffer and the pub-inflight
table can change; the table gains one live entry under the packet id of the message
when a message of QoS above 0 has been sent, and is as before otherwise. -/
theorem MQTTPublish_effects (codec : Codec) (R now : Nat) (script : List (Bool × Int))
    (c : iotx_mc_client_t) (name : List Nat) (msg : iotx_mqtt_topic_info_t) :
    (MQTTPublish codec R now script c name msg).1
      = { c with
          buf_send := (MQTTPublish codec R now script c name msg).1.buf_send,
          list_pub_wait_ack := (MQTTPublish codec R now script c name msg).1.list_pub_wait_ack } ∧
    ((MQTTPublish codec R now script c name msg).2 = SUCCESS_RETURN ∨
      (MQTTPublish codec R now script c name msg).2 = MQTT_PUBLISH_PACKET_ERROR ∨
      (MQTTPublish codec R now script c name msg).2 = MQTT_PUSH_TO_LIST_ERROR ∨
      (MQTTPublish codec R now script c name msg).2 = MQTT_NETWORK_ERROR) ∧
    ((MQTTPublish codec R now script c name msg).2 ≠ SUCCESS_RETURN ∨ msg.qos = 0 →
      (MQTTPublish codec R now script c name msg).1.list_pub_wait_ack = c.list_pub_wait_ack) ∧
    ((MQTTPublish codec R now script c name msg).2 = SUCCESS_RETURN → 0 < msg.qos →
      ∃ e, (MQTTPublish codec R now script c name msg).1.list_pub_wait_ack
          = c.list_pub_wait_ack ++ [e] ∧ e.msg_id = msg.packet_id ∧
        e.node_state = IOTX_MC_NODE_STATE_NORMANL) := by
  simp only [MQTTPublish, iotx_mc_push_pubInfo_to, IOTX_MQTT_QOS0]
  split_ifs <;>
    simp_all [SUCCESS_RETURN, MQTT_PUBLISH_PACKET_ERROR, MQTT_PUSH_TO_LIST_ERROR,
      MQTT_NETWORK_ERROR, FAIL_RETURN]
  omega

/-- What `MQTTSubscribe` does to the client: only the send buffer and the sub-inflight
table can change; the table gains one live SUBSCRIBE entry under the packet id, with
the handle of the request, when the packet has been sent, and is as before
otherwise. -/
theorem MQTTSubscribe_effects (codec : Codec) (now : Nat) (script : List (Bool × Int))
    (c : iotx_mc_client_t) (F : List Nat) (qos msgId H ctx : Nat) :
    (MQTTSubscribe codec now script c F qos msgId H ctx).1
      = { c with
          buf_send := (MQTTSubscribe codec now script c F qos msgId H ctx).1.buf_send,
          list_sub_wait_ack :=
            (MQTTSubscribe codec now script c F qos msgId H ctx).1.list_sub_wait_ack } ∧
    ((MQTTSubscribe codec now script c F qos msgId H ctx).2 = SUCCESS_RETURN ∨
      (MQTTSubscribe codec now script c F qos msgId H ctx).2 = MQTT_SUBSCRIBE_PACKET_ERROR ∨
      (MQTTSubscribe codec now script c F qos msgId H ctx).2 = MQTT_PUSH_TO_LIST_ERROR ∨
      (MQTTSubscribe codec now script c F qos msgId H ctx).2 = MQTT_NETWORK_ERROR) ∧
    ((MQTTSubscribe codec now script c F qos msgId H ctx).2 ≠ SUCCESS_RETURN →
      (MQTTSubscribe codec now script c F qos msgId H ctx).1.list_sub_wait_ack
        = c.list_sub_wait_ack) ∧
    ((MQTTSubscribe codec now script c F qos msgId H ctx).2 = SUCCESS_RETURN →
      ∃ e, (MQTTSubscribe codec now script c F qos msgId H ctx).1.list_sub_wait_ack
          = c.list_sub_wait_ack ++ [e] ∧ e.msg_id = msgId % 65536 ∧
        e.node_state = IOTX_MC_NODE_STATE_NORMANL ∧ e.type = SUBSCRIBE ∧
        e.handler = ⟨some F, ⟨H, ctx⟩⟩) := by
  simp only [MQTTSubscribe, iotx_mc_push_subInfo_to]
  split_ifs <;>
    simp_all [SUCCESS_RETURN, MQTT_SUBSCRIBE_PACKET_ERROR, MQTT_PUSH_TO_LIST_ERROR,
      MQTT_NETWORK_ERROR, FAIL_RETURN]

/-- What `MQTTUnsubscribe` does to the client: only the send buffer and the
sub-inflight table can change; the table gains one live UNSUBSCRIBE entry under the
packet id, with a NULL callback and context, when the packet has been sent, and is as
before otherwise. -/
theorem MQTTUnsubscribe_effects (codec : Codec) (now : Nat) (script : List (Bool × Int))
    (c : iotx_mc_client_t) (F : List Nat) (msgId : Nat) :
    (MQTTUnsubscribe codec now script c F msgId).1
      = { c with
          buf_send := (MQTTUnsubscribe codec now script c F msgId).1.buf_send,
          list_sub_wait_ack := (MQTTUnsubscribe codec now script c F msgId).1.list_sub_wait_ack } ∧
    ((MQTTUnsubscribe codec now script c F msgId).2 = SUCCESS_RETURN ∨
      (MQTTUnsubscribe codec now script c F msgId).2 = MQTT_UNSUBSCRIBE_PACKET_ERROR ∨
      (MQTTUnsubscribe codec now script c F msgId).2 = MQTT_PUSH_TO_LIST_ERROR ∨
      (MQTTUnsubscribe codec now script c F msgId).2 = MQTT_NETWORK_ERROR) ∧
    ((MQTTUnsubscribe codec now script c F msgId).2 ≠ SUCCESS_RETURN →
      (MQTTUnsubscribe codec now script c F msgId).1.list_sub_wait_ack = c.list_sub_wait_ack) ∧
    ((MQTTUnsubscribe codec now script c F msgId).2 = SUCCESS_RETURN →
      ∃ e, (MQTTUnsubscribe codec now script c F msgId).1.list_sub_wait_ack
          = c.list_sub_wait_ack ++ [e] ∧ e.msg_id = msgId % 65536 ∧
        e.node_state = IOTX_MC_NODE_STATE_NORMANL ∧ e.type = UNSUBSCRIBE ∧
        e.handler = ⟨some F, ⟨0, 0⟩⟩) := by
  simp only [MQTTUnsubscribe, iotx_mc_push_subInfo_to]
  split_ifs <;>
    simp_all [SUCCESS_RETURN, MQTT_UNSUBSCRIBE_PACKET_ERROR, MQTT_PUSH_TO_LIST_ERROR,
      MQTT_NETWORK_ERROR, FAIL_RETURN]

/-- A packet id within 1..65535 survives the conversions on its way out of
`iotx_mc_subscribe` and `iotx_mc_unsubscribe`. -/
theorem int_of_unsigned_id (n : Nat) (h : n ≤ 65535) : int_of_unsigned n = (n : Int) := by
  have h1 : n % UINT32_MOD = n := Nat.mod_eq_of_lt (by simp only [UINT32_MOD]; omega)
  simp only [int_of_unsigned, h1]
  rw [if_pos (by omega)]

/-! ## The three requests after validation -/

/-- After validation `iotx_mc_publish` issues the id, calls `MQTTPublish` and ends. -/
theorem publish_eq (codec : Codec) (R now : Nat) (stack : List Nat)
    (script : List (Bool × Int)) (c : iotx_mc_client_t) (name : List Nat)
    (m : iotx_mqtt_topic_info_t)
    (hchk : iotx_mc_check_topic stack (some name) TOPIC_NAME_TYPE = SUCCESS_RETURN)
    (hst : c.client_state = IOTX_MC_STATE_CONNECTED) :
    iotx_mc_publish codec R now stack script c (some name) (some m)
      = request_outcome
          (MQTTPublish codec R now script (publish_issued c m).1 name (publish_issued c m).2.2)
          ((publish_issued c m).2.1 : Int) := by
  have h0 : ¬ (0 ≠ iotx_mc_check_topic stack (some name) TOPIC_NAME_TYPE) := by
    rw [hchk]; simp [SUCCESS_RETURN]
  simp only [iotx_mc_publish, if_neg h0, hst, ne_eq, not_true_eq_false, if_false,
    request_outcome, publish_issued]

/-- After validation `iotx_mc_subscribe` issues the id, calls `MQTTSubscribe` and ends. -/
theorem subscribe_eq (codec : Codec) (now : Nat) (stack : List Nat)
    (script : List (Bool × Int)) (c : iotx_mc_client_t) (F : List Nat) (qos H ctx : Nat)
    (hchk : iotx_mc_check_topic stack (some F) TOPIC_FILTER_TYPE = SUCCESS_RETURN)
    (hst : c.client_state = IOTX_MC_STATE_CONNECTED) :
    iotx_mc_subscribe codec now stack script c (some F) qos H ctx
      = request_outcome
          (MQTTSubscribe codec now script (iotx_mc_get_next_packetid c).1 F qos
            (iotx_mc_get_next_packetid c).2 H ctx)
          (int_of_unsigned (iotx_mc_get_next_packetid c).2) := by
  have h0 : ¬ (0 ≠ iotx_mc_check_topic stack (some F) TOPIC_FILTER_TYPE) := by
    rw [hchk]; simp [SUCCESS_RETURN]
  simp only [iotx_mc_subscribe, if_neg h0, hst, ne_eq, not_true_eq_false, if_false,
    request_outcome]

/-- After validation `iotx_mc_unsubscribe` issues the id, calls `MQTTUnsubscribe` and
ends. -/
theorem unsubscribe_eq (codec : Codec) (now : Nat) (stack : List Nat)
    (script : List (Bool × Int)) (c : iotx_mc_client_t) (F : List Nat)
    (hchk : iotx_mc_check_topic stack (some F) TOPIC_FILTER_TYPE = SUCCESS_RETURN)
    (hst : c.client_state = IOTX_MC_STATE_CONNECTED) :
    iotx_mc_unsubscribe codec now stack script c (some F)
      = request_outcome
          (MQTTUnsubscribe codec now script (iotx_mc_get_next_packetid c).1 F
            (iotx_mc_get_next_packetid c).2)
          (int_of_unsigned (iotx_mc_get_next_packetid c).2) := by
  have h0 : ¬ (0 ≠ iotx_mc_check_topic stack (some F) TOPIC_FILTER_TYPE) := by
    rw [hchk]; simp [SUCCESS_RETURN]
  simp only [iotx_mc_unsubscribe, if_neg h0, hst, ne_eq, not_true_eq_false, if_false,
    request_outcome]

/-- The value a request returns: the `rc` of the inner call unless that is success. -/
theorem request_outcome_rc (r : iotx_mc_client_t × Int) (id : Int) :
    (request_outcome r id).2 = if r.2 = SUCCESS_RETURN then id else r.2 := by
  simp only [request_outcome]
  split_ifs <;> simp_all

/-- The client a request leaves: that of the inner call, DISCONNECTED after a network
error. -/
theorem request_outcome_client (r : iotx_mc_client_t × Int) (id : Int) :
    (request_outcome r id).1 =
      if r.2 = MQTT_NETWORK_ERROR then { r.1 with client_state := IOTX_MC_STATE_DISCONNECTED }
      else r.1 := by
  simp only [request_outcome, MQTT_NETWORK_ERROR, SUCCESS_RETURN]
  split_ifs <;> simp_all

/-- A validation failure is the only way for a check of the topic to differ from
success. -/
theorem check_topic_ne (stack : List Nat) (t : Option (List Nat)) (type : iotx_mc_topic_type_t) :
    (0 ≠ iotx_mc_check_topic stack t type) ↔ iotx_mc_check_topic stack t type ≠ SUCCESS_RETURN := by
  simp only [SUCCESS_RETURN]
  exact ⟨fun h e => h e.symm, fun h e => h e.symm⟩

/-! ## Validation errors (C13, C15) -/

/-- The three codes by which a request reports a NULL argument, an invalid topic or a
client that is not connected are negative and differ from the codes of the later
steps. -/
theorem validation_code_cases (rc : Int)
    (hrc : rc = NULL_VALUE_ERROR ∨ rc = MQTT_TOPIC_FORMAT_ERROR ∨ rc = MQTT_STATE_ERROR) :
    rc < 0 ∧ rc ≠ SUCCESS_RETURN ∧ rc ≠ MQTT_PUBLISH_PACKET_ERROR ∧
      rc ≠ MQTT_PUSH_TO_LIST_ERROR ∧ rc ≠ MQTT_NETWORK_ERROR ∧
      rc ≠ MQTT_SUBSCRIBE_PACKET_ERROR ∧ rc ≠ MQTT_UNSUBSCRIBE_PACKET_ERROR := by
  simp only [NULL_VALUE_ERROR, MQTT_TOPIC_FORMAT_ERROR, MQTT_STATE_ERROR, SUCCESS_RETURN,
    MQTT_PUBLISH_PACKET_ERROR, MQTT_PUSH_TO_LIST_ERROR, MQTT_NETWORK_ERROR,
    MQTT_SUBSCRIBE_PACKET_ERROR, MQTT_UNSUBSCRIBE_PACKET_ERROR] at hrc ⊢
  omega

/-- A publish that returns one of the validation codes has left the client as it was
and has written nothing. -/
theorem publish_validation_error (codec : Codec) (R now : Nat) (stack : List Nat)
    (script : List (Bool × Int)) (c : iotx_mc_client_t) (topic : Option (List Nat))
    (msg : Option iotx_mqtt_topic_info_t) (rc : Int)
    (hrc : rc = NULL_VALUE_ERROR ∨ rc = MQTT_TOPIC_FORMAT_ERROR ∨ rc = MQTT_STATE_ERROR)
    (h : (iotx_mc_publish codec R now stack script c topic msg).2 = rc) :
    (iotx_mc_publish codec R now stack script c topic msg).1 = c ∧
      iotx_mc_publish_writes codec R now stack script c topic msg = [] := by
  obtain ⟨hneg, h0, h21, h42, h14, -, -⟩ := validation_code_cases rc hrc
  cases topic with
  | none => simp [iotx_mc_publish, iotx_mc_publish_writes]
  | some name =>
    cases msg with
    | none => simp [iotx_mc_publish, iotx_mc_publish_writes]
    | some m =>
      by_cases hchk : 0 ≠ iotx_mc_check_topic stack (some name) TOPIC_NAME_TYPE
      · simp [iotx_mc_publish, iotx_mc_publish_writes, hchk]
      · by_cases hst : c.client_state ≠ IOTX_MC_STATE_CONNECTED
        · simp [iotx_mc_publish, iotx_mc_publish_writes, hchk, hst]
        · exfalso
          have hchk1 : iotx_mc_check_topic stack (some name) TOPIC_NAME_TYPE = SUCCESS_RETURN :=
            not_not.mp (fun e => hchk ((check_topic_ne _ _ _).mpr e))
          rw [publish_eq codec R now stack script c name m hchk1 (not_not.mp hst),
            request_outcome_rc] at h
          have hc := (MQTTPublish_effects codec R now script (publish_issued c m).1 name
            (publish_issued c m).2.2).2.1
          split_ifs at h with hs
          · omega
          · rw [h] at hc
            rcases hc with hc | hc | hc | hc
            · exact h0 hc
            · exact h21 hc
            · exact h42 hc
            · exact h14 hc

/-- A subscribe that returns one of the validation codes has left the client as it was
and has written nothing. -/
theorem subscribe_validation_error (codec : Codec) (now : Nat) (stack : List Nat)
    (script : List (Bool × Int)) (c : iotx_mc_client_t)
    (hpid : c.packet_id ≤ IOTX_MC_PACKET_ID_MAX) (topic : Option (List Nat))
    (qos H ctx : Nat) (rc : Int)
    (hrc : rc = NULL_VALUE_ERROR ∨ rc = MQTT_TOPIC_FORMAT_ERROR ∨ rc = MQTT_STATE_ERROR)
    (h : (iotx_mc_subscribe codec now stack script c topic qos H ctx).2 = rc) :
    (iotx_mc_subscribe codec now stack script c topic qos H ctx).1 = c ∧
      iotx_mc_subscribe_writes codec now stack script c topic qos H ctx = [] := by
  obtain ⟨hneg, h0, -, h42, h14, h26, -⟩ := validation_code_cases rc hrc
  cases topic with
  | none => simp [iotx_mc_subscribe, iotx_mc_subscribe_writes]
  | some F =>
    by_cases hst : c.client_state ≠ IOTX_MC_STATE_CONNECTED
    · simp [iotx_mc_subscribe, iotx_mc_subscribe_writes, hst]
    · by_cases hchk : 0 ≠ iotx_mc_check_topic stack (some F) TOPIC_FILTER_TYPE
      · simp [iotx_mc_subscribe, iotx_mc_subscribe_writes, hchk, hst]
      · exfalso
        have hchk1 : iotx_mc_check_topic stack (some F) TOPIC_FILTER_TYPE = SUCCESS_RETURN :=
          not_not.mp (fun e => hchk ((check_topic_ne _ _ _).mpr e))
        rw [subscribe_eq codec now stack script c F qos H ctx hchk1 (not_not.mp hst),
          request_outcome_rc] at h
        have hc := (MQTTSubscribe_effects codec now script (iotx_mc_get_next_packetid c).1 F qos
          (iotx_mc_get_next_packetid c).2 H ctx).2.1
        have hid := next_packetid_range c hpid
        split_ifs at h with hs
        · rw [int_of_unsigned_id _ hid.2] at h
          omega
        · rw [h] at hc
          rcases hc with hc | hc | hc | hc
          · exact h0 hc
          · exact h26 hc
          · exact h42 hc
          · exact h14 hc

/-- An unsubscribe that returns one of the validation codes has left the client as it
was and has written nothing. -/
theorem unsubscribe_validation_error (codec : Codec) (now : Nat) (stack : List Nat)
    (script : List (Bool × Int)) (c : iotx_mc_client_t)
    (hpid : c.packet_id ≤ IOTX_MC_PACKET_ID_MAX) (topic : Option (List Nat)) (rc : Int)
    (hrc : rc = NULL_VALUE_ERROR ∨ rc = MQTT_TOPIC_FORMAT_ERROR ∨ rc = MQTT_STATE_ERROR)
    (h : (iotx_mc_unsubscribe codec now stack script c topic).2 = rc) :
    (iotx_mc_unsubscribe codec now stack script c topic).1 = c ∧
      iotx_mc_unsubscribe_writes codec now stack script c topic = [] := by
  obtain ⟨hneg, h0, -, h42, h14, -, h22⟩ := validation_code_cases rc hrc
  cases topic with
  | none => simp [iotx_mc_unsubscribe, iotx_mc_unsubscribe_writes]
  | some F =>
    by_cases hchk : 0 ≠ iotx_mc_check_topic stack (some F) TOPIC_FILTER_TYPE
    · simp [iotx_mc_unsubscribe, iotx_mc_unsubscribe_writes, hchk]
    · by_cases hst : c.client_state ≠ IOTX_MC_STATE_CONNECTED
      · simp [iotx_mc_unsubscribe, iotx_mc_unsubscribe_writes, hchk, hst]
      · exfalso
        have hchk1 : iotx_mc_check_topic stack (some F) TOPIC_FILTER_TYPE = SUCCESS_RETURN :=
          not_not.mp (fun e => hchk ((check_topic_ne _ _ _).mpr e))
        rw [unsubscribe_eq codec now stack script c F hchk1 (not_not.mp hst),
          request_outcome_rc] at h
        have hc := (MQTTUnsubscribe_effects codec now script (iotx_mc_get_next_packetid c).1 F
          (iotx_mc_get_next_packetid c).2).2.1
        have hid := next_packetid_range c hpid
        split_ifs at h with hs
        · rw [int_of_unsigned_id _ hid.2] at h
          omega
        · rw [h] at hc
          rcases hc with hc | hc | hc | hc
          · exact h0 hc
          · exact h22 hc
          · exact h42 hc
          · exact h14 hc

/-- Claim C13: for a client whose packet-id counter is within 0..65535 (as it is from
`iotx_mc_init` on), whenever `iotx_mc_publish`, `iotx_mc_subscribe` or
`iotx_mc_unsubscribe` returns `NULL_VALUE_ERROR`, `MQTT_TOPIC_FORMAT_ERROR` or
`MQTT_STATE_ERROR`, the client is exactly as before the call (so the packet-id
counter, the client state, the subscription table and both in-flight tables are
unchanged) and no `write` of the transport has been called. -/
theorem validation_errors_without_effect (codec : Codec) (R now : Nat) (stack : List Nat)
    (script : List (Bool × Int)) (c : iotx_mc_client_t)
    (hpid : c.packet_id ≤ IOTX_MC_PACKET_ID_MAX) (topic : Option (List Nat))
    (msg : Option iotx_mqtt_topic_info_t) (qos H ctx : Nat) (rc : Int)
    (hrc : rc = NULL_VALUE_ERROR ∨ rc = MQTT_TOPIC_FORMAT_ERROR ∨ rc = MQTT_STATE_ERROR) :
    ((iotx_mc_publish codec R now stack script c topic msg).2 = rc →
      (iotx_mc_publish codec R now stack script c topic msg).1 = c ∧
        iotx_mc_publish_writes codec R now stack script c topic msg = []) ∧
    ((iotx_mc_subscribe codec now stack script c topic qos H ctx).2 = rc →
      (iotx_mc_subscribe codec now stack script c topic qos H ctx).1 = c ∧
        iotx_mc_subscribe_writes codec now stack script c topic qos H ctx = []) ∧
    ((iotx_mc_unsubscribe codec now stack script c topic).2 = rc →
      (iotx_mc_unsubscribe codec now stack script c topic).1 = c ∧
        iotx_mc_unsubscribe_writes codec now stack script c topic = []) :=
  ⟨publish_validation_error codec R now stack script c topic msg rc hrc,
    subscribe_validation_error codec now stack script c hpid topic qos H ctx rc hrc,
    unsubscribe_validation_error codec now stack script c hpid topic rc hrc⟩

/-- Claim C13 at a sample: on the connected sample client a subscribe to the invalid
filter "sensors" returns `MQTT_TOPIC_FORMAT_ERROR`, a NULL topic `NULL_VALUE_ERROR`. -/
theorem validation_errors_without_effect_witness :
    sample_client.packet_id ≤ IOTX_MC_PACKET_ID_MAX ∧
    (iotx_mc_subscribe sample_codec 10 [] [(false, 19)] sample_client
        (some [115, 101, 110, 115, 111, 114, 115]) 0 7 1).2 = MQTT_TOPIC_FORMAT_ERROR ∧
    ((iotx_mc_subscribe sample_codec 10 [] [(false, 19)] sample_client
        (some [115, 101, 110, 115, 111, 114, 115]) 0 7 1).1 = sample_client ∧
      iotx_mc_subscribe_writes sample_codec 10 [] [(false, 19)] sample_client
        (some [115, 101, 110, 115, 111, 114, 115]) 0 7 1 = []) :=
  ⟨by decide, by decide,
    (validation_errors_without_effect sample_codec 4 10 [] [(false, 19)] sample_client (by decide)
      (some [115, 101, 110, 115, 111, 114, 115]) (some sample_msg) 0 7 1 MQTT_TOPIC_FORMAT_ERROR
      (Or.inr (Or.inl rfl))).2.1 (by decide)⟩

/-- Claim C15: for every client, every message and every topic name that holds the
byte `+` or the byte `#` anywhere, `iotx_mc_publish` returns
`MQTT_TOPIC_FORMAT_ERROR` (the check of the name with `TOPIC_NAME_TYPE` fails, whatever
lies behind the array `topicString`), leaves the client as it was and calls no `write`
of the transport. -/
theorem publish_rejects_wildcard_name (codec : Codec) (R now : Nat) (stack : List Nat)
    (script : List (Bool × Int)) (c : iotx_mc_client_t) (name : List Nat)
    (msg : iotx_mqtt_topic_info_t) (hw : 43 ∈ name ∨ 35 ∈ name) :
    iotx_mc_check_topic stack (some name) TOPIC_NAME_TYPE ≠ SUCCESS_RETURN ∧
    iotx_mc_publish codec R now stack script c (some name) (some msg)
      = (c, MQTT_TOPIC_FORMAT_ERROR) ∧
    iotx_mc_publish_writes codec R now stack script c (some name) (some msg) = [] := by
  have h := check_topic_name_wildcard stack name hw
  have h0 : 0 ≠ iotx_mc_check_topic stack (some name) TOPIC_NAME_TYPE :=
    (check_topic_ne _ _ _).mpr h
  exact ⟨h, by simp [iotx_mc_publish, h0], by simp [iotx_mc_publish_writes, h0]⟩

/-- Claim C15 at a sample: a publish of the sample message on "/sensors/+/temp". -/
theorem publish_rejects_wildcard_name_witness :
    (43 ∈ sensors_filter ∨ 35 ∈ sensors_filter) ∧
    iotx_mc_publish sample_codec 4 10 [] [(false, 20)] sample_client (some sensors_filter)
        (some sample_msg) = (sample_client, MQTT_TOPIC_FORMAT_ERROR) ∧
    iotx_mc_publish_writes sample_codec 4 10 [] [(false, 20)] sample_client
        (some sensors_filter) (some sample_msg) = [] :=
  ⟨by decide,
    (publish_rejects_wildcard_name sample_codec 4 10 [] [(false, 20)] sample_client
      sensors_filter sample_msg (by decide)).2⟩

/-! ## Values returned on success (C12) -/

/-- A publish that returns no error code has passed validation and `MQTTPublish` has
succeeded; the client is the one `MQTTPublish` leaves and the value is `msg_id`. -/
theorem publish_nonneg (codec : Codec) (R now : Nat) (stack : List Nat)
    (script : List (Bool × Int)) (c : iotx_mc_client_t) (topic : Option (List Nat))
    (msg : Option iotx_mqtt_topic_info_t)
    (h : 0 ≤ (iotx_mc_publish codec R now stack script c topic msg).2) :
    ∃ name m, topic = some name ∧ msg = some m ∧
      c.client_state = IOTX_MC_STATE_CONNECTED ∧
      (MQTTPublish codec R now script (publish_issued c m).1 name (publish_issued c m).2.2).2
        = SUCCESS_RETURN ∧
      iotx_mc_publish codec R now stack script c topic msg
        = ((MQTTPublish codec R now script (publish_issued c m).1 name
              (publish_issued c m).2.2).1, ((publish_issued c m).2.1 : Int)) := by
  cases topic with
  | none => simp [iotx_mc_publish, NULL_VALUE_ERROR] at h
  | some name =>
    cases msg with
    | none => simp [iotx_mc_publish, NULL_VALUE_ERROR] at h
    | some m =>
      by_cases hchk : 0 ≠ iotx_mc_check_topic stack (some name) TOPIC_NAME_TYPE
      · simp [iotx_mc_publish, hchk, MQTT_TOPIC_FORMAT_ERROR] at h
      · by_cases hst : c.client_state ≠ IOTX_MC_STATE_CONNECTED
        · simp [iotx_mc_publish, hchk, hst, MQTT_STATE_ERROR] at h
        · have hchk1 : iotx_mc_check_topic stack (some name) TOPIC_NAME_TYPE = SUCCESS_RETURN :=
            not_not.mp (fun e => hchk ((check_topic_ne _ _ _).mpr e))
          have heq := publish_eq codec R now stack script c name m hchk1 (not_not.mp hst)
          have hc := (MQTTPublish_effects codec R now script (publish_issued c m).1 name
            (publish_issued c m).2.2).2.1
          rw [heq, request_outcome_rc] at h
          by_cases hs : (MQTTPublish codec R now script (publish_issued c m).1 name
              (publish_issued c m).2.2).2 = SUCCESS_RETURN
          · refine ⟨name, m, rfl, rfl, not_not.mp hst, hs, ?_⟩
            rw [heq]
            simp [request_outcome, hs]
          · rw [if_neg hs] at h
            simp only [SUCCESS_RETURN, MQTT_PUBLISH_PACKET_ERROR, MQTT_PUSH_TO_LIST_ERROR,
              MQTT_NETWORK_ERROR] at hc hs
            omega

/-- A subscribe that returns no error code has passed validation and `MQTTSubscribe`
has succeeded. -/
theorem subscribe_nonneg (codec : Codec) (now : Nat) (stack : List Nat)
    (script : List (Bool × Int)) (c : iotx_mc_client_t) (topic : Option (List Nat))
    (qos H ctx : Nat)
    (h : 0 ≤ (iotx_mc_subscribe codec now stack script c topic qos H ctx).2) :
    ∃ F, topic = some F ∧ c.client_state = IOTX_MC_STATE_CONNECTED ∧
      (MQTTSubscribe codec now script (iotx_mc_get_next_packetid c).1 F qos
          (iotx_mc_get_next_packetid c).2 H ctx).2 = SUCCESS_RETURN ∧
      iotx_mc_subscribe codec now stack script c topic qos H ctx
        = ((MQTTSubscribe codec now script (iotx_mc_get_next_packetid c).1 F qos
              (iotx_mc_get_next_packetid c).2 H ctx).1,
            int_of_unsigned (iotx_mc_get_next_packetid c).2) := by
  cases topic with
  | none => simp [iotx_mc_subscribe, NULL_VALUE_ERROR] at h
  | some F =>
    by_cases hst : c.client_state ≠ IOTX_MC_STATE_CONNECTED
    · simp [iotx_mc_subscribe, hst, MQTT_STATE_ERROR] at h
    · by_cases hchk : 0 ≠ iotx_mc_check_topic stack (some F) TOPIC_FILTER_TYPE
      · simp [iotx_mc_subscribe, hchk, hst, MQTT_TOPIC_FORMAT_ERROR] at h
      · have hchk1 : iotx_mc_check_topic stack (some F) TOPIC_FILTER_TYPE = SUCCESS_RETURN :=
          not_not.mp (fun e => hchk ((check_topic_ne _ _ _).mpr e))
        have heq := subscribe_eq codec now stack script c F qos H ctx hchk1 (not_not.mp hst)
        have hc := (MQTTSubscribe_effects codec now script (iotx_mc_get_next_packetid c).1 F qos
          (iotx_mc_get_next_packetid c).2 H ctx).2.1
        rw [heq, request_outcome_rc] at h
        by_cases hs : (MQTTSubscribe codec now script (iotx_mc_get_next_packetid c).1 F qos
            (iotx_mc_get_next_packetid c).2 H ctx).2 = SUCCESS_RETURN
        · refine ⟨F, rfl, not_not.mp hst, hs, ?_⟩
          rw [heq]
          simp [request_outcome, hs]
        · rw [if_neg hs] at h
          simp only [SUCCESS_RETURN, MQTT_SUBSCRIBE_PACKET_ERROR, MQTT_PUSH_TO_LIST_ERROR,
            MQTT_NETWORK_ERROR] at hc hs
          omega

/-- An unsubscribe that returns no error code has passed validation and
`MQTTUnsubscribe` has succeeded. -/
theorem unsubscribe_nonneg (codec : Codec) (now : Nat) (stack : List Nat)
    (script : List (Bool × Int)) (c : iotx_mc_client_t) (topic : Option (List Nat))
    (h : 0 ≤ (iotx_mc_unsubscribe codec now stack script c topic).2) :
    ∃ F, topic = some F ∧ c.client_state = IOTX_MC_STATE_CONNECTED ∧
      (MQTTUnsubscribe codec now script (iotx_mc_get_next_packetid c).1 F
          (iotx_mc_get_next_packetid c).2).2 = SUCCESS_RETURN ∧
      iotx_mc_unsubscribe codec now stack script c topic
        = ((MQTTUnsubscribe codec now script (iotx_mc_get_next_packetid c).1 F
              (iotx_mc_get_next_packetid c).2).1,
            int_of_unsigned (iotx_mc_get_next_packetid c).2) := by
  cases topic with
  | none => simp [iotx_mc_unsubscribe, NULL_VALUE_ERROR] at h
  | some F =>
    by_cases hchk : 0 ≠ iotx_mc_check_topic stack (some F) TOPIC_FILTER_TYPE
    · simp [iotx_mc_unsubscribe, hchk, MQTT_TOPIC_FORMAT_ERROR] at h
    · by_cases hst : c.client_state ≠ IOTX_MC_STATE_CONNECTED
      · simp [iotx_mc_unsubscribe, hchk, hst, MQTT_STATE_ERROR] at h
      · have hchk1 : iotx_mc_check_topic stack (some F) TOPIC_FILTER_TYPE = SUCCESS_RETURN :=
          not_not.mp (fun e => hchk ((check_topic_ne _ _ _).mpr e))
        have heq := unsubscribe_eq codec now stack script c F hchk1 (not_not.mp hst)
        have hc := (MQTTUnsubscribe_effects codec now script (iotx_mc_get_next_packetid c).1 F
          (iotx_mc_get_next_packetid c).2).2.1
        rw [heq, request_outcome_rc] at h
        by_cases hs : (MQTTUnsubscribe codec now script (iotx_mc_get_next_packetid c).1 F
            (iotx_mc_get_next_packetid c).2).2 = SUCCESS_RETURN
        · refine ⟨F, rfl, not_not.mp hst, hs, ?_⟩
          rw [heq]
          simp [request_outcome, hs]
        · rw [if_neg hs] at h
          simp only [SUCCESS_RETURN, MQTT_UNSUBSCRIBE_PACKET_ERROR, MQTT_PUSH_TO_LIST_ERROR,
            MQTT_NETWORK_ERROR] at hc hs
          omega

/-- The tables of the client are not touched by `iotx_mc_get_next_packetid`. -/
theorem next_packetid_frame (c : iotx_mc_client_t) :
    (iotx_mc_get_next_packetid c).1 = { c with packet_id := (iotx_mc_get_next_packetid c).2 } := by
  simp [iotx_mc_get_next_packetid]

/-- Claim C12: let the packet-id counter be within 0..65535 (as it is from
`iotx_mc_init` on), and call a request successful when the value it returns is not
negative.  A successful `iotx_mc_publish` with QoS 0 returns 0 and leaves the packet-id
counter and the pub-inflight table unchanged.  A successful `iotx_mc_publish` with QoS
1 or 2, `iotx_mc_subscribe` or `iotx_mc_unsubscribe` returns the packet id issued by
`iotx_mc_get_next_packetid` for that request, which lies in 1..65535 and is the
`msg_id` of the live entry the call has appended to its in-flight table. -/
theorem success_returns_packet_id (codec : Codec) (R now : Nat) (stack : List Nat)
    (script : List (Bool × Int)) (c : iotx_mc_client_t)
    (hpid : c.packet_id ≤ IOTX_MC_PACKET_ID_MAX) (topic : Option (List Nat))
    (msg : iotx_mqtt_topic_info_t) (qos H ctx : Nat) :
    (msg.qos = IOTX_MQTT_QOS0 →
      0 ≤ (iotx_mc_publish codec R now stack script c topic (some msg)).2 →
        (iotx_mc_publish codec R now stack script c topic (some msg)).2 = 0 ∧
        (iotx_mc_publish codec R now stack script c topic (some msg)).1.packet_id = c.packet_id ∧
        (iotx_mc_publish codec R now stack script c topic (some msg)).1.list_pub_wait_ack
          = c.list_pub_wait_ack) ∧
    (msg.qos = IOTX_MQTT_QOS1 ∨ msg.qos = IOTX_MQTT_QOS2 →
      0 ≤ (iotx_mc_publish codec R now stack script c topic (some msg)).2 →
        (iotx_mc_publish codec R now stack script c topic (some msg)).2
          = ((iotx_mc_get_next_packetid c).2 : Int) ∧
        1 ≤ (iotx_mc_publish codec R now stack script c topic (some msg)).2 ∧
        (iotx_mc_publish codec R now stack script c topic (some msg)).2 ≤ 65535 ∧
        ∃ e, (iotx_mc_publish codec R now stack script c topic (some msg)).1.list_pub_wait_ack
              = c.list_pub_wait_ack ++ [e] ∧
          e.node_state = IOTX_MC_NODE_STATE_NORMANL ∧
          (e.msg_id : Int) = (iotx_mc_publish codec R now stack script c topic (some msg)).2) ∧
    (0 ≤ (iotx_mc_subscribe codec now stack script c topic qos H ctx).2 →
        (iotx_mc_subscribe codec now stack script c topic qos H ctx).2
          = ((iotx_mc_get_next_packetid c).2 : Int) ∧
        1 ≤ (iotx_mc_subscribe codec now stack script c topic qos H ctx).2 ∧
        (iotx_mc_subscribe codec now stack script c topic qos H ctx).2 ≤ 65535 ∧
        ∃ e, (iotx_mc_subscribe codec now stack script c topic qos H ctx).1.list_sub_wait_ack
              = c.list_sub_wait_ack ++ [e] ∧
          e.node_state = IOTX_MC_NODE_STATE_NORMANL ∧ e.type = SUBSCRIBE ∧
          (e.msg_id : Int) = (iotx_mc_subscribe codec now stack script c topic qos H ctx).2) ∧
    (0 ≤ (iotx_mc_unsubscribe codec now stack script c topic).2 →
        (iotx_mc_unsubscribe codec now stack script c topic).2
          = ((iotx_mc_get_next_packetid c).2 : Int) ∧
        1 ≤ (iotx_mc_unsubscribe codec now stack script c topic).2 ∧
        (iotx_mc_unsubscribe codec now stack script c topic).2 ≤ 65535 ∧
        ∃ e, (iotx_mc_unsubscribe codec now stack script c topic).1.list_sub_wait_ack
              = c.list_sub_wait_ack ++ [e] ∧
          e.node_state = IOTX_MC_NODE_STATE_NORMANL ∧ e.type = UNSUBSCRIBE ∧
          (e.msg_id : Int) = (iotx_mc_unsubscribe codec now stack script c topic).2) := by
  have hid := next_packetid_range c hpid
  have hmod : (iotx_mc_get_next_packetid c).2 % 65536 = (iotx_mc_get_next_packetid c).2 :=
    Nat.mod_eq_of_lt (by omega)
  refine ⟨?_, ?_, ?_, ?_⟩
  · intro hq h
    obtain ⟨name, m, -, hm, -, hs, heq⟩ := publish_nonneg codec R now stack script c topic _ h
    obtain rfl : msg = m := Option.some.inj hm
    have hi : publish_issued c msg = (c, 0, msg) := by
      simp [publish_issued, hq, IOTX_MQTT_QOS0, IOTX_MQTT_QOS1, IOTX_MQTT_QOS2]
    rw [hi] at heq hs
    obtain ⟨hfr, -, hl, -⟩ := MQTTPublish_effects codec R now script c name msg
    rw [heq]
    refine ⟨by simp, ?_, hl (Or.inr hq)⟩
    have := congrArg iotx_mc_client_t.packet_id hfr
    simpa using this
  · intro hq h
    obtain ⟨name, m, -, hm, -, hs, heq⟩ := publish_nonneg codec R now stack script c topic _ h
    obtain rfl : msg = m := Option.some.inj hm
    have hi : publish_issued c msg = ((iotx_mc_get_next_packetid c).1,
        (iotx_mc_get_next_packetid c).2,
        { msg with packet_id := (iotx_mc_get_next_packetid c).2 }) := by
      simp only [publish_issued, if_pos hq, hmod]
    rw [hi] at heq hs
    obtain ⟨-, -, -, hl⟩ := MQTTPublish_effects codec R now script
      (iotx_mc_get_next_packetid c).1 name
      { msg with packet_id := (iotx_mc_get_next_packetid c).2 }
    obtain ⟨e, he1, he2, he3⟩ := hl hs (by
      show 0 < msg.qos
      simp only [IOTX_MQTT_QOS1, IOTX_MQTT_QOS2] at hq
      omega)
    rw [heq]
    refine ⟨rfl, by simp only; omega, by simp only; omega, e, ?_, he3, ?_⟩
    · rw [he1, next_packetid_frame]
    · simp only [he2]
  · intro h
    obtain ⟨F, -, -, hs, heq⟩ := subscribe_nonneg codec now stack script c topic qos H ctx h
    obtain ⟨-, -, -, hl⟩ := MQTTSubscribe_effects codec now script
      (iotx_mc_get_next_packetid c).1 F qos (iotx_mc_get_next_packetid c).2 H ctx
    obtain ⟨e, he1, he2, he3, he4, -⟩ := hl hs
    rw [heq, int_of_unsigned_id _ hid.2]
    refine ⟨rfl, by simp only; omega, by simp only; omega, e, ?_, he3, he4, ?_⟩
    · rw [he1, next_packetid_frame]
    · simp only [he2, hmod]
  · intro h
    obtain ⟨F, -, -, hs, heq⟩ := unsubscribe_nonneg codec now stack script c topic h
    obtain ⟨-, -, -, hl⟩ := MQTTUnsubscribe_effects codec now script
      (iotx_mc_get_next_packetid c).1 F (iotx_mc_get_next_packetid c).2
    obtain ⟨e, he1, he2, he3, he4, -⟩ := hl hs
    rw [heq, int_of_unsigned_id _ hid.2]
    refine ⟨rfl, by simp only; omega, by simp only; omega, e, ?_, he3, he4, ?_⟩
    · rw [he1, next_packetid_frame]
    · simp only [he2, hmod]

/-- Claim C12 at a sample: on the connected sample client, whose counter stands at 2, a
publish of the QoS 1 sample message on "/sensors/17/temp" returns 3. -/
theorem success_returns_packet_id_witness :
    sample_client.packet_id ≤ IOTX_MC_PACKET_ID_MAX ∧
    (iotx_mc_publish sample_codec 4 10 [] [(false, 21)] sample_client (some sensors_topic)
        (some sample_msg)).2 = 3 ∧
    ∃ e, (iotx_mc_publish sample_codec 4 10 [] [(false, 21)] sample_client (some sensors_topic)
          (some sample_msg)).1.list_pub_wait_ack = sample_client.list_pub_wait_ack ++ [e] ∧
      e.node_state = IOTX_MC_NODE_STATE_NORMANL ∧
      (e.msg_id : Int) = (iotx_mc_publish sample_codec 4 10 [] [(false, 21)] sample_client
          (some sensors_topic) (some sample_msg)).2 :=
  ⟨by decide, by decide,
    ((success_returns_packet_id sample_codec 4 10 [] [(false, 21)] sample_client (by decide)
      (some sensors_topic) sample_msg 0 7 1).2.1 (by decide) (by decide)).2.2.2⟩

/-! ## Failure of the send (C14) -/

/-- A request whose inner call ends in a network error returns that error, leaves the
client DISCONNECTED and leaves the tables as the inner call left them. -/
theorem request_outcome_network (r : iotx_mc_client_t × Int) (id : Int)
    (h : r.2 = MQTT_NETWORK_ERROR) :
    (request_outcome r id).2 = MQTT_NETWORK_ERROR ∧
    (request_outcome r id).1.client_state = IOTX_MC_STATE_DISCONNECTED ∧
    (request_outcome r id).1.list_pub_wait_ack = r.1.list_pub_wait_ack ∧
    (request_outcome r id).1.list_sub_wait_ack = r.1.list_sub_wait_ack := by
  simp [request_outcome, h, MQTT_NETWORK_ERROR, SUCCESS_RETURN]

/-- Claim C14: let the client be CONNECTED and let the request reach the send: the topic
passes validation, the codec serializes the packet (a positive length, for a publish
within the send buffer) and the in-flight table has room for the entry.  If
`iotx_mc_send_packet` then fails (a `write` reports an error, or the deadline expires
before the whole packet is sent), then `iotx_mc_subscribe`, `iotx_mc_unsubscribe` and
`iotx_mc_publish` with QoS 1 or 2 return `MQTT_NETWORK_ERROR`, the client state is
DISCONNECTED, and the in-flight table of the request is the same as before the call. -/
theorem send_failure_disconnects (codec : Codec) (R now : Nat) (stack : List Nat)
    (script : List (Bool × Int)) (c : iotx_mc_client_t)
    (hst : c.client_state = IOTX_MC_STATE_CONNECTED) (topic : List Nat)
    (msg : iotx_mqtt_topic_info_t) (qos H ctx : Nat) :
    (iotx_mc_check_topic stack (some topic) TOPIC_FILTER_TYPE = SUCCESS_RETURN →
      0 < (codec.MQTTSerialize_subscribe c.buf_size_send 0
            ((iotx_mc_get_next_packetid c).2 % 65536) topic qos).1 →
      c.list_sub_wait_ack.length < IOTX_MC_SUB_REQUEST_NUM_MAX →
      iotx_mc_send_packet (codec.MQTTSerialize_subscribe c.buf_size_send 0
            ((iotx_mc_get_next_packetid c).2 % 65536) topic qos).1 script ≠ SUCCESS_RETURN →
        (iotx_mc_subscribe codec now stack script c (some topic) qos H ctx).2
          = MQTT_NETWORK_ERROR ∧
        (iotx_mc_subscribe codec now stack script c (some topic) qos H ctx).1.client_state
          = IOTX_MC_STATE_DISCONNECTED ∧
        (iotx_mc_subscribe codec now stack script c (some topic) qos H ctx).1.list_sub_wait_ack
          = c.list_sub_wait_ack) ∧
    (iotx_mc_check_topic stack (some topic) TOPIC_FILTER_TYPE = SUCCESS_RETURN →
      0 < (codec.MQTTSerialize_unsubscribe c.buf_size_send 0
            ((iotx_mc_get_next_packetid c).2 % 65536) topic).1 →
      c.list_sub_wait_ack.length < IOTX_MC_SUB_REQUEST_NUM_MAX →
      iotx_mc_send_packet (codec.MQTTSerialize_unsubscribe c.buf_size_send 0
            ((iotx_mc_get_next_packetid c).2 % 65536) topic).1 script ≠ SUCCESS_RETURN →
        (iotx_mc_unsubscribe codec now stack script c (some topic)).2 = MQTT_NETWORK_ERROR ∧
        (iotx_mc_unsubscribe codec now stack script c (some topic)).1.client_state
          = IOTX_MC_STATE_DISCONNECTED ∧
        (iotx_mc_unsubscribe codec now stack script c (some topic)).1.list_sub_wait_ack
          = c.list_sub_wait_ack) ∧
    (msg.qos = IOTX_MQTT_QOS1 ∨ msg.qos = IOTX_MQTT_QOS2 →
      iotx_mc_check_topic stack (some topic) TOPIC_NAME_TYPE = SUCCESS_RETURN →
      0 < (publish_serialized codec c topic msg ((iotx_mc_get_next_packetid c).2 % 65536)).1 →
      (publish_serialized codec c topic msg ((iotx_mc_get_next_packetid c).2 % 65536)).1
        ≤ (c.buf_size_send : Int) →
      c.list_pub_wait_ack.length < R →
      iotx_mc_send_packet
          (publish_serialized codec c topic msg ((iotx_mc_get_next_packetid c).2 % 65536)).1
          script ≠ SUCCESS_RETURN →
        (iotx_mc_publish codec R now stack script c (some topic) (some msg)).2
          = MQTT_NETWORK_ERROR ∧
        (iotx_mc_publish codec R now stack script c (some topic) (some msg)).1.client_state
          = IOTX_MC_STATE_DISCONNECTED ∧
        (iotx_mc_publish codec R now stack script c (some topic) (some msg)).1.list_pub_wait_ack
          = c.list_pub_wait_ack) := by
  refine ⟨?_, ?_, ?_⟩
  · intro hchk hser hroom hfail
    have hn : (MQTTSubscribe codec now script (iotx_mc_get_next_packetid c).1 topic qos
        (iotx_mc_get_next_packetid c).2 H ctx).2 = MQTT_NETWORK_ERROR := by
      have hroom1 : ¬ (c.list_sub_wait_ack.length ≥ IOTX_MC_SUB_REQUEST_NUM_MAX) := by omega
      simp [MQTTSubscribe, iotx_mc_push_subInfo_to, next_packetid_frame, hroom1, hfail,
        not_le.mpr hser]
    obtain ⟨-, -, hl, -⟩ := MQTTSubscribe_effects codec now script
      (iotx_mc_get_next_packetid c).1 topic qos (iotx_mc_get_next_packetid c).2 H ctx
    have hl1 := hl (by rw [hn]; simp [MQTT_NETWORK_ERROR, SUCCESS_RETURN])
    rw [subscribe_eq codec now stack script c topic qos H ctx hchk hst]
    obtain ⟨h1, h2, -, h4⟩ := request_outcome_network _
      (int_of_unsigned (iotx_mc_get_next_packetid c).2) hn
    exact ⟨h1, h2, by rw [h4, hl1, next_packetid_frame]⟩
  · intro hchk hser hroom hfail
    have hn : (MQTTUnsubscribe codec now script (iotx_mc_get_next_packetid c).1 topic
        (iotx_mc_get_next_packetid c).2).2 = MQTT_NETWORK_ERROR := by
      have hroom1 : ¬ (c.list_sub_wait_ack.length ≥ IOTX_MC_SUB_REQUEST_NUM_MAX) := by omega
      simp [MQTTUnsubscribe, iotx_mc_push_subInfo_to, next_packetid_frame, hroom1, hfail,
        not_le.mpr hser]
    obtain ⟨-, -, hl, -⟩ := MQTTUnsubscribe_effects codec now script
      (iotx_mc_get_next_packetid c).1 topic (iotx_mc_get_next_packetid c).2
    have hl1 := hl (by rw [hn]; simp [MQTT_NETWORK_ERROR, SUCCESS_RETURN])
    rw [unsubscribe_eq codec now stack script c topic hchk hst]
    obtain ⟨h1, h2, -, h4⟩ := request_outcome_network _
      (int_of_unsigned (iotx_mc_get_next_packetid c).2) hn
    exact ⟨h1, h2, by rw [h4, hl1, next_packetid_frame]⟩
  · intro hq hchk hser hfit hroom hfail
    have hi : publish_issued c msg = ((iotx_mc_get_next_packetid c).1,
        (iotx_mc_get_next_packetid c).2 % 65536,
        { msg with packet_id := (iotx_mc_get_next_packetid c).2 % 65536 }) := by
      simp only [publish_issued, if_pos hq]
    have hqpos : 0 < msg.qos := by
      simp only [IOTX_MQTT_QOS1, IOTX_MQTT_QOS2] at hq
      omega
    simp only [publish_serialized] at hser hfit hfail
    have hn : (MQTTPublish codec R now script (iotx_mc_get_next_packetid c).1 topic
        { msg with packet_id := (iotx_mc_get_next_packetid c).2 % 65536 }).2
          = MQTT_NETWORK_ERROR := by
      have hroom1 : ¬ (c.list_pub_wait_ack.length ≥ R) := by omega
      simp [MQTTPublish, iotx_mc_push_pubInfo_to, next_packetid_frame, hroom1, hfail,
        not_le.mpr hser, hqpos, IOTX_MQTT_QOS0, not_lt.mpr hfit, not_lt.mpr (le_of_lt hser)]
    obtain ⟨-, -, hl, -⟩ := MQTTPublish_effects codec R now script
      (iotx_mc_get_next_packetid c).1 topic
      { msg with packet_id := (iotx_mc_get_next_packetid c).2 % 65536 }
    have hl1 := hl (Or.inl (by rw [hn]; simp [MQTT_NETWORK_ERROR, SUCCESS_RETURN]))
    rw [publish_eq codec R now stack script c topic msg hchk hst, hi]
    obtain ⟨h1, h2, h3, -⟩ := request_outcome_network _
      (((iotx_mc_get_next_packetid c).2 % 65536 : Nat) : Int) hn
    exact ⟨h1, h2, by rw [h3, hl1, next_packetid_frame]⟩

/-- Claim C14 at a sample: on the connected sample client a subscribe to
"/sensors/+/temp" whose first `write` reports the error -1. -/
theorem send_failure_disconnects_witness :
    sample_client.client_state = IOTX_MC_STATE_CONNECTED ∧
    (iotx_mc_subscribe sample_codec 10 [] [(false, -1)] sample_client (some sensors_filter)
        0 7 1).2 = MQTT_NETWORK_ERROR ∧
    (iotx_mc_subscribe sample_codec 10 [] [(false, -1)] sample_client (some sensors_filter)
        0 7 1).1.client_state = IOTX_MC_STATE_DISCONNECTED ∧
    (iotx_mc_subscribe sample_codec 10 [] [(false, -1)] sample_client (some sensors_filter)
        0 7 1).1.list_sub_wait_ack = sample_client.list_sub_wait_ack :=
  ⟨by decide,
    (send_failure_disconnects sample_codec 4 10 [] [(false, -1)] sample_client (by decide)
      sensors_filter sample_msg 0 7 1).1 (by decide) (by decide) (by decide) (by decide)⟩

/-! ## Sweeps at the timeout (C19) -/

/-- Steps that keep the ids compose. -/
theorem ids_kept_trans (c2 c1 c : iotx_mc_client_t) (h2 : ids_kept c2 c1) (h1 : ids_kept c1 c) :
    ids_kept c2 c :=
  ⟨h2.1.trans h1.1, fun _ hx => h1.2.1 (h2.2.1 hx), fun _ hx => h1.2.2 (h2.2.2 hx)⟩

/-- A step that changes neither the counter nor the tables keeps the ids. -/
theorem ids_kept_of_eq (c1 c : iotx_mc_client_t) (h0 : c1.packet_id = c.packet_id)
    (h1 : c1.list_pub_wait_ack = c.list_pub_wait_ack)
    (h2 : c1.list_sub_wait_ack = c.list_sub_wait_ack) : ids_kept c1 c := by
  refine ⟨h0, ?_, ?_⟩
  · simp only [pub_ids, h1]; exact fun _ hx => hx
  · simp only [sub_ids, h2]; exact fun _ hx => hx

/-- Marking does not change the packet ids of the pub-inflight nodes. -/
theorem mask_pub_loop_ids (msgId : Nat) (l : List iotx_mc_pub_info_t) :
    (mask_pub_loop msgId l).map (fun e => e.msg_id) = l.map (fun e => e.msg_id) := by
  induction l with
  | nil => rfl
  | cons a r ih =>
    simp only [mask_pub_loop]
    split_ifs <;> simp [ih]

/-- Marking does not change the packet ids of the sub-inflight nodes. -/
theorem mask_sub_loop_ids (msgId : Nat) (l : List iotx_mc_subsribe_info_t) :
    ∀ h : iotx_mc_topic_handle_t,
      (mask_sub_loop msgId l h).1.map (fun e => e.msg_id) = l.map (fun e => e.msg_id) := by
  induction l with
  | nil => intro h; rfl
  | cons a r ih =>
    intro h
    simp only [mask_sub_loop]
    split_ifs <;> simp [ih]

/-- What `iotx_mc_mask_pubInfo_from` leaves alone. -/
theorem mask_pub_kept (c : iotx_mc_client_t) (msgId : Nat) :
    ids_kept (iotx_mc_mask_pubInfo_from c msgId) c ∧
    (iotx_mc_mask_pubInfo_from c msgId).client_state = c.client_state := by
  simp only [iotx_mc_mask_pubInfo_from, ids_kept, pub_ids, sub_ids]
  split_ifs
  · exact ⟨⟨rfl, fun _ hx => hx, fun _ hx => hx⟩, rfl⟩
  · refine ⟨⟨rfl, ?_, fun _ hx => hx⟩, rfl⟩
    simp only [List.map_reverse, mask_pub_loop_ids, List.reverse_reverse]
    exact fun _ hx => hx

/-- What `iotx_mc_mask_subInfo_from` leaves alone. -/
theorem mask_sub_kept (c : iotx_mc_client_t) (msgId : Nat) (h : iotx_mc_topic_handle_t) :
    ids_kept (iotx_mc_mask_subInfo_from c msgId h).1 c ∧
    (iotx_mc_mask_subInfo_from c msgId h).1.client_state = c.client_state := by
  simp only [iotx_mc_mask_subInfo_from, ids_kept, pub_ids, sub_ids]
  split_ifs
  · exact ⟨⟨rfl, fun _ hx => hx, fun _ hx => hx⟩, rfl⟩
  · refine ⟨⟨rfl, fun _ hx => hx, ?_⟩, rfl⟩
    simp only [List.map_reverse, mask_sub_loop_ids, List.reverse_reverse]
    exact fun _ hx => hx

/-- What `iotx_mc_handle_recv_PUBACK` leaves alone. -/
theorem handle_recv_PUBACK_kept (env : yield_env) (c : iotx_mc_client_t) :
    ids_kept (iotx_mc_handle_recv_PUBACK env c).1 c ∧
    (iotx_mc_handle_recv_PUBACK env c).1.client_state = c.client_state := by
  simp only [iotx_mc_handle_recv_PUBACK]
  split
  · exact ⟨ids_kept_of_eq _ _ rfl rfl rfl, rfl⟩
  · exact mask_pub_kept c _

/-- What `iotx_mc_handle_recv_SUBACK` leaves alone. -/
theorem handle_recv_SUBACK_kept (env : yield_env) (c : iotx_mc_client_t) :
    ids_kept (iotx_mc_handle_recv_SUBACK env c).1 c ∧
    (iotx_mc_handle_recv_SUBACK env c).1.client_state = c.client_state := by
  simp only [iotx_mc_handle_recv_SUBACK]
  split
  · exact ⟨ids_kept_of_eq _ _ rfl rfl rfl, rfl⟩
  · rename_i mypacketid grantedQoS _
    have hm := mask_sub_kept c mypacketid empty_topic_handle
    split_ifs
    · exact ⟨ids_kept_of_eq _ _ rfl rfl rfl, rfl⟩
    · exact hm
    · split
      · exact hm
      · exact ⟨ids_kept_trans _ _ _ (ids_kept_of_eq _ _ rfl rfl rfl) hm.1, hm.2⟩

/-- What `MQTTPuback` leaves alone. -/
theorem MQTTPuback_kept (codec : Codec) (script : List (Bool × Int)) (c : iotx_mc_client_t)
    (msgId type : Nat) :
    ids_kept (MQTTPuback codec script c msgId type).1 c ∧
    (MQTTPuback codec script c msgId type).1.client_state = c.client_state := by
  simp only [MQTTPuback]
  split_ifs <;> exact ⟨ids_kept_of_eq _ _ rfl rfl rfl, rfl⟩

/-- What `iotx_mc_handle_recv_PUBLISH` leaves alone. -/
theorem handle_recv_PUBLISH_kept (codec : Codec) (env : yield_env) (c : iotx_mc_client_t) :
    ids_kept (iotx_mc_handle_recv_PUBLISH codec env c).1 c ∧
    (iotx_mc_handle_recv_PUBLISH codec env c).1.client_state = c.client_state := by
  simp only [iotx_mc_handle_recv_PUBLISH]
  split
  · exact ⟨ids_kept_of_eq _ _ rfl rfl rfl, rfl⟩
  · split_ifs
    · exact ⟨ids_kept_of_eq _ _ rfl rfl rfl, rfl⟩
    · exact MQTTPuback_kept codec _ c _ _
    · exact MQTTPuback_kept codec _ c _ _
    · exact ⟨ids_kept_of_eq _ _ rfl rfl rfl, rfl⟩

/-- What `iotx_mc_handle_recv_UNSUBACK` leaves alone. -/
theorem handle_recv_UNSUBACK_kept (env : yield_env) (c : iotx_mc_client_t)
    (r : iotx_mc_client_t × List Call × Int) (h : iotx_mc_handle_recv_UNSUBACK env c = some r) :
    ids_kept r.1 c ∧ r.1.client_state = c.client_state := by
  simp only [iotx_mc_handle_recv_UNSUBACK] at h
  split at h
  · obtain rfl := Option.some.inj h
    exact ⟨ids_kept_of_eq _ _ rfl rfl rfl, rfl⟩
  · rename_i mypacketid _
    have hm := mask_sub_kept c mypacketid env.stack_handler
    split at h
    · exact absurd h (by simp)
    · obtain rfl := Option.some.inj h
      exact ⟨ids_kept_trans _ _ _ (ids_kept_of_eq _ _ rfl rfl rfl) hm.1, hm.2⟩

/-- What `iotx_mc_cycle` leaves alone: it issues no packet id and brings no new id
into the in-flight tables; when the packet has been read, the client state stays as
it was. -/
theorem cycle_kept (codec : Codec) (env : yield_env) (c : iotx_mc_client_t)
    (r : iotx_mc_client_t × List Call × Int) (h : iotx_mc_cycle codec env c = some r) :
    ids_kept r.1 c ∧ (env.read_rc = SUCCESS_RETURN → r.1.client_state = c.client_state) := by
  simp only [iotx_mc_cycle] at h
  have hping : ∀ (a b : Nat), ids_kept { c with next_ping_time := a, ping_mark := b } c :=
    fun a b => ids_kept_of_eq _ _ rfl rfl rfl
  split_ifs at h with h1 h2 h3 h4 h5 h6 h7 h8 h9
  · obtain rfl := Option.some.inj h
    exact ⟨ids_kept_of_eq _ _ rfl rfl rfl, fun _ => rfl⟩
  · obtain rfl := Option.some.inj h
    exact ⟨ids_kept_of_eq _ _ rfl rfl rfl, fun e => absurd e h2⟩
  · obtain rfl := Option.some.inj h
    exact ⟨ids_kept_of_eq _ _ rfl rfl rfl, fun _ => rfl⟩
  · obtain rfl := Option.some.inj h
    exact ⟨ids_kept_of_eq _ _ rfl rfl rfl, fun _ => rfl⟩
  · obtain rfl := Option.some.inj h
    have := handle_recv_PUBACK_kept env { c with
      next_ping_time := utils_time_cutdown env.now (c.keepAliveInterval * 1000), ping_mark := 0 }
    exact ⟨ids_kept_trans _ _ _ this.1 (hping _ _), fun _ => this.2⟩
  · obtain rfl := Option.some.inj h
    have := handle_recv_SUBACK_kept env { c with
      next_ping_time := utils_time_cutdown env.now (c.keepAliveInterval * 1000), ping_mark := 0 }
    exact ⟨ids_kept_trans _ _ _ this.1 (hping _ _), fun _ => this.2⟩
  · obtain rfl := Option.some.inj h
    have := handle_recv_PUBLISH_kept codec env { c with
      next_ping_time := utils_time_cutdown env.now (c.keepAliveInterval * 1000), ping_mark := 0 }
    exact ⟨ids_kept_trans _ _ _ this.1 (hping _ _), fun _ => this.2⟩
  · have := handle_recv_UNSUBACK_kept env _ r h
    exact ⟨ids_kept_trans _ _ _ this.1 (hping _ _), fun _ => this.2⟩
  · obtain rfl := Option.some.inj h
    exact ⟨ids_kept_of_eq _ _ rfl rfl rfl, fun _ => rfl⟩
  · obtain rfl := Option.some.inj h
    exact ⟨ids_kept_of_eq _ _ rfl rfl rfl, fun _ => rfl⟩

/-! ## Malformed inbound packets (C16) -/

/-- A remaining-length field whose first four bytes all have the continuation bit set
makes `iotx_mc_decode_packet` return `MQTTPACKET_READ_ERROR`. -/
theorem decode_packet_five_bytes (b1 b2 b3 b4 : Nat) (rest : List (Int × List Nat))
    (h1 : (b1 / 128) % 2 = 1) (h2 : (b2 / 128) % 2 = 1) (h3 : (b3 / 128) % 2 = 1)
    (h4 : (b4 / 128) % 2 = 1) :
    (iotx_mc_decode_packet ((1, [b1]) :: (1, [b2]) :: (1, [b3]) :: (1, [b4]) :: rest)).1
      = MQTTPACKET_READ_ERROR := by
  cases rest with
  | nil => simp [iotx_mc_decode_packet, iotx_mc_decode_packet_loop, h1, h2, h3, h4]
  | cons a r =>
    obtain ⟨rc, data⟩ := a
    simp [iotx_mc_decode_packet, iotx_mc_decode_packet_loop, h1, h2, h3, h4]

/-- Claim C16 (amended): let the client be CONNECTED.  When `iotx_mc_read_packet` has
read a packet (it returns `SUCCESS_RETURN`), `iotx_mc_cycle` leaves the client state
CONNECTED whatever the handler makes of the packet, also when its deserializer rejects
it or the packet type is not handled.  When the packet is malformed in its
remaining-length field (the four bytes after the header all have the continuation bit
set), `iotx_mc_read_packet` returns `MQTTPACKET_READ_ERROR` and `iotx_mc_cycle` sets the
client state to DISCONNECTED and returns `MQTT_NETWORK_ERROR`. -/
theorem cycle_malformed_packet (codec : Codec) (env : yield_env) (c : iotx_mc_client_t)
    (hst : c.client_state = IOTX_MC_STATE_CONNECTED) :
    (env.read_rc = SUCCESS_RETURN →
      ∀ r, iotx_mc_cycle codec env c = some r →
        r.1.client_state = IOTX_MC_STATE_CONNECTED) ∧
    (∀ (header b1 b2 b3 b4 : Nat) (rest : List (Int × List Nat)),
      (b1 / 128) % 2 = 1 → (b2 / 128) % 2 = 1 → (b3 / 128) % 2 = 1 → (b4 / 128) % 2 = 1 →
        (iotx_mc_read_packet c.buf_size_read
            ((1, [header]) :: (1, [b1]) :: (1, [b2]) :: (1, [b3]) :: (1, [b4]) :: rest)).1
          = MQTTPACKET_READ_ERROR ∧
        cycle_on_reads codec env
            ((1, [header]) :: (1, [b1]) :: (1, [b2]) :: (1, [b3]) :: (1, [b4]) :: rest) c
          = some ({ c with client_state := IOTX_MC_STATE_DISCONNECTED }, [],
              MQTT_NETWORK_ERROR)) := by
  constructor
  · intro hrc r hr
    rw [(cycle_kept codec env c r hr).2 hrc, hst]
  · intro header b1 b2 b3 b4 rest h1 h2 h3 h4
    have hd := decode_packet_five_bytes b1 b2 b3 b4 rest h1 h2 h3 h4
    have hr : (iotx_mc_read_packet c.buf_size_read
        ((1, [header]) :: (1, [b1]) :: (1, [b2]) :: (1, [b3]) :: (1, [b4]) :: rest)).1
          = MQTTPACKET_READ_ERROR := by
      simp only [iotx_mc_read_packet, ipstack_read, hd]
      simp [MQTTPACKET_READ_ERROR]
    refine ⟨hr, ?_⟩
    simp [cycle_on_reads, env_of_reads, iotx_mc_cycle, hst, hr, MQTTPACKET_READ_ERROR,
      SUCCESS_RETURN]

/-- Claim C16 (amended) at a sample: the connected sample client reads the malformed
packet `malformed_reads`. -/
theorem cycle_malformed_packet_witness :
    sample_client.client_state = IOTX_MC_STATE_CONNECTED ∧
    cycle_on_reads sample_codec sample_puback_env
        ((1, [48]) :: (1, [255]) :: (1, [255]) :: (1, [255]) :: (1, [255]) :: [(1, [1])])
        sample_client
      = some ({ sample_client with client_state := IOTX_MC_STATE_DISCONNECTED }, [],
          MQTT_NETWORK_ERROR) :=
  ⟨by decide,
    ((cycle_malformed_packet sample_codec sample_puback_env sample_client (by decide)).2
      48 255 255 255 255 [(1, [1])] (by decide) (by decide) (by decide) (by decide)).2⟩

/-- Claim C16 as stated fails: the sample client is CONNECTED and the transport
delivers a packet whose remaining-length field is malformed (`malformed_reads`);
`iotx_mc_read_packet` returns `MQTTPACKET_READ_ERROR`, and `iotx_mc_cycle` leaves the
client DISCONNECTED and returns `MQTT_NETWORK_ERROR`. -/
theorem malformed_packet_disconnects :
    sample_client.client_state = IOTX_MC_STATE_CONNECTED ∧
    (iotx_mc_read_packet sample_client.buf_size_read malformed_reads).1
      = MQTTPACKET_READ_ERROR ∧
    (cycle_on_reads sample_codec sample_puback_env malformed_reads sample_client).map
        (fun r => (r.1.client_state, r.2.2))
      = some (IOTX_MC_STATE_DISCONNECTED, MQTT_NETWORK_ERROR) := by
  decide

/-! ## What the sweeps and the keep-alive leave alone -/

/-- The loop of `MQTTPubInfoProc` brings no new packet id into the table. -/
theorem pub_loop_ids (now T : Nat) :
    ∀ (l : List iotx_mc_pub_info_t) (state : iotx_mc_state_t) (scripts : List (List (Bool × Int))),
      (MQTTPubInfoProc_loop now T state scripts l).2.map (fun e => e.msg_id)
        ⊆ l.map (fun e => e.msg_id) := by
  intro l
  induction l with
  | nil => intro state scripts; simp [MQTTPubInfoProc_loop]
  | cons a r ih =>
    intro state scripts
    simp only [MQTTPubInfoProc_loop]
    split_ifs
    · exact fun x hx => List.mem_cons_of_mem _ (ih _ _ hx)
    · simp only [List.map_cons]
      exact List.cons_subset_cons _ (ih _ _)
    · simp only [List.map_cons]
      exact List.cons_subset_cons _ (ih _ _)
    · simp only [List.map_cons]
      exact fun x hx => hx
    · simp only [List.map_cons]
      exact List.cons_subset_cons _ (ih _ _)

/-- The sweep `MQTTPubInfoProc` issues no packet id and brings no new id into the
in-flight tables. -/
theorem pub_proc_kept (now : Nat) (scripts : List (List (Bool × Int))) (c : iotx_mc_client_t) :
    ids_kept (MQTTPubInfoProc now scripts c) c := by
  simp only [MQTTPubInfoProc]
  split_ifs
  · exact ids_kept_of_eq _ _ rfl rfl rfl
  · refine ⟨rfl, ?_, fun _ hx => hx⟩
    simp only [pub_ids, List.map_reverse]
    intro x hx
    have := pub_loop_ids now c.request_timeout_ms c.list_pub_wait_ack.reverse c.client_state
      scripts (List.mem_reverse.mp hx)
    simpa using this

/-- The loop of `MQTTSubInfoProc` brings no new packet id into the table. -/
theorem sub_loop_ids (now : Nat) (c : iotx_mc_client_t) (l : List iotx_mc_subsribe_info_t) :
    (MQTTSubInfoProc_loop now c l).1.map (fun e => e.msg_id) ⊆ l.map (fun e => e.msg_id) := by
  induction l with
  | nil => simp [MQTTSubInfoProc_loop]
  | cons a r ih =>
    simp only [MQTTSubInfoProc_loop]
    split_ifs
    · exact fun x hx => List.mem_cons_of_mem _ (ih hx)
    · simp only [List.map_cons]
      exact List.cons_subset_cons _ ih
    · simp only [List.map_cons]
      exact List.cons_subset_cons _ ih
    · exact fun x hx => List.mem_cons_of_mem _ (ih hx)
    · exact fun x hx => List.mem_cons_of_mem _ (ih hx)

/-- The sweep `MQTTSubInfoProc` issues no packet id and brings no new id into the
in-flight tables. -/
theorem sub_proc_ids_kept (now : Nat) (c : iotx_mc_client_t) :
    ids_kept (MQTTSubInfoProc now c).1 c := by
  simp only [MQTTSubInfoProc]
  split_ifs
  · exact ids_kept_of_eq _ _ rfl rfl rfl
  · refine ⟨rfl, fun _ hx => hx, ?_⟩
    simp only [sub_ids, List.map_reverse]
    intro x hx
    have := sub_loop_ids now c c.list_sub_wait_ack.reverse (List.mem_reverse.mp hx)
    simpa using this

/-- Connecting issues no packet id and leaves the in-flight tables alone. -/
theorem connect_kept (codec : Codec) (now : Nat) (cenv : connect_env) (c : iotx_mc_client_t) :
    ids_kept (iotx_mc_connect codec now cenv c).1 c := by
  simp only [iotx_mc_connect, MQTTConnect]
  split_ifs <;> exact ids_kept_of_eq _ _ rfl rfl rfl

/-- A reconnect attempt issues no packet id and leaves the in-flight tables alone. -/
theorem handle_reconnect_kept (codec : Codec) (now : Nat) (a : Int) (cenv : connect_env)
    (c : iotx_mc_client_t) : ids_kept (iotx_mc_handle_reconnect codec now a cenv c).1 c := by
  have hc := connect_kept codec now cenv c
  simp only [iotx_mc_handle_reconnect, iotx_mc_attempt_reconnect]
  split_ifs
  · exact ids_kept_of_eq _ _ rfl rfl rfl
  · exact ids_kept_of_eq _ _ rfl rfl rfl
  · exact ids_kept_trans _ _ _ (ids_kept_of_eq _ _ rfl rfl rfl) hc
  · exact ids_kept_trans _ _ _ (ids_kept_of_eq _ _ rfl rfl rfl) hc
  · exact ids_kept_trans _ _ _ (ids_kept_of_eq _ _ rfl rfl rfl) hc

/-- The ping scheduler issues no packet id and leaves the in-flight tables alone. -/
theorem keepalive_sub_kept (codec : Codec) (env : yield_env) (c : iotx_mc_client_t) :
    ids_kept (iotx_mc_keepalive_sub codec env c).1 c := by
  simp only [iotx_mc_keepalive_sub, MQTTKeepalive]
  split_ifs <;> exact ids_kept_of_eq _ _ rfl rfl rfl

/-- The keep-alive tick issues no packet id and leaves the in-flight tables alone. -/
theorem keepalive_kept (codec : Codec) (env : yield_env) (c : iotx_mc_client_t) :
    ids_kept (iotx_mc_keepalive codec env c).1 c := by
  have hk := keepalive_sub_kept codec env c
  simp only [iotx_mc_keepalive]
  split_ifs
  · exact ids_kept_trans _ _ _ (handle_reconnect_kept codec _ _ _ _)
      (ids_kept_trans _ _ _ (ids_kept_of_eq _ _ rfl rfl rfl) hk)
  · exact ids_kept_trans _ _ _ (ids_kept_of_eq _ _ rfl rfl rfl)
      (ids_kept_trans _ _ _ (handle_reconnect_kept codec _ _ _ _)
        (ids_kept_trans _ _ _ (ids_kept_of_eq _ _ rfl rfl rfl) hk))
  · exact ids_kept_trans _ _ _ (ids_kept_of_eq _ _ rfl rfl rfl) hk
  · exact hk

/-- A turn of the service loop issues no packet id and brings no new id into the
in-flight tables. -/
theorem yield_turn_kept (codec : Codec) (env : yield_env) (c : iotx_mc_client_t)
    (r : iotx_mc_client_t × List Call × Int) (h : yield_turn codec env c = some r) :
    ids_kept r.1 c := by
  simp only [yield_turn] at h
  split at h
  · exact absurd h (by simp)
  · rename_i c1 calls1 rc hcy
    have h1 := (cycle_kept codec env c _ hcy).1
    obtain rfl := Option.some.inj h
    simp only
    refine ids_kept_trans _ _ _ (keepalive_kept codec env _) ?_
    split_ifs
    · exact ids_kept_trans _ _ _ (sub_proc_ids_kept _ _)
        (ids_kept_trans _ _ _ (pub_proc_kept _ _ _) h1)
    · exact h1

/-! ## Packet ids of the entries in flight (C18) -/

/-- The end of a request touches neither the counter nor the in-flight tables. -/
theorem request_outcome_ids (r : iotx_mc_client_t × Int) (id : Int) :
    (request_outcome r id).1.packet_id = r.1.packet_id ∧
    (request_outcome r id).1.list_pub_wait_ack = r.1.list_pub_wait_ack ∧
    (request_outcome r id).1.list_sub_wait_ack = r.1.list_sub_wait_ack := by
  simp only [request_outcome]
  split_ifs <;> exact ⟨rfl, rfl, rfl⟩

/-- What `iotx_mc_publish` does to the ids: either it issues none and brings none into
the tables, or it issues one and the pub-inflight table gains at most that id. -/
theorem publish_step (codec : Codec) (R now : Nat) (stack : List Nat)
    (script : List (Bool × Int)) (c : iotx_mc_client_t) (topic : Option (List Nat))
    (msg : iotx_mqtt_topic_info_t) (hq : msg.qos ≤ IOTX_MQTT_QOS2) :
    ids_kept (iotx_mc_publish codec R now stack script c topic (some msg)).1 c ∨
    ((iotx_mc_publish codec R now stack script c topic (some msg)).1.packet_id
        = (iotx_mc_get_next_packetid c).2 ∧
      pub_ids (iotx_mc_publish codec R now stack script c topic (some msg)).1
        ⊆ pub_ids c ++ [(iotx_mc_get_next_packetid c).2 % 65536] ∧
      sub_ids (iotx_mc_publish codec R now stack script c topic (some msg)).1 ⊆ sub_ids c) := by
  cases topic with
  | none => exact Or.inl (ids_kept_of_eq _ _ rfl rfl rfl)
  | some name =>
    by_cases hchk : 0 ≠ iotx_mc_check_topic stack (some name) TOPIC_NAME_TYPE
    · left
      simp only [iotx_mc_publish, if_pos hchk]
      exact ids_kept_of_eq _ _ rfl rfl rfl
    by_cases hst : c.client_state ≠ IOTX_MC_STATE_CONNECTED
    · left
      simp only [iotx_mc_publish, if_neg hchk, if_pos hst]
      exact ids_kept_of_eq _ _ rfl rfl rfl
    have hchk1 : iotx_mc_check_topic stack (some name) TOPIC_NAME_TYPE = SUCCESS_RETURN :=
      not_not.mp (fun e => hchk ((check_topic_ne _ _ _).mpr e))
    rw [publish_eq codec R now stack script c name msg hchk1 (not_not.mp hst)]
    obtain ⟨ho1, ho2, ho3⟩ := request_outcome_ids
      (MQTTPublish codec R now script (publish_issued c msg).1 name (publish_issued c msg).2.2)
      ((publish_issued c msg).2.1 : Int)
    by_cases h12 : msg.qos = IOTX_MQTT_QOS1 ∨ msg.qos = IOTX_MQTT_QOS2
    · right
      have hi : publish_issued c msg = ((iotx_mc_get_next_packetid c).1,
          (iotx_mc_get_next_packetid c).2 % 65536,
          { msg with packet_id := (iotx_mc_get_next_packetid c).2 % 65536 }) := by
        simp only [publish_issued, if_pos h12]
      rw [hi] at ho1 ho2 ho3 ⊢
      obtain ⟨hfr, -, hl, hl2⟩ := MQTTPublish_effects codec R now script
        (iotx_mc_get_next_packetid c).1 name
        { msg with packet_id := (iotx_mc_get_next_packetid c).2 % 65536 }
      have hp := (congrArg iotx_mc_client_t.packet_id hfr).trans
        (rfl : _ = (iotx_mc_get_next_packetid c).2)
      have hsub := (congrArg iotx_mc_client_t.list_sub_wait_ack hfr).trans
        (rfl : _ = c.list_sub_wait_ack)
      refine ⟨by rw [ho1]; exact hp, ?_, ?_⟩
      · simp only [pub_ids, ho2]
        by_cases hs : (MQTTPublish codec R now script (iotx_mc_get_next_packetid c).1 name
            { msg with packet_id := (iotx_mc_get_next_packetid c).2 % 65536 }).2
              = SUCCESS_RETURN
        · obtain ⟨e, he1, he2, -⟩ := hl2 hs (by
            show 0 < msg.qos
            simp only [IOTX_MQTT_QOS1, IOTX_MQTT_QOS2] at h12
            omega)
          rw [he1, next_packetid_frame]
          simp only [List.map_append, List.map_cons, List.map_nil, he2]
          exact fun _ hx => hx
        · rw [hl (Or.inl hs), next_packetid_frame]
          exact fun _ hx => List.mem_append_left _ hx
      · simp only [sub_ids, ho3, hsub]
        exact fun _ hx => hx
    · left
      have hq0 : msg.qos = 0 := by
        simp only [IOTX_MQTT_QOS1, IOTX_MQTT_QOS2] at h12 hq
        omega
      have hi : publish_issued c msg = (c, 0, msg) := by
        simp only [publish_issued, if_neg h12]
      rw [hi] at ho1 ho2 ho3 ⊢
      obtain ⟨hfr, -, hl, -⟩ := MQTTPublish_effects codec R now script c name msg
      have hp := congrArg iotx_mc_client_t.packet_id hfr
      have hsub := congrArg iotx_mc_client_t.list_sub_wait_ack hfr
      simp only at hp hsub
      exact ids_kept_of_eq _ _ (by rw [ho1]; exact hp) (by rw [ho2]; exact hl (Or.inr hq0))
        (by rw [ho3]; exact hsub)

/-- What `iotx_mc_subscribe` does to the ids: either it issues none and brings none
into the tables, or it issues one and the sub-inflight table gains at most that id. -/
theorem subscribe_step (codec : Codec) (now : Nat) (stack : List Nat)
    (script : List (Bool × Int)) (c : iotx_mc_client_t) (topic : Option (List Nat))
    (qos H ctx : Nat) :
    ids_kept (iotx_mc_subscribe codec now stack script c topic qos H ctx).1 c ∨
    ((iotx_mc_subscribe codec now stack script c topic qos H ctx).1.packet_id
        = (iotx_mc_get_next_packetid c).2 ∧
      pub_ids (iotx_mc_subscribe codec now stack script c topic qos H ctx).1 ⊆ pub_ids c ∧
      sub_ids (iotx_mc_subscribe codec now stack script c topic qos H ctx).1
        ⊆ sub_ids c ++ [(iotx_mc_get_next_packetid c).2 % 65536]) := by
  cases topic with
  | none => exact Or.inl (ids_kept_of_eq _ _ rfl rfl rfl)
  | some F =>
    by_cases hst : c.client_state ≠ IOTX_MC_STATE_CONNECTED
    · left
      simp only [iotx_mc_subscribe, if_pos hst]
      exact ids_kept_of_eq _ _ rfl rfl rfl
    by_cases hchk : 0 ≠ iotx_mc_check_topic stack (some F) TOPIC_FILTER_TYPE
    · left
      simp only [iotx_mc_subscribe, if_neg hst, if_pos hchk]
      exact ids_kept_of_eq _ _ rfl rfl rfl
    have hchk1 : iotx_mc_check_topic stack (some F) TOPIC_FILTER_TYPE = SUCCESS_RETURN :=
      not_not.mp (fun e => hchk ((check_topic_ne _ _ _).mpr e))
    right
    rw [subscribe_eq codec now stack script c F qos H ctx hchk1 (not_not.mp hst)]
    obtain ⟨ho1, ho2, ho3⟩ := request_outcome_ids
      (MQTTSubscribe codec now script (iotx_mc_get_next_packetid c).1 F qos
        (iotx_mc_get_next_packetid c).2 H ctx)
      (int_of_unsigned (iotx_mc_get_next_packetid c).2)
    obtain ⟨hfr, -, hl, hl2⟩ := MQTTSubscribe_effects codec now script
      (iotx_mc_get_next_packetid c).1 F qos (iotx_mc_get_next_packetid c).2 H ctx
    have hp := (congrArg iotx_mc_client_t.packet_id hfr).trans
      (rfl : _ = (iotx_mc_get_next_packetid c).2)
    have hpub := (congrArg iotx_mc_client_t.list_pub_wait_ack hfr).trans
      (rfl : _ = c.list_pub_wait_ack)
    refine ⟨by rw [ho1]; exact hp, ?_, ?_⟩
    · simp only [pub_ids, ho2, hpub]
      exact fun _ hx => hx
    · simp only [sub_ids, ho3]
      by_cases hs : (MQTTSubscribe codec now script (iotx_mc_get_next_packetid c).1 F qos
          (iotx_mc_get_next_packetid c).2 H ctx).2 = SUCCESS_RETURN
      · obtain ⟨e, he1, he2, -⟩ := hl2 hs
        rw [he1, next_packetid_frame]
        simp only [List.map_append, List.map_cons, List.map_nil, he2]
        exact fun _ hx => hx
      · rw [hl hs, next_packetid_frame]
        exact fun _ hx => List.mem_append_left _ hx

/-- What `iotx_mc_unsubscribe` does to the ids: either it issues none and brings none
into the tables, or it issues one and the sub-inflight table gains at most that id. -/
theorem unsubscribe_step (codec : Codec) (now : Nat) (stack : List Nat)
    (script : List (Bool × Int)) (c : iotx_mc_client_t) (topic : Option (List Nat)) :
    ids_kept (iotx_mc_unsubscribe codec now stack script c topic).1 c ∨
    ((iotx_mc_unsubscribe codec now stack script c topic).1.packet_id
        = (iotx_mc_get_next_packetid c).2 ∧
      pub_ids (iotx_mc_unsubscribe codec now stack script c topic).1 ⊆ pub_ids c ∧
      sub_ids (iotx_mc_unsubscribe codec now stack script c topic).1
        ⊆ sub_ids c ++ [(iotx_mc_get_next_packetid c).2 % 65536]) := by
  cases topic with
  | none => exact Or.inl (ids_kept_of_eq _ _ rfl rfl rfl)
  | some F =>
    by_cases hchk : 0 ≠ iotx_mc_check_topic stack (some F) TOPIC_FILTER_TYPE
    · left
      simp only [iotx_mc_unsubscribe, if_pos hchk]
      exact ids_kept_of_eq _ _ rfl rfl rfl
    by_cases hst : c.client_state ≠ IOTX_MC_STATE_CONNECTED
    · left
      simp only [iotx_mc_unsubscribe, if_neg hchk, if_pos hst]
      exact ids_kept_of_eq _ _ rfl rfl rfl
    have hchk1 : iotx_mc_check_topic stack (some F) TOPIC_FILTER_TYPE = SUCCESS_RETURN :=
      not_not.mp (fun e => hchk ((check_topic_ne _ _ _).mpr e))
    right
    rw [unsubscribe_eq codec now stack script c F hchk1 (not_not.mp hst)]
    obtain ⟨ho1, ho2, ho3⟩ := request_outcome_ids
      (MQTTUnsubscribe codec now script (iotx_mc_get_next_packetid c).1 F
        (iotx_mc_get_next_packetid c).2)
      (int_of_unsigned (iotx_mc_get_next_packetid c).2)
    obtain ⟨hfr, -, hl, hl2⟩ := MQTTUnsubscribe_effects codec now script
      (iotx_mc_get_next_packetid c).1 F (iotx_mc_get_next_packetid c).2
    have hp := (congrArg iotx_mc_client_t.packet_id hfr).trans
      (rfl : _ = (iotx_mc_get_next_packetid c).2)
    have hpub := (congrArg iotx_mc_client_t.list_pub_wait_ack hfr).trans
      (rfl : _ = c.list_pub_wait_ack)
    refine ⟨by rw [ho1]; exact hp, ?_, ?_⟩
    · simp only [pub_ids, ho2, hpub]
      exact fun _ hx => hx
    · simp only [sub_ids, ho3]
      by_cases hs : (MQTTUnsubscribe codec now script (iotx_mc_get_next_packetid c).1 F
          (iotx_mc_get_next_packetid c).2).2 = SUCCESS_RETURN
      · obtain ⟨e, he1, he2, -⟩ := hl2 hs
        rw [he1, next_packetid_frame]
        simp only [List.map_append, List.map_cons, List.map_nil, he2]
        exact fun _ hx => hx
      · rw [hl hs, next_packetid_frame]
        exact fun _ hx => List.mem_append_left _ hx

/-- The id issued is never the value the counter held. -/
theorem next_packetid_ne (c : iotx_mc_client_t) :
    (iotx_mc_get_next_packetid c).2 ≠ c.packet_id := by
  simp only [iotx_mc_get_next_packetid, IOTX_MC_PACKET_ID_MAX, UINT32_MOD]
  norm_num
  split_ifs <;> omega

/-- The id issued depends on the counter alone. -/
theorem next_packetid_congr (c c1 : iotx_mc_client_t) (h : c.packet_id = c1.packet_id) :
    (iotx_mc_get_next_packetid c).2 = (iotx_mc_get_next_packetid c1).2 := by
  simp only [iotx_mc_get_next_packetid, h]

/-- The counter after one more call is the id that call returns. -/
theorem packetid_calls_succ (n : Nat) (c0 : iotx_mc_client_t) :
    (packetid_calls (n + 1) c0).packet_id = (iotx_mc_get_next_packetid (packetid_calls n c0)).2 := by
  simp [packetid_calls, iotx_mc_get_next_packetid]

/-- The id returned by call number `n` (counting from 0), from a counter within
0..65535. -/
theorem packetid_calls_from (c0 : iotx_mc_client_t) (h : c0.packet_id ≤ IOTX_MC_PACKET_ID_MAX)
    (n : Nat) :
    (iotx_mc_get_next_packetid (packetid_calls n c0)).2 = (c0.packet_id + n) % 65535 + 1 := by
  simp only [IOTX_MC_PACKET_ID_MAX] at h
  induction n with
  | zero =>
    simp only [packetid_calls, iotx_mc_get_next_packetid, IOTX_MC_PACKET_ID_MAX, UINT32_MOD]
    norm_num
    split_ifs <;> omega
  | succ k ih =>
    have hs := packetid_calls_succ k c0
    rw [ih] at hs
    simp only [iotx_mc_get_next_packetid, hs, IOTX_MC_PACKET_ID_MAX, UINT32_MOD]
    norm_num
    split_ifs <;> omega

/-- Along a run from a client with empty in-flight tables, the counter is that of as
many calls of `iotx_mc_get_next_packetid` as ids were issued, and every id in the
tables was issued by one of those calls. -/
theorem client_run_ids (codec : Codec) (R : Nat) (c0 : iotx_mc_client_t)
    (hp : c0.list_pub_wait_ack = []) (hs : c0.list_sub_wait_ack = [])
    (hpid : c0.packet_id ≤ IOTX_MC_PACKET_ID_MAX) (n : Nat) (c : iotx_mc_client_t)
    (h : client_run codec R c0 n c) :
    c.packet_id = (packetid_calls n c0).packet_id ∧
    ∀ id, id ∈ pub_ids c ∨ id ∈ sub_ids c →
      ∃ j, j < n ∧ id = (iotx_mc_get_next_packetid (packetid_calls j c0)).2 := by
  -- the common step: a request that keeps the ids, or issues one
  have step : ∀ (n : Nat) (c c1 : iotx_mc_client_t),
      (c.packet_id = (packetid_calls n c0).packet_id ∧
        ∀ id, id ∈ pub_ids c ∨ id ∈ sub_ids c →
          ∃ j, j < n ∧ id = (iotx_mc_get_next_packetid (packetid_calls j c0)).2) →
      (ids_kept c1 c ∨
        (c1.packet_id = (iotx_mc_get_next_packetid c).2 ∧
          (∀ id, id ∈ pub_ids c1 ∨ id ∈ sub_ids c1 →
            (id ∈ pub_ids c ∨ id ∈ sub_ids c) ∨ id = (iotx_mc_get_next_packetid c).2 % 65536))) →
      (c1.packet_id = (packetid_calls (n + issued_count c c1) c0).packet_id ∧
        ∀ id, id ∈ pub_ids c1 ∨ id ∈ sub_ids c1 →
          ∃ j, j < n + issued_count c c1 ∧
            id = (iotx_mc_get_next_packetid (packetid_calls j c0)).2) := by
    intro n c c1 ih hstep
    rcases hstep with hk | ⟨h1, h2⟩
    · have hc : issued_count c c1 = 0 := by simp [issued_count, hk.1]
      rw [hc, Nat.add_zero]
      refine ⟨hk.1.trans ih.1, ?_⟩
      intro id hid
      exact ih.2 id (hid.imp (fun hx => hk.2.1 hx) (fun hx => hk.2.2 hx))
    · have hne : c1.packet_id ≠ c.packet_id := by rw [h1]; exact next_packetid_ne c
      have hc : issued_count c c1 = 1 := by simp [issued_count, hne]
      have hnext : (iotx_mc_get_next_packetid c).2
          = (iotx_mc_get_next_packetid (packetid_calls n c0)).2 := next_packetid_congr _ _ ih.1
      rw [hc]
      refine ⟨by rw [h1, packetid_calls_succ, hnext], ?_⟩
      intro id hid
      rcases h2 id hid with hold | hnew
      · obtain ⟨j, hj, hjid⟩ := ih.2 id hold
        exact ⟨j, by omega, hjid⟩
      · refine ⟨n, by omega, ?_⟩
        rw [hnew, hnext, packetid_calls_from c0 hpid n]
        omega
  induction h with
  | start =>
    refine ⟨rfl, ?_⟩
    intro id hid
    simp [pub_ids, sub_ids, hp, hs] at hid
  | publish n c now stack script topic msg _ hq ih =>
    apply step n c _ ih
    rcases publish_step codec R now stack script c topic msg hq with hk | ⟨h1, h2, h3⟩
    · exact Or.inl hk
    · refine Or.inr ⟨h1, ?_⟩
      intro id hid
      rcases hid with hid | hid
      · rcases List.mem_append.mp (h2 hid) with hx | hx
        · exact Or.inl (Or.inl hx)
        · exact Or.inr (by simpa using hx)
      · exact Or.inl (Or.inr (h3 hid))
  | subscribe n c now stack script topic qos H ctx _ ih =>
    apply step n c _ ih
    rcases subscribe_step codec now stack script c topic qos H ctx with hk | ⟨h1, h2, h3⟩
    · exact Or.inl hk
    · refine Or.inr ⟨h1, ?_⟩
      intro id hid
      rcases hid with hid | hid
      · exact Or.inl (Or.inl (h2 hid))
      · rcases List.mem_append.mp (h3 hid) with hx | hx
        · exact Or.inl (Or.inr hx)
        · exact Or.inr (by simpa using hx)
  | unsubscribe n c now stack script topic _ ih =>
    apply step n c _ ih
    rcases unsubscribe_step codec now stack script c topic with hk | ⟨h1, h2, h3⟩
    · exact Or.inl hk
    · refine Or.inr ⟨h1, ?_⟩
      intro id hid
      rcases hid with hid | hid
      · exact Or.inl (Or.inl (h2 hid))
      · rcases List.mem_append.mp (h3 hid) with hx | hx
        · exact Or.inl (Or.inr hx)
        · exact Or.inr (by simpa using hx)
  | yield n c env r _ hy ih =>
    have hk := yield_turn_kept codec env c r hy
    refine ⟨hk.1.trans ih.1, ?_⟩
    intro id hid
    exact ih.2 id (hid.imp (fun hx => hk.2.1 hx) (fun hx => hk.2.2 hx))

/-- Claim C18 (amended): in every client state reached from a client with empty
in-flight tables and a packet-id counter within 0..65535 (as `iotx_mc_init` leaves
them) by any sequence of publish, subscribe, unsubscribe and turns of the service loop
(inbound acks and sweeps) during which fewer than 65535 packet ids have been issued,
the packet id issued for a new request differs from the `msg_id` of every entry, live
or not, held in the pub-inflight and sub-inflight tables. -/
theorem fresh_packet_id_before_wrap (codec : Codec) (R : Nat) (c0 : iotx_mc_client_t)
    (hp : c0.list_pub_wait_ack = []) (hs : c0.list_sub_wait_ack = [])
    (hpid : c0.packet_id ≤ IOTX_MC_PACKET_ID_MAX) (n : Nat) (c : iotx_mc_client_t)
    (h : client_run codec R c0 n c) (hn : n < 65535) :
    (∀ e ∈ c.list_pub_wait_ack, (iotx_mc_get_next_packetid c).2 ≠ e.msg_id) ∧
    (∀ e ∈ c.list_sub_wait_ack, (iotx_mc_get_next_packetid c).2 ≠ e.msg_id) := by
  obtain ⟨h1, h2⟩ := client_run_ids codec R c0 hp hs hpid n c h
  have hnext : (iotx_mc_get_next_packetid c).2 = (c0.packet_id + n) % 65535 + 1 := by
    rw [next_packetid_congr _ _ h1, packetid_calls_from c0 hpid n]
  have key : ∀ id, id ∈ pub_ids c ∨ id ∈ sub_ids c → (iotx_mc_get_next_packetid c).2 ≠ id := by
    intro id hid
    obtain ⟨j, hj, hjid⟩ := h2 id hid
    rw [hnext, hjid, packetid_calls_from c0 hpid j]
    omega
  constructor
  · intro e he
    exact key _ (Or.inl (List.mem_map.mpr ⟨e, he, rfl⟩))
  · intro e he
    exact key _ (Or.inr (List.mem_map.mpr ⟨e, he, rfl⟩))

/-- Claim C18 (amended) at a sample: the state after one unacknowledged QoS 1 publish
on the connected sample client, one packet id issued. -/
theorem fresh_packet_id_before_wrap_witness :
    sample_connected.list_pub_wait_ack = [] ∧ sample_connected.list_sub_wait_ack = [] ∧
    sample_connected.packet_id ≤ IOTX_MC_PACKET_ID_MAX ∧
    client_run sample_codec 4 sample_connected 1 sample_unacked ∧
    (∀ e ∈ sample_unacked.list_pub_wait_ack,
      (iotx_mc_get_next_packetid sample_unacked).2 ≠ e.msg_id) ∧
    (∀ e ∈ sample_unacked.list_sub_wait_ack,
      (iotx_mc_get_next_packetid sample_unacked).2 ≠ e.msg_id) :=
  ⟨by decide, by decide, by decide,
    client_run.publish 0 sample_connected 10 [] [(false, 21)] (some sensors_topic) sample_msg
      client_run.start (by decide),
    fresh_packet_id_before_wrap sample_codec 4 sample_connected (by decide) (by decide)
      (by decide) 1 sample_unacked
      (client_run.publish 0 sample_connected 10 [] [(false, 21)] (some sensors_topic) sample_msg
        client_run.start (by decide))
      (by decide)⟩

/-- A publish of `oversize_msg` on a connected client with a send buffer of 64 bytes
issues a packet id, fails in the serializer and changes nothing else but the send
buffer. -/
theorem oversize_publish_step (R : Nat) (c : iotx_mc_client_t)
    (hst : c.client_state = IOTX_MC_STATE_CONNECTED) (hbuf : c.buf_size_send = 64)
    (hpid : c.packet_id < 65535) :
    (iotx_mc_publish sample_codec R 0 [] [] c (some sensors_topic) (some oversize_msg)).1
      = { c with packet_id := c.packet_id + 1, buf_send := [] } := by
  have hchk : iotx_mc_check_topic [] (some sensors_topic) TOPIC_NAME_TYPE = SUCCESS_RETURN := by
    decide
  have hnext : (iotx_mc_get_next_packetid c).2 = c.packet_id + 1 := by
    simp only [iotx_mc_get_next_packetid, IOTX_MC_PACKET_ID_MAX, UINT32_MOD]
    norm_num
    split_ifs <;> omega
  have hi : publish_issued c oversize_msg = ((iotx_mc_get_next_packetid c).1,
      (iotx_mc_get_next_packetid c).2 % 65536,
      { oversize_msg with packet_id := (iotx_mc_get_next_packetid c).2 % 65536 }) := by
    simp [publish_issued, oversize_msg, IOTX_MQTT_QOS1]
  rw [publish_eq sample_codec R 0 [] [] c sensors_topic oversize_msg hchk hst, hi]
  simp [request_outcome, MQTTPublish, sample_codec, next_packetid_frame, hbuf, hnext,
    oversize_msg, sensors_topic, MQTT_PUBLISH_PACKET_ERROR, SUCCESS_RETURN, MQTT_NETWORK_ERROR]

/-- The client after `k` publishes of `oversize_msg`, and the run that leads to it. -/
theorem oversize_publishes_run (R : Nat) (c0 c : iotx_mc_client_t) (n : Nat)
    (hrun : client_run sample_codec R c0 n c)
    (hst : c.client_state = IOTX_MC_STATE_CONNECTED) (hbuf : c.buf_size_send = 64) :
    ∀ k, c.packet_id + k ≤ 65535 →
      client_run sample_codec R c0 (n + k) (oversize_publishes sample_codec R k c) ∧
      oversize_publishes sample_codec R k c
        = { c with packet_id := c.packet_id + k,
                   buf_send := if k = 0 then c.buf_send else [] } := by
  intro k
  induction k with
  | zero => intro _; exact ⟨hrun, rfl⟩
  | succ k ih =>
    intro hk
    obtain ⟨h1, h2⟩ := ih (by omega)
    have hstep := oversize_publish_step R (oversize_publishes sample_codec R k c)
      (by rw [h2]; exact hst) (by rw [h2]; exact hbuf) (by rw [h2]; simp only; omega)
    have hr := client_run.publish (n + k) _ 0 [] [] (some sensors_topic) oversize_msg h1
      (by decide)
    have hcount : issued_count (oversize_publishes sample_codec R k c)
        (iotx_mc_publish sample_codec R 0 [] [] (oversize_publishes sample_codec R k c)
          (some sensors_topic) (some oversize_msg)).1 = 1 := by
      rw [hstep]
      simp [issued_count]
    rw [hcount] at hr
    refine ⟨hr, ?_⟩
    show (iotx_mc_publish sample_codec R 0 [] [] (oversize_publishes sample_codec R k c)
      (some sensors_topic) (some oversize_msg)).1 = _
    rw [hstep, h2]
    simp [Nat.add_assoc]

/-- Claim C18 as stated fails: on the connected sample client a QoS 1 publish is sent
under packet id 1 and never acknowledged, so its entry stays live in the pub-inflight
table; 65534 further publishes, each of which issues a packet id and then fails in the
serializer, bring the counter to 65535.  The state is reached by publishes alone, and
the packet id issued for the next request is 1 again, the `msg_id` of the live
entry. -/
theorem packet_id_reissued_while_live :
    client_run sample_codec 4 sample_connected 65535
      (oversize_publishes sample_codec 4 65534 sample_unacked) ∧
    ∃ e ∈ (oversize_publishes sample_codec 4 65534 sample_unacked).list_pub_wait_ack,
      e.node_state = IOTX_MC_NODE_STATE_NORMANL ∧
      (iotx_mc_get_next_packetid (oversize_publishes sample_codec 4 65534 sample_unacked)).2
        = e.msg_id := by
  have h1 : client_run sample_codec 4 sample_connected 1 sample_unacked :=
    client_run.publish 0 sample_connected 10 [] [(false, 21)] (some sensors_topic) sample_msg
      client_run.start (by decide)
  have hpid : sample_unacked.packet_id = 1 := by decide
  obtain ⟨hr, heq⟩ := oversize_publishes_run 4 sample_connected sample_unacked 1 h1
    (by decide) (by decide) 65534 (by rw [hpid])
  refine ⟨hr, ?_⟩
  rw [heq]
  have hl : sample_unacked.list_pub_wait_ack
      = [⟨10, IOTX_MC_NODE_STATE_NORMANL, 1, 21,
          [50, 0, 1] ++ sensors_topic ++ [104, 105]⟩] := by decide
  refine ⟨_, by simp only [hl]; exact List.mem_singleton.mpr rfl, rfl, ?_⟩
  simp [iotx_mc_get_next_packetid, hpid, IOTX_MC_PACKET_ID_MAX]

/-! ## Reconnect with a failed authentication (C30) -/

/-- Claim C30: if the reconnect deadline has expired and `iotx_auth` fails (returns a
value other than 0), then `iotx_mc_handle_reconnect`, in whatever state the client is
(so also in DISCONNECTED_RECONNECTING), returns the failure -1, makes no call of the
transport `connect`, and leaves the whole client as it was: the client state,
`reconnect_time_interval_ms` and the reconnect deadline are unchanged.  The deadline
is therefore still expired at every later instant, so the next tick tries again. -/
theorem handle_reconnect_auth_failure (codec : Codec) (now : Nat) (auth_rc : Int)
    (cenv : connect_env) (pClient : iotx_mc_client_t)
    (hexp : utils_time_is_expired pClient.reconnect_param.reconnect_next_time now = true)
    (hauth : auth_rc ≠ 0) :
    iotx_mc_handle_reconnect codec now auth_rc cenv pClient = (pClient, -1) ∧
    (iotx_mc_handle_reconnect codec now auth_rc cenv pClient).2 ≠ SUCCESS_RETURN ∧
    iotx_mc_handle_reconnect_connects now auth_rc pClient = 0 ∧
    (iotx_mc_handle_reconnect codec now auth_rc cenv pClient).1.client_state
      = pClient.client_state ∧
    (iotx_mc_handle_reconnect codec now auth_rc cenv pClient).1.reconnect_param
      = pClient.reconnect_param ∧
    ∀ later, now ≤ later →
      utils_time_is_expired
        (iotx_mc_handle_reconnect codec now auth_rc cenv pClient).1.reconnect_param.reconnect_next_time
        later = true := by
  have h0 : (0 : Int) ≠ auth_rc := fun e => hauth e.symm
  have hr : iotx_mc_handle_reconnect codec now auth_rc cenv pClient = (pClient, -1) := by
    simp [iotx_mc_handle_reconnect, hexp, h0]
  refine ⟨hr, ?_, ?_, ?_, ?_, ?_⟩
  · rw [hr]; simp [SUCCESS_RETURN]
  · simp [iotx_mc_handle_reconnect_connects, hexp, h0]
  · rw [hr]
  · rw [hr]
  · intro later hl
    rw [hr]
    simp only [utils_time_is_expired, decide_eq_true_eq] at hexp ⊢
    omega

/-- Claim C30 at a sample: the sample client waiting to reconnect, deadline 61000 ms,
at 61000 ms with `iotx_auth` returning -1. -/
theorem handle_reconnect_auth_failure_witness :
    utils_time_is_expired sample_reconnecting.reconnect_param.reconnect_next_time 61000 = true ∧
    iotx_mc_handle_reconnect sample_codec 61000 (-1) ⟨SUCCESS_RETURN, [(false, 4)], SUCCESS_RETURN⟩
        sample_reconnecting = (sample_reconnecting, -1) ∧
    iotx_mc_handle_reconnect_connects 61000 (-1) sample_reconnecting = 0 :=
  ⟨by decide,
    (handle_reconnect_auth_failure sample_codec 61000 (-1)
      ⟨SUCCESS_RETURN, [(false, 4)], SUCCESS_RETURN⟩ sample_reconnecting (by decide)
      (by decide)).1,
    (handle_reconnect_auth_failure sample_codec 61000 (-1)
      ⟨SUCCESS_RETURN, [(false, 4)], SUCCESS_RETURN⟩ sample_reconnecting (by decide)
      (by decide)).2.2.1⟩

/-! ## Removal on UNSUBACK (C25) -/

/-- Without a node of the packet id the marking loop hands back the handle it was
given. -/
theorem mask_sub_loop_no_entry (msgId : Nat) (l : List iotx_mc_subsribe_info_t) :
    ∀ h : iotx_mc_topic_handle_t, (∀ e ∈ l, e.msg_id ≠ msgId) → (mask_sub_loop msgId l h).2 = h := by
  induction l with
  | nil => intro h _; rfl
  | cons a r ih =>
    intro h hne
    have ha : a.msg_id ≠ msgId := hne a (List.mem_cons_self _ _)
    simp only [mask_sub_loop, if_neg ha]
    exact ih h (fun e he => hne e (List.mem_cons_of_mem _ he))

/-- With a node of the packet id the marking loop hands back the handle of such a
node. -/
theorem mask_sub_loop_entry (msgId : Nat) (l : List iotx_mc_subsribe_info_t) :
    ∀ h : iotx_mc_topic_handle_t, (∃ e ∈ l, e.msg_id = msgId) →
      ∃ e ∈ l, e.msg_id = msgId ∧ (mask_sub_loop msgId l h).2 = e.handler := by
  induction l with
  | nil => intro h ⟨e, he, _⟩; simp at he
  | cons a r ih =>
    intro h hex
    by_cases ha : a.msg_id = msgId
    · simp only [mask_sub_loop, if_pos ha]
      by_cases hr : ∃ e ∈ r, e.msg_id = msgId
      · obtain ⟨e, he, hid, heq⟩ := ih a.handler hr
        exact ⟨e, List.mem_cons_of_mem _ he, hid, heq⟩
      · refine ⟨a, List.mem_cons_self _ _, ha, ?_⟩
        exact mask_sub_loop_no_entry msgId r a.handler
          (fun e he hid => hr ⟨e, he, hid⟩)
    · simp only [mask_sub_loop, if_neg ha]
      obtain ⟨e0, he0, hid0⟩ := hex
      have hr : ∃ e ∈ r, e.msg_id = msgId := by
        rcases List.mem_cons.mp he0 with rfl | hin
        · exact absurd hid0 ha
        · exact ⟨e0, hin, hid0⟩
      obtain ⟨e, he, hid, heq⟩ := ih h hr
      exact ⟨e, List.mem_cons_of_mem _ he, hid, heq⟩

/-- The handle `iotx_mc_mask_subInfo_from` retrieves when a node has the packet id, and
the table it leaves alone. -/
theorem mask_sub_retrieves (c : iotx_mc_client_t) (msgId : Nat) (h : iotx_mc_topic_handle_t)
    (hex : ∃ e ∈ c.list_sub_wait_ack, e.msg_id = msgId) :
    (∃ e ∈ c.list_sub_wait_ack, e.msg_id = msgId ∧
      (iotx_mc_mask_subInfo_from c msgId h).2 = e.handler) ∧
    (iotx_mc_mask_subInfo_from c msgId h).1.sub_handle = c.sub_handle ∧
    (iotx_mc_mask_subInfo_from c msgId h).1.handle_event = c.handle_event := by
  have hne : ¬ c.list_sub_wait_ack.length = 0 := by
    obtain ⟨e, he, _⟩ := hex
    intro h0
    rw [List.length_eq_zero.mp h0] at he
    simp at he
  refine ⟨?_, ?_, ?_⟩
  · simp only [iotx_mc_mask_subInfo_from, if_neg hne]
    obtain ⟨e, he, hid⟩ := hex
    obtain ⟨e1, he1, hid1, heq1⟩ := mask_sub_loop_entry msgId c.list_sub_wait_ack.reverse h
      ⟨e, List.mem_reverse.mpr he, hid⟩
    exact ⟨e1, List.mem_reverse.mp he1, hid1, heq1⟩
  · simp only [iotx_mc_mask_subInfo_from, if_neg hne]
  · simp only [iotx_mc_mask_subInfo_from, if_neg hne]

/-- The removal step with a handle whose filter is not NULL: every slot equal to the
handle is cleared and every other slot stays. -/
theorem unsuback_remove_eq (t : List iotx_mc_topic_handle_t) (B : iotx_mc_topic_handle_t)
    (hf : B.topic_filter ≠ none) :
    unsuback_remove t B = some (t.map (fun s => if s = B then empty_topic_handle else s)) := by
  have hc : ¬ (B.topic_filter = none ∧
      t.any (fun s => decide (s.topic_filter ≠ none)) = true) := fun h => hf h.1
  simp only [unsuback_remove, if_neg hc]
  congr 1
  apply List.map_congr_left
  intro s _
  by_cases hs : s = B
  · have : slot_is_identical s B = true := (slot_is_identical_iff s B).mpr ⟨hs, hf⟩
    rw [if_pos this, if_pos hs]
  · have : ¬ slot_is_identical s B = true := fun h => hs ((slot_is_identical_iff s B).mp h).1
    rw [if_neg this, if_neg hs]

/-- Claim C25: let an UNSUBACK for packet id `msgId` be parsed while a sub-inflight
entry with that id exists, the handles of the entries having non-NULL filters (as
`MQTTSubscribe` and `MQTTUnsubscribe` push them).  Then the binding `B` that
`iotx_mc_handle_recv_UNSUBACK` retrieves is the handle of such an entry, the handler
returns `SUCCESS_RETURN`, and in the subscription table it leaves every slot equal to
`B` (same filter bytes, callback and context) is cleared, at every index, while every
other slot is unchanged. -/
theorem unsuback_clears_identical (env : yield_env) (c : iotx_mc_client_t) (msgId : Nat)
    (hpar : env.unsuback = some msgId)
    (hex : ∃ e ∈ c.list_sub_wait_ack, e.msg_id = msgId)
    (hfil : ∀ e ∈ c.list_sub_wait_ack, e.handler.topic_filter ≠ none) :
    ∃ B r, (∃ e ∈ c.list_sub_wait_ack, e.msg_id = msgId ∧ e.handler = B) ∧
      (iotx_mc_mask_subInfo_from c msgId env.stack_handler).2 = B ∧
      iotx_mc_handle_recv_UNSUBACK env c = some r ∧ r.2.2 = SUCCESS_RETURN ∧
      r.1.sub_handle = c.sub_handle.map (fun s => if s = B then empty_topic_handle else s) ∧
      r.1.sub_handle.length = c.sub_handle.length ∧
      ∀ (i : Nat) (s : iotx_mc_topic_handle_t), c.sub_handle[i]? = some s →
        (s = B → r.1.sub_handle[i]? = some empty_topic_handle) ∧
        (s ≠ B → r.1.sub_handle[i]? = some s) := by
  obtain ⟨⟨e, he, hid, heq⟩, htab, _⟩ := mask_sub_retrieves c msgId env.stack_handler hex
  have hf : e.handler.topic_filter ≠ none := hfil e he
  have hrem := unsuback_remove_eq c.sub_handle e.handler hf
  have hres : ∃ r, iotx_mc_handle_recv_UNSUBACK env c = some r ∧ r.2.2 = SUCCESS_RETURN ∧
      r.1.sub_handle
        = c.sub_handle.map (fun s => if s = e.handler then empty_topic_handle else s) := by
    simp only [iotx_mc_handle_recv_UNSUBACK, hpar, heq, htab, hrem]
    exact ⟨_, rfl, rfl, rfl⟩
  obtain ⟨r, hr1, hr2, hr3⟩ := hres
  refine ⟨e.handler, r, ⟨e, he, hid, rfl⟩, heq, hr1, hr2, hr3, ?_, ?_⟩
  · rw [hr3]; simp
  · intro i s hs
    rw [hr3]
    simp only [List.getElem?_map, hs, Option.map_some']
    constructor
    · intro h; rw [if_pos h]
    · intro h; rw [if_neg h]

/-- Claim C25 at a sample: the table holds the binding ("/sensors/+/temp", NULL, NULL)
in slots 0 and 2 and `sample_binding` in slot 1; the UNSUBACK for packet id 2 retrieves
the handle of the UNSUBSCRIBE in flight and clears slots 0 and 2. -/
theorem unsuback_clears_identical_witness :
    (ack_turn 40 UNSUBACK none (some 2)).unsuback = some 2 ∧
    (iotx_mc_handle_recv_UNSUBACK (ack_turn 40 UNSUBACK none (some 2))
        { sample_client with
          sub_handle := [⟨some sensors_filter, ⟨0, 0⟩⟩, sample_binding,
            ⟨some sensors_filter, ⟨0, 0⟩⟩] }).map (fun r => r.1.sub_handle)
      = some [empty_topic_handle, sample_binding, empty_topic_handle] ∧
    ∃ B r, (∃ e ∈ sample_client.list_sub_wait_ack, e.msg_id = 2 ∧ e.handler = B) ∧
      (iotx_mc_mask_subInfo_from { sample_client with
          sub_handle := [⟨some sensors_filter, ⟨0, 0⟩⟩, sample_binding,
            ⟨some sensors_filter, ⟨0, 0⟩⟩] } 2
        (ack_turn 40 UNSUBACK none (some 2)).stack_handler).2 = B ∧
      iotx_mc_handle_recv_UNSUBACK (ack_turn 40 UNSUBACK none (some 2))
        { sample_client with
          sub_handle := [⟨some sensors_filter, ⟨0, 0⟩⟩, sample_binding,
            ⟨some sensors_filter, ⟨0, 0⟩⟩] } = some r ∧
      r.2.2 = SUCCESS_RETURN :=
  ⟨by decide, by decide, by
    obtain ⟨B, r, h1, h2, h3, h4, -⟩ := unsuback_clears_identical
      (ack_turn 40 UNSUBACK none (some 2))
      { sample_client with
        sub_handle := [⟨some sensors_filter, ⟨0, 0⟩⟩, sample_binding,
          ⟨some sensors_filter, ⟨0, 0⟩⟩] } 2 (by decide) (by decide) (by decide)
    exact ⟨B, r, h1, h2, h3, h4⟩⟩

/-! ## Delivery of an inbound message (C26) -/

/-- The loop of `iotx_mc_deliver_message` in closed form: the callbacks of the slots
it invokes, in slot order, and the flag, raised as soon as one was invoked. -/
theorem deliver_loop_eq (topicName : List Nat) (m : iotx_mqtt_topic_info_t)
    (l : List iotx_mc_topic_handle_t) :
    ∀ flag : Nat, deliver_loop topicName m l flag
      = ((l.filter (slot_invoked topicName)).map (slot_call m),
          if l.filter (slot_invoked topicName) = [] then flag else 1) := by
  induction l with
  | nil => intro flag; rfl
  | cons s r ih =>
    intro flag
    obtain ⟨f, ⟨h, ctx⟩⟩ := s
    cases f with
    | none => simp [deliver_loop, ih, slot_invoked, List.filter_cons]
    | some filter =>
      by_cases ht : slot_topic_test filter topicName = true
      · by_cases hh : h = 0
        · simp [deliver_loop, ih, slot_invoked, List.filter_cons, ht, hh]
        · simp [deliver_loop, ih, slot_invoked, List.filter_cons, ht, hh, slot_call]
      · simp [deliver_loop, ih, slot_invoked, List.filter_cons, ht]

/-- Claim C26: for every subscription table and inbound topic, the callbacks that
`iotx_mc_deliver_message` invokes are, in slot order and once per slot, the non-NULL
callbacks of the occupied slots whose filter equals or matches the topic, each with
the context of its slot and a PublishReceived event for the message (with the topic
attached); after them comes one invocation of the event handler of the client, with
the same event and message, exactly when it is not NULL and no slot callback was
invoked; otherwise nothing else is invoked. -/
theorem deliver_message_calls (c : iotx_mc_client_t) (topicName : List Nat)
    (topic_msg : iotx_mqtt_topic_info_t) :
    iotx_mc_deliver_message c topicName topic_msg
      = (c.sub_handle.filter (slot_invoked topicName)).map
          (slot_call { topic_msg with ptopic := some topicName })
        ++ (if c.sub_handle.filter (slot_invoked topicName) = [] ∧ c.handle_event.h_fp ≠ 0 then
              [⟨c.handle_event.h_fp, c.handle_event.pcontext,
                ⟨IOTX_MQTT_EVENT_PUBLISH_RECVEIVED,
                  event_payload.topic_msg { topic_msg with ptopic := some topicName }⟩⟩]
            else []) := by
  simp only [iotx_mc_deliver_message, deliver_loop_eq]
  by_cases hl : c.sub_handle.filter (slot_invoked topicName) = []
  · by_cases hh : c.handle_event.h_fp = 0
    · simp [hl, hh]
    · simp [hl, hh]
  · simp [hl]

/-! ## The slot chosen by the install step (C23, C24) -/

/-- Claim C23 (the code at the failing input): when no occupied slot is identical to
the binding `B`, the install step writes `B` into slot 0 whatever slot 0 holds, and
leaves the other slots as they are.  On the sample client, whose table holds
`sample_binding` in slot 0 and a cleared slot 1, the SUBACK for the subscribe of
`other_binding` in flight leaves `other_binding` in slot 0 and slot 1 still cleared:
the installed binding `sample_binding` is overwritten and lost, and the lowest empty
slot is not used. -/
theorem install_overwrites_slot_zero :
    (∀ (A B : iotx_mc_topic_handle_t) (r : List iotx_mc_topic_handle_t),
      (A :: r).any (fun s => slot_is_identical s B) = false →
        suback_install (A :: r) B = (B :: r, true)) ∧
    sample_second_subscribe.sub_handle = [sample_binding, empty_topic_handle] ∧
    (iotx_mc_handle_recv_SUBACK (ack_turn 20 SUBACK (some (4, 0)) none)
        sample_second_subscribe).1.sub_handle = [other_binding, empty_topic_handle] ∧
    (iotx_mc_handle_recv_SUBACK (ack_turn 20 SUBACK (some (4, 0)) none)
        sample_second_subscribe).2.2 = SUCCESS_RETURN := by
  refine ⟨?_, by decide, by decide, by decide⟩
  intro A B r h
  rw [suback_install_eq, h]
  simp

/-- Claim C24 (the code at the failing input): the install step never takes the exit
"NOT more @sub_handle space!" on a table that has a slot.  On the sample client with
a full table (`sample_binding` in slot 0, `third_binding` in slot 1, neither identical
to `other_binding`), the SUBACK for the subscribe of `other_binding` returns
`SUCCESS_RETURN`, raises the SubscribeSuccess event, and changes the table: slot 0 now
holds `other_binding`. -/
theorem install_on_full_table :
    (∀ (t : List iotx_mc_topic_handle_t) (B : iotx_mc_topic_handle_t),
      t ≠ [] → (suback_install t B).2 = true) ∧
    sample_full_table.sub_handle = [sample_binding, third_binding] ∧
    sample_full_table.sub_handle.any (fun s => slot_is_identical s other_binding) = false ∧
    iotx_mc_handle_recv_SUBACK (ack_turn 20 SUBACK (some (4, 0)) none) sample_full_table
      = ({ sample_full_table with
            sub_handle := [other_binding, third_binding],
            list_sub_wait_ack :=
              [⟨SUBSCRIBE, 4, 0, IOTX_MC_NODE_STATE_INVALID, other_binding, 0, []⟩] },
          [⟨9, 2, ⟨IOTX_MQTT_EVENT_SUBCRIBE_SUCCESS, event_payload.packet 4⟩⟩],
          SUCCESS_RETURN) := by
  refine ⟨?_, by decide, by decide, by decide⟩
  intro t B ht
  rw [suback_install_eq]
  split_ifs
  · rfl
  · cases t with
    | nil => exact absurd rfl ht
    | cons a r => rfl

/-! ## A `#` in the first item (C27) -/

/-- Claim C27 (the code at the failing input): the flag `mask` is raised only inside
the loop, and the first item is checked before the loop.  So for a filter "/#/" ++ F
of fewer than 64 bytes the loop starts on `F` with the flag clear, and the filter is
accepted exactly when the items of `F` are; in particular "/#/a", whose levels are "",
"#" and "a", is accepted although a level follows the level "#". -/
theorem hash_first_item_not_flagged :
    (∀ (stack F : List Nat), F.length + 3 < 64 →
      (iotx_mc_check_topic stack (some (47 :: 35 :: 47 :: F)) TOPIC_FILTER_TYPE = SUCCESS_RETURN ↔
        loopOK 0 (nonEmptyLevels F))) ∧
    levels [47, 35, 47, 97] = [[], [35], [97]] ∧
    iotx_mc_check_topic [] (some [47, 35, 47, 97]) TOPIC_FILTER_TYPE = SUCCESS_RETURN := by
  refine ⟨?_, by decide, by decide⟩
  intro stack F hlen
  have hts : topicString stack (47 :: 35 :: 47 :: F) = 47 :: 35 :: 47 :: F := by
    simp only [topicString, IOTX_MC_TOPIC_NAME_MAX_LEN, List.length_cons]
    rw [if_pos (by omega)]
  have hst : strtok (47 :: 35 :: 47 :: F) = some ([35], F) := by
    simp [strtok]
  have hrule : iotx_mc_check_rule (some [35]) TOPIC_FILTER_TYPE = SUCCESS_RETURN := by decide
  have hlong : ¬ ((47 :: 35 :: 47 :: F).length > IOTX_MC_TOPIC_NAME_MAX_LEN) := by
    simp only [IOTX_MC_TOPIC_NAME_MAX_LEN, List.length_cons]
    omega
  simp only [iotx_mc_check_topic, List.head?_cons, ne_eq, not_true_eq_false, if_false,
    if_neg hlong, hts, hst, hrule]
  exact check_topic_loop_filter (F.length + 1) F 0 (by omega)

/-! ## What every accepted topic satisfies (C28) -/

/-- The byte loop of `iotx_mc_check_rule` accepts only printable bytes, and a wildcard
only in an item of length 1 of a filter. -/
theorem check_rule_loop_bytes (len : Nat) (type : iotx_mc_topic_type_t) (s : List Nat)
    (h : iotx_mc_check_rule_loop len type s = SUCCESS_RETURN) :
    ∀ ch ∈ s, 32 ≤ ch ∧ ch ≤ 126 ∧
      ((ch = 43 ∨ ch = 35) → type = TOPIC_FILTER_TYPE ∧ len = 1) := by
  induction s with
  | nil => intro ch hch; simp at hch
  | cons a as ih =>
    simp only [iotx_mc_check_rule_loop] at h
    by_cases ht : type = TOPIC_FILTER_TYPE
    · rw [if_pos ht] at h
      by_cases h1 : (a = 43 ∨ a = 35) ∧ len ≠ 1
      · rw [if_pos h1] at h
        simp [FAIL_RETURN, SUCCESS_RETURN] at h
      · rw [if_neg h1] at h
        by_cases h2 : a < 32 ∨ a ≥ 127
        · rw [if_pos h2] at h
          simp [FAIL_RETURN, SUCCESS_RETURN] at h
        · rw [if_neg h2] at h
          intro ch hch
          rcases List.mem_cons.mp hch with rfl | hr
          · refine ⟨by omega, by omega, fun hw => ⟨ht, ?_⟩⟩
            by_contra hl
            exact h1 ⟨hw, hl⟩
          · exact ih h ch hr
    · rw [if_neg ht] at h
      by_cases h1 : a = 43 ∨ a = 35
      · rw [if_pos h1] at h
        simp [FAIL_RETURN, SUCCESS_RETURN] at h
      · rw [if_neg h1] at h
        by_cases h2 : a < 32 ∨ a ≥ 127
        · rw [if_pos h2] at h
          simp [FAIL_RETURN, SUCCESS_RETURN] at h
        · rw [if_neg h2] at h
          intro ch hch
          rcases List.mem_cons.mp hch with rfl | hr
          · exact ⟨by omega, by omega, fun hw => absurd hw h1⟩
          · exact ih h ch hr

/-- The string that is tokenised begins with the topic. -/
theorem topicString_append (stack name : List Nat) (h : name.length ≤ 64) :
    ∃ g, topicString stack name = name ++ g := by
  simp only [topicString, IOTX_MC_TOPIC_NAME_MAX_LEN]
  split_ifs with hlt
  · exact ⟨[], by simp⟩
  · exact ⟨_, by rw [List.take_of_length_le h]⟩

/-- An accepted topic begins with `/`, has at most 64 bytes, and every item of the
string that is tokenised has passed `iotx_mc_check_rule`. -/
theorem check_topic_items (stack name : List Nat) (type : iotx_mc_topic_type_t)
    (h : iotx_mc_check_topic stack (some name) type = SUCCESS_RETURN) :
    name.head? = some 47 ∧ name.length ≤ 64 ∧
      ∀ t ∈ nonEmptyLevels (topicString stack name),
        iotx_mc_check_rule (some t) type = SUCCESS_RETURN := by
  simp only [iotx_mc_check_topic, IOTX_MC_TOPIC_NAME_MAX_LEN] at h
  by_cases h47 : name.head? = some 47
  swap
  · simp [h47, FAIL_RETURN, SUCCESS_RETURN] at h
  rw [if_neg (by simpa using h47)] at h
  by_cases h64 : name.length > 64
  · simp [h64, FAIL_RETURN, SUCCESS_RETURN] at h
  rw [if_neg h64] at h
  refine ⟨h47, by omega, ?_⟩
  rcases strtok_spec (topicString stack name) with ⟨h1, -⟩ | ⟨t, r, h1, h2, -, -⟩
  · rw [h1] at h
    simp [iotx_mc_check_rule, FAIL_RETURN, SUCCESS_RETURN] at h
  · rw [h1] at h
    simp only at h
    by_cases hr : iotx_mc_check_rule (some t) type ≠ SUCCESS_RETURN
    · rw [if_pos hr] at h
      simp [FAIL_RETURN, SUCCESS_RETURN] at h
    · rw [if_neg hr] at h
      intro t1 ht1
      rw [h2] at ht1
      rcases List.mem_cons.mp ht1 with rfl | hin
      · exact not_not.mp hr
      · exact check_topic_loop_items _ _ r _ h t1 hin

/-- Every level of a text is the beginning of a level of the text extended at its
end; the first level goes to the first level. -/
theorem levels_append_cover (b : List Nat) (a : List Nat) :
    ∃ l0 ls t0 ts, levels a = l0 :: ls ∧ levels (a ++ b) = t0 :: ts ∧ l0 <+: t0 ∧
      ∀ l ∈ ls, ∃ t ∈ ts, l <+: t := by
  induction a with
  | nil =>
    obtain ⟨t0, ts, ht⟩ := levels_exists b
    exact ⟨[], [], t0, ts, rfl, by simpa using ht, List.nil_prefix, by simp⟩
  | cons c cs ih =>
    obtain ⟨l0, ls, t0, ts, h1, h2, h3, h4⟩ := ih
    by_cases hc : c = 47
    · subst hc
      refine ⟨[], l0 :: ls, [], t0 :: ts, ?_, ?_, List.prefix_refl _, ?_⟩
      · rw [levels_cons_sep, h1]
      · rw [List.cons_append, levels_cons_sep, h2]
      · intro l hl
        rcases List.mem_cons.mp hl with rfl | hin
        · exact ⟨t0, List.mem_cons_self _ _, h3⟩
        · obtain ⟨t, ht, hp⟩ := h4 l hin
          exact ⟨t, List.mem_cons_of_mem _ ht, hp⟩
    · refine ⟨c :: l0, ls, c :: t0, ts, levels_cons_of_ne c cs l0 ls hc h1, ?_, ?_, h4⟩
      · rw [List.cons_append]
        exact levels_cons_of_ne c (cs ++ b) t0 ts hc h2
      · obtain ⟨u, hu⟩ := h3
        exact ⟨u, by rw [← hu]; rfl⟩

/-- Every level of a text is the beginning of a level of the text extended at its
end. -/
theorem levels_append_mem (a b l : List Nat) (hl : l ∈ levels a) :
    ∃ t ∈ levels (a ++ b), l <+: t := by
  obtain ⟨l0, ls, t0, ts, h1, h2, h3, h4⟩ := levels_append_cover b a
  rw [h1] at hl
  rw [h2]
  rcases List.mem_cons.mp hl with rfl | hin
  · exact ⟨t0, List.mem_cons_self _ _, h3⟩
  · obtain ⟨t, ht, hp⟩ := h4 l hin
    exact ⟨t, List.mem_cons_of_mem _ ht, hp⟩

/-- Claim C28: every string that `iotx_mc_check_topic` accepts, for either topic type
and whatever lies behind the array `topicString`, starts with `/`, has at most 64
bytes and holds only bytes in 32..126; for `TOPIC_FILTER_TYPE` every level of it that
holds `+` or `#` is exactly that single character.  Conversely every string that does
not start with `/`, or has more than 64 bytes, is rejected. -/
theorem check_topic_accepts_only (stack name : List Nat) (type : iotx_mc_topic_type_t) :
    (iotx_mc_check_topic stack (some name) type = SUCCESS_RETURN →
      name.head? = some 47 ∧ name.length ≤ 64 ∧ (∀ b ∈ name, 32 ≤ b ∧ b ≤ 126) ∧
      (type = TOPIC_FILTER_TYPE →
        ∀ l ∈ levels name, (43 ∈ l ∨ 35 ∈ l) → l = [43] ∨ l = [35])) ∧
    (name.head? ≠ some 47 ∨ 64 < name.length →
      iotx_mc_check_topic stack (some name) type ≠ SUCCESS_RETURN) := by
  constructor
  · intro h
    obtain ⟨h47, hlen, hitems⟩ := check_topic_items stack name type h
    obtain ⟨g, hg⟩ := topicString_append stack name hlen
    rw [hg] at hitems
    refine ⟨h47, hlen, ?_, ?_⟩
    · intro b hb
      by_cases hb47 : b = 47
      · subst hb47; exact ⟨by decide, by decide⟩
      · obtain ⟨t, ht, hbt⟩ := mem_nonEmptyLevels b hb47 (name ++ g)
          (List.mem_append_left _ hb)
        have := check_rule_loop_bytes t.length type t (hitems t ht) b hbt
        exact ⟨this.1, this.2.1⟩
    · intro _ l hl hw
      obtain ⟨t, ht, hp⟩ := levels_append_mem name g l hl
      have hlne : l ≠ [] := by
        intro e
        rw [e] at hw
        simp at hw
      have htne : t ≠ [] := by
        intro e
        rw [e] at hp
        exact hlne (List.prefix_nil.mp hp)
      have htin : t ∈ nonEmptyLevels (name ++ g) := by
        simp only [nonEmptyLevels, List.mem_filter]
        exact ⟨ht, by simpa using htne⟩
      have hrule := check_rule_loop_bytes t.length type t (hitems t htin)
      have hsub : ∀ x ∈ l, x ∈ t := fun x hx => hp.subset hx
      have hlen1 : t.length = 1 := by
        rcases hw with hw | hw
        · exact ((hrule 43 (hsub 43 hw)).2.2 (Or.inl rfl)).2
        · exact ((hrule 35 (hsub 35 hw)).2.2 (Or.inr rfl)).2
      have hll : l.length ≤ t.length := hp.length_le
      have hl1 : l.length = 1 := by
        have : 0 < l.length := List.length_pos.mpr hlne
        omega
      match l, hl1, hw with
      | [x], _, hw =>
        simp only [List.mem_singleton] at hw
        rcases hw with hw | hw
        · exact Or.inl (by rw [hw])
        · exact Or.inr (by rw [hw])
  · intro hbad h
    obtain ⟨h47, hlen, -⟩ := check_topic_items stack name type h
    rcases hbad with hb | hb
    · exact hb h47
    · omega

/-! ## Acknowledged entries and the sweeps (C29) -/

/-- The loop of `MQTTSubInfoProc` leaves no node marked Invalid. -/
theorem sub_loop_no_invalid (now : Nat) (c : iotx_mc_client_t) :
    ∀ (l : List iotx_mc_subsribe_info_t),
      ∀ e ∈ (MQTTSubInfoProc_loop now c l).1, e.node_state ≠ IOTX_MC_NODE_STATE_INVALID := by
  intro l
  induction l with
  | nil => intro e he; simp [MQTTSubInfoProc_loop] at he
  | cons a r ih =>
    intro e he
    simp only [MQTTSubInfoProc_loop] at he
    by_cases hinv : a.node_state = IOTX_MC_NODE_STATE_INVALID
    · rw [if_pos hinv] at he
      exact ih e he
    · rw [if_neg hinv] at he
      by_cases hst : c.client_state ≠ IOTX_MC_STATE_CONNECTED
      · rw [if_pos hst] at he
        rcases List.mem_cons.mp he with rfl | her
        · exact hinv
        · exact ih e her
      · rw [if_neg hst] at he
        by_cases hage : utils_time_spend a.sub_start_time now
            ≤ (c.request_timeout_ms * 2) % UINT32_MOD
        · rw [if_pos hage] at he
          rcases List.mem_cons.mp he with rfl | her
          · exact hinv
          · exact ih e her
        · rw [if_neg hage] at he
          exact ih e he

/-- The loop of `MQTTPubInfoProc`, when it ends with the client state it began with
(no republication ended in a network error), leaves no node marked Invalid. -/
theorem pub_loop_no_invalid (now T : Nat) :
    ∀ (l : List iotx_mc_pub_info_t) (state : iotx_mc_state_t) (scripts : List (List (Bool × Int))),
      (MQTTPubInfoProc_loop now T state scripts l).1 = state →
      ∀ e ∈ (MQTTPubInfoProc_loop now T state scripts l).2,
        e.node_state ≠ IOTX_MC_NODE_STATE_INVALID := by
  intro l
  induction l with
  | nil => intro state scripts _ e he; simp [MQTTPubInfoProc_loop] at he
  | cons a r ih =>
    intro state scripts hst e he
    simp only [MQTTPubInfoProc_loop] at he hst
    by_cases hinv : a.node_state = IOTX_MC_NODE_STATE_INVALID
    · rw [if_pos hinv] at he hst
      exact ih state scripts hst e he
    · rw [if_neg hinv] at he hst
      by_cases hs : state ≠ IOTX_MC_STATE_CONNECTED
      · rw [if_pos hs] at he hst
        rcases List.mem_cons.mp he with rfl | her
        · exact hinv
        · exact ih state scripts hst e her
      · rw [if_neg hs] at he hst
        by_cases hage : utils_time_spend a.pub_start_time now ≤ (T * 2) % UINT32_MOD
        · rw [if_pos hage] at he hst
          rcases List.mem_cons.mp he with rfl | her
          · exact hinv
          · exact ih state scripts hst e her
        · rw [if_neg hage] at he hst
          by_cases hrc : MQTTRePublish (scripts.headD []) a.len = MQTT_NETWORK_ERROR
          · rw [if_pos hrc] at he hst
            have hc : state = IOTX_MC_STATE_CONNECTED := not_not.mp hs
            rw [hc] at hst
            have hd : IOTX_MC_STATE_DISCONNECTED = IOTX_MC_STATE_CONNECTED := hst
            exact absurd hd (by decide)
          · rw [if_neg hrc] at he hst
            rcases List.mem_cons.mp he with rfl | her
            · exact hinv
            · exact ih state scripts.tail hst e her

/-- Claim C29 (amended): after `MQTTSubInfoProc` returns, the table of subscribes in
flight holds no entry marked Invalid, whatever the client state; after
`MQTTPubInfoProc` returns with the client state it was called with, that is when no
republication of the sweep ended in a network error, the table of publishes in flight
holds no entry marked Invalid. -/
theorem sweeps_remove_acknowledged (now : Nat) (scripts : List (List (Bool × Int)))
    (c : iotx_mc_client_t)
    (hstate : (MQTTPubInfoProc now scripts c).client_state = c.client_state) :
    (∀ e ∈ (MQTTPubInfoProc now scripts c).list_pub_wait_ack,
      e.node_state ≠ IOTX_MC_NODE_STATE_INVALID) ∧
    (∀ e ∈ (MQTTSubInfoProc now c).1.list_sub_wait_ack,
      e.node_state ≠ IOTX_MC_NODE_STATE_INVALID) := by
  constructor
  · intro e he
    simp only [MQTTPubInfoProc] at he hstate
    by_cases h0 : c.list_pub_wait_ack.length = 0
    · rw [if_pos h0] at he
      rw [List.length_eq_zero.mp h0] at he
      simp at he
    · rw [if_neg h0] at he hstate
      exact pub_loop_no_invalid now c.request_timeout_ms c.list_pub_wait_ack.reverse
        c.client_state scripts hstate e (List.mem_reverse.mp he)
  · intro e he
    simp only [MQTTSubInfoProc] at he
    by_cases h0 : c.list_sub_wait_ack.length = 0
    · rw [if_pos h0] at he
      rw [List.length_eq_zero.mp h0] at he
      simp at he
    · rw [if_neg h0] at he
      exact sub_loop_no_invalid now c c.list_sub_wait_ack.reverse e (List.mem_reverse.mp he)

/-- Claim C29 (witness): the sweeps of the sample client with an acknowledged publish
at 5000 ms, over a transport that accepts the republication. -/
theorem sweeps_remove_acknowledged_witness :
    (MQTTPubInfoProc 5000 [[(false, 21)]] sample_acked_client).client_state
        = sample_acked_client.client_state ∧
      (MQTTPubInfoProc 5000 [[(false, 21)]] sample_acked_client).list_pub_wait_ack
        = [⟨5000, IOTX_MC_NODE_STATE_NORMANL, 6, 21, []⟩] ∧
      (∀ e ∈ (MQTTPubInfoProc 5000 [[(false, 21)]] sample_acked_client).list_pub_wait_ack,
        e.node_state ≠ IOTX_MC_NODE_STATE_INVALID) ∧
      (∀ e ∈ (MQTTSubInfoProc 5000 sample_acked_client).1.list_sub_wait_ack,
        e.node_state ≠ IOTX_MC_NODE_STATE_INVALID) :=
  ⟨by decide, by decide,
    sweeps_remove_acknowledged 5000 [[(false, 21)]] sample_acked_client (by decide)⟩

/-- Claim C29 (counterexample): the sample client holds the publish 5, acknowledged
and marked Invalid, and the publish 6, live and sent at 0 ms.  In the sweep at
5000 ms the publish 6, visited first, is republished; the transport refuses the write,
the client is set Disconnected and the loop is left: the entry marked Invalid is
still in the table when `MQTTPubInfoProc` returns. -/
theorem pub_sweep_keeps_invalid_entry :
    (MQTTPubInfoProc 5000 [[(false, -1)]] sample_acked_client).list_pub_wait_ack
      = [⟨0, IOTX_MC_NODE_STATE_INVALID, 5, 21, []⟩,
         ⟨5000, IOTX_MC_NODE_STATE_NORMANL, 6, 21, []⟩] ∧
    (MQTTPubInfoProc 5000 [[(false, -1)]] sample_acked_client).client_state
      = IOTX_MC_STATE_DISCONNECTED ∧
    ¬ (∀ e ∈ (MQTTPubInfoProc 5000 [[(false, -1)]] sample_acked_client).list_pub_wait_ack,
      e.node_state ≠ IOTX_MC_NODE_STATE_INVALID) := by
  decide

/-! ## Locks held at the callbacks (C21) -/

/-- The callbacks of two sequences of steps in a row. -/
theorem held_at_callbacks_append (a b : List sync_event) :
    ∀ held, held_at_callbacks held (a ++ b)
      = held_at_callbacks held a ++ held_at_callbacks (held_at_end held a) b := by
  induction a with
  | nil => intro held; rfl
  | cons e r ih =>
    intro held
    cases e with
    | lock l => simp only [List.cons_append, List.append_eq, held_at_callbacks, held_at_end, held_after, ih]
    | unlock l => simp only [List.cons_append, List.append_eq, held_at_callbacks, held_at_end, held_after, ih]
    | callback call =>
      simp only [List.cons_append, List.append_eq, held_at_callbacks, held_at_end, held_after, ih]

/-- The locks held after two sequences of steps in a row. -/
theorem held_at_end_append (a b : List sync_event) :
    ∀ held, held_at_end held (a ++ b) = held_at_end (held_at_end held a) b := by
  induction a with
  | nil => intro held; rfl
  | cons e r ih => intro held; simp only [List.cons_append, List.append_eq, held_at_end, ih]

/-- Callbacks in a row, with no lock step between them, all see the same locks. -/
theorem held_at_callbacks_map (calls : List Call) (held : List client_lock) :
    held_at_callbacks held (calls.map sync_event.callback) = calls.map (fun x => (x, held)) ∧
    held_at_end held (calls.map sync_event.callback) = held := by
  induction calls with
  | nil => exact ⟨rfl, rfl⟩
  | cons a r ih =>
    simp only [List.map_cons, held_at_callbacks, held_at_end, held_after, ih, and_self]

/-- The loop of `iotx_mc_deliver_message`, entered with `lock_generic` held and no
other lock, invokes the callbacks of `deliver_loop`, each with no lock held, and ends
with `lock_generic` held. -/
theorem deliver_loop_sync_held (topicName : List Nat) (topic_msg : iotx_mqtt_topic_info_t) :
    ∀ (slots : List iotx_mc_topic_handle_t) (flag : Nat),
      held_at_callbacks [lock_generic] (deliver_loop_sync topicName topic_msg slots)
        = (deliver_loop topicName topic_msg slots flag).1.map (fun x => (x, [])) ∧
      held_at_end [lock_generic] (deliver_loop_sync topicName topic_msg slots)
        = [lock_generic] := by
  intro slots
  induction slots with
  | nil => intro flag; exact ⟨rfl, rfl⟩
  | cons s r ih =>
    intro flag
    simp only [deliver_loop_sync, deliver_loop]
    cases hf : s.topic_filter with
    | none => exact ih flag
    | some filter =>
      simp only
      by_cases ht : slot_topic_test filter topicName = true
      · rw [if_pos ht, if_pos ht]
        by_cases hfp : s.handle.h_fp ≠ 0
        · rw [if_pos hfp, if_pos hfp]
          have h1 := ih 1
          constructor
          · simp only [List.singleton_append, List.cons_append, List.nil_append, List.append_eq,
              held_at_callbacks, List.map_cons]
            rw [show [lock_generic].erase lock_generic = [] from by decide, h1.1]
          · simp only [List.singleton_append, List.cons_append, List.nil_append, List.append_eq,
              held_at_end, held_after]
            rw [show [lock_generic].erase lock_generic = [] from by decide, h1.2]
        · rw [if_neg hfp, if_neg hfp]
          have h1 := ih flag
          constructor
          · simp only [List.singleton_append, List.cons_append, List.nil_append, List.append_eq,
              List.append_nil, held_at_callbacks]
            rw [show [lock_generic].erase lock_generic = [] from by decide, h1.1]
          · simp only [List.singleton_append, List.cons_append, List.nil_append, List.append_eq,
              List.append_nil, held_at_end, held_after]
            rw [show [lock_generic].erase lock_generic = [] from by decide, h1.2]
      · rw [if_neg ht, if_neg ht]
        exact ih flag

/-- The steps of `iotx_mc_deliver_message` invoke the callbacks of the function, in
order, each with no lock held. -/
theorem deliver_message_sync_held (c : iotx_mc_client_t) (topicName : List Nat)
    (topic_msg : iotx_mqtt_topic_info_t) :
    held_at_callbacks [] (iotx_mc_deliver_message_sync c topicName topic_msg)
      = (iotx_mc_deliver_message c topicName topic_msg).map (fun x => (x, [])) := by
  obtain ⟨h1, h2⟩ := deliver_loop_sync_held topicName { topic_msg with ptopic := some topicName }
    c.sub_handle 0
  simp only [iotx_mc_deliver_message_sync, iotx_mc_deliver_message, List.append_assoc,
    List.singleton_append, List.append_eq, List.nil_append, held_at_callbacks]
  rw [held_at_callbacks_append, h1, h2]
  simp only [held_at_callbacks]
  rw [show [lock_generic].erase lock_generic = [] from by decide]
  by_cases hflag : (deliver_loop topicName { topic_msg with ptopic := some topicName }
      c.sub_handle 0).2 = 0
  · rw [if_pos hflag, if_pos hflag, (held_at_callbacks_map _ _).1]
    simp only [event_call_guarded, event_call]
    by_cases hfp : c.handle_event.h_fp ≠ 0
    · rw [if_pos hfp, if_pos hfp]; simp
    · rw [if_neg hfp, if_neg hfp]; simp
  · rw [if_neg hflag, if_neg hflag]
    simp [held_at_callbacks]

/-- The steps of `iotx_mc_handle_recv_PUBACK` invoke the callbacks of the function,
each with no lock held. -/
theorem handle_recv_PUBACK_sync_held (env : yield_env) (c : iotx_mc_client_t) :
    held_at_callbacks [] (iotx_mc_handle_recv_PUBACK_sync env c)
      = (iotx_mc_handle_recv_PUBACK env c).2.1.map (fun x => (x, [])) := by
  simp only [iotx_mc_handle_recv_PUBACK_sync, iotx_mc_handle_recv_PUBACK]
  cases env.ack with
  | none => rfl
  | some id =>
    simp only [iotx_mc_mask_pubInfo_from_sync, List.cons_append, List.nil_append, List.append_eq,
      held_at_callbacks]
    rw [show [lock_list_pub].erase lock_list_pub = [] from by decide]
    exact (held_at_callbacks_map _ _).1

/-- The steps of `iotx_mc_handle_recv_SUBACK` invoke the callbacks of the function,
each with no lock held. -/
theorem handle_recv_SUBACK_sync_held (env : yield_env) (c : iotx_mc_client_t) :
    held_at_callbacks [] (iotx_mc_handle_recv_SUBACK_sync env c)
      = (iotx_mc_handle_recv_SUBACK env c).2.1.map (fun x => (x, [])) := by
  simp only [iotx_mc_handle_recv_SUBACK_sync, iotx_mc_handle_recv_SUBACK]
  cases env.suback with
  | none => rfl
  | some p =>
    obtain ⟨id, qos⟩ := p
    simp only
    by_cases hq : qos = 128
    · rw [if_pos hq, if_pos hq]; rfl
    · rw [if_neg hq, if_neg hq]
      by_cases hnf : (iotx_mc_mask_subInfo_from c id empty_topic_handle).2.handle.h_fp = 0 ∨
          (iotx_mc_mask_subInfo_from c id empty_topic_handle).2.topic_filter = none
      · rw [if_pos hnf, if_pos hnf]; rfl
      · rw [if_neg hnf, if_neg hnf]
        cases hin : suback_install (iotx_mc_mask_subInfo_from c id empty_topic_handle).1.sub_handle
            (iotx_mc_mask_subInfo_from c id empty_topic_handle).2 with
        | mk table ok =>
          cases ok with
          | false => rfl
          | true =>
            simp only [iotx_mc_mask_subInfo_from_sync, List.cons_append, List.nil_append, List.append_eq,
              held_at_callbacks]
            rw [show [lock_list_sub].erase lock_list_sub = [] from by decide,
              show [lock_generic].erase lock_generic = [] from by decide]
            exact (held_at_callbacks_map _ _).1

/-- The loop of `MQTTSubInfoProc`, entered with the lock of the list held and no
other lock, invokes the callbacks of `MQTTSubInfoProc_loop`, each with no lock held,
and ends with the lock of the list held. -/
theorem sub_loop_sync_held (now : Nat) (c : iotx_mc_client_t) :
    ∀ (l : List iotx_mc_subsribe_info_t),
      held_at_callbacks [lock_list_sub] (MQTTSubInfoProc_loop_sync now c l)
        = (MQTTSubInfoProc_loop now c l).2.map (fun x => (x, [])) ∧
      held_at_end [lock_list_sub] (MQTTSubInfoProc_loop_sync now c l) = [lock_list_sub] := by
  intro l
  induction l with
  | nil => exact ⟨rfl, rfl⟩
  | cons a r ih =>
    have herase : (lock_generic :: [lock_list_sub]).erase lock_generic = [lock_list_sub] := by
      decide
    have herase2 : [lock_list_sub].erase lock_list_sub = [] := by decide
    simp only [MQTTSubInfoProc_loop_sync, MQTTSubInfoProc_loop]
    by_cases hinv : a.node_state = IOTX_MC_NODE_STATE_INVALID
    · rw [if_pos hinv, if_pos hinv]; exact ih
    · rw [if_neg hinv, if_neg hinv]
      by_cases hst : c.client_state ≠ IOTX_MC_STATE_CONNECTED
      · rw [if_pos hst, if_pos hst]
        simp only [iotx_mc_get_client_state_sync, List.cons_append, List.nil_append, List.append_eq,
          held_at_callbacks, held_at_end, held_after, herase]
        exact ih
      · rw [if_neg hst, if_neg hst]
        by_cases hage : utils_time_spend a.sub_start_time now
            ≤ (c.request_timeout_ms * 2) % UINT32_MOD
        · rw [if_pos hage, if_pos hage]
          simp only [iotx_mc_get_client_state_sync, List.cons_append, List.nil_append, List.append_eq,
            held_at_callbacks, held_at_end, held_after, herase]
          exact ih
        · rw [if_neg hage, if_neg hage]
          simp only [iotx_mc_get_client_state_sync, List.cons_append, List.nil_append, List.append_eq,
            List.append_assoc, held_at_callbacks, held_at_end, held_after, herase, herase2]
          rw [held_at_callbacks_append, held_at_end_append, (held_at_callbacks_map _ _).1,
            (held_at_callbacks_map _ _).2]
          simp only [List.cons_append, List.nil_append, List.append_eq, held_at_callbacks,
            held_at_end, held_after, List.map_append, ih.1, ih.2, and_self]

/-- The steps of `MQTTSubInfoProc` invoke the callbacks of the function, each with no
lock held. -/
theorem sub_proc_sync_held (now : Nat) (c : iotx_mc_client_t) :
    held_at_callbacks [] (MQTTSubInfoProc_sync now c)
      = (MQTTSubInfoProc now c).2.map (fun x => (x, [])) := by
  simp only [MQTTSubInfoProc_sync, MQTTSubInfoProc]
  by_cases h0 : c.list_sub_wait_ack.length = 0
  · rw [if_pos h0, if_pos h0]; rfl
  · rw [if_neg h0, if_neg h0]
    obtain ⟨h1, h2⟩ := sub_loop_sync_held now c c.list_sub_wait_ack.reverse
    simp only [List.append_assoc, List.singleton_append, List.append_eq, List.nil_append,
      held_at_callbacks]
    rw [held_at_callbacks_append, h1, h2]
    simp [held_at_callbacks]

/-- Claim C21 (the code at the failing input): `iotx_mc_handle_recv_UNSUBACK` takes
`lock_generic` before its removal loop and releases it only after the event callback.
Whenever the UNSUBACK is parsed, the event callback is not NULL and the handler has a
result, the UnsubscribeSuccess callback is invoked while the invoking thread holds
`lock_generic`; the callbacks of the steps are those of the handler.  So it is for
the sample client that reads the UNSUBACK of its packet 2. -/
theorem unsuback_callback_under_lock :
    (∀ (env : yield_env) (c : iotx_mc_client_t) (mypacketid : Nat) (steps : List sync_event),
      env.unsuback = some mypacketid → c.handle_event.h_fp ≠ 0 →
      iotx_mc_handle_recv_UNSUBACK_sync env c = some steps →
      ∃ r, iotx_mc_handle_recv_UNSUBACK env c = some r ∧
        held_at_callbacks [] steps = r.2.1.map (fun x => (x, [lock_generic])) ∧
        r.2.1 = [⟨c.handle_event.h_fp, c.handle_event.pcontext,
          ⟨IOTX_MQTT_EVENT_UNSUBCRIBE_SUCCESS, event_payload.packet mypacketid⟩⟩]) ∧
    (iotx_mc_handle_recv_UNSUBACK_sync (ack_turn 100 UNSUBACK none (some 2)) sample_client).map
        (held_at_callbacks [])
      = some [(⟨9, 2, ⟨IOTX_MQTT_EVENT_UNSUBCRIBE_SUCCESS, event_payload.packet 2⟩⟩,
          [lock_generic])] := by
  refine ⟨?_, by decide⟩
  intro env c id steps hparse hfp hsteps
  simp only [iotx_mc_handle_recv_UNSUBACK_sync, hparse] at hsteps
  simp only [iotx_mc_handle_recv_UNSUBACK, hparse]
  cases hrem : unsuback_remove (iotx_mc_mask_subInfo_from c id env.stack_handler).1.sub_handle
      (iotx_mc_mask_subInfo_from c id env.stack_handler).2 with
  | none =>
    rw [hrem] at hsteps
    simp at hsteps
  | some table =>
    rw [hrem] at hsteps
    simp only [Option.some.injEq] at hsteps
    have hev : (iotx_mc_mask_subInfo_from c id env.stack_handler).1.handle_event
        = c.handle_event := by
      simp only [iotx_mc_mask_subInfo_from]
      split_ifs <;> rfl
    refine ⟨_, rfl, ?_, ?_⟩
    · rw [← hsteps]
      simp only [iotx_mc_mask_subInfo_from_sync, List.cons_append, List.nil_append, List.append_eq,
        List.append_assoc, held_at_callbacks]
      rw [show [lock_list_sub].erase lock_list_sub = [] from by decide,
        held_at_callbacks_append, (held_at_callbacks_map _ _).1, (held_at_callbacks_map _ _).2]
      simp [held_at_callbacks]
    · simp only [event_call_guarded, event_call, hev]
      rw [if_pos hfp]

/-! ## A thread that runs alone -/

/-- A thread that has returned takes no further step. -/
theorem publish_run_returned (codec : Codec) (R now : Nat) (calls : List publish_call)
    (tid : Nat) (rc : Int) :
    ∀ (k : Nat) (s : publish_state), s.pcs tid = publish_pc.returned rc →
      MQTTPublish_run codec R now calls (List.replicate k tid) s = s := by
  intro k
  induction k with
  | zero => intro s _; rfl
  | succ k ih =>
    intro s hp
    have hstep : MQTTPublish_step codec R now calls tid s = s := by
      simp only [MQTTPublish_step]
      cases calls[tid]? with
      | none => rfl
      | some call => simp only [hp]
    rw [List.replicate_succ, MQTTPublish_run, hstep]
    exact ih s hp

/-- The end of the sending, seen from the thread. -/
theorem publish_finish_eq (call : publish_call) (length sent : Int) (tid : Nat)
    (s : publish_state) :
    (MQTTPublish_finish call length sent tid s).pcs tid
      = publish_pc.returned (if sent = length then SUCCESS_RETURN else MQTT_NETWORK_ERROR) ∧
    (MQTTPublish_finish call length sent tid s).c
      = (if sent = length then s.c
        else if call.topic_msg.qos > IOTX_MQTT_QOS0 then
          { s.c with list_pub_wait_ack := s.c.list_pub_wait_ack.dropLast }
        else s.c) ∧
    (MQTTPublish_finish call length sent tid s).write_buf_owner = none := by
  simp only [MQTTPublish_finish]
  by_cases h : sent = length
  · rw [if_pos h, if_pos h, if_pos h]
    exact ⟨Function.update_same _ _ _, rfl, rfl⟩
  · rw [if_neg h, if_neg h, if_neg h]
    exact ⟨Function.update_same _ _ _, rfl, rfl⟩

/-- A thread in the loop of `iotx_mc_send_packet` that is picked at every step leaves
the loop with the `sent` of `iotx_mc_send_packet_loop` and returns. -/
theorem publish_run_alone_sending (codec : Codec) (R now : Nat) (calls : List publish_call)
    (tid : Nat) (call : publish_call) (hc : calls[tid]? = some call) (length : Int) :
    ∀ (script : List (Bool × Int)) (sent : Int) (s : publish_state),
      s.pcs tid = publish_pc.sending length sent script →
      (MQTTPublish_run codec R now calls (List.replicate (script.length + 1) tid) s).pcs tid
        = publish_pc.returned
          (if iotx_mc_send_packet_loop length sent script = length then SUCCESS_RETURN
            else MQTT_NETWORK_ERROR) ∧
      (MQTTPublish_run codec R now calls (List.replicate (script.length + 1) tid) s).c
        = (if iotx_mc_send_packet_loop length sent script = length then s.c
          else if call.topic_msg.qos > IOTX_MQTT_QOS0 then
            { s.c with list_pub_wait_ack := s.c.list_pub_wait_ack.dropLast }
          else s.c) ∧
      (MQTTPublish_run codec R now calls (List.replicate (script.length + 1) tid)
        s).write_buf_owner = none := by
  intro script
  induction script with
  | nil =>
    intro sent s hp
    have hstep : MQTTPublish_step codec R now calls tid s
        = MQTTPublish_finish call length sent tid s := by
      simp only [MQTTPublish_step, hc, hp]
    simp only [List.length_nil, zero_add, List.replicate_one, MQTTPublish_run, hstep,
      iotx_mc_send_packet_loop]
    exact publish_finish_eq call length sent tid s
  | cons turn rest ih =>
    intro sent s hp
    obtain ⟨expired, rc⟩ := turn
    rw [List.length_cons, List.replicate_succ, MQTTPublish_run]
    have hfin : ∀ s1, s1 = MQTTPublish_finish call length sent tid s →
        (MQTTPublish_run codec R now calls (List.replicate (rest.length + 1) tid) s1).pcs tid
          = publish_pc.returned (if sent = length then SUCCESS_RETURN else MQTT_NETWORK_ERROR) ∧
        (MQTTPublish_run codec R now calls (List.replicate (rest.length + 1) tid) s1).c
          = (if sent = length then s.c
            else if call.topic_msg.qos > IOTX_MQTT_QOS0 then
              { s.c with list_pub_wait_ack := s.c.list_pub_wait_ack.dropLast }
            else s.c) ∧
        (MQTTPublish_run codec R now calls (List.replicate (rest.length + 1) tid)
          s1).write_buf_owner = none := by
      intro s1 e
      have h3 := publish_finish_eq call length sent tid s
      rw [← e] at h3
      rw [publish_run_returned codec R now calls tid _ _ s1 h3.1]
      exact h3
    by_cases hturn : sent < length ∧ expired = false
    · by_cases hrc : rc < 0
      · have hstep : MQTTPublish_step codec R now calls tid s
            = MQTTPublish_finish call length sent tid s := by
          simp only [MQTTPublish_step, hc, hp]
          rw [if_pos hturn, if_pos hrc]
        have hloop : iotx_mc_send_packet_loop length sent ((expired, rc) :: rest) = sent := by
          simp only [iotx_mc_send_packet_loop, if_pos hturn, if_pos hrc]
        rw [hloop]
        exact hfin _ hstep
      · have hstep : MQTTPublish_step codec R now calls tid s
            = { s with
                wire := s.wire ++ transport_taken s.c.buf_send sent rc,
                pcs := Function.update s.pcs tid
                  (publish_pc.sending length (sent + rc) rest) } := by
          simp only [MQTTPublish_step, hc, hp]
          rw [if_pos hturn, if_neg hrc]
        have hloop : iotx_mc_send_packet_loop length sent ((expired, rc) :: rest)
            = iotx_mc_send_packet_loop length (sent + rc) rest := by
          simp only [iotx_mc_send_packet_loop, if_pos hturn, if_neg hrc]
        rw [hstep, hloop]
        exact ih (sent + rc) _ (Function.update_same _ _ _)
    · have hstep : MQTTPublish_step codec R now calls tid s
          = MQTTPublish_finish call length sent tid s := by
        simp only [MQTTPublish_step, hc, hp]
        rw [if_neg hturn]
      have hloop : iotx_mc_send_packet_loop length sent ((expired, rc) :: rest) = sent := by
        simp only [iotx_mc_send_packet_loop, if_neg hturn]
      rw [hloop]
      exact hfin _ hstep

/-- A thread that finds the lock free and is picked at every step goes through its
call as the function `MQTTPublish` does: it returns the same code, leaves the client
in the same state and releases the lock. -/
theorem publish_run_alone (codec : Codec) (R now : Nat) (calls : List publish_call)
    (tid : Nat) (call : publish_call) (hc : calls[tid]? = some call) (s : publish_state)
    (hfree : s.write_buf_owner = none) (hp : s.pcs tid = publish_pc.entry) :
    (MQTTPublish_run codec R now calls (List.replicate (call.script.length + 3) tid) s).pcs tid
      = publish_pc.returned
        (MQTTPublish codec R now call.script s.c call.topicName call.topic_msg).2 ∧
    (MQTTPublish_run codec R now calls (List.replicate (call.script.length + 3) tid) s).c
      = (MQTTPublish codec R now call.script s.c call.topicName call.topic_msg).1 ∧
    (MQTTPublish_run codec R now calls (List.replicate (call.script.length + 3) tid)
      s).write_buf_owner = none := by
  have hstep1 : MQTTPublish_step codec R now calls tid s
      = { s with
          write_buf_owner := some tid,
          acquired := s.acquired ++ [tid],
          pcs := Function.update s.pcs tid publish_pc.locked } := by
    simp only [MQTTPublish_step, hc, hp]
    rw [if_pos hfree]
  rw [List.replicate_succ, MQTTPublish_run, hstep1, List.replicate_succ, MQTTPublish_run]
  generalize hs1 : ({ s with
          write_buf_owner := some tid,
          acquired := s.acquired ++ [tid],
          pcs := Function.update s.pcs tid publish_pc.locked } : publish_state) = s1
  have hp1 : s1.pcs tid = publish_pc.locked := by rw [← hs1]; exact Function.update_same _ _ _
  have hc1 : s1.c = s.c := by rw [← hs1]
  simp only [MQTTPublish]
  rw [← hc1]
  generalize hser : codec.MQTTSerialize_publish s1.c.buf_size_send 0 call.topic_msg.qos
    call.topic_msg.retain call.topic_msg.packet_id call.topicName call.topic_msg.payload = ser
  by_cases hlen : ser.1 ≤ 0
  · have hstep2 : MQTTPublish_step codec R now calls tid s1
        = { s1 with
            c := { s1.c with buf_send := ser.2 },
            write_buf_owner := none,
            pcs := Function.update s1.pcs tid
              (publish_pc.returned MQTT_PUBLISH_PACKET_ERROR) } := by
      simp only [MQTTPublish_step, hc, hp1, hser]
      rw [if_pos hlen]
    rw [hstep2, if_pos hlen,
      publish_run_returned codec R now calls tid MQTT_PUBLISH_PACKET_ERROR _ _
        (Function.update_same _ _ _)]
    exact ⟨Function.update_same _ _ _, rfl, rfl⟩
  · rw [if_neg hlen]
    generalize hpush : (if call.topic_msg.qos > IOTX_MQTT_QOS0 then
          iotx_mc_push_pubInfo_to R now { s1.c with buf_send := ser.2 } ser.1
            call.topic_msg.packet_id
        else ({ s1.c with buf_send := ser.2 }, SUCCESS_RETURN)) = pushed
    by_cases hfail : pushed.2 ≠ SUCCESS_RETURN
    · have hstep2 : MQTTPublish_step codec R now calls tid s1
          = { s1 with
              c := pushed.1,
              write_buf_owner := none,
              pcs := Function.update s1.pcs tid
                (publish_pc.returned MQTT_PUSH_TO_LIST_ERROR) } := by
        simp only [MQTTPublish_step, hc, hp1, hser]
        rw [if_neg hlen, hpush, if_pos hfail]
      rw [hstep2, if_pos hfail,
        publish_run_returned codec R now calls tid MQTT_PUSH_TO_LIST_ERROR _ _
          (Function.update_same _ _ _)]
      exact ⟨Function.update_same _ _ _, rfl, rfl⟩
    · have hstep2 : MQTTPublish_step codec R now calls tid s1
          = { s1 with
              c := pushed.1,
              pcs := Function.update s1.pcs tid
                (publish_pc.sending ser.1 0 call.script) } := by
        simp only [MQTTPublish_step, hc, hp1, hser]
        rw [if_neg hlen, hpush, if_neg hfail]
      rw [hstep2, if_neg hfail]
      have h3 := publish_run_alone_sending codec R now calls tid call hc ser.1 call.script 0
        { s1 with
          c := pushed.1,
          pcs := Function.update s1.pcs tid (publish_pc.sending ser.1 0 call.script) }
        (Function.update_same _ _ _)
      by_cases hsent : iotx_mc_send_packet_loop ser.1 0 call.script = ser.1
      · have hcond : ¬ (iotx_mc_send_packet ser.1 call.script ≠ SUCCESS_RETURN) := by
          simp only [iotx_mc_send_packet, if_pos hsent, ne_eq, not_true_eq_false,
            not_false_eq_true]
        simp only [if_pos hsent] at h3
        simp only [if_neg hcond]
        exact h3
      · have hcond : iotx_mc_send_packet ser.1 call.script ≠ SUCCESS_RETURN := by
          simp only [iotx_mc_send_packet, if_neg hsent]
          decide
        simp only [if_neg hsent] at h3
        simp only [if_pos hcond]
        by_cases hq : call.topic_msg.qos > IOTX_MQTT_QOS0
        · simp only [if_pos hq] at h3 ⊢
          exact h3
        · simp only [if_neg hq] at h3 ⊢
          exact h3


/-! ## Concurrent publishes (C22) -/

/-- Before any step the invariant holds with nothing written. -/
theorem publish_inv_start (codec : Codec) (calls : List publish_call) (c : iotx_mc_client_t) :
    publish_inv codec calls c.buf_size_send (publish_start c) (fun _ => []) where
  wire_eq := rfl
  nodup := List.nodup_nil
  mem_iff := by intro t; simp [publish_start]
  bound := by intro t h; exact absurd rfl h
  size := rfl
  done_ok := by intro t call _ h; simp [publish_start] at h
  owner_iff := by intro t; simp [publish_start]
  owner_last := by intro t h; simp [publish_start] at h
  locked_ok := by intro t _; rfl
  sending_ok := by intro t call l n r _ h; simp [publish_start] at h
  chunk_ok := by intro t call _; exact ⟨0, rfl⟩

/-- The owner of the lock is past the entry. -/
theorem publish_inv_owner_pc {codec : Codec} {calls : List publish_call} {B : Nat}
    {s : publish_state} {chunk_of : Nat → List Nat} (h : publish_inv codec calls B s chunk_of)
    {tid : Nat} (hown : s.write_buf_owner = some tid) : s.pcs tid ≠ publish_pc.entry := by
  rcases (h.owner_iff tid).mp hown with hl | ⟨l, n, r, hs⟩
  · rw [hl]; exact fun e => publish_pc.noConfusion e
  · rw [hs]; exact fun e => publish_pc.noConfusion e

/-- A thread that is not the owner of the lock is not between the lock and the
return. -/
theorem publish_inv_not_owner {codec : Codec} {calls : List publish_call} {B : Nat}
    {s : publish_state} {chunk_of : Nat → List Nat} (h : publish_inv codec calls B s chunk_of)
    {tid t : Nat} (hown : s.write_buf_owner = some tid) (ht : t ≠ tid) :
    ¬ (s.pcs t = publish_pc.locked ∨ ∃ l n r, s.pcs t = publish_pc.sending l n r) := by
  intro hp
  have := (h.owner_iff t).mpr hp
  rw [hown] at this
  exact ht (Option.some.inj this).symm

/-- The return of the owner of the lock keeps the invariant: the lock is released,
and a return of success comes with the whole packet written. -/
theorem publish_inv_return {codec : Codec} {calls : List publish_call} {B : Nat}
    {s : publish_state} {chunk_of : Nat → List Nat} (h : publish_inv codec calls B s chunk_of)
    (tid : Nat) (c1 : iotx_mc_client_t) (rc : Int) (hown : s.write_buf_owner = some tid)
    (hsize : c1.buf_size_send = B)
    (hrc : ∀ call, calls[tid]? = some call → rc = SUCCESS_RETURN →
      chunk_of tid = call_packet codec B call) :
    publish_inv codec calls B
      { s with
        c := c1,
        write_buf_owner := none,
        pcs := Function.update s.pcs tid (publish_pc.returned rc) } chunk_of where
  wire_eq := h.wire_eq
  nodup := h.nodup
  mem_iff := by
    intro t
    by_cases ht : t = tid
    · subst ht
      simp only [Function.update_same]
      exact ⟨fun _ e => publish_pc.noConfusion e,
        fun _ => (h.mem_iff t).mpr (publish_inv_owner_pc h hown)⟩
    · simp only [Function.update_noteq ht]
      exact h.mem_iff t
  bound := by
    intro t hp
    by_cases ht : t = tid
    · subst ht
      exact h.bound t (publish_inv_owner_pc h hown)
    · simp only [Function.update_noteq ht] at hp
      exact h.bound t hp
  size := hsize
  done_ok := by
    intro t call hc hp
    by_cases ht : t = tid
    · subst ht
      simp only [Function.update_same] at hp
      exact hrc call hc (publish_pc.returned.inj hp)
    · simp only [Function.update_noteq ht] at hp
      exact h.done_ok t call hc hp
  owner_iff := by
    intro t
    constructor
    · intro e; exact absurd e (by simp)
    · intro hp
      by_cases ht : t = tid
      · subst ht
        simp only [Function.update_same] at hp
        rcases hp with hp | ⟨l, n, r, hp⟩
        · exact publish_pc.noConfusion hp
        · exact publish_pc.noConfusion hp
      · simp only [Function.update_noteq ht] at hp
        exact absurd hp (publish_inv_not_owner h hown ht)
  owner_last := by intro t e; exact absurd e (by simp)
  locked_ok := by
    intro t hp
    by_cases ht : t = tid
    · subst ht
      simp only [Function.update_same] at hp
      exact publish_pc.noConfusion hp
    · simp only [Function.update_noteq ht] at hp
      exact h.locked_ok t hp
  sending_ok := by
    intro t call l n r hc hp
    by_cases ht : t = tid
    · subst ht
      simp only [Function.update_same] at hp
      exact publish_pc.noConfusion hp
    · simp only [Function.update_noteq ht] at hp
      exact absurd (Or.inr ⟨l, n, r, hp⟩) (publish_inv_not_owner h hown ht)
  chunk_ok := h.chunk_ok

/-- The end of the sending keeps the invariant. -/
theorem publish_inv_finish {codec : Codec} {calls : List publish_call} {B : Nat}
    {s : publish_state} {chunk_of : Nat → List Nat} (h : publish_inv codec calls B s chunk_of)
    (tid : Nat) (call : publish_call) (l n : Int) (r : List (Bool × Int))
    (hc : calls[tid]? = some call) (hp : s.pcs tid = publish_pc.sending l n r) :
    publish_inv codec calls B (MQTTPublish_finish call l n tid s) chunk_of := by
  have hown : s.write_buf_owner = some tid := (h.owner_iff tid).mpr (Or.inr ⟨l, n, r, hp⟩)
  obtain ⟨hl, -, -, hchunk⟩ := h.sending_ok tid call l n r hc hp
  simp only [MQTTPublish_finish]
  by_cases hnl : n = l
  · rw [if_pos hnl]
    have := publish_inv_return h tid s.c SUCCESS_RETURN hown h.size (by
      intro call1 hc1 _
      rw [hc] at hc1
      cases Option.some.inj hc1
      rw [hchunk, hnl, hl]
      rfl)
    exact this
  · rw [if_neg hnl]
    refine publish_inv_return h tid _ MQTT_NETWORK_ERROR hown ?_ ?_
    · split_ifs
      · exact h.size
      · exact h.size
    · intro _ _ e
      exact absurd e (by decide)

/-- The push keeps the send buffer and its size. -/
theorem push_pubInfo_buf (R now : Nat) (c : iotx_mc_client_t) (len : Int) (id : Nat) :
    (iotx_mc_push_pubInfo_to R now c len id).1.buf_send = c.buf_send ∧
    (iotx_mc_push_pubInfo_to R now c len id).1.buf_size_send = c.buf_size_send := by
  simp only [iotx_mc_push_pubInfo_to]
  split_ifs <;> exact ⟨rfl, rfl⟩

/-- Every step of every thread keeps the invariant. -/
theorem publish_inv_step (codec : Codec) (R now : Nat) (calls : List publish_call) (B : Nat)
    (tid : Nat) (s : publish_state) (chunk_of : Nat → List Nat)
    (h : publish_inv codec calls B s chunk_of) :
    ∃ chunk_of1, publish_inv codec calls B (MQTTPublish_step codec R now calls tid s)
      chunk_of1 := by
  simp only [MQTTPublish_step]
  cases hc : calls[tid]? with
  | none => exact ⟨chunk_of, h⟩
  | some call =>
    simp only
    have hlt : tid < calls.length := by
      by_contra hge
      rw [List.getElem?_eq_none (not_lt.mp hge)] at hc
      exact Option.noConfusion hc
    cases hp : s.pcs tid with
    | returned rc => exact ⟨chunk_of, h⟩
    | entry =>
      simp only
      by_cases hfree : s.write_buf_owner = none
      swap
      · rw [if_neg hfree]; exact ⟨chunk_of, h⟩
      rw [if_pos hfree]
      have hnot : tid ∉ s.acquired := fun hm => (h.mem_iff tid).mp hm hp
      have hidle : ∀ t, ¬ (s.pcs t = publish_pc.locked ∨
          ∃ l n r, s.pcs t = publish_pc.sending l n r) := by
        intro t hpt
        have := (h.owner_iff t).mpr hpt
        rw [hfree] at this
        exact Option.noConfusion this
      refine ⟨Function.update chunk_of tid [], ?_⟩
      constructor
      · show s.wire = ((s.acquired ++ [tid]).map (Function.update chunk_of tid [])).flatten
        have hmap : s.acquired.map (Function.update chunk_of tid []) = s.acquired.map chunk_of := by
          apply List.map_congr_left
          intro t ht
          have hne : t ≠ tid := fun e => hnot (e ▸ ht)
          exact Function.update_noteq hne _ _
        rw [List.map_append, List.flatten_append, hmap, ← h.wire_eq]
        simp
      · show (s.acquired ++ [tid]).Nodup
        rw [List.nodup_append]
        exact ⟨h.nodup, List.nodup_singleton _, by
          intro a ha hb
          rw [List.mem_singleton] at hb
          exact hnot (hb ▸ ha)⟩
      · intro t
        show t ∈ s.acquired ++ [tid] ↔ Function.update s.pcs tid publish_pc.locked t ≠ _
        by_cases ht : t = tid
        · subst ht
          simp only [Function.update_same]
          exact ⟨fun _ e => publish_pc.noConfusion e, fun _ => by simp⟩
        · rw [Function.update_noteq ht, List.mem_append, List.mem_singleton]
          exact ⟨fun hm => (h.mem_iff t).mp (hm.resolve_right ht),
            fun hq => Or.inl ((h.mem_iff t).mpr hq)⟩
      · intro t hq
        by_cases ht : t = tid
        · subst ht; exact hlt
        · have hq1 : Function.update s.pcs tid publish_pc.locked t ≠ publish_pc.entry := hq
          rw [Function.update_noteq ht] at hq1
          exact h.bound t hq1
      · exact h.size
      · intro t call1 hc1 hq
        have hq1 : Function.update s.pcs tid publish_pc.locked t
            = publish_pc.returned SUCCESS_RETURN := hq
        by_cases ht : t = tid
        · subst ht
          rw [Function.update_same] at hq1
          exact publish_pc.noConfusion hq1
        · rw [Function.update_noteq ht] at hq1
          rw [Function.update_noteq ht]
          exact h.done_ok t call1 hc1 hq1
      · intro t
        show some tid = some t ↔
          (Function.update s.pcs tid publish_pc.locked t = publish_pc.locked ∨
            ∃ l n r, Function.update s.pcs tid publish_pc.locked t = publish_pc.sending l n r)
        by_cases ht : t = tid
        · subst ht
          simp only [Function.update_same, true_or]
        · rw [Function.update_noteq ht]
          constructor
          · intro e; exact absurd (Option.some.inj e).symm ht
          · intro hq; exact absurd hq (hidle t)
      · intro t e
        have e1 : some tid = some t := e
        cases Option.some.inj e1
        exact ⟨s.acquired, rfl⟩
      · intro t hq
        by_cases ht : t = tid
        · subst ht; rw [Function.update_same]
        · have hq1 : Function.update s.pcs tid publish_pc.locked t = publish_pc.locked := hq
          rw [Function.update_noteq ht] at hq1
          exact absurd (Or.inl hq1) (hidle t)
      · intro t call1 l n r hc1 hq
        have hq1 : Function.update s.pcs tid publish_pc.locked t = publish_pc.sending l n r := hq
        by_cases ht : t = tid
        · subst ht
          rw [Function.update_same] at hq1
          exact publish_pc.noConfusion hq1
        · rw [Function.update_noteq ht] at hq1
          exact absurd (Or.inr ⟨l, n, r, hq1⟩) (hidle t)
      · intro t call1 hc1
        by_cases ht : t = tid
        · subst ht; rw [Function.update_same]; exact ⟨0, rfl⟩
        · rw [Function.update_noteq ht]; exact h.chunk_ok t call1 hc1
    | locked =>
      simp only
      have hown : s.write_buf_owner = some tid := (h.owner_iff tid).mpr (Or.inl hp)
      have hser : codec.MQTTSerialize_publish s.c.buf_size_send 0 call.topic_msg.qos
          call.topic_msg.retain call.topic_msg.packet_id call.topicName call.topic_msg.payload
          = call_serialized codec B call := by
        rw [h.size]; rfl
      rw [hser]
      by_cases hlen : (call_serialized codec B call).1 ≤ 0
      · rw [if_pos hlen]
        exact ⟨chunk_of, publish_inv_return h tid _ _ hown h.size
          (fun _ _ e => absurd e (by decide))⟩
      · rw [if_neg hlen]
        have hbuf : ∀ p : iotx_mc_client_t × Int,
            p = (if call.topic_msg.qos > IOTX_MQTT_QOS0 then
              iotx_mc_push_pubInfo_to R now
                { s.c with buf_send := (call_serialized codec B call).2 }
                (call_serialized codec B call).1 call.topic_msg.packet_id
            else ({ s.c with buf_send := (call_serialized codec B call).2 }, SUCCESS_RETURN)) →
            p.1.buf_send = (call_serialized codec B call).2 ∧ p.1.buf_size_send = B := by
          intro p e
          rw [e]
          split_ifs
          · have := push_pubInfo_buf R now { s.c with buf_send := (call_serialized codec B call).2 }
              (call_serialized codec B call).1 call.topic_msg.packet_id
            exact ⟨this.1, this.2.trans h.size⟩
          · exact ⟨rfl, h.size⟩
        generalize hpush : (if call.topic_msg.qos > IOTX_MQTT_QOS0 then
              iotx_mc_push_pubInfo_to R now
                { s.c with buf_send := (call_serialized codec B call).2 }
                (call_serialized codec B call).1 call.topic_msg.packet_id
            else ({ s.c with buf_send := (call_serialized codec B call).2 }, SUCCESS_RETURN))
          = pushed at hbuf
        obtain ⟨hb1, hb2⟩ := hbuf pushed rfl
        by_cases hfail : pushed.2 ≠ SUCCESS_RETURN
        · rw [if_pos hfail]
          exact ⟨chunk_of, publish_inv_return h tid _ _ hown hb2
            (fun _ _ e => absurd e (by decide))⟩
        · rw [if_neg hfail]
          refine ⟨chunk_of, ?_⟩
          constructor
          · exact h.wire_eq
          · exact h.nodup
          · intro t
            show t ∈ s.acquired ↔ Function.update s.pcs tid _ t ≠ _
            by_cases ht : t = tid
            · subst ht
              rw [Function.update_same]
              exact ⟨fun _ e => publish_pc.noConfusion e,
                fun _ => (h.mem_iff t).mpr (publish_inv_owner_pc h hown)⟩
            · rw [Function.update_noteq ht]
              exact h.mem_iff t
          · intro t hq
            by_cases ht : t = tid
            · subst ht; exact hlt
            · have hq1 : Function.update s.pcs tid
                  (publish_pc.sending (call_serialized codec B call).1 0 call.script) t
                  ≠ publish_pc.entry := hq
              rw [Function.update_noteq ht] at hq1
              exact h.bound t hq1
          · exact hb2
          · intro t call1 hc1 hq
            have hq1 : Function.update s.pcs tid
                (publish_pc.sending (call_serialized codec B call).1 0 call.script) t
                = publish_pc.returned SUCCESS_RETURN := hq
            by_cases ht : t = tid
            · subst ht
              rw [Function.update_same] at hq1
              exact publish_pc.noConfusion hq1
            · rw [Function.update_noteq ht] at hq1
              exact h.done_ok t call1 hc1 hq1
          · intro t
            show s.write_buf_owner = some t ↔
              (Function.update s.pcs tid
                  (publish_pc.sending (call_serialized codec B call).1 0 call.script) t
                  = publish_pc.locked ∨
                ∃ l n r, Function.update s.pcs tid
                  (publish_pc.sending (call_serialized codec B call).1 0 call.script) t
                  = publish_pc.sending l n r)
            by_cases ht : t = tid
            · subst ht
              rw [Function.update_same]
              exact ⟨fun _ => Or.inr ⟨_, _, _, rfl⟩, fun _ => hown⟩
            · rw [Function.update_noteq ht]
              exact h.owner_iff t
          · exact h.owner_last
          · intro t hq
            have hq1 : Function.update s.pcs tid
                (publish_pc.sending (call_serialized codec B call).1 0 call.script) t
                = publish_pc.locked := hq
            by_cases ht : t = tid
            · subst ht
              rw [Function.update_same] at hq1
              exact publish_pc.noConfusion hq1
            · rw [Function.update_noteq ht] at hq1
              exact h.locked_ok t hq1
          · intro t call1 l n r hc1 hq
            have hq1 : Function.update s.pcs tid
                (publish_pc.sending (call_serialized codec B call).1 0 call.script) t
                = publish_pc.sending l n r := hq
            by_cases ht : t = tid
            · subst ht
              rw [Function.update_same] at hq1
              rw [hc] at hc1
              cases Option.some.inj hc1
              obtain ⟨e1, e2, -⟩ := publish_pc.sending.inj hq1
              subst e1 e2
              refine ⟨rfl, hb1, le_refl _, ?_⟩
              rw [h.locked_ok t hp]
              simp
            · rw [Function.update_noteq ht] at hq1
              exact absurd (Or.inr ⟨l, n, r, hq1⟩) (publish_inv_not_owner h hown ht)
          · exact h.chunk_ok
    | sending l n script =>
      simp only
      have hown : s.write_buf_owner = some tid :=
        (h.owner_iff tid).mpr (Or.inr ⟨l, n, script, hp⟩)
      cases script with
      | nil => exact ⟨chunk_of, publish_inv_finish h tid call l n [] hc hp⟩
      | cons turn rest =>
        obtain ⟨expired, rc⟩ := turn
        simp only
        by_cases hturn : n < l ∧ expired = false
        swap
        · rw [if_neg hturn]
          exact ⟨chunk_of, publish_inv_finish h tid call l n _ hc hp⟩
        rw [if_pos hturn]
        by_cases hrc : rc < 0
        · rw [if_pos hrc]
          exact ⟨chunk_of, publish_inv_finish h tid call l n _ hc hp⟩
        rw [if_neg hrc]
        obtain ⟨hl, hbuf, hn0, hchunk⟩ := h.sending_ok tid call l n _ hc hp
        obtain ⟨pre, hpre⟩ := h.owner_last tid hown
        have hnot : tid ∉ pre := by
          have := h.nodup
          rw [hpre, List.nodup_append] at this
          intro hm
          exact this.2.2 hm (List.mem_singleton_self _)
        refine ⟨Function.update chunk_of tid
          (chunk_of tid ++ transport_taken s.c.buf_send n rc), ?_⟩
        constructor
        · show s.wire ++ transport_taken s.c.buf_send n rc = (s.acquired.map _).flatten
          have hmap : pre.map (Function.update chunk_of tid
              (chunk_of tid ++ transport_taken s.c.buf_send n rc)) = pre.map chunk_of := by
            apply List.map_congr_left
            intro t ht
            have hne : t ≠ tid := fun e => hnot (e ▸ ht)
            exact Function.update_noteq hne _ _
          rw [h.wire_eq, hpre, List.map_append, List.map_append, List.flatten_append,
            List.flatten_append, hmap]
          simp [List.append_assoc]
        · exact h.nodup
        · intro t
          show t ∈ s.acquired ↔ Function.update s.pcs tid _ t ≠ _
          by_cases ht : t = tid
          · subst ht
            rw [Function.update_same]
            exact ⟨fun _ e => publish_pc.noConfusion e,
              fun _ => (h.mem_iff t).mpr (publish_inv_owner_pc h hown)⟩
          · rw [Function.update_noteq ht]
            exact h.mem_iff t
        · intro t hq
          by_cases ht : t = tid
          · subst ht; exact hlt
          · have hq1 : Function.update s.pcs tid (publish_pc.sending l (n + rc) rest) t
                ≠ publish_pc.entry := hq
            rw [Function.update_noteq ht] at hq1
            exact h.bound t hq1
        · exact h.size
        · intro t call1 hc1 hq
          have hq1 : Function.update s.pcs tid (publish_pc.sending l (n + rc) rest) t
              = publish_pc.returned SUCCESS_RETURN := hq
          by_cases ht : t = tid
          · subst ht
            rw [Function.update_same] at hq1
            exact publish_pc.noConfusion hq1
          · rw [Function.update_noteq ht] at hq1
            rw [Function.update_noteq ht]
            exact h.done_ok t call1 hc1 hq1
        · intro t
          show s.write_buf_owner = some t ↔
            (Function.update s.pcs tid (publish_pc.sending l (n + rc) rest) t
                = publish_pc.locked ∨
              ∃ l1 n1 r1, Function.update s.pcs tid (publish_pc.sending l (n + rc) rest) t
                = publish_pc.sending l1 n1 r1)
          by_cases ht : t = tid
          · subst ht
            rw [Function.update_same]
            exact ⟨fun _ => Or.inr ⟨_, _, _, rfl⟩, fun _ => hown⟩
          · rw [Function.update_noteq ht]
            exact h.owner_iff t
        · exact h.owner_last
        · intro t hq
          have hq1 : Function.update s.pcs tid (publish_pc.sending l (n + rc) rest) t
              = publish_pc.locked := hq
          by_cases ht : t = tid
          · subst ht
            rw [Function.update_same] at hq1
            exact publish_pc.noConfusion hq1
          · rw [Function.update_noteq ht] at hq1
            rw [Function.update_noteq ht]
            exact h.locked_ok t hq1
        · intro t call1 l1 n1 r1 hc1 hq
          have hq1 : Function.update s.pcs tid (publish_pc.sending l (n + rc) rest) t
              = publish_pc.sending l1 n1 r1 := hq
          by_cases ht : t = tid
          · subst ht
            rw [Function.update_same] at hq1
            rw [hc] at hc1
            cases Option.some.inj hc1
            obtain ⟨e1, e2, -⟩ := publish_pc.sending.inj hq1
            subst e1 e2
            refine ⟨hl, hbuf, by omega, ?_⟩
            rw [Function.update_same, hchunk, transport_taken, hbuf]
            have hsum : (n + rc).toNat = n.toNat + rc.toNat := by omega
            rw [hsum, List.take_add]
          · rw [Function.update_noteq ht] at hq1
            exact absurd (Or.inr ⟨l1, n1, r1, hq1⟩) (publish_inv_not_owner h hown ht)
        · intro t call1 hc1
          by_cases ht : t = tid
          · subst ht
            rw [hc] at hc1
            cases Option.some.inj hc1
            rw [Function.update_same, hchunk, transport_taken, hbuf]
            have hsum : (n + rc).toNat = n.toNat + rc.toNat := by omega
            exact ⟨(n + rc).toNat, by rw [hsum, List.take_add]⟩
          · rw [Function.update_noteq ht]; exact h.chunk_ok t call1 hc1

/-- The invariant holds after every schedule. -/
theorem publish_inv_run (codec : Codec) (R now : Nat) (calls : List publish_call) (B : Nat) :
    ∀ (schedule : List Nat) (s : publish_state) (chunk_of : Nat → List Nat),
      publish_inv codec calls B s chunk_of →
      ∃ chunk_of1, publish_inv codec calls B (MQTTPublish_run codec R now calls schedule s)
        chunk_of1 := by
  intro schedule
  induction schedule with
  | nil => intro s chunk_of h; exact ⟨chunk_of, h⟩
  | cons tid rest ih =>
    intro s chunk_of h
    obtain ⟨ch1, h1⟩ := publish_inv_step codec R now calls B tid s chunk_of h
    exact ih _ ch1 h1

/-- The calls of a list, picked by their positions in order, are the list. -/
theorem filterMap_range_getElem (calls : List publish_call) :
    (List.range calls.length).filterMap (fun t => calls[t]?) = calls := by
  induction calls using List.reverseRecOn with
  | nil => rfl
  | append_singleton init x ih =>
    rw [List.length_append, List.length_singleton, List.range_succ, List.filterMap_append]
    have h1 : (List.range init.length).filterMap (fun t => (init ++ [x])[t]?)
        = (List.range init.length).filterMap (fun t => init[t]?) := by
      apply List.filterMap_congr
      intro t ht
      exact List.getElem?_append_left (List.mem_range.mp ht)
    rw [h1, ih]
    simp

/-- Chunks that are the packets of the calls, along a list of threads. -/
theorem map_chunks_eq_packets (codec : Codec) (B : Nat) (calls : List publish_call)
    (chunk_of : Nat → List Nat) :
    ∀ (l : List Nat),
      (∀ t ∈ l, ∃ call, calls[t]? = some call ∧ chunk_of t = call_packet codec B call) →
      l.map chunk_of = (l.filterMap (fun t => calls[t]?)).map (call_packet codec B) := by
  intro l
  induction l with
  | nil => intro _; rfl
  | cons a r ih =>
    intro h
    obtain ⟨call, hc, hch⟩ := h a (List.mem_cons_self _ _)
    rw [List.map_cons, List.filterMap_cons, hc, List.map_cons, hch,
      ih (fun t ht => h t (List.mem_cons_of_mem _ ht))]

/-- Along a list of threads that have calls, the chunks are beginnings of the send
buffers of the calls. -/
theorem map_chunks_eq_taken (codec : Codec) (B : Nat) (calls : List publish_call)
    (chunk_of : Nat → List Nat)
    (hchunk : ∀ t call, calls[t]? = some call →
      ∃ k, chunk_of t = (call_serialized codec B call).2.take k) :
    ∀ (l : List Nat), (∀ t ∈ l, t < calls.length) →
      ∃ order : List (publish_call × Nat),
        order.map Prod.fst = l.filterMap (fun t => calls[t]?) ∧
        l.map chunk_of = order.map (fun p => (call_serialized codec B p.1).2.take p.2) := by
  intro l
  induction l with
  | nil => intro _; exact ⟨[], rfl, rfl⟩
  | cons a r ih =>
    intro h
    obtain ⟨order, h1, h2⟩ := ih (fun t ht => h t (List.mem_cons_of_mem _ ht))
    have hlt := h a (List.mem_cons_self _ _)
    obtain ⟨k, hk⟩ := hchunk a calls[a] (List.getElem?_eq_getElem hlt)
    refine ⟨(calls[a], k) :: order, ?_, ?_⟩
    · rw [List.map_cons, List.filterMap_cons, List.getElem?_eq_getElem hlt, h1]
    · rw [List.map_cons, List.map_cons, hk, h2]

/-- Whatever the schedule, and whether the calls succeed or fail, the bytes taken by
the transport are, for the threads in the order in which they took `lock_write_buf`,
a beginning of the send buffer as the call of the thread serializes it: bytes of
different calls are never interleaved. -/
theorem publish_wire_in_lock_order (codec : Codec) (REPUB_NUM_MAX now : Nat)
    (c : iotx_mc_client_t) (calls : List publish_call) (schedule : List Nat) :
    ∃ order : List (publish_call × Nat), (order.map Prod.fst).Subperm calls ∧
      (MQTTPublish_run codec REPUB_NUM_MAX now calls schedule (publish_start c)).wire
        = (order.map
            (fun p => (call_serialized codec c.buf_size_send p.1).2.take p.2)).flatten := by
  obtain ⟨chunk_of, h⟩ := publish_inv_run codec REPUB_NUM_MAX now calls c.buf_size_send schedule
    (publish_start c) _ (publish_inv_start codec calls c)
  generalize MQTTPublish_run codec REPUB_NUM_MAX now calls schedule (publish_start c) = s at h
  have hlt : ∀ t ∈ s.acquired, t < calls.length :=
    fun t ht => h.bound t ((h.mem_iff t).mp ht)
  obtain ⟨order, h1, h2⟩ := map_chunks_eq_taken codec c.buf_size_send calls chunk_of h.chunk_ok
    s.acquired hlt
  refine ⟨order, ?_, ?_⟩
  · rw [h1]
    have hsub : s.acquired.Subperm (List.range calls.length) :=
      List.subperm_of_subset h.nodup (fun t ht => List.mem_range.mpr (hlt t ht))
    obtain ⟨l, hperm, hsl⟩ := hsub
    have hsl1 := hsl.filterMap (fun t => calls[t]?)
    rw [filterMap_range_getElem] at hsl1
    exact ⟨_, hperm.filterMap _, hsl1⟩
  · rw [h.wire_eq, h2]

/-- Claim C22: whatever the schedule of the threads that call `MQTTPublish` on one
client, once every call has returned success the bytes taken by the transport are
the serialized PUBLISH packets of the calls, each whole, one after the other, in some
order (the order in which the threads took `lock_write_buf`). -/
theorem concurrent_publishes_not_interleaved (codec : Codec) (REPUB_NUM_MAX now : Nat)
    (c : iotx_mc_client_t) (calls : List publish_call) (schedule : List Nat)
    (hdone : ∀ t < calls.length,
      (MQTTPublish_run codec REPUB_NUM_MAX now calls schedule (publish_start c)).pcs t
        = publish_pc.returned SUCCESS_RETURN) :
    ∃ order : List publish_call, order.Perm calls ∧
      (MQTTPublish_run codec REPUB_NUM_MAX now calls schedule (publish_start c)).wire
        = (order.map (call_packet codec c.buf_size_send)).flatten := by
  obtain ⟨chunk_of, h⟩ := publish_inv_run codec REPUB_NUM_MAX now calls c.buf_size_send schedule
    (publish_start c) _ (publish_inv_start codec calls c)
  generalize MQTTPublish_run codec REPUB_NUM_MAX now calls schedule (publish_start c) = s
    at hdone h
  have hmem : ∀ t, t ∈ s.acquired ↔ t ∈ List.range calls.length := by
    intro t
    rw [List.mem_range]
    constructor
    · intro ht; exact h.bound t ((h.mem_iff t).mp ht)
    · intro ht
      apply (h.mem_iff t).mpr
      rw [hdone t ht]
      exact fun e => publish_pc.noConfusion e
  have hperm : s.acquired.Perm (List.range calls.length) :=
    (List.perm_ext_iff_of_nodup h.nodup (List.nodup_range _)).mpr hmem
  refine ⟨s.acquired.filterMap (fun t => calls[t]?), ?_, ?_⟩
  · have := hperm.filterMap (fun t => calls[t]?)
    rw [filterMap_range_getElem] at this
    exact this
  · rw [h.wire_eq, map_chunks_eq_packets codec c.buf_size_send calls chunk_of s.acquired]
    intro t ht
    have hlt : t < calls.length := List.mem_range.mp ((hmem t).mp ht)
    refine ⟨calls[t], List.getElem?_eq_getElem hlt, ?_⟩
    exact h.done_ok t _ (List.getElem?_eq_getElem hlt) (hdone t hlt)

/-- Claim C22 (witness): three threads publish on the sample client under a schedule
in which threads 0 and 2 try the lock while thread 1 holds it, and the packet of
thread 0 is taken in two writes between which the other threads are picked: the
packets come out whole, in the order 1, 0, 2. -/
theorem concurrent_publishes_not_interleaved_witness :
    (∀ t < sample_calls.length,
        (MQTTPublish_run sample_codec 4 100 sample_calls sample_schedule
          (publish_start sample_client)).pcs t = publish_pc.returned SUCCESS_RETURN) ∧
      (MQTTPublish_run sample_codec 4 100 sample_calls sample_schedule
          (publish_start sample_client)).wire
        = [50, 0, 7, 47, 98, 121, 111] ++ [48, 0, 0, 47, 97, 104, 105] ++ [48, 0, 0, 47, 99] ∧
      ∃ order : List publish_call, order.Perm sample_calls ∧
        (MQTTPublish_run sample_codec 4 100 sample_calls sample_schedule
            (publish_start sample_client)).wire
          = (order.map (call_packet sample_codec sample_client.buf_size_send)).flatten :=
  ⟨by decide, by decide,
    concurrent_publishes_not_interleaved sample_codec 4 100 sample_client sample_calls
      sample_schedule (by decide)⟩

/-! ## Decoding the remaining length (C33, C34) -/

/-- The encoding in `fuel` bytes of a length below `128 ^ fuel` has 1 to `fuel` bytes. -/
theorem variable_byte_encoding_length :
    ∀ (fuel n : Nat), 0 < fuel → 
      1 ≤ (variable_byte_encoding_fuel fuel n).length ∧
      (variable_byte_encoding_fuel fuel n).length ≤ fuel := by
  intro fuel
  induction fuel with
  | zero => intro n h; omega
  | succ k ih =>
    intro n _
    simp only [variable_byte_encoding_fuel]
    by_cases hn : n / 128 > 0
    · rw [if_pos hn]
      by_cases hk : 0 < k
      · have := ih (n / 128) hk
        simp only [List.length_cons]
        omega
      · have hk0 : k = 0 := by omega
        subst hk0
        simp [variable_byte_encoding_fuel]
    · rw [if_neg hn]
      simp

/-- The loop of `iotx_mc_decode_packet` on the encoding of `n`: it returns the number
of bytes read so far, adds `n * multiplier` to `*value` and leaves what follows the
encoding. -/
theorem decode_loop_encoding (rest : List (Int × List Nat)) :
    ∀ (fuel n len : Nat) (value multiplier : Int), 0 < fuel → n < 128 ^ fuel →
      len + fuel ≤ 4 →
      iotx_mc_decode_packet_loop (supplied (variable_byte_encoding_fuel fuel n) ++ rest)
          len value multiplier
        = (((len + (variable_byte_encoding_fuel fuel n).length : Nat) : Int),
            value + (n : Int) * multiplier, rest) := by
  intro fuel
  induction fuel with
  | zero => intro n len value multiplier h0; omega
  | succ k ih =>
    intro n len value multiplier _ hn hlen
    have hlen4 : ¬ (len + 1 > 4) := by omega
    simp only [variable_byte_encoding_fuel]
    by_cases hq : n / 128 > 0
    · rw [if_pos hq]
      have hq1 : n / 128 < 128 ^ k := by
        rw [pow_succ] at hn
        exact Nat.div_lt_of_lt_mul (by omega)
      have hk : 0 < k := by
        rcases Nat.eq_zero_or_pos k with h0 | h0
        · subst h0; omega
        · exact h0
      have hcont : ((n % 128 + 128) / 128) % 2 ≠ 0 := by omega
      have hlow : (n % 128 + 128) % 128 = n % 128 := by omega
      simp only [supplied, List.map_cons, List.cons_append, List.append_eq,
        iotx_mc_decode_packet_loop,
        if_neg hlen4, ne_eq, not_true_eq_false, if_false, List.headD_cons, hlow]
      rw [if_pos hcont]
      have := ih (n / 128) (len + 1) (value + ((n % 128 : Nat) : Int) * multiplier)
        (multiplier * 128) hk hq1 (by omega)
      simp only [supplied] at this
      rw [this]
      refine Prod.ext ?_ (Prod.ext ?_ rfl)
      · simp only [List.length_cons]
        push_cast
        ring
      · simp only
        have hdm : (n : Int) = 128 * ((n / 128 : Nat) : Int) + ((n % 128 : Nat) : Int) := by
          have := Nat.div_add_mod n 128
          omega
        rw [hdm]
        push_cast
        ring
    · rw [if_neg hq]
      have hsmall : n % 128 = n := by omega
      have hcont : ¬ ((n % 128 / 128) % 2 ≠ 0) := by omega
      have hlow : n % 128 % 128 = n := by omega
      simp only [supplied, List.map_cons, List.map_nil, List.cons_append, List.nil_append,
        List.append_eq, iotx_mc_decode_packet_loop, if_neg hlen4, ne_eq, not_true_eq_false, if_false,
        List.headD_cons, hlow]
      rw [if_neg hcont]
      simp

/-- The intermediate results of the loop on the encoding of `n`: the products are at
most `n * multiplier`, the sums lie between `value` and `value + n * multiplier`, and
the multipliers are at most `multiplier * 128 ^ fuel`. -/
theorem decode_sums_encoding (rest : List (Int × List Nat)) :
    ∀ (fuel n len : Nat) (value multiplier : Int), 0 < fuel → n < 128 ^ fuel →
      0 < multiplier →
      ∀ p ∈ iotx_mc_decode_packet_sums
          (supplied (variable_byte_encoding_fuel fuel n) ++ rest) len value multiplier,
        0 ≤ p.1 ∧ p.1 ≤ (n : Int) * multiplier ∧
        value ≤ p.2.1 ∧ p.2.1 ≤ value + (n : Int) * multiplier ∧
        0 < p.2.2 ∧ p.2.2 ≤ multiplier * 128 ^ fuel := by
  intro fuel
  induction fuel with
  | zero => intro n len value multiplier h0; omega
  | succ k ih =>
    intro n len value multiplier _ hn hm p hp
    have hA0 : (0 : Int) ≤ ((n % 128 : Nat) : Int) * multiplier :=
      mul_nonneg (Int.ofNat_nonneg _) (le_of_lt hm)
    have hB0 : (0 : Int) ≤ ((n / 128 : Nat) : Int) * (multiplier * 128) :=
      mul_nonneg (Int.ofNat_nonneg _) (by omega)
    have hsum : ((n % 128 : Nat) : Int) * multiplier
        + ((n / 128 : Nat) : Int) * (multiplier * 128) = (n : Int) * multiplier := by
      have hdm : (n : Int) = 128 * ((n / 128 : Nat) : Int) + ((n % 128 : Nat) : Int) := by
        have := Nat.div_add_mod n 128
        omega
      rw [hdm]
      push_cast
      ring
    have hpow : (1 : Int) ≤ 128 ^ k := one_le_pow₀ (by norm_num)
    have hm1 : multiplier * 128 ≤ multiplier * 128 ^ (k + 1) := by
      rw [pow_succ]
      have : multiplier * 128 * 1 ≤ multiplier * 128 * 128 ^ k :=
        mul_le_mul_of_nonneg_left hpow (by omega)
      have e : multiplier * (128 ^ k * 128) = multiplier * 128 * 128 ^ k := by ring
      rw [e]
      omega
    simp only [variable_byte_encoding_fuel] at hp
    by_cases hq : n / 128 > 0
    · rw [if_pos hq] at hp
      have hq1 : n / 128 < 128 ^ k := by
        rw [pow_succ] at hn
        exact Nat.div_lt_of_lt_mul (by omega)
      have hk : 0 < k := by
        rcases Nat.eq_zero_or_pos k with h0 | h0
        · subst h0; omega
        · exact h0
      have hcont : ((n % 128 + 128) / 128) % 2 ≠ 0 := by omega
      have hlow : (n % 128 + 128) % 128 = n % 128 := by omega
      simp only [supplied, List.map_cons, List.cons_append, List.append_eq,
        iotx_mc_decode_packet_sums, ne_eq, not_true_eq_false, if_false, List.headD_cons,
        hlow] at hp
      by_cases hlen4 : len + 1 > 4
      · rw [if_pos hlen4] at hp
        simp at hp
      rw [if_neg hlen4, if_pos hcont] at hp
      rcases List.mem_cons.mp hp with rfl | hin
      · refine ⟨hA0, ?_, ?_, ?_, ?_, hm1⟩ <;> dsimp only <;> omega
      · have h := ih (n / 128) (len + 1) (value + ((n % 128 : Nat) : Int) * multiplier)
          (multiplier * 128) hk hq1 (by omega) p (by simpa only [supplied] using hin)
        obtain ⟨h1, h2, h3, h4, h5, h6⟩ := h
        have e : multiplier * 128 * 128 ^ k = multiplier * 128 ^ (k + 1) := by
          rw [pow_succ]; ring
        rw [e] at h6
        exact ⟨h1, by omega, by omega, by omega, h5, h6⟩
    · rw [if_neg hq] at hp
      have hcont : ¬ ((n % 128 / 128) % 2 ≠ 0) := by omega
      have hlow : n % 128 % 128 = n % 128 := by omega
      simp only [supplied, List.map_cons, List.map_nil, List.cons_append, List.nil_append,
        List.append_eq, iotx_mc_decode_packet_sums, ne_eq, not_true_eq_false, if_false,
        List.headD_cons, hlow] at hp
      by_cases hlen4 : len + 1 > 4
      · rw [if_pos hlen4] at hp
        simp at hp
      rw [if_neg hlen4, if_neg hcont] at hp
      rcases List.mem_cons.mp hp with rfl | hin
      · refine ⟨hA0, ?_, ?_, ?_, ?_, hm1⟩ <;> dsimp only <;> omega
      · simp at hin

/-- Claim C33: for every `n` from 0 to 268435455, when the transport supplies the
standard variable-byte encoding of `n` (followed by whatever), `iotx_mc_decode_packet`
stores `n` in `*value` and returns the number of bytes of the encoding, which is 1 to
4; it has consumed exactly those bytes, what follows them is left in the transport;
and every product `(i & 127) * multiplier`, every intermediate `*value` and every
`multiplier` lies in the range of a 32-bit signed `int`. -/
theorem decode_packet_standard_encoding (n : Nat) (rest : List (Int × List Nat))
    (hn : n ≤ 268435455) :
    iotx_mc_decode_packet (supplied (variable_byte_encoding n) ++ rest)
      = (((variable_byte_encoding n).length : Int), (n : Int), rest) ∧
    1 ≤ (variable_byte_encoding n).length ∧ (variable_byte_encoding n).length ≤ 4 ∧
    ∀ p ∈ iotx_mc_decode_packet_sums (supplied (variable_byte_encoding n) ++ rest) 0 0 1,
      in_int32 p.1 ∧ in_int32 p.2.1 ∧ in_int32 p.2.2 := by
  have hlt : n < 128 ^ 4 := by norm_num; omega
  refine ⟨?_, (variable_byte_encoding_length 4 n (by norm_num)).1,
    (variable_byte_encoding_length 4 n (by norm_num)).2, ?_⟩
  · have := decode_loop_encoding rest 4 n 0 0 1 (by norm_num) hlt (by norm_num)
    simp only [iotx_mc_decode_packet, variable_byte_encoding]
    rw [this]
    simp
  · intro p hp
    have := decode_sums_encoding rest 4 n 0 0 1 (by norm_num) hlt (by norm_num) p hp
    obtain ⟨h1, h2, h3, h4, h5, h6⟩ := this
    simp only [in_int32]
    norm_num at h6
    refine ⟨⟨by omega, by omega⟩, ⟨by omega, by omega⟩, ⟨by omega, by omega⟩⟩

/-- Claim C33 at a sample: the length 321 is encoded in the two bytes 193 and 2 and is
followed on the transport by one more byte. -/
theorem decode_packet_standard_encoding_witness :
    variable_byte_encoding 321 = [193, 2] ∧
    iotx_mc_decode_packet ((1, [193]) :: (1, [2]) :: [(1, [7])]) = (2, 321, [(1, [7])]) ∧
    iotx_mc_decode_packet (supplied (variable_byte_encoding 321) ++ [(1, [7])])
      = (((variable_byte_encoding 321).length : Int), (321 : Int), [(1, [7])]) :=
  ⟨by decide, by decide,
    (decode_packet_standard_encoding 321 [(1, [7])] (by decide)).1⟩

/-- The loop of `iotx_mc_decode_packet` returns a length only from 1 to 4, and then it
has consumed exactly that many reads. -/
theorem decode_loop_consumed :
    ∀ (reads : List (Int × List Nat)) (len : Nat) (value multiplier : Int),
      0 ≤ (iotx_mc_decode_packet_loop reads len value multiplier).1 →
      ((len : Int) + 1 ≤ (iotx_mc_decode_packet_loop reads len value multiplier).1 ∧
        (iotx_mc_decode_packet_loop reads len value multiplier).1 ≤ 4) ∧
      ∃ consumed, reads = consumed
          ++ (iotx_mc_decode_packet_loop reads len value multiplier).2.2 ∧
        ((len + consumed.length : Nat) : Int)
          = (iotx_mc_decode_packet_loop reads len value multiplier).1 := by
  intro reads
  induction reads with
  | nil =>
    intro len value multiplier h
    simp only [iotx_mc_decode_packet_loop] at h
    split_ifs at h
    · have h0 : (0 : Int) ≤ MQTTPACKET_READ_ERROR := h
      exact absurd h0 (by decide)
    · have h0 : (0 : Int) ≤ MQTT_NETWORK_ERROR := h
      exact absurd h0 (by decide)
  | cons a r ih =>
    intro len value multiplier h
    obtain ⟨rc, data⟩ := a
    simp only [iotx_mc_decode_packet_loop] at h ⊢
    by_cases h4 : len + 1 > 4
    · rw [if_pos h4] at h
      have h0 : (0 : Int) ≤ MQTTPACKET_READ_ERROR := h
      exact absurd h0 (by decide)
    · rw [if_neg h4] at h ⊢
      by_cases hrc : rc ≠ 1
      · rw [if_pos hrc] at h
        have h0 : (0 : Int) ≤ MQTT_NETWORK_ERROR := h
        exact absurd h0 (by decide)
      · rw [if_neg hrc] at h ⊢
        by_cases hcont : (data.headD 0 / 128) % 2 ≠ 0
        · rw [if_pos hcont] at h ⊢
          obtain ⟨⟨h1, h2⟩, consumed, hc1, hc2⟩ := ih (len + 1) _ _ h
          refine ⟨⟨by push_cast at h1; omega, h2⟩, (rc, data) :: consumed, ?_, ?_⟩
          · rw [List.cons_append, ← hc1]
          · rw [← hc2]
            simp only [List.length_cons]
            push_cast
            ring
        · rw [if_neg hcont]
          refine ⟨⟨by push_cast; omega, by push_cast; omega⟩, [(rc, data)], rfl, ?_⟩
          simp

/-- Claim C34: when the four bytes that the transport supplies after the header all
have the continuation bit set, `iotx_mc_decode_packet` returns `MQTTPACKET_READ_ERROR`
and has consumed exactly those four bytes (the turn that would read a fifth returns
before the read), and `iotx_mc_read_packet` returns that failure and stores no packet
type.  Whenever `iotx_mc_decode_packet` returns a length, that length is from 1 to 4
and is the number of bytes it has consumed: a remaining length is never decoded from
more than four bytes. -/
theorem decode_packet_four_continuations (buf_size_read header b1 b2 b3 b4 : Nat)
    (rest : List (Int × List Nat))
    (h1 : (b1 / 128) % 2 = 1) (h2 : (b2 / 128) % 2 = 1) (h3 : (b3 / 128) % 2 = 1)
    (h4 : (b4 / 128) % 2 = 1) :
    (iotx_mc_decode_packet ((1, [b1]) :: (1, [b2]) :: (1, [b3]) :: (1, [b4]) :: rest)).1
      = MQTTPACKET_READ_ERROR ∧
    (iotx_mc_decode_packet ((1, [b1]) :: (1, [b2]) :: (1, [b3]) :: (1, [b4]) :: rest)).2.2
      = rest ∧
    iotx_mc_read_packet buf_size_read
        ((1, [header]) :: (1, [b1]) :: (1, [b2]) :: (1, [b3]) :: (1, [b4]) :: rest)
      = (MQTTPACKET_READ_ERROR, none, rest) ∧
    ∀ reads, 0 ≤ (iotx_mc_decode_packet reads).1 →
      (1 ≤ (iotx_mc_decode_packet reads).1 ∧ (iotx_mc_decode_packet reads).1 ≤ 4) ∧
      ∃ consumed, reads = consumed ++ (iotx_mc_decode_packet reads).2.2 ∧
        (consumed.length : Int) = (iotx_mc_decode_packet reads).1 := by
  have hd : ∃ v, iotx_mc_decode_packet
      ((1, [b1]) :: (1, [b2]) :: (1, [b3]) :: (1, [b4]) :: rest)
        = (MQTTPACKET_READ_ERROR, v, rest) := by
    cases rest with
    | nil => simp [iotx_mc_decode_packet, iotx_mc_decode_packet_loop, h1, h2, h3, h4]
    | cons a r =>
      obtain ⟨rc, data⟩ := a
      simp [iotx_mc_decode_packet, iotx_mc_decode_packet_loop, h1, h2, h3, h4]
  obtain ⟨v, hv⟩ := hd
  refine ⟨by rw [hv], by rw [hv], ?_, ?_⟩
  · simp only [iotx_mc_read_packet, ipstack_read, hv]
    simp [MQTTPACKET_READ_ERROR]
  · intro reads h
    obtain ⟨⟨a1, a2⟩, consumed, c1, c2⟩ := decode_loop_consumed reads 0 0 1 h
    refine ⟨⟨by simpa using a1, a2⟩, consumed, c1, ?_⟩
    have c3 : ((0 + consumed.length : Nat) : Int) = (iotx_mc_decode_packet reads).1 := c2
    rw [← c3]
    simp

/-- Claim C34 at a sample: the header byte of a PUBLISH, four bytes 255 and one more
byte. -/
theorem decode_packet_four_continuations_witness :
    iotx_mc_read_packet 64 malformed_reads = (MQTTPACKET_READ_ERROR, none, [(1, [1])]) ∧
    (iotx_mc_decode_packet
        ((1, [255]) :: (1, [255]) :: (1, [255]) :: (1, [255]) :: [(1, [1])])).2.2
      = [(1, [1])] :=
  ⟨(decode_packet_four_continuations 64 48 255 255 255 255 [(1, [1])] (by decide) (by decide)
      (by decide) (by decide)).2.2.1,
    (decode_packet_four_continuations 64 48 255 255 255 255 [(1, [1])] (by decide) (by decide)
      (by decide) (by decide)).2.1⟩

/-! ## A refused subscription (C35) -/

/-- Claim C35 (the code at the failing input): on a SUBACK with a granted QoS of 0x80
`iotx_mc_handle_recv_SUBACK` leaves the whole client as it was and returns
`MQTT_SUBSCRIBE_ACK_FAILURE`, but it invokes `c->handle_event.h_fp` with the
SubscribeNack event without the test for NULL that every other invocation of the event
callback has.  On a client that registered no event callback the invocation is a call
through a NULL pointer, where the claim has a return of the failure code.  Such a
client is what `iotx_mc_init` makes of parameters without a callback; its
`iotx_mc_subscribe` succeeds with packet id 1, and the SUBACK 0x80 for that id, read by
`iotx_mc_cycle`, leads to the call through NULL.  On the same client a SUBACK that
grants QoS 0 goes through the guarded invocation and makes no call. -/
theorem suback_nack_calls_null_callback :
    (∀ (env : yield_env) (c : iotx_mc_client_t) (mypacketid : Nat),
      env.suback = some (mypacketid, 128) →
      iotx_mc_handle_recv_SUBACK env c
        = (c, [⟨c.handle_event.h_fp, c.handle_event.pcontext,
            ⟨IOTX_MQTT_EVENT_SUBCRIBE_NACK, event_payload.packet mypacketid⟩⟩],
          MQTT_SUBSCRIBE_ACK_FAILURE)) ∧
    (∀ (env : yield_env) (c : iotx_mc_client_t) (mypacketid : Nat),
      env.suback = some (mypacketid, 128) → c.handle_event.h_fp = 0 →
      calls_null_pointer (iotx_mc_handle_recv_SUBACK env c).2.1 = true ∧
      event_call_guarded c IOTX_MQTT_EVENT_SUBCRIBE_NACK (event_payload.packet mypacketid)
        = []) ∧
    subscribed_without_event_handle.2 = 1 ∧
    subscribed_without_event_handle.1.handle_event.h_fp = 0 ∧
    subscribed_without_event_handle.1.client_state = IOTX_MC_STATE_CONNECTED ∧
    (iotx_mc_cycle sample_codec (ack_turn 20 SUBACK (some (1, 128)) none)
        subscribed_without_event_handle.1).map (fun r => r.2.1)
      = some [⟨0, 0, ⟨IOTX_MQTT_EVENT_SUBCRIBE_NACK, event_payload.packet 1⟩⟩] ∧
    (iotx_mc_handle_recv_SUBACK (ack_turn 20 SUBACK (some (1, 0)) none)
        subscribed_without_event_handle.1).2
      = ([], SUCCESS_RETURN) := by
  have hr : ∀ (env : yield_env) (c : iotx_mc_client_t) (mypacketid : Nat),
      env.suback = some (mypacketid, 128) →
      iotx_mc_handle_recv_SUBACK env c
        = (c, [⟨c.handle_event.h_fp, c.handle_event.pcontext,
            ⟨IOTX_MQTT_EVENT_SUBCRIBE_NACK, event_payload.packet mypacketid⟩⟩],
          MQTT_SUBSCRIBE_ACK_FAILURE) := by
    intro env c mypacketid hpar
    simp only [iotx_mc_handle_recv_SUBACK, hpar, if_true, event_call]
  refine ⟨hr, ?_, by decide, by decide, by decide, by decide, by decide⟩
  intro env c mypacketid hpar hfp
  have hg : ¬ (c.handle_event.h_fp ≠ 0) := fun h => h hfp
  refine ⟨?_, ?_⟩
  · rw [hr env c mypacketid hpar]
    simp only [calls_null_pointer, List.any_cons, List.any_nil, hfp, decide_True,
      Bool.or_false]
  · simp only [event_call_guarded, if_neg hg]

/-! ## An accepted subscription (C36) -/

/-- Steps that do not lengthen the tables compose. -/
theorem lens_le_trans (c2 c1 c : iotx_mc_client_t) (h2 : lens_le c2 c1) (h1 : lens_le c1 c) :
    lens_le c2 c :=
  ⟨h2.1.trans h1.1, h2.2.trans h1.2⟩

/-- A step that leaves the tables alone does not lengthen them. -/
theorem lens_le_of_eq (c1 c : iotx_mc_client_t)
    (h1 : c1.list_pub_wait_ack = c.list_pub_wait_ack)
    (h2 : c1.list_sub_wait_ack = c.list_sub_wait_ack) : lens_le c1 c :=
  ⟨by rw [h1], by rw [h2]⟩

/-- Marking keeps the number of pub-inflight nodes. -/
theorem mask_pub_loop_length (msgId : Nat) (l : List iotx_mc_pub_info_t) :
    (mask_pub_loop msgId l).length = l.length := by
  induction l with
  | nil => rfl
  | cons a r ih =>
    simp only [mask_pub_loop]
    split_ifs <;> simp [ih]

/-- Marking keeps the number of sub-inflight nodes. -/
theorem mask_sub_loop_length (msgId : Nat) (l : List iotx_mc_subsribe_info_t) :
    ∀ h : iotx_mc_topic_handle_t, (mask_sub_loop msgId l h).1.length = l.length := by
  induction l with
  | nil => intro h; rfl
  | cons a r ih =>
    intro h
    simp only [mask_sub_loop]
    split_ifs <;> simp [ih]

/-- The function `iotx_mc_mask_pubInfo_from` does not lengthen the tables. -/
theorem mask_pub_lens (c : iotx_mc_client_t) (msgId : Nat) :
    lens_le (iotx_mc_mask_pubInfo_from c msgId) c := by
  simp only [iotx_mc_mask_pubInfo_from, lens_le]
  split_ifs
  · exact ⟨le_refl _, le_refl _⟩
  · refine ⟨?_, le_refl _⟩
    simp [mask_pub_loop_length]

/-- The function `iotx_mc_mask_subInfo_from` does not lengthen the tables. -/
theorem mask_sub_lens (c : iotx_mc_client_t) (msgId : Nat) (h : iotx_mc_topic_handle_t) :
    lens_le (iotx_mc_mask_subInfo_from c msgId h).1 c := by
  simp only [iotx_mc_mask_subInfo_from, lens_le]
  split_ifs
  · exact ⟨le_refl _, le_refl _⟩
  · refine ⟨le_refl _, ?_⟩
    simp [mask_sub_loop_length]

/-- The PUBACK handler does not lengthen the tables. -/
theorem handle_recv_PUBACK_lens (env : yield_env) (c : iotx_mc_client_t) :
    lens_le (iotx_mc_handle_recv_PUBACK env c).1 c := by
  simp only [iotx_mc_handle_recv_PUBACK]
  split
  · exact lens_le_of_eq _ _ rfl rfl
  · exact mask_pub_lens c _

/-- The SUBACK handler does not lengthen the tables. -/
theorem handle_recv_SUBACK_lens (env : yield_env) (c : iotx_mc_client_t) :
    lens_le (iotx_mc_handle_recv_SUBACK env c).1 c := by
  simp only [iotx_mc_handle_recv_SUBACK]
  split
  · exact lens_le_of_eq _ _ rfl rfl
  · rename_i mypacketid grantedQoS _
    have hm := mask_sub_lens c mypacketid empty_topic_handle
    split_ifs
    · exact lens_le_of_eq _ _ rfl rfl
    · exact hm
    · split
      · exact hm
      · exact lens_le_trans _ _ _ (lens_le_of_eq _ _ rfl rfl) hm

/-- The function `MQTTPuback` does not lengthen the tables. -/
theorem MQTTPuback_lens (codec : Codec) (script : List (Bool × Int)) (c : iotx_mc_client_t)
    (msgId type : Nat) : lens_le (MQTTPuback codec script c msgId type).1 c := by
  simp only [MQTTPuback]
  split_ifs <;> exact lens_le_of_eq _ _ rfl rfl

/-- The PUBLISH handler does not lengthen the tables. -/
theorem handle_recv_PUBLISH_lens (codec : Codec) (env : yield_env) (c : iotx_mc_client_t) :
    lens_le (iotx_mc_handle_recv_PUBLISH codec env c).1 c := by
  simp only [iotx_mc_handle_recv_PUBLISH]
  split
  · exact lens_le_of_eq _ _ rfl rfl
  · split_ifs
    · exact lens_le_of_eq _ _ rfl rfl
    · exact MQTTPuback_lens codec _ c _ _
    · exact MQTTPuback_lens codec _ c _ _
    · exact lens_le_of_eq _ _ rfl rfl

/-- The UNSUBACK handler does not lengthen the tables. -/
theorem handle_recv_UNSUBACK_lens (env : yield_env) (c : iotx_mc_client_t)
    (r : iotx_mc_client_t × List Call × Int) (h : iotx_mc_handle_recv_UNSUBACK env c = some r) :
    lens_le r.1 c := by
  simp only [iotx_mc_handle_recv_UNSUBACK] at h
  split at h
  · obtain rfl := Option.some.inj h
    exact lens_le_of_eq _ _ rfl rfl
  · rename_i mypacketid _
    have hm := mask_sub_lens c mypacketid env.stack_handler
    split at h
    · exact absurd h (by simp)
    · obtain rfl := Option.some.inj h
      exact lens_le_trans _ _ _ (lens_le_of_eq _ _ rfl rfl) hm

/-- The function `iotx_mc_cycle` does not lengthen the tables. -/
theorem cycle_lens (codec : Codec) (env : yield_env) (c : iotx_mc_client_t)
    (r : iotx_mc_client_t × List Call × Int) (h : iotx_mc_cycle codec env c = some r) :
    lens_le r.1 c := by
  simp only [iotx_mc_cycle] at h
  have hping : ∀ (a b : Nat), lens_le { c with next_ping_time := a, ping_mark := b } c :=
    fun a b => lens_le_of_eq _ _ rfl rfl
  split_ifs at h with h1 h2 h3 h4 h5 h6 h7 h8 h9
  · obtain rfl := Option.some.inj h
    exact lens_le_of_eq _ _ rfl rfl
  · obtain rfl := Option.some.inj h
    exact lens_le_of_eq _ _ rfl rfl
  · obtain rfl := Option.some.inj h
    exact lens_le_of_eq _ _ rfl rfl
  · obtain rfl := Option.some.inj h
    exact lens_le_of_eq _ _ rfl rfl
  · obtain rfl := Option.some.inj h
    exact lens_le_trans _ _ _ (handle_recv_PUBACK_lens env _) (hping _ _)
  · obtain rfl := Option.some.inj h
    exact lens_le_trans _ _ _ (handle_recv_SUBACK_lens env _) (hping _ _)
  · obtain rfl := Option.some.inj h
    exact lens_le_trans _ _ _ (handle_recv_PUBLISH_lens codec env _) (hping _ _)
  · exact lens_le_trans _ _ _ (handle_recv_UNSUBACK_lens env _ r h) (hping _ _)
  · obtain rfl := Option.some.inj h
    exact lens_le_of_eq _ _ rfl rfl
  · obtain rfl := Option.some.inj h
    exact lens_le_of_eq _ _ rfl rfl

/-- The loop of `MQTTPubInfoProc` leaves no more nodes than it visits. -/
theorem pub_loop_length (now T : Nat) :
    ∀ (l : List iotx_mc_pub_info_t) (state : iotx_mc_state_t) (scripts : List (List (Bool × Int))),
      (MQTTPubInfoProc_loop now T state scripts l).2.length ≤ l.length := by
  intro l
  induction l with
  | nil => intro state scripts; simp [MQTTPubInfoProc_loop]
  | cons a r ih =>
    intro state scripts
    simp only [MQTTPubInfoProc_loop]
    split_ifs
    · exact (ih _ _).trans (Nat.le_succ _)
    · simp only [List.length_cons]
      exact Nat.succ_le_succ (ih _ _)
    · simp only [List.length_cons]
      exact Nat.succ_le_succ (ih _ _)
    · simp only [List.length_cons]
      exact le_refl _
    · simp only [List.length_cons]
      exact Nat.succ_le_succ (ih _ _)

/-- The sweep `MQTTPubInfoProc` does not lengthen the tables. -/
theorem pub_proc_lens (now : Nat) (scripts : List (List (Bool × Int))) (c : iotx_mc_client_t) :
    lens_le (MQTTPubInfoProc now scripts c) c := by
  simp only [MQTTPubInfoProc]
  split_ifs
  · exact lens_le_of_eq _ _ rfl rfl
  · refine ⟨?_, le_refl _⟩
    have := pub_loop_length now c.request_timeout_ms c.list_pub_wait_ack.reverse c.client_state
      scripts
    simpa using this

/-- The loop of `MQTTSubInfoProc` leaves no more nodes than it visits. -/
theorem sub_loop_length (now : Nat) (c : iotx_mc_client_t) (l : List iotx_mc_subsribe_info_t) :
    (MQTTSubInfoProc_loop now c l).1.length ≤ l.length := by
  induction l with
  | nil => simp [MQTTSubInfoProc_loop]
  | cons a r ih =>
    simp only [MQTTSubInfoProc_loop]
    split_ifs
    · exact ih.trans (Nat.le_succ _)
    · simp only [List.length_cons]
      exact Nat.succ_le_succ ih
    · simp only [List.length_cons]
      exact Nat.succ_le_succ ih
    · exact ih.trans (Nat.le_succ _)
    · exact ih.trans (Nat.le_succ _)

/-- The sweep `MQTTSubInfoProc` does not lengthen the tables. -/
theorem sub_proc_lens (now : Nat) (c : iotx_mc_client_t) :
    lens_le (MQTTSubInfoProc now c).1 c := by
  simp only [MQTTSubInfoProc]
  split_ifs
  · exact lens_le_of_eq _ _ rfl rfl
  · refine ⟨le_refl _, ?_⟩
    have := sub_loop_length now c c.list_sub_wait_ack.reverse
    simpa using this

/-- Connecting leaves the tables alone. -/
theorem connect_lens (codec : Codec) (now : Nat) (cenv : connect_env) (c : iotx_mc_client_t) :
    lens_le (iotx_mc_connect codec now cenv c).1 c := by
  simp only [iotx_mc_connect, MQTTConnect]
  split_ifs <;> exact lens_le_of_eq _ _ rfl rfl

/-- A reconnect attempt leaves the tables alone. -/
theorem handle_reconnect_lens (codec : Codec) (now : Nat) (a : Int) (cenv : connect_env)
    (c : iotx_mc_client_t) : lens_le (iotx_mc_handle_reconnect codec now a cenv c).1 c := by
  have hc := connect_lens codec now cenv c
  simp only [iotx_mc_handle_reconnect, iotx_mc_attempt_reconnect]
  split_ifs
  · exact lens_le_of_eq _ _ rfl rfl
  · exact lens_le_of_eq _ _ rfl rfl
  · exact lens_le_trans _ _ _ (lens_le_of_eq _ _ rfl rfl) hc
  · exact lens_le_trans _ _ _ (lens_le_of_eq _ _ rfl rfl) hc
  · exact lens_le_trans _ _ _ (lens_le_of_eq _ _ rfl rfl) hc

/-- The ping scheduler leaves the tables alone. -/
theorem keepalive_sub_lens (codec : Codec) (env : yield_env) (c : iotx_mc_client_t) :
    lens_le (iotx_mc_keepalive_sub codec env c).1 c := by
  simp only [iotx_mc_keepalive_sub, MQTTKeepalive]
  split_ifs <;> exact lens_le_of_eq _ _ rfl rfl

/-- The keep-alive tick leaves the tables alone. -/
theorem keepalive_lens (codec : Codec) (env : yield_env) (c : iotx_mc_client_t) :
    lens_le (iotx_mc_keepalive codec env c).1 c := by
  have hk := keepalive_sub_lens codec env c
  simp only [iotx_mc_keepalive]
  split_ifs
  · exact lens_le_trans _ _ _ (handle_reconnect_lens codec _ _ _ _)
      (lens_le_trans _ _ _ (lens_le_of_eq _ _ rfl rfl) hk)
  · exact lens_le_trans _ _ _ (lens_le_of_eq _ _ rfl rfl)
      (lens_le_trans _ _ _ (handle_reconnect_lens codec _ _ _ _)
        (lens_le_trans _ _ _ (lens_le_of_eq _ _ rfl rfl) hk))
  · exact lens_le_trans _ _ _ (lens_le_of_eq _ _ rfl rfl) hk
  · exact hk

/-- A turn of the service loop does not lengthen the tables. -/
theorem yield_turn_lens (codec : Codec) (env : yield_env) (c : iotx_mc_client_t)
    (r : iotx_mc_client_t × List Call × Int) (h : yield_turn codec env c = some r) :
    lens_le r.1 c := by
  simp only [yield_turn] at h
  split at h
  · exact absurd h (by simp)
  · rename_i c1 calls1 rc hcy
    have h1 := cycle_lens codec env c _ hcy
    obtain rfl := Option.some.inj h
    simp only
    refine lens_le_trans _ _ _ (keepalive_lens codec env _) ?_
    split_ifs
    · exact lens_le_trans _ _ _ (sub_proc_lens _ _)
        (lens_le_trans _ _ _ (pub_proc_lens _ _ _) h1)
    · exact h1

/-- Tables that are not lengthened stay within their caps. -/
theorem within_caps_of_lens (R : Nat) (c1 c : iotx_mc_client_t) (h : lens_le c1 c)
    (hc : within_caps R c) : within_caps R c1 :=
  ⟨h.1.trans hc.1, h.2.trans hc.2⟩

/-- The function `iotx_mc_push_pubInfo_to`: when it fails and what it does. -/
theorem push_pubInfo_spec (R now : Nat) (c : iotx_mc_client_t) (len : Int) (msgId : Nat) :
    ((iotx_mc_push_pubInfo_to R now c len msgId).2 ≠ SUCCESS_RETURN ↔
      (R ≤ c.list_pub_wait_ack.length ∨ len < 0 ∨ (c.buf_size_send : Int) < len)) ∧
    ((iotx_mc_push_pubInfo_to R now c len msgId).2 ≠ SUCCESS_RETURN →
      (iotx_mc_push_pubInfo_to R now c len msgId).1 = c) ∧
    ((iotx_mc_push_pubInfo_to R now c len msgId).2 = SUCCESS_RETURN →
      (iotx_mc_push_pubInfo_to R now c len msgId).1
        = { c with list_pub_wait_ack := c.list_pub_wait_ack ++
            [⟨iotx_time_start now, IOTX_MC_NODE_STATE_NORMANL, msgId, len.toNat,
              c.buf_send.take len.toNat⟩] }) := by
  have hne : FAIL_RETURN ≠ SUCCESS_RETURN := by decide
  simp only [iotx_mc_push_pubInfo_to]
  by_cases h1 : len < 0 ∨ len > (c.buf_size_send : Int)
  · rw [if_pos h1]
    refine ⟨⟨fun _ => Or.inr h1, fun _ => hne⟩, fun _ => rfl, fun h => absurd h hne⟩
  · rw [if_neg h1]
    by_cases h2 : c.list_pub_wait_ack.length ≥ R
    · rw [if_pos h2]
      refine ⟨⟨fun _ => Or.inl h2, fun _ => hne⟩, fun _ => rfl, fun h => absurd h hne⟩
    · rw [if_neg h2]
      refine ⟨⟨fun h => absurd rfl h, fun h => ?_⟩, fun h => absurd rfl h, fun _ => rfl⟩
      rcases h with h | h
      · exact absurd h h2
      · exact absurd h h1

/-- The function `iotx_mc_push_subInfo_to`: when it fails and what it does. -/
theorem push_subInfo_spec (now : Nat) (c : iotx_mc_client_t) (len : Int) (msgId type : Nat)
    (handler : iotx_mc_topic_handle_t) :
    ((iotx_mc_push_subInfo_to now c len msgId type handler).2 ≠ SUCCESS_RETURN ↔
      IOTX_MC_SUB_REQUEST_NUM_MAX ≤ c.list_sub_wait_ack.length) ∧
    ((iotx_mc_push_subInfo_to now c len msgId type handler).2 ≠ SUCCESS_RETURN →
      (iotx_mc_push_subInfo_to now c len msgId type handler).1 = c) ∧
    ((iotx_mc_push_subInfo_to now c len msgId type handler).2 = SUCCESS_RETURN →
      (iotx_mc_push_subInfo_to now c len msgId type handler).1
        = { c with list_sub_wait_ack := c.list_sub_wait_ack ++
            [⟨type, msgId, iotx_time_start now, IOTX_MC_NODE_STATE_NORMANL, handler,
              len.toNat % 65536, c.buf_send.take len.toNat⟩] }) := by
  have hne : FAIL_RETURN ≠ SUCCESS_RETURN := by decide
  simp only [iotx_mc_push_subInfo_to]
  by_cases h2 : c.list_sub_wait_ack.length ≥ IOTX_MC_SUB_REQUEST_NUM_MAX
  · rw [if_pos h2]
    refine ⟨⟨fun _ => h2, fun _ => hne⟩, fun _ => rfl, fun h => absurd h hne⟩
  · rw [if_neg h2]
    exact ⟨⟨fun h => absurd rfl h, fun h => absurd h h2⟩, fun h => absurd rfl h, fun _ => rfl⟩

/-- The function `MQTTPublish` keeps the tables within their caps. -/
theorem MQTTPublish_caps (codec : Codec) (R now : Nat) (script : List (Bool × Int))
    (c : iotx_mc_client_t) (name : List Nat) (msg : iotx_mqtt_topic_info_t)
    (hc : within_caps R c) : within_caps R (MQTTPublish codec R now script c name msg).1 := by
  obtain ⟨h1, h2⟩ := hc
  simp only [MQTTPublish, iotx_mc_push_pubInfo_to, within_caps]
  split_ifs <;> simp <;> first | exact ⟨h1, h2⟩ | (constructor <;> omega)

/-- The function `MQTTSubscribe` keeps the tables within their caps. -/
theorem MQTTSubscribe_caps (codec : Codec) (R now : Nat) (script : List (Bool × Int))
    (c : iotx_mc_client_t) (F : List Nat) (qos msgId H ctx : Nat)
    (hc : within_caps R c) :
    within_caps R (MQTTSubscribe codec now script c F qos msgId H ctx).1 := by
  obtain ⟨h1, h2⟩ := hc
  simp only [MQTTSubscribe, iotx_mc_push_subInfo_to, within_caps]
  split_ifs <;> simp <;> first | exact ⟨h1, h2⟩ | (constructor <;> omega)

/-- The function `MQTTUnsubscribe` keeps the tables within their caps. -/
theorem MQTTUnsubscribe_caps (codec : Codec) (R now : Nat) (script : List (Bool × Int))
    (c : iotx_mc_client_t) (F : List Nat) (msgId : Nat) (hc : within_caps R c) :
    within_caps R (MQTTUnsubscribe codec now script c F msgId).1 := by
  obtain ⟨h1, h2⟩ := hc
  simp only [MQTTUnsubscribe, iotx_mc_push_subInfo_to, within_caps]
  split_ifs <;> simp <;> first | exact ⟨h1, h2⟩ | (constructor <;> omega)

/-- Issuing a packet id keeps the tables within their caps. -/
theorem next_packetid_caps (R : Nat) (c : iotx_mc_client_t) (hc : within_caps R c) :
    within_caps R (iotx_mc_get_next_packetid c).1 := by
  rw [next_packetid_frame]
  exact hc

/-- The end of a request keeps the tables within their caps. -/
theorem request_outcome_caps (R : Nat) (r : iotx_mc_client_t × Int) (id : Int)
    (hc : within_caps R r.1) : within_caps R (request_outcome r id).1 := by
  obtain ⟨-, h2, h3⟩ := request_outcome_ids r id
  simp only [within_caps, h2, h3]
  exact hc

/-- The function `iotx_mc_publish` keeps the tables within their caps. -/
theorem publish_caps (codec : Codec) (R now : Nat) (stack : List Nat)
    (script : List (Bool × Int)) (c : iotx_mc_client_t) (topic : Option (List Nat))
    (msg : iotx_mqtt_topic_info_t) (hc : within_caps R c) :
    within_caps R (iotx_mc_publish codec R now stack script c topic (some msg)).1 := by
  cases topic with
  | none => exact hc
  | some name =>
    by_cases hchk : 0 ≠ iotx_mc_check_topic stack (some name) TOPIC_NAME_TYPE
    · simp only [iotx_mc_publish, if_pos hchk]
      exact hc
    by_cases hst : c.client_state ≠ IOTX_MC_STATE_CONNECTED
    · simp only [iotx_mc_publish, if_neg hchk, if_pos hst]
      exact hc
    have hchk1 : iotx_mc_check_topic stack (some name) TOPIC_NAME_TYPE = SUCCESS_RETURN :=
      not_not.mp (fun e => hchk ((check_topic_ne _ _ _).mpr e))
    rw [publish_eq codec R now stack script c name msg hchk1 (not_not.mp hst)]
    apply request_outcome_caps
    apply MQTTPublish_caps
    simp only [publish_issued]
    split_ifs
    · exact next_packetid_caps R c hc
    · exact hc

/-- The function `iotx_mc_subscribe` keeps the tables within their caps. -/
theorem subscribe_caps (codec : Codec) (R now : Nat) (stack : List Nat)
    (script : List (Bool × Int)) (c : iotx_mc_client_t) (topic : Option (List Nat))
    (qos H ctx : Nat) (hc : within_caps R c) :
    within_caps R (iotx_mc_subscribe codec now stack script c topic qos H ctx).1 := by
  cases topic with
  | none => exact hc
  | some F =>
    by_cases hst : c.client_state ≠ IOTX_MC_STATE_CONNECTED
    · simp only [iotx_mc_subscribe, if_pos hst]
      exact hc
    by_cases hchk : 0 ≠ iotx_mc_check_topic stack (some F) TOPIC_FILTER_TYPE
    · simp only [iotx_mc_subscribe, if_neg hst, if_pos hchk]
      exact hc
    have hchk1 : iotx_mc_check_topic stack (some F) TOPIC_FILTER_TYPE = SUCCESS_RETURN :=
      not_not.mp (fun e => hchk ((check_topic_ne _ _ _).mpr e))
    rw [subscribe_eq codec now stack script c F qos H ctx hchk1 (not_not.mp hst)]
    apply request_outcome_caps
    apply MQTTSubscribe_caps
    exact next_packetid_caps R c hc

/-- The function `iotx_mc_unsubscribe` keeps the tables within their caps. -/
theorem unsubscribe_caps (codec : Codec) (R now : Nat) (stack : List Nat)
    (script : List (Bool × Int)) (c : iotx_mc_client_t) (topic : Option (List Nat))
    (hc : within_caps R c) :
    within_caps R (iotx_mc_unsubscribe codec now stack script c topic).1 := by
  cases topic with
  | none => exact hc
  | some F =>
    by_cases hchk : 0 ≠ iotx_mc_check_topic stack (some F) TOPIC_FILTER_TYPE
    · simp only [iotx_mc_unsubscribe, if_pos hchk]
      exact hc
    by_cases hst : c.client_state ≠ IOTX_MC_STATE_CONNECTED
    · simp only [iotx_mc_unsubscribe, if_neg hchk, if_pos hst]
      exact hc
    have hchk1 : iotx_mc_check_topic stack (some F) TOPIC_FILTER_TYPE = SUCCESS_RETURN :=
      not_not.mp (fun e => hchk ((check_topic_ne _ _ _).mpr e))
    rw [unsubscribe_eq codec now stack script c F hchk1 (not_not.mp hst)]
    apply request_outcome_caps
    apply MQTTUnsubscribe_caps
    exact next_packetid_caps R c hc

/-- Along every run the tables stay within their caps. -/
theorem client_run_caps (codec : Codec) (R : Nat) (c0 : iotx_mc_client_t)
    (h0 : within_caps R c0) (n : Nat) (c : iotx_mc_client_t)
    (h : client_run codec R c0 n c) : within_caps R c := by
  induction h with
  | start => exact h0
  | publish n c now stack script topic msg _ _ ih =>
    exact publish_caps codec R now stack script c topic msg ih
  | subscribe n c now stack script topic qos H ctx _ ih =>
    exact subscribe_caps codec R now stack script c topic qos H ctx ih
  | unsubscribe n c now stack script topic _ ih =>
    exact unsubscribe_caps codec R now stack script c topic ih
  | yield n c env r _ hy ih =>
    exact within_caps_of_lens R _ _ (yield_turn_lens codec env c r hy) ih

/-- A client fresh from `iotx_mc_init` has empty in-flight tables. -/
theorem init_within_caps (R a b d : Nat) (rc : Int) (p : iotx_mqtt_param_t) :
    within_caps R (iotx_mc_init a b d rc p).1 := by
  simp only [iotx_mc_init, within_caps]
  split_ifs <;> simp

/-- Claim C37: in every state `c` that a client with tables within their caps (such as
a client fresh from `iotx_mc_init`) reaches by publishes, subscribes, unsubscribes and
turns of the service loop, the tables are within their caps, and (allocation failure
aside) `iotx_mc_push_subInfo_to` fails exactly when the sub-inflight table holds 10
entries, `iotx_mc_push_pubInfo_to` fails exactly when the pub-inflight table holds
`IOTX_MC_REPUB_NUM_MAX` entries or `len` is outside 0..`buf_size_send`; a push that
fails leaves the client unchanged; a push that succeeds appends at the tail one live
entry with the given id and a copy of the first `len` bytes of the send buffer. -/
theorem push_within_caps (codec : Codec) (REPUB_NUM_MAX : Nat) (c0 : iotx_mc_client_t)
    (n : Nat) (c : iotx_mc_client_t) (h0 : within_caps REPUB_NUM_MAX c0)
    (hrun : client_run codec REPUB_NUM_MAX c0 n c) :
    (c.list_pub_wait_ack.length ≤ REPUB_NUM_MAX ∧
      c.list_sub_wait_ack.length ≤ IOTX_MC_SUB_REQUEST_NUM_MAX ∧
      IOTX_MC_SUB_REQUEST_NUM_MAX = 10) ∧
    (∀ (now : Nat) (len : Int) (msgId type : Nat) (handler : iotx_mc_topic_handle_t),
      ((iotx_mc_push_subInfo_to now c len msgId type handler).2 ≠ SUCCESS_RETURN ↔
        c.list_sub_wait_ack.length = 10) ∧
      ((iotx_mc_push_subInfo_to now c len msgId type handler).2 ≠ SUCCESS_RETURN →
        (iotx_mc_push_subInfo_to now c len msgId type handler).1 = c) ∧
      ((iotx_mc_push_subInfo_to now c len msgId type handler).2 = SUCCESS_RETURN →
        ∃ e, (iotx_mc_push_subInfo_to now c len msgId type handler).1
            = { c with list_sub_wait_ack := c.list_sub_wait_ack ++ [e] } ∧
          e.node_state = IOTX_MC_NODE_STATE_NORMANL ∧ e.msg_id = msgId ∧
          e.buf = c.buf_send.take len.toNat)) ∧
    (∀ (now : Nat) (len : Int) (msgId : Nat),
      ((iotx_mc_push_pubInfo_to REPUB_NUM_MAX now c len msgId).2 ≠ SUCCESS_RETURN ↔
        (c.list_pub_wait_ack.length = REPUB_NUM_MAX ∨ len < 0 ∨
          (c.buf_size_send : Int) < len)) ∧
      ((iotx_mc_push_pubInfo_to REPUB_NUM_MAX now c len msgId).2 ≠ SUCCESS_RETURN →
        (iotx_mc_push_pubInfo_to REPUB_NUM_MAX now c len msgId).1 = c) ∧
      ((iotx_mc_push_pubInfo_to REPUB_NUM_MAX now c len msgId).2 = SUCCESS_RETURN →
        ∃ e, (iotx_mc_push_pubInfo_to REPUB_NUM_MAX now c len msgId).1
            = { c with list_pub_wait_ack := c.list_pub_wait_ack ++ [e] } ∧
          e.node_state = IOTX_MC_NODE_STATE_NORMANL ∧ e.msg_id = msgId ∧
          e.buf = c.buf_send.take len.toNat)) := by
  obtain ⟨hp, hs⟩ := client_run_caps codec REPUB_NUM_MAX c0 h0 n c hrun
  refine ⟨⟨hp, hs, rfl⟩, ?_, ?_⟩
  · intro now len msgId type handler
    obtain ⟨h1, h2, h3⟩ := push_subInfo_spec now c len msgId type handler
    refine ⟨h1.trans ?_, h2, fun h => ⟨_, h3 h, rfl, rfl, rfl⟩⟩
    simp only [IOTX_MC_SUB_REQUEST_NUM_MAX] at hs ⊢
    omega
  · intro now len msgId
    obtain ⟨h1, h2, h3⟩ := push_pubInfo_spec REPUB_NUM_MAX now c len msgId
    refine ⟨h1.trans ?_, h2, fun h => ⟨_, h3 h, rfl, rfl, rfl⟩⟩
    constructor
    · rintro (h | h)
      · exact Or.inl (by omega)
      · exact Or.inr h
    · rintro (h | h)
      · exact Or.inl (by omega)
      · exact Or.inr h

/-- Claim C37 at a sample: the state after one unacknowledged QoS 1 publish on the
connected sample client, with a cap of 4 publishes in flight. -/
theorem push_within_caps_witness :
    within_caps 4 sample_connected ∧
    client_run sample_codec 4 sample_connected 1 sample_unacked ∧
    sample_unacked.list_pub_wait_ack.length = 1 ∧
    (iotx_mc_push_pubInfo_to 4 50 sample_unacked 3 9).1.list_pub_wait_ack.length = 2 ∧
    (sample_unacked.list_pub_wait_ack.length ≤ 4 ∧
      sample_unacked.list_sub_wait_ack.length ≤ IOTX_MC_SUB_REQUEST_NUM_MAX ∧
      IOTX_MC_SUB_REQUEST_NUM_MAX = 10) :=
  ⟨⟨by decide, by decide⟩,
    client_run.publish 0 sample_connected 10 [] [(false, 21)] (some sensors_topic) sample_msg
      client_run.start (by decide),
    by decide, by decide,
    (push_within_caps sample_codec 4 sample_connected 1 sample_unacked ⟨by decide, by decide⟩
      (client_run.publish 0 sample_connected 10 [] [(false, 21)] (some sensors_topic) sample_msg
        client_run.start (by decide))).1⟩

/-! ## The length passed to `write` (C38) -/

/-- Every call of `write` made by the loop of `iotx_mc_send_packet` is passed `length`,
whatever `sent` is. -/
theorem send_packet_writes_length (length : Int) :
    ∀ (script : List (Bool × Int)) (sent : Int),
      ∀ w ∈ iotx_mc_send_packet_writes length sent script, w.2 = length := by
  intro script
  induction script with
  | nil => intro sent w hw; simp [iotx_mc_send_packet_writes] at hw
  | cons a r ih =>
    intro sent w hw
    obtain ⟨expired, rc⟩ := a
    simp only [iotx_mc_send_packet_writes] at hw
    by_cases hturn : sent < length ∧ expired = false
    · rw [if_pos hturn] at hw
      rcases List.mem_cons.mp hw with rfl | hin
      · rfl
      · by_cases hrc : rc < 0
        · rw [if_pos hrc] at hin
          simp at hin
        · rw [if_neg hrc] at hin
          exact ih (sent + rc) w hin
    · rw [if_neg hturn] at hw
      simp at hw

/-- Claim C38 (the code at the failing input): every call of `write` is passed `length`,
not `length - sent`.  For a buffer of 7 bytes and a transport that takes 2 bytes at the
first call, the second call is made at offset 2 with length 7, a range that ends 2
bytes past the end of the buffer, where the claim has length 5.  The function returns
`SUCCESS_RETURN` when the transport then takes 5 bytes; when the transport takes the 7
bytes it was asked for, `sent` becomes 9 and the function returns `MQTT_NETWORK_ERROR`
although every byte of the buffer has been taken. -/
theorem send_packet_requests_whole_length :
    (∀ (length sent : Int) (script : List (Bool × Int)),
      ∀ w ∈ iotx_mc_send_packet_writes length sent script, w.2 = length) ∧
    iotx_mc_send_packet_writes 7 0 [(false, 2), (false, 5)] = [(0, 7), (2, 7)] ∧
    iotx_mc_send_packet 7 [(false, 2), (false, 5)] = SUCCESS_RETURN ∧
    iotx_mc_send_packet_loop 7 0 [(false, 2), (false, 7)] = 9 ∧
    iotx_mc_send_packet 7 [(false, 2), (false, 7)] = MQTT_NETWORK_ERROR := by
  refine ⟨fun length sent script => send_packet_writes_length length script sent,
    by decide, by decide, by decide, by decide⟩

/-! ## The separators of a matched topic (C39) -/

/-- The skip of the `+` branch passes no separator beyond the byte it starts on. -/
theorem plus_skip_count : ∀ (l : List Nat),
    (plus_skip l).tail.count 47 = l.tail.count 47
  | [] => rfl
  | [_] => rfl
  | c :: d :: rest => by
    simp only [plus_skip]
    by_cases hd : d ≠ 47
    · rw [if_pos hd, plus_skip_count (d :: rest)]
      simp only [List.tail_cons]
      rw [List.count_cons_of_ne (Ne.symm hd)]
    · rw [if_neg hd]

/-- The skip of the `+` branch takes a non-empty run of bytes without a separator, when
it starts on a byte that is not the separator. -/
theorem plus_skip_taken : ∀ (l : List Nat) (n : Nat), n ≠ 47 →
    ∃ taken, n :: l = taken ++ (plus_skip (n :: l)).tail ∧ taken ≠ [] ∧ 47 ∉ taken
  | [], n, hn => ⟨[n], rfl, by simp, by simpa using hn.symm⟩
  | d :: rest, n, hn => by
    simp only [plus_skip]
    by_cases hd : d ≠ 47
    · rw [if_pos hd]
      obtain ⟨taken, h1, _, h3⟩ := plus_skip_taken rest d hd
      refine ⟨n :: taken, ?_, by simp, ?_⟩
      · rw [List.cons_append, ← h1]
      · intro hm
        rcases List.mem_cons.mp hm with h | h
        · exact hn h.symm
        · exact h3 h
    · rw [if_neg hd]
      exact ⟨[n], rfl, by simp, by simpa using hn.symm⟩

/-- A filter without `#` that matches a topic has as many separators as the topic. -/
theorem matched_count : ∀ (F T : List Nat), 35 ∉ F →
    iotx_mc_is_topic_matched F T = true → F.count 47 = T.count 47
  | [], T, _, h => by
    simp only [iotx_mc_is_topic_matched, List.isEmpty_iff] at h
    rw [h]
  | _ :: _, [], _, h => by simp [iotx_mc_is_topic_matched] at h
  | f :: fs, n :: ns, hno, h => by
    have hf35 : f ≠ 35 := fun e => hno (e ▸ List.mem_cons_self _ _)
    have hfs : 35 ∉ fs := fun e => hno (List.mem_cons_of_mem _ e)
    simp only [iotx_mc_is_topic_matched] at h
    by_cases h1 : n = 47 ∧ f ≠ 47
    · rw [if_pos h1] at h
      exact absurd h (by decide)
    rw [if_neg h1] at h
    by_cases h2 : f ≠ 43 ∧ f ≠ 35 ∧ f ≠ n
    · rw [if_pos h2] at h
      exact absurd h (by decide)
    rw [if_neg h2] at h
    by_cases h3 : f = 43
    · rw [if_pos h3] at h
      have hn : n ≠ 47 := fun e => h1 ⟨e, by omega⟩
      have := matched_count fs _ hfs h
      rw [plus_skip_count] at this
      simp only [List.tail_cons] at this
      rw [List.count_cons_of_ne (by omega), List.count_cons_of_ne (Ne.symm hn), this]
    · rw [if_neg h3, if_neg hf35] at h
      have hfn : f = n := by
        by_contra hne
        exact h2 ⟨h3, hf35, hne⟩
      have := matched_count fs ns hfs h
      subst hfn
      by_cases h47 : f = 47
      · subst h47
        rw [List.count_cons_self, List.count_cons_self, this]
      · rw [List.count_cons_of_ne (Ne.symm h47), List.count_cons_of_ne (Ne.symm h47), this]

/-- Claim C39: when a filter `F` without `#` matches a topic `T`,
`iotx_mc_is_topic_matched(F, T)` being true, `F` and `T` hold the same number of
separators `/`.  A `+` in the filter is matched only against a byte that is not `/`,
and it takes a non-empty run of bytes of the topic that holds no `/`: it does not reach
across a level boundary and does not match an empty level. -/
theorem matched_same_separators (F T : List Nat) (hno : 35 ∉ F)
    (hm : iotx_mc_is_topic_matched F T = true) :
    F.count 47 = T.count 47 ∧
    ∀ (fs : List Nat) (n : Nat) (ns : List Nat),
      iotx_mc_is_topic_matched (43 :: fs) (n :: ns) = true →
      n ≠ 47 ∧ ∃ taken rest, n :: ns = taken ++ rest ∧ taken ≠ [] ∧ 47 ∉ taken ∧
        iotx_mc_is_topic_matched fs rest = true := by
  refine ⟨matched_count F T hno hm, ?_⟩
  intro fs n ns h
  simp only [iotx_mc_is_topic_matched] at h
  by_cases h1 : n = 47 ∧ (43 : Nat) ≠ 47
  · rw [if_pos h1] at h
    exact absurd h (by decide)
  rw [if_neg h1] at h
  have hn : n ≠ 47 := fun e => h1 ⟨e, by decide⟩
  have h2 : ¬ ((43 : Nat) ≠ 43 ∧ (43 : Nat) ≠ 35 ∧ 43 ≠ n) := fun e => e.1 rfl
  rw [if_neg h2, if_pos trivial] at h
  obtain ⟨taken, e1, e2, e3⟩ := plus_skip_taken ns n hn
  exact ⟨hn, taken, _, e1, e2, e3, h⟩

/-- Claim C39 at a sample: the filter "/sensors/+/temp" matches the topic
"/sensors/17/temp"; both hold three separators. -/
theorem matched_same_separators_witness :
    35 ∉ sensors_filter ∧ iotx_mc_is_topic_matched sensors_filter sensors_topic = true ∧
    sensors_filter.count 47 = 3 ∧ sensors_filter.count 47 = sensors_topic.count 47 :=
  ⟨by decide, by decide, by decide,
    (matched_same_separators sensors_filter sensors_topic (by decide) (by decide)).1⟩

/-! ## The keep-alive tick of a disconnected client (C31, C32) -/

/-- The ping scheduler does nothing on a client that is not CONNECTED. -/
theorem keepalive_sub_idle (codec : Codec) (env : yield_env) (c : iotx_mc_client_t)
    (hst : c.client_state ≠ IOTX_MC_STATE_CONNECTED) :
    (iotx_mc_keepalive_sub codec env c).1 = c := by
  simp only [iotx_mc_keepalive_sub, if_pos hst]

/-- A successful `iotx_mc_connect` leaves the client CONNECTED and changes only the
send buffer, the state and the time of the next ping. -/
theorem connect_success (codec : Codec) (now : Nat) (cenv : connect_env)
    (c : iotx_mc_client_t) (h : (iotx_mc_connect codec now cenv c).2 = SUCCESS_RETURN) :
    (iotx_mc_connect codec now cenv c).1
      = { c with
          buf_send := (MQTTConnect codec cenv.connect_script c).1.buf_send,
          client_state := IOTX_MC_STATE_CONNECTED,
          next_ping_time := utils_time_cutdown now (c.keepAliveInterval * 1000) } := by
  by_cases h1 : SUCCESS_RETURN ≠ cenv.net_connect_rc
  · exfalso
    by_cases h2 : ERROR_CERTIFICATE_EXPIRED = cenv.net_connect_rc
    · have hv : (iotx_mc_connect codec now cenv c).2 = ERROR_CERT_VERIFY_FAIL := by
        simp only [iotx_mc_connect, if_pos h1, if_pos h2]
      rw [hv] at h
      have hd : ERROR_CERT_VERIFY_FAIL = SUCCESS_RETURN := h
      exact absurd hd (by decide)
    · have hv : (iotx_mc_connect codec now cenv c).2 = MQTT_NETWORK_CONNECT_ERROR := by
        simp only [iotx_mc_connect, if_pos h1, if_neg h2]
      rw [hv] at h
      have hd : MQTT_NETWORK_CONNECT_ERROR = SUCCESS_RETURN := h
      exact absurd hd (by decide)
  · by_cases h2 : (MQTTConnect codec cenv.connect_script c).2 ≠ SUCCESS_RETURN
    · exfalso
      have hv : (iotx_mc_connect codec now cenv c).2
          = (MQTTConnect codec cenv.connect_script c).2 := by
        simp only [iotx_mc_connect, if_neg h1, if_pos h2]
      exact h2 (hv.symm.trans h)
    · by_cases h3 : SUCCESS_RETURN ≠ cenv.connack_rc
      · exfalso
        have hv : (iotx_mc_connect codec now cenv c).2 = MQTT_CONNECT_ERROR := by
          simp only [iotx_mc_connect, if_neg h1, if_neg h2, if_pos h3]
        rw [hv] at h
        have hd : MQTT_CONNECT_ERROR = SUCCESS_RETURN := h
        exact absurd hd (by decide)
      · have hm : (MQTTConnect codec cenv.connect_script c).1
            = { c with buf_send := (MQTTConnect codec cenv.connect_script c).1.buf_send } := by
          simp only [MQTTConnect]
          split_ifs <;> rfl
        have hv : (iotx_mc_connect codec now cenv c).1
            = { (MQTTConnect codec cenv.connect_script c).1 with
                client_state := IOTX_MC_STATE_CONNECTED,
                next_ping_time := utils_time_cutdown now
                  ((MQTTConnect codec cenv.connect_script c).1.keepAliveInterval * 1000) } := by
          simp only [iotx_mc_connect, if_neg h1, if_neg h2, if_neg h3]
        rw [hv]
        have hk : (MQTTConnect codec cenv.connect_script c).1.keepAliveInterval
            = c.keepAliveInterval := by rw [hm]
        rw [hk]
        generalize (MQTTConnect codec cenv.connect_script c).1 = m at hm ⊢
        rw [hm]

/-- The value `iotx_mc_connect` returns does not depend on `ping_mark`. -/
theorem connect_ping_mark (codec : Codec) (now : Nat) (cenv : connect_env)
    (c : iotx_mc_client_t) (m : Nat) :
    (iotx_mc_connect codec now cenv { c with ping_mark := m }).2
      = (iotx_mc_connect codec now cenv c).2 := by
  simp only [iotx_mc_connect, MQTTConnect]
  split_ifs <;> rfl

/-- Claim C31: let the client be DISCONNECTED_RECONNECTING with its reconnect deadline
expired, let `iotx_auth` return 0 and let the connect (transport connect, CONNECT sent,
CONNACK accepted) succeed.  After `iotx_mc_keepalive` the client is CONNECTED,
`reconnect_time_interval_ms` is 1000 whatever it was, and the Reconnect event has been
raised: one invocation of the event callback when it is not NULL, and no other
callback. -/
theorem keepalive_reconnects (codec : Codec) (env : yield_env) (c : iotx_mc_client_t)
    (hst : c.client_state = IOTX_MC_STATE_DISCONNECTED_RECONNECTING)
    (hexp : utils_time_is_expired c.reconnect_param.reconnect_next_time env.now = true)
    (hauth : env.auth_rc = 0)
    (hconn : (iotx_mc_connect codec env.now env.conn c).2 = SUCCESS_RETURN) :
    (iotx_mc_keepalive codec env c).1.client_state = IOTX_MC_STATE_CONNECTED ∧
    (iotx_mc_keepalive codec env c).1.reconnect_param.reconnect_time_interval_ms = 1000 ∧
    (iotx_mc_keepalive codec env c).2
      = event_call_guarded c IOTX_MQTT_EVENT_RECONNECT event_payload.null ∧
    (c.handle_event.h_fp ≠ 0 →
      (iotx_mc_keepalive codec env c).2
        = [⟨c.handle_event.h_fp, c.handle_event.pcontext,
            ⟨IOTX_MQTT_EVENT_RECONNECT, event_payload.null⟩⟩]) := by
  have hne : c.client_state ≠ IOTX_MC_STATE_CONNECTED := by rw [hst]; decide
  have hsub := keepalive_sub_idle codec env c hne
  have hc2 : (iotx_mc_connect codec env.now env.conn { c with ping_mark := 0 }).2
      = SUCCESS_RETURN := (connect_ping_mark codec env.now env.conn c 0).trans hconn
  have hcs := connect_success codec env.now env.conn { c with ping_mark := 0 } hc2
  have hrec : iotx_mc_handle_reconnect codec env.now env.auth_rc env.conn
      { c with ping_mark := 0 }
        = ({ (iotx_mc_connect codec env.now env.conn { c with ping_mark := 0 }).1 with
            client_state := IOTX_MC_STATE_CONNECTED }, SUCCESS_RETURN) := by
    have hexp2 : ¬ (utils_time_is_expired c.reconnect_param.reconnect_next_time env.now
        = false) := by rw [hexp]; decide
    have ha : ¬ ((0 : Int) ≠ env.auth_rc) := by rw [hauth]; decide
    simp only [iotx_mc_handle_reconnect, iotx_mc_attempt_reconnect, if_neg hexp2, if_neg ha,
      hc2, if_true]
  have hk : iotx_mc_keepalive codec env c
      = ({ (iotx_mc_connect codec env.now env.conn { c with ping_mark := 0 }).1 with
            client_state := IOTX_MC_STATE_CONNECTED,
            reconnect_param :=
              { (iotx_mc_connect codec env.now env.conn
                  { c with ping_mark := 0 }).1.reconnect_param with
                reconnect_time_interval_ms := IOTX_MC_RECONNECT_INTERVAL_MIN_MS } },
          event_call_guarded
            { (iotx_mc_connect codec env.now env.conn { c with ping_mark := 0 }).1 with
              client_state := IOTX_MC_STATE_CONNECTED }
            IOTX_MQTT_EVENT_RECONNECT event_payload.null) := by
    have hs2 : IOTX_MC_STATE_DISCONNECTED_RECONNECTING = c.client_state := hst.symm
    have hok : ¬ (SUCCESS_RETURN ≠ SUCCESS_RETURN) := fun e => e rfl
    simp only [iotx_mc_keepalive, hsub, if_pos hs2, hrec, if_neg hok]
  rw [hk, hcs]
  refine ⟨rfl, rfl, rfl, ?_⟩
  intro hfp
  have hfp1 : c.handle_event.h_fp ≠ 0 := hfp
  simp only [event_call_guarded, event_call, if_pos hfp1]

/-- Claim C31 at a sample: the sample client waiting to reconnect with an interval of
8000 ms and the deadline 61000 ms, at 61000 ms, when the network is up again. -/
theorem keepalive_reconnects_witness :
    (iotx_mc_keepalive sample_codec network_up
        { sample_reconnecting with reconnect_param := ⟨61000, 8000⟩ }).1.client_state
      = IOTX_MC_STATE_CONNECTED ∧
    (iotx_mc_keepalive sample_codec network_up
        { sample_reconnecting with
          reconnect_param := ⟨61000, 8000⟩ }).1.reconnect_param.reconnect_time_interval_ms
      = 1000 ∧
    (iotx_mc_keepalive sample_codec network_up
        { sample_reconnecting with reconnect_param := ⟨61000, 8000⟩ }).2
      = [⟨9, 2, ⟨IOTX_MQTT_EVENT_RECONNECT, event_payload.null⟩⟩] :=
  ⟨(keepalive_reconnects sample_codec network_up
      { sample_reconnecting with reconnect_param := ⟨61000, 8000⟩ }
      (by decide) (by decide) (by decide) (by decide)).1,
    (keepalive_reconnects sample_codec network_up
      { sample_reconnecting with reconnect_param := ⟨61000, 8000⟩ }
      (by decide) (by decide) (by decide) (by decide)).2.1,
    by decide⟩

/-- Claim C32: let the client be DISCONNECTED when `iotx_mc_keepalive` runs.  The tick
raises the Disconnect event (one invocation of the event callback when it is not NULL,
and no other callback), calls the transport `disconnect` once, sets
`reconnect_time_interval_ms` to 1000 and the reconnect deadline 1000 ms after the
present instant, and leaves the client DISCONNECTED_RECONNECTING with nothing else
changed; it calls neither `iotx_auth` nor the transport `connect`. -/
theorem keepalive_on_disconnected (codec : Codec) (env : yield_env) (c : iotx_mc_client_t)
    (hst : c.client_state = IOTX_MC_STATE_DISCONNECTED) :
    iotx_mc_keepalive codec env c
      = ({ c with
            reconnect_param := ⟨env.now + 1000, 1000⟩,
            client_state := IOTX_MC_STATE_DISCONNECTED_RECONNECTING },
          event_call_guarded c IOTX_MQTT_EVENT_DISCONNECT event_payload.null) ∧
    (c.handle_event.h_fp ≠ 0 →
      (iotx_mc_keepalive codec env c).2
        = [⟨c.handle_event.h_fp, c.handle_event.pcontext,
            ⟨IOTX_MQTT_EVENT_DISCONNECT, event_payload.null⟩⟩]) ∧
    iotx_mc_keepalive_outside codec env c = (0, 0, 1) := by
  have hne : c.client_state ≠ IOTX_MC_STATE_CONNECTED := by rw [hst]; decide
  have hsub := keepalive_sub_idle codec env c hne
  have h1 : ¬ (IOTX_MC_STATE_DISCONNECTED_RECONNECTING = c.client_state) := by
    rw [hst]; decide
  have h2 : IOTX_MC_STATE_DISCONNECTED = c.client_state := hst.symm
  have hk : iotx_mc_keepalive codec env c
      = ({ c with
            reconnect_param := ⟨env.now + 1000, 1000⟩,
            client_state := IOTX_MC_STATE_DISCONNECTED_RECONNECTING },
          event_call_guarded c IOTX_MQTT_EVENT_DISCONNECT event_payload.null) := by
    simp only [iotx_mc_keepalive, hsub, if_neg h1, if_pos h2, utils_time_cutdown,
      IOTX_MC_RECONNECT_INTERVAL_MIN_MS]
  refine ⟨hk, ?_, ?_⟩
  · intro hfp
    rw [hk]
    simp only [event_call_guarded, event_call, if_pos hfp]
  · simp only [iotx_mc_keepalive_outside, hsub, if_neg h1, if_pos h2]

/-- Claim C32 at a sample: the sample client, DISCONNECTED, at 5000 ms. -/
theorem keepalive_on_disconnected_witness :
    ({ sample_client with client_state := IOTX_MC_STATE_DISCONNECTED }
        : iotx_mc_client_t).client_state = IOTX_MC_STATE_DISCONNECTED ∧
    iotx_mc_keepalive sample_codec (network_down 5000)
        { sample_client with client_state := IOTX_MC_STATE_DISCONNECTED }
      = ({ sample_client with
            reconnect_param := ⟨6000, 1000⟩,
            client_state := IOTX_MC_STATE_DISCONNECTED_RECONNECTING },
          [⟨9, 2, ⟨IOTX_MQTT_EVENT_DISCONNECT, event_payload.null⟩⟩]) ∧
    iotx_mc_keepalive_outside sample_codec (network_down 5000)
        { sample_client with client_state := IOTX_MC_STATE_DISCONNECTED } = (0, 0, 1) :=
  ⟨by decide, by decide,
    (keepalive_on_disconnected sample_codec (network_down 5000)
      { sample_client with client_state := IOTX_MC_STATE_DISCONNECTED } (by decide)).2.2⟩

/-! ## The wait for CONNACK (C40) -/

/-- On a transport whose reads all time out, the loop of `iotx_mc_wait_CONNACK` is
still running after any number of turns. -/
theorem wait_CONNACK_loop_timeouts (buf_size_read : Nat) (connack : Option (Nat × Nat)) :
    ∀ (fuel k : Nat),
      iotx_mc_wait_CONNACK_loop buf_size_read connack fuel (List.replicate k (0, [])) = none := by
  intro fuel
  induction fuel with
  | zero => intro k; rfl
  | succ n ih =>
    intro k
    cases k with
    | zero =>
      have hr : iotx_mc_read_packet buf_size_read [] = (SUCCESS_RETURN, some 0, []) := by
        simp [iotx_mc_read_packet, ipstack_read]
      simp only [List.replicate_zero, iotx_mc_wait_CONNACK_loop, hr]
      have := ih 0
      simp only [List.replicate_zero] at this
      simp [this, CONNACK]
    | succ j =>
      have hr : iotx_mc_read_packet buf_size_read ((0, []) :: List.replicate j (0, []))
          = (SUCCESS_RETURN, some 0, List.replicate j (0, [])) := by
        simp [iotx_mc_read_packet, ipstack_read]
      simp only [List.replicate_succ, iotx_mc_wait_CONNACK_loop, hr]
      simp [ih j, CONNACK]

/-- Claim C40 (the code at the failing input): the loop of `iotx_mc_wait_CONNACK` has no
test of its timer.  On a transport whose reads all time out with 0 bytes,
`iotx_mc_read_packet` returns `SUCCESS_RETURN` with packet type 0 at every turn, and
whatever the instant of entry and the keep-alive interval, the function is still in its
loop after any number of turns, however many of them come after the deadline: it never
returns.  When a CONNACK does arrive the function returns, here at the third turn
after two reads that time out. -/
theorem wait_CONNACK_never_returns :
    (∀ (fuel now : Nat) (c : iotx_mc_client_t) (connack : Option (Nat × Nat)) (k : Nat),
      iotx_mc_wait_CONNACK fuel now c connack (List.replicate k (0, [])) = none) ∧
    (∀ buf_size_read : Nat,
      iotx_mc_read_packet buf_size_read [] = (SUCCESS_RETURN, some 0, [])) ∧
    iotx_mc_wait_CONNACK 3 0 sample_client (some (0, 0))
        [(0, []), (0, []), (1, [32]), (1, [2]), (2, [0, 0])]
      = some (SUCCESS_RETURN, []) ∧
    iotx_mc_wait_CONNACK 2 0 sample_client (some (0, 0))
        [(0, []), (0, []), (1, [32]), (1, [2]), (2, [0, 0])]
      = none := by
  refine ⟨?_, ?_, by decide, by decide⟩
  · intro fuel now c connack k
    exact wait_CONNACK_loop_timeouts c.buf_size_read connack fuel k
  · intro b
    simp [iotx_mc_read_packet, ipstack_read]

end MqttClient
